import Mathlib

/-!
# TGUI: scrollbar value handling and the form builder's drag / selection logic

A shallow embedding of

* `src/src/TGUI/Scrollbar.cpp` (`Scrollbar::setValue`, `setLowValue`, `leftMousePressed`,
  `leftMouseReleased`, `mouseMoved`), and
* `src/gui-builder/src/Form.cpp` (`Form::onDrag`, `onFormMousePress`, `selectWidget`,
  `setSelectedWidgetName`, `setChanged`, `updateSelectionSquarePositions`).

Conventions of the embedding:

* `float` values are rationals (`ℚ`). The definitions that carry the names of the source read
  every float operation as exact; the section "Float arithmetic with rounding" repeats the
  float-dependent functions with a rounding function applied to every result (`Scrollbar.Rounded`,
  `Form.Rounded`), instantiated with IEEE 754 single precision (`binary32`).
* `unsigned int` values are natural numbers below `2 ^ 32`; subtraction wraps explicitly.
* Widgets are shared pointers in the source; here a pointer is a natural number and the
  pointed-to position and size live in a heap (`WidgetPtr → WidgetData`).
* `while` loops take a fuel argument (a bound on the number of iterations of each loop);
  running out of fuel and dereferencing a null `m_selectedWidget` are explicit errors.
-/

namespace TGUI

/-! ## Basic types -/

/-- The `sf::Vector2f` type, with exact rational components. -/
structure Vector2f where
  x : ℚ
  y : ℚ
deriving DecidableEq

/-- The `sf::Vector2u` type (texture sizes). -/
structure Vector2u where
  x : Nat
  y : Nat
deriving DecidableEq

/-- The `sf::Vector2i` type (mouse positions reported by the window). -/
structure Vector2i where
  x : ℤ
  y : ℤ
deriving DecidableEq

/-- Number of values of an `unsigned int`. -/
def uintSize : Nat := 2 ^ 32

/-- Subtraction of two `unsigned int` values: wraps modulo `2 ^ 32`. -/
def usub (a b : Nat) : Nat := (a + uintSize - b % uintSize) % uintSize

/-- Addition of two `unsigned int` values: wraps modulo `2 ^ 32`. -/
def uadd (a b : Nat) : Nat := (a + b) % uintSize

/-- Conversion `static_cast<unsigned int>(f)` of a float: truncation toward zero, defined only
when the truncated value is representable (`-1 < f < 2 ^ 32`); `none` is undefined behaviour. -/
def floatToUnsigned (f : ℚ) : Option Nat :=
  if -1 < f ∧ f < (uintSize : ℚ) then some (Int.toNat ⌊f⌋) else none

/-- The `sf::FloatRect` type. -/
structure FloatRect where
  left : ℚ
  top : ℚ
  width : ℚ
  height : ℚ

/-- Method `sf::Rect<float>::contains` (SFML): rectangles of negative size are allowed, the
minimum edges are inclusive and the maximum edges exclusive. -/
def FloatRect.contains (r : FloatRect) (p : Vector2f) : Bool :=
  let minX := min r.left (r.left + r.width)
  let maxX := max r.left (r.left + r.width)
  let minY := min r.top (r.top + r.height)
  let maxY := max r.top (r.top + r.height)
  decide (p.x ≥ minX) && decide (p.x < maxX) && decide (p.y ≥ minY) && decide (p.y < maxY)

/-! ## Scrollbar (`src/src/TGUI/Scrollbar.cpp`) -/

/-- State of a `tgui::Scrollbar` as far as value handling and mouse events read or write it.
`position` and `scale` are what `getPosition()` and `getScale()` return (the origin and the
rotation of the transformable are taken to be zero); the three texture sizes are
`m_TextureTrackNormal_M->getSize()`, `m_TextureArrowNormal->getSize()` and
`m_TextureThumbNormal->getSize()`; `callbacks` is the list of values passed to
`m_Parent->addCallback`. -/
structure Scrollbar where
  m_Loaded : Bool
  autoHide : Bool
  m_Maximum : Nat
  m_LowValue : Nat
  m_Value : Nat
  m_MouseDown : Bool
  m_MouseDownOnArrow : Bool
  m_MouseDownOnThumb : Bool
  m_MouseDownOnThumbPos : Vector2f
  m_MouseHover : Bool
  m_VerticalScroll : Bool
  m_VerticalImage : Bool
  m_Size : Vector2f
  m_ThumbSize : Vector2f
  position : Vector2f
  scale : Vector2f
  trackTextureSize : Vector2u
  arrowTextureSize : Vector2u
  callbackID : Nat
  callbacks : List Nat
  thumbTextureSize : Vector2u
  m_ObjectPhase : Nat
  m_LoadedPathname : String

namespace Scrollbar

/-- The three `unsigned int` members hold representable values. -/
def WellFormed (s : Scrollbar) : Prop :=
  s.m_Maximum < uintSize ∧ s.m_LowValue < uintSize ∧ s.m_Value < uintSize

/-- Method `Scrollbar::setValue` (Scrollbar.cpp 223-231). -/
def setValue (s : Scrollbar) (value : Nat) : Scrollbar :=
  let s := { s with m_Value := value }
  if s.m_Value > usub s.m_Maximum s.m_LowValue then
    { s with m_Value := usub s.m_Maximum s.m_LowValue }
  else
    s

/-- Method `Scrollbar::setLowValue` (Scrollbar.cpp 235-239). -/
def setLowValue (s : Scrollbar) (lowValue : Nat) : Scrollbar :=
  { s with m_LowValue := lowValue }

/-- Method `Scrollbar::getLowValue`. -/
def getLowValue (s : Scrollbar) : Nat := s.m_LowValue

/-- The tail of `mouseMoved` and `leftMouseReleased`: queue a `valueChanged` callback when the
user asked for one and the value changed. -/
def addValueCallback (oldValue : Nat) (s : Scrollbar) : Scrollbar :=
  if s.callbackID > 0 ∧ oldValue ≠ s.m_Value then
    { s with callbacks := s.callbacks ++ [s.m_Value] }
  else
    s

/-- The factor `scalingX` of a vertical scrollbar (recomputed in every handler). -/
def scalingX (s : Scrollbar) : ℚ :=
  if s.m_VerticalImage = s.m_VerticalScroll then
    s.m_Size.x / (s.trackTextureSize.x : ℚ)
  else
    s.m_Size.x / (s.trackTextureSize.y : ℚ)

/-- The factor `scalingY` of a horizontal scrollbar (recomputed in every handler). -/
def scalingY (s : Scrollbar) : ℚ :=
  if s.m_VerticalImage = s.m_VerticalScroll then
    s.m_Size.y / (s.trackTextureSize.y : ℚ)
  else
    s.m_Size.y / (s.trackTextureSize.x : ℚ)

/-- The product `2 * m_TextureArrowNormal->getSize().y`, computed in `unsigned int`. -/
def twiceArrow (s : Scrollbar) : ℚ := (((2 * s.arrowTextureSize.y) % uintSize : Nat) : ℚ)

/-- The track branch of `mouseMoved` once the click is known to lie between the arrows
(Scrollbar.cpp 583-605 and 648-670): `value` is the clicked content coordinate. -/
def trackClick (s : Scrollbar) (value : ℚ) : Option Scrollbar :=
  if value ≤ (s.m_Value : ℚ) then
    let subtractValue : ℚ := (s.m_LowValue : ℚ) / 3
    if value ≥ subtractValue then
      (floatToUnsigned (value - subtractValue + 1 / 2)).map s.setValue
    else
      some (s.setValue 0)
  else
    let subtractValue : ℚ := (s.m_LowValue : ℚ) * 2 / 3
    if value ≤ ((usub s.m_Maximum s.m_LowValue : Nat) : ℚ) + subtractValue then
      (floatToUnsigned (value - subtractValue + 1 / 2)).map s.setValue
    else
      some (s.setValue (usub s.m_Maximum s.m_LowValue))

/-- The thumb branch of `mouseMoved` (Scrollbar.cpp 560-572 and 625-637): `offset` is the pointer
offset into the track and `trackLength` the scaled bar length minus both arrows. -/
def thumbDrag (s : Scrollbar) (offset trackLength : ℚ) : Option Scrollbar :=
  if offset > 0 then
    (floatToUnsigned (offset / trackLength * (s.m_Maximum : ℚ) + 1 / 2)).map fun value =>
      if value ≤ usub s.m_Maximum s.m_LowValue then
        s.setValue value
      else
        s.setValue (usub s.m_Maximum s.m_LowValue)
  else
    some (s.setValue 0)

/-- Method `Scrollbar::mouseMoved` (Scrollbar.cpp 522-687). The result is `none` when a float
to `unsigned int` conversion is undefined. -/
def mouseMoved (s : Scrollbar) (x y : ℚ) : Option Scrollbar :=
  if s.m_Loaded = false then
    some s
  else
    let s := { s with m_MouseHover := true }
    if s.m_MouseDown = true ∧ s.m_MouseDownOnArrow = false then
      if s.m_Maximum ≤ s.m_LowValue ∧ s.autoHide = false then
        some s
      else
        let position := s.position
        let curScale := s.scale
        let oldValue := s.m_Value
        let moved : Option Scrollbar :=
          if s.m_VerticalScroll = true then
            let arrowHeight : ℚ := (s.arrowTextureSize.y : ℚ) * s.scalingX * curScale.y
            if s.m_MouseDownOnThumb = true then
              thumbDrag s (y - s.m_MouseDownOnThumbPos.y - position.y - arrowHeight)
                (s.m_Size.y * curScale.y - 2 * arrowHeight)
            else if y > position.y + arrowHeight then
              if y ≤ position.y + s.m_Size.y * curScale.y - arrowHeight then
                trackClick s
                  ((y - position.y - arrowHeight) / (s.m_Size.y * curScale.y - 2 * arrowHeight)
                    * (s.m_Maximum : ℚ))
              else
                some s
            else
              some s
          else
            let arrowWidth : ℚ := (s.arrowTextureSize.y : ℚ) * s.scalingY * curScale.x
            if s.m_MouseDownOnThumb = true then
              thumbDrag s (x - s.m_MouseDownOnThumbPos.x - position.x - arrowWidth)
                (s.m_Size.x * curScale.x - 2 * arrowWidth)
            else if x > position.x + arrowWidth then
              if x ≤ position.x + s.m_Size.x * curScale.x - arrowWidth then
                trackClick s
                  ((x - position.x - arrowWidth) / (s.m_Size.x * curScale.x - 2 * arrowWidth)
                    * (s.m_Maximum : ℚ))
              else
                some s
            else
              some s
        moved.map (addValueCallback oldValue)
    else
      some s

/-- The arrow test of `leftMousePressed` (Scrollbar.cpp 354-398): decide whether the press went
down on an arrow. -/
def pressArrowTest (s : Scrollbar) (x y : ℚ) : Scrollbar :=
  if s.m_VerticalScroll = true then
    let curScale := s.scale
    if s.m_Size.y * curScale.y > s.twiceArrow * s.scalingX then
      if y < s.position.y + (s.arrowTextureSize.y : ℚ) * s.scalingX * curScale.y then
        { s with m_MouseDownOnArrow := true }
      else if y > s.position.y + s.m_Size.y * curScale.y
          - (s.arrowTextureSize.y : ℚ) * s.scalingX * curScale.y then
        { s with m_MouseDownOnArrow := true }
      else
        s
    else
      { s with m_MouseDownOnArrow := true }
  else
    let curScale := s.scale
    if s.m_Size.x * curScale.x > s.twiceArrow * s.scalingY then
      if x < s.position.x + (s.arrowTextureSize.y : ℚ) * s.scalingY * curScale.x then
        { s with m_MouseDownOnArrow := true }
      else if x > s.position.x + s.m_Size.x * curScale.x
          - (s.arrowTextureSize.y : ℚ) * s.scalingY * curScale.x then
        { s with m_MouseDownOnArrow := true }
      else
        s
    else
      { s with m_MouseDownOnArrow := true }

/-- Method `Scrollbar::leftMousePressed` (Scrollbar.cpp 349-403). -/
def leftMousePressed (s : Scrollbar) (x y : ℚ) : Option Scrollbar :=
  let s := { s with m_MouseDown := true, m_MouseDownOnArrow := false }
  let s := pressArrowTest s x y
  if s.m_MouseDownOnArrow = false then
    mouseMoved s x y
  else
    some s

/-- The statement `if (m_Value > 0) --m_Value;`. -/
def decrementValue (s : Scrollbar) : Scrollbar :=
  if s.m_Value > 0 then { s with m_Value := usub s.m_Value 1 } else s

/-- The statement `if (m_Value < (m_Maximum - m_LowValue)) ++m_Value;`. -/
def incrementValue (s : Scrollbar) : Scrollbar :=
  if s.m_Value < usub s.m_Maximum s.m_LowValue then { s with m_Value := uadd s.m_Value 1 } else s

/-- Method `Scrollbar::leftMouseReleased` (Scrollbar.cpp 407-518). -/
def leftMouseReleased (s : Scrollbar) (x y : ℚ) : Scrollbar :=
  let s :=
    if s.m_MouseDown = true ∧ s.m_MouseDownOnArrow = true then
      if s.m_Maximum > s.m_LowValue then
        let oldValue := s.m_Value
        let curScale := s.scale
        let s :=
          if s.m_VerticalScroll = true then
            if s.m_Size.y * curScale.y > s.twiceArrow * s.scalingX then
              if y < s.position.y + (s.arrowTextureSize.y : ℚ) * s.scalingX * curScale.y then
                decrementValue s
              else if y > s.position.y + s.m_Size.y * curScale.y
                  - (s.arrowTextureSize.y : ℚ) * s.scalingX * curScale.y then
                incrementValue s
              else
                s
            else
              if y < s.position.y + (s.arrowTextureSize.y : ℚ) * curScale.y
                  * (s.m_Size.y * (1 / 2) / (s.arrowTextureSize.y : ℚ)) then
                decrementValue s
              else
                incrementValue s
          else
            if s.m_Size.x * curScale.x > s.twiceArrow * s.scalingY then
              if x < s.position.x + (s.arrowTextureSize.y : ℚ) * s.scalingY * curScale.x then
                decrementValue s
              else if x > s.position.x + s.m_Size.x * curScale.x
                  - (s.arrowTextureSize.y : ℚ) * s.scalingY * curScale.x then
                incrementValue s
              else
                s
            else
              if x < s.position.x + (s.arrowTextureSize.y : ℚ) * curScale.x
                  * (s.m_Size.x * (1 / 2) / (s.arrowTextureSize.y : ℚ)) then
                decrementValue s
              else
                incrementValue s
        addValueCallback oldValue s
      else
        s
    else
      s
  { s with m_MouseDown := false }

/-- The layout test of the press and release handlers: the arrows are drawn at full size. -/
def fullSizeLayout (s : Scrollbar) : Prop :=
  if s.m_VerticalScroll = true then
    s.m_Size.y * s.scale.y > s.twiceArrow * s.scalingX
  else
    s.m_Size.x * s.scale.x > s.twiceArrow * s.scalingY

/-- The point lies in the first (top or left) arrow region tested by the handlers. -/
def inFirstArrow (s : Scrollbar) (x y : ℚ) : Prop :=
  if s.m_VerticalScroll = true then
    y < s.position.y + (s.arrowTextureSize.y : ℚ) * s.scalingX * s.scale.y
  else
    x < s.position.x + (s.arrowTextureSize.y : ℚ) * s.scalingY * s.scale.x

/-- The point lies in the second (bottom or right) arrow region tested by the handlers. -/
def inSecondArrow (s : Scrollbar) (x y : ℚ) : Prop :=
  if s.m_VerticalScroll = true then
    y > s.position.y + s.m_Size.y * s.scale.y
      - (s.arrowTextureSize.y : ℚ) * s.scalingX * s.scale.y
  else
    x > s.position.x + s.m_Size.x * s.scale.x
      - (s.arrowTextureSize.y : ℚ) * s.scalingY * s.scale.x

instance (s : Scrollbar) : Decidable (fullSizeLayout s) := by
  unfold fullSizeLayout; infer_instance

instance (s : Scrollbar) (x y : ℚ) : Decidable (inFirstArrow s x y) := by
  unfold inFirstArrow; infer_instance

instance (s : Scrollbar) (x y : ℚ) : Decidable (inSecondArrow s x y) := by
  unfold inSecondArrow; infer_instance

/-- The locals `thumbLeft`, `thumbTop`, `thumbWidth`, `thumbHeight` of `mouseOnObject` when the
thumb test is reached (Scrollbar.cpp 267-322). -/
structure ThumbRegion where
  thumbLeft : ℚ
  thumbTop : ℚ
  thumbWidth : ℚ
  thumbHeight : ℚ

/-- The thumb geometry computed by `mouseOnObject` (Scrollbar.cpp 267-322). -/
def thumbRegion (s : Scrollbar) : ThumbRegion :=
  let curScale := s.scale
  if s.m_VerticalScroll = true then
    if s.m_Size.y > s.twiceArrow * s.scalingX then
      let realTrackHeight := s.m_Size.y - s.twiceArrow * s.scalingX
      let thumbHeight := (s.m_LowValue : ℚ) / (s.m_Maximum : ℚ) * realTrackHeight
      let thumbTop := ((s.arrowTextureSize.y : ℚ) * s.scalingX
        + (s.m_Value : ℚ) / ((usub s.m_Maximum s.m_LowValue : Nat) : ℚ)
          * (realTrackHeight - thumbHeight)) * curScale.y
      ⟨0, thumbTop, s.m_ThumbSize.x, thumbHeight⟩
    else
      ⟨0, (s.arrowTextureSize.y : ℚ) * curScale.y, s.m_ThumbSize.x, 0⟩
  else
    if s.m_Size.x > s.twiceArrow * s.scalingY then
      let realTrackWidth := s.m_Size.x - s.twiceArrow * s.scalingY
      let thumbWidth := (s.m_LowValue : ℚ) / (s.m_Maximum : ℚ) * realTrackWidth
      let thumbLeft := ((s.arrowTextureSize.y : ℚ) * s.scalingY
        + (s.m_Value : ℚ) / ((usub s.m_Maximum s.m_LowValue : Nat) : ℚ)
          * (realTrackWidth - thumbWidth)) * curScale.x
      ⟨thumbLeft, 0, thumbWidth, s.m_ThumbSize.y⟩
    else
      ⟨(s.arrowTextureSize.y : ℚ) * curScale.x, 0, 0, s.m_ThumbSize.y⟩

/-- Method `Scrollbar::mouseOnObject` (Scrollbar.cpp 250-345): the new state and the returned
flag. The rectangle of the bar is `getTransform().transformRect(0, 0, m_Size.x, m_Size.y)`. -/
def mouseOnObject (s : Scrollbar) (x y : ℚ) : Scrollbar × Bool :=
  if s.m_Loaded = false then
    (s, false)
  else if s.m_Maximum ≤ s.m_LowValue ∧ s.autoHide = true then
    (s, false)
  else if (FloatRect.mk s.position.x s.position.y (s.m_Size.x * s.scale.x)
      (s.m_Size.y * s.scale.y)).contains ⟨x, y⟩ = true then
    let position := s.position
    let curScale := s.scale
    let thumb := s.thumbRegion
    if (FloatRect.mk (position.x + thumb.thumbLeft) (position.y + thumb.thumbTop)
        (thumb.thumbWidth * curScale.x) (thumb.thumbHeight * curScale.y)).contains ⟨x, y⟩
        = true then
      let s :=
        if s.m_MouseDown = false then
          { s with m_MouseDownOnThumbPos :=
              ⟨x - position.x - thumb.thumbLeft, y - position.y - thumb.thumbTop⟩ }
        else
          s
      ({ s with m_MouseDownOnThumb := true }, true)
    else
      ({ s with m_MouseDownOnThumb := false }, true)
  else
    ({ s with m_MouseHover := false }, false)

/-- The sprites of a scrollbar. -/
inductive Sprite where
  | trackNormal
  | trackHover
  | arrowNormal
  | arrowHover
  | thumbNormal
  | thumbHover
deriving DecidableEq

/-- One factor of an `sf::Transform` product: the transform of the widget itself
(`getTransform()`), or a `scale`, `translate` or `rotate` call (angle, centre). -/
inductive TransformOp where
  | object (position scale : Vector2f)
  | scale (x y : ℚ)
  | translate (x y : ℚ)
  | rotate (angle centreX centreY : ℚ)
deriving DecidableEq

/-- One call `target.draw(sprite, states)`: the sprite and the factors of `states.transform`,
first applied last in the list. -/
structure DrawCall where
  sprite : Sprite
  transform : List TransformOp
deriving DecidableEq

/-- The hover image drawn on top of a normal one:
`if ((m_MouseHover) && (m_ObjectPhase & ObjectPhase_Hover)) target.draw(sprite, states)`. The
constant `ObjectPhase_Hover` is declared outside src/ and is a parameter. -/
def drawHover (objectPhaseHover : Nat) (s : Scrollbar) (sprite : Sprite)
    (transform : List TransformOp) : List DrawCall :=
  if s.m_MouseHover = true ∧ s.m_ObjectPhase &&& objectPhaseHover ≠ 0 then
    [⟨sprite, transform⟩]
  else
    []

/-- The translation of the thumb in `draw` along the scroll direction (Scrollbar.cpp 767, 773,
853, 859): `arrow height + (m_Value * (realTrack / m_Maximum)) / scaling`. -/
def drawThumbTranslation (s : Scrollbar) (realTrack scaling : ℚ) : ℚ :=
  (s.arrowTextureSize.y : ℚ) + (s.m_Value : ℚ) * (realTrack / (s.m_Maximum : ℚ)) / scaling

/-- The scale factor of the thumb in `draw` (Scrollbar.cpp 758-762, 844-848). -/
def drawThumbScale (s : Scrollbar) (realTrack thumbLength : ℚ) : ℚ :=
  if s.autoHide = false ∧ s.m_Maximum ≤ s.m_LowValue then
    realTrack / thumbLength
  else
    (s.m_LowValue : ℚ) / (s.m_Maximum : ℚ) * realTrack / thumbLength

/-- Method `Scrollbar::draw` (Scrollbar.cpp 691-914): the calls of `target.draw` in order.
`states` holds the factors of the incoming `states.transform`. -/
def draw (objectPhaseHover : Nat) (s : Scrollbar) (states : List TransformOp) : List DrawCall :=
  if s.m_Loaded = false then
    []
  else if s.autoHide = true ∧ s.m_Maximum ≤ s.m_LowValue then
    []
  else
    let oldTransform := states ++ [TransformOp.object s.position s.scale]
    let track : Vector2f := ⟨(s.trackTextureSize.x : ℚ), (s.trackTextureSize.y : ℚ)⟩
    let arrow : Vector2f := ⟨(s.arrowTextureSize.x : ℚ), (s.arrowTextureSize.y : ℚ)⟩
    let thumbTex : Vector2f := ⟨(s.thumbTextureSize.x : ℚ), (s.thumbTextureSize.y : ℚ)⟩
    let scaling : Vector2f :=
      if s.m_VerticalScroll = s.m_VerticalImage then
        ⟨s.m_Size.x / track.x, s.m_Size.y / track.y⟩
      else
        ⟨s.m_Size.x / track.y, s.m_Size.y / track.x⟩
    let trackTransform :=
      if s.m_VerticalScroll = s.m_VerticalImage then
        oldTransform ++ [TransformOp.scale scaling.x scaling.y]
      else
        oldTransform ++ [TransformOp.scale scaling.x scaling.y,
          TransformOp.rotate (-90) (track.x * (1 / 2)) (track.x * (1 / 2))]
    let trackCalls :=
      [DrawCall.mk Sprite.trackNormal trackTransform]
        ++ drawHover objectPhaseHover s Sprite.trackHover trackTransform
    if s.m_VerticalScroll = true then
      let rest :=
        if s.m_Size.y > s.twiceArrow * scaling.x then
          let firstArrow := oldTransform ++ [TransformOp.scale scaling.x scaling.x]
          let realTrackHeight := s.m_Size.y - s.twiceArrow * scaling.x
          let scaleY := drawThumbScale s realTrackHeight s.m_ThumbSize.y
          let thumb :=
            if s.m_VerticalImage = true then
              firstArrow ++ [TransformOp.translate 0
                (drawThumbTranslation s realTrackHeight scaling.x), TransformOp.scale 1 scaleY]
            else
              firstArrow ++ [TransformOp.rotate 90 (thumbTex.y * (1 / 2)) (thumbTex.y * (1 / 2)),
                TransformOp.translate (drawThumbTranslation s realTrackHeight scaling.x) 0,
                TransformOp.scale scaleY 1]
          let secondArrow := oldTransform ++ [TransformOp.translate 0 s.m_Size.y,
            TransformOp.scale scaling.x (-scaling.x)]
          [DrawCall.mk Sprite.arrowNormal firstArrow]
            ++ drawHover objectPhaseHover s Sprite.arrowHover firstArrow
            ++ [DrawCall.mk Sprite.thumbNormal thumb]
            ++ drawHover objectPhaseHover s Sprite.thumbHover thumb
            ++ [DrawCall.mk Sprite.arrowNormal secondArrow]
            ++ drawHover objectPhaseHover s Sprite.arrowHover secondArrow
        else
          let firstArrow := oldTransform
            ++ [TransformOp.scale scaling.x (s.m_Size.y * (1 / 2) / arrow.y)]
          let secondArrow := oldTransform ++ [TransformOp.translate 0 s.m_Size.y,
            TransformOp.scale scaling.x (-(s.m_Size.y * (1 / 2)) / arrow.y)]
          [DrawCall.mk Sprite.arrowNormal firstArrow]
            ++ drawHover objectPhaseHover s Sprite.arrowHover firstArrow
            ++ [DrawCall.mk Sprite.arrowNormal secondArrow]
            ++ drawHover objectPhaseHover s Sprite.arrowHover secondArrow
      trackCalls ++ rest
    else
      let turn := TransformOp.rotate (-90) (arrow.x * (1 / 2)) (arrow.x * (1 / 2))
      let rest :=
        if s.m_Size.x > s.twiceArrow * scaling.y then
          let firstArrow := oldTransform ++ [TransformOp.scale scaling.y scaling.y, turn]
          let realTrackWidth := s.m_Size.x - s.twiceArrow * scaling.y
          let scaleX := drawThumbScale s realTrackWidth s.m_ThumbSize.x
          let thumb :=
            if s.m_VerticalImage = true then
              firstArrow ++ [TransformOp.translate 0
                (drawThumbTranslation s realTrackWidth scaling.y), TransformOp.scale 1 scaleX]
            else
              firstArrow ++ [TransformOp.rotate 90 (thumbTex.y * (1 / 2)) (thumbTex.y * (1 / 2)),
                TransformOp.translate (drawThumbTranslation s realTrackWidth scaling.y) 0,
                TransformOp.scale scaleX 1]
          let secondArrow := oldTransform ++ [TransformOp.translate s.m_Size.x 0,
            TransformOp.scale (-scaling.y) scaling.y, turn]
          [DrawCall.mk Sprite.arrowNormal firstArrow]
            ++ drawHover objectPhaseHover s Sprite.arrowHover firstArrow
            ++ [DrawCall.mk Sprite.thumbNormal thumb]
            ++ drawHover objectPhaseHover s Sprite.thumbHover thumb
            ++ [DrawCall.mk Sprite.arrowNormal secondArrow]
            ++ drawHover objectPhaseHover s Sprite.arrowHover secondArrow
        else
          let firstArrow := oldTransform
            ++ [TransformOp.scale (s.m_Size.x * (1 / 2) / arrow.y) scaling.y, turn]
          let secondArrow := oldTransform ++ [TransformOp.translate s.m_Size.x 0,
            TransformOp.scale (-(s.m_Size.x * (1 / 2)) / arrow.y) scaling.y, turn]
          [DrawCall.mk Sprite.arrowNormal firstArrow]
            ++ drawHover objectPhaseHover s Sprite.arrowHover firstArrow
            ++ [DrawCall.mk Sprite.arrowNormal secondArrow]
            ++ drawHover objectPhaseHover s Sprite.arrowHover secondArrow
      trackCalls ++ rest

/-- What `load` reads from outside the scrollbar, none of it under src/: `openFile path` is
the list of (property, value) pairs that `InfoFileParser` reads from the file until its end, or
`none` when `openFile` fails; `getTexture path` is the size of the texture that
`TGUI_TextureManager.getTexture` loads, or `none` when it fails; `extractPhases value` is the
value that `extractPhases` gives to `m_ObjectPhase`; `objectPhaseHover` is the constant
`ObjectPhase_Hover`. -/
structure LoadEnv where
  openFile : String → Option (List (String × String))
  getTexture : String → Option Vector2u
  extractPhases : String → Nat
  objectPhaseHover : Nat

/-- One pass of the loop `while (infoFile.readProperty(property, value))` of `load`
(Scrollbar.cpp 131-158); the second component is the local `imageExtension`. -/
def readProperty (env : LoadEnv) (acc : Scrollbar × String) (entry : String × String) :
    Scrollbar × String :=
  let property := entry.1
  let value := entry.2
  if property = "phases" then
    ({ acc.1 with m_ObjectPhase := env.extractPhases value }, acc.2)
  else if property = "extension" then
    (acc.1, value)
  else if property = "verticalscroll" then
    if value = "false" ∨ value = "0" then
      ({ acc.1 with m_VerticalImage := false, m_VerticalScroll := false }, acc.2)
    else
      acc
  else
    acc

/-- The optional textures of `load` (Scrollbar.cpp 194-206): `true` when the hover phase is not
requested or its three textures load (tested one after the other). -/
def loadHoverTextures (env : LoadEnv) (s : Scrollbar) (imageExtension : String) : Bool :=
  if s.m_ObjectPhase &&& env.objectPhaseHover ≠ 0 then
    (env.getTexture (s.m_LoadedPathname ++ "Track_Hover." ++ imageExtension)).isSome
      && (env.getTexture (s.m_LoadedPathname ++ "Thumb_Hover." ++ imageExtension)).isSome
      && (env.getTexture (s.m_LoadedPathname ++ "Arrow_Hover." ++ imageExtension)).isSome
  else
    true

/-- The texture part of `load` (Scrollbar.cpp 175-210): the required textures are loaded one
after the other, a texture pointer is replaced only by a successful `getTexture`. -/
def loadTextures (env : LoadEnv) (s : Scrollbar) (imageExtension : String) : Scrollbar × Bool :=
  match env.getTexture (s.m_LoadedPathname ++ "Track_Normal." ++ imageExtension) with
  | none => (s, false)
  | some track =>
    let s := { s with trackTextureSize := track }
    match env.getTexture (s.m_LoadedPathname ++ "Thumb_Normal." ++ imageExtension) with
    | none => (s, false)
    | some thumb =>
      let s := { s with thumbTextureSize := thumb }
      match env.getTexture (s.m_LoadedPathname ++ "Arrow_Normal." ++ imageExtension) with
      | none => (s, false)
      | some arrow =>
        let s := { s with
          arrowTextureSize := arrow
          m_Size := ⟨(track.x : ℚ), (track.y : ℚ)⟩
          m_ThumbSize := ⟨(thumb.x : ℚ), (thumb.y : ℚ)⟩ }
        if loadHoverTextures env s imageExtension = true then
          ({ s with m_Loaded := true }, true)
        else
          (s, false)

/-- Method `Scrollbar::load` (Scrollbar.cpp 98-211): the new state and the returned flag. -/
def load (env : LoadEnv) (s : Scrollbar) (pathname : String) : Scrollbar × Bool :=
  let s := { s with m_Loaded := false }
  if pathname.isEmpty = true then
    (s, false)
  else
    let s := { s with m_LoadedPathname := pathname }
    let s :=
      if s.m_LoadedPathname.back ≠ '/' then
        { s with m_LoadedPathname := s.m_LoadedPathname.push '/' }
      else
        s
    match env.openFile (s.m_LoadedPathname ++ "info.txt") with
    | none => (s, false)
    | some properties =>
      let s := { s with m_VerticalImage := true, m_VerticalScroll := true }
      let read := properties.foldl (readProperty env) (s, "png")
      loadTextures env read.1 read.2

end Scrollbar

/-! ## Form builder (`src/gui-builder/src/Form.cpp`) -/

/-- A `tgui::Widget::Ptr`: the identity of a widget. -/
abbrev WidgetPtr := Nat

/-- What `getPosition()` and `getSize()` of a widget return. `setPosition` and `setSize` are
plain setters of these two members. -/
structure WidgetData where
  position : Vector2f
  size : Vector2f

/-- Modelled from the spec: `tgui::Container` (the class of `m_widgetsContainer`) is not under
src/. Section 3 of the spec: an ordered sequence of (widget, name) pairs, duplicate names
allowed, sequence order = draw order, last element on top. -/
structure Container where
  entries : List (WidgetPtr × String)

namespace Container

/-- Modelled from the spec: `getWidgets()`, the widget column of the sequence. -/
def getWidgets (c : Container) : List WidgetPtr := c.entries.map Prod.fst

/-- Modelled from the spec: `getWidgetNames()`, the name column of the sequence, parallel to
`getWidgets()`. -/
def getWidgetNames (c : Container) : List String := c.entries.map Prod.snd

/-- Modelled from the spec: `add(widget, name)` appends to the end (top of the z-order). -/
def add (c : Container) (widget : WidgetPtr) (name : String) : Container :=
  ⟨c.entries ++ [(widget, name)]⟩

/-- Modelled from the spec: erase the first pair of the sequence that holds `widget` (used by
`remove` and `moveWidgetToFront`). -/
def eraseWidget (widget : WidgetPtr) : List (WidgetPtr × String) → List (WidgetPtr × String)
  | [] => []
  | e :: es => if e.1 = widget then es else e :: eraseWidget widget es

/-- Modelled from the spec: the first pair of the sequence that holds `widget` (lookup by
identity). -/
def findWidget (widget : WidgetPtr) : List (WidgetPtr × String) → Option (WidgetPtr × String)
  | [] => none
  | e :: es => if e.1 = widget then some e else findWidget widget es

/-- Modelled from the spec: `remove(widget)` erases by identity, preserving the relative order
of the remaining widgets. -/
def remove (c : Container) (widget : WidgetPtr) : Container :=
  ⟨eraseWidget widget c.entries⟩

/-- Modelled from the spec: `Widget::moveToFront()` of a child of this container moves its pair
to the end of the sequence (the top of the z-order), keeping its name; no effect when the widget
is not a child. -/
def moveWidgetToFront (c : Container) (widget : WidgetPtr) : Container :=
  match findWidget widget c.entries with
  | some e => ⟨eraseWidget widget c.entries ++ [e]⟩
  | none => c

/-- Modelled from the spec: `getWidgetName(widget)`, the name stored with a widget (empty when
the widget is not a child). -/
def getWidgetName (c : Container) (widget : WidgetPtr) : String :=
  match findWidget widget c.entries with
  | some e => e.2
  | none => ""

end Container

/-- One of the eight selection squares (`tgui::Button`): position, size and visibility. -/
structure SelectionSquare where
  position : Vector2f
  size : Vector2f
  visible : Bool

/-- State of a `Form`. `heap` gives position and size of every widget; `container` is
`m_widgetsContainer`; `title` is the title of `m_formWindow`; `windowPosition`,
`childWidgetsOffset` and `contentOffset` are what `m_formWindow->getPosition()`,
`m_formWindow->getChildWidgetsOffset()` and `m_scrollablePanel->getContentOffset()` return;
`reloadPropertiesCalls` counts the calls of `m_guiBuilder->reloadProperties()` and
`widgetSelectedCalls` lists the arguments of `m_guiBuilder->widgetSelected`. A grabbed selection
square is named by its index in `m_selectionSquares`. -/
structure FormState where
  heap : WidgetPtr → WidgetData
  container : Container
  m_widgets : List (String × Option WidgetPtr)
  m_idCounter : Nat
  m_selectedWidget : Option WidgetPtr
  m_selectionSquares : Fin 8 → SelectionSquare
  m_draggingWidget : Bool
  m_draggingSelectionSquare : Option (Fin 8)
  m_draggingPos : Vector2f
  m_changed : Bool
  m_filename : String
  title : String
  windowPosition : Vector2f
  childWidgetsOffset : Vector2f
  contentOffset : Vector2f
  reloadPropertiesCalls : Nat
  widgetSelectedCalls : List (Option WidgetPtr)

/-- Failures of `Form::onDrag` in the embedding. -/
inductive DragError where
  | nullPointer
  | outOfFuel
deriving DecidableEq

namespace Form

/-- Method `Form::getSelectedWidget`. -/
def getSelectedWidget (s : FormState) : Option WidgetPtr := s.m_selectedWidget

/-- Method `Form::setChanged` (Form.cpp 224-232). -/
def setChanged (s : FormState) (changed : Bool) : FormState :=
  let s :=
    if changed then { s with title := "*" ++ s.m_filename }
    else { s with title := s.m_filename }
  { s with m_changed := changed }

/-- The centre given to square `i` by `updateSelectionSquarePositions` (Form.cpp 137-144). -/
def squareCentre (w : WidgetData) (i : Fin 8) : Vector2f :=
  match i.val with
  | 0 => ⟨w.position.x, w.position.y⟩
  | 1 => ⟨w.position.x + w.size.x / 2, w.position.y⟩
  | 2 => ⟨w.position.x + w.size.x, w.position.y⟩
  | 3 => ⟨w.position.x + w.size.x, w.position.y + w.size.y / 2⟩
  | 4 => ⟨w.position.x + w.size.x, w.position.y + w.size.y⟩
  | 5 => ⟨w.position.x + w.size.x / 2, w.position.y + w.size.y⟩
  | 6 => ⟨w.position.x, w.position.y + w.size.y⟩
  | _ => ⟨w.position.x, w.position.y + w.size.y / 2⟩

/-- The body of `updateSelectionSquarePositions` (Form.cpp 133-149) for a non-null selected
widget `widget`: every square is centred on its point of the widget's bounds. -/
def placeSelectionSquares (s : FormState) (widget : WidgetPtr) : FormState :=
  { s with m_selectionSquares := fun i =>
      let square := s.m_selectionSquares i
      let centre := squareCentre (s.heap widget) i
      { square with position := ⟨centre.x - square.size.x / 2, centre.y - square.size.y / 2⟩ } }

/-- Method `Form::updateSelectionSquarePositions` (Form.cpp 133-149); it dereferences
`m_selectedWidget`. -/
def updateSelectionSquarePositions (s : FormState) : Except DragError FormState :=
  match s.m_selectedWidget with
  | none => .error .nullPointer
  | some widget => .ok (placeSelectionSquares s widget)

/-- Method `Form::selectWidget` (Form.cpp 512-532). -/
def selectWidget (s : FormState) (widget : Option WidgetPtr) : FormState :=
  let s :=
    if s.m_selectedWidget ≠ widget then
      let s := { s with m_selectedWidget := widget }
      match widget with
      | some w =>
        let s := placeSelectionSquares s w
        { s with m_selectionSquares := fun i => { s.m_selectionSquares i with visible := true } }
      | none =>
        { s with m_selectionSquares := fun i => { s.m_selectionSquares i with visible := false } }
    else
      s
  { s with widgetSelectedCalls := s.widgetSelectedCalls ++ [widget] }

/-- The rectangle tested by `onFormMousePress` for a widget (Form.cpp 287). -/
def widgetRect (w : WidgetData) : FloatRect :=
  ⟨w.position.x, w.position.y, w.size.x, w.size.y⟩

/-- Method `Form::onFormMousePress` (Form.cpp 282-299): the widgets are visited from the last
to the first and the first one whose rectangle contains `pos` is selected. -/
def onFormMousePress (s : FormState) (pos : Vector2f) : FormState :=
  match s.container.getWidgets.reverse.find? (fun w => (widgetRect (s.heap w)).contains pos) with
  | some w =>
    let s := selectWidget s (some w)
    { s with m_draggingWidget := true, m_draggingPos := pos }
  | none => selectWidget s none

/-- Method `Form::onSelectionSquarePress` (Form.cpp 274-278) for the square of index `square`. -/
def onSelectionSquarePress (s : FormState) (square : Fin 8) (pos : Vector2f) : FormState :=
  { s with
    m_draggingSelectionSquare := some square
    m_draggingPos := ⟨(s.m_selectionSquares square).position.x + pos.x,
      (s.m_selectionSquares square).position.y + pos.y⟩ }

/-- Method `Form::mouseReleased` (Form.cpp 183-187). -/
def mouseReleased (s : FormState) : FormState :=
  { s with m_draggingWidget := false, m_draggingSelectionSquare := none }

/-- The loop of `setSelectedWidgetName` (Form.cpp 103-121) over the copied widget list; the flag
is `widgetFound`. -/
def renameLoop (selected : Option WidgetPtr) (name : String) :
    List WidgetPtr → Bool → Container → Container
  | [], _, c => c
  | widget :: rest, true, c => renameLoop selected name rest true (c.moveWidgetToFront widget)
  | widget :: rest, false, c =>
    if some widget = selected then
      renameLoop selected name rest true ((c.remove widget).add widget name)
    else
      renameLoop selected name rest false c

/-- Method `Form::setSelectedWidgetName` (Form.cpp 99-122). -/
def setSelectedWidgetName (s : FormState) (name : String) : FormState :=
  let widgets := s.container.getWidgets
  { s with container := renameLoop s.m_selectedWidget name widgets false s.container }

/-- Method `Form::getSelectedWidgetName` (Form.cpp 126-129), for a non-null selection. -/
def getSelectedWidgetName (s : FormState) : String :=
  match s.m_selectedWidget with
  | some w => s.container.getWidgetName w
  | none => ""

/-! ### `Form::onDrag` -/

/-- The state threaded through the loops of `onDrag`: the form and the local `updated`. -/
structure DragFrame where
  form : FormState
  updated : Bool

/-- A `while (cond) body` loop of `onDrag`, run for at most `fuel` iterations. -/
def whileLoop (cond : DragFrame → Bool) (body : DragFrame → Except DragError DragFrame) :
    Nat → DragFrame → Except DragError DragFrame
  | 0, f => if cond f then .error .outOfFuel else .ok f
  | fuel + 1, f => if cond f then (body f).bind (whileLoop cond body fuel) else .ok f

/-- The constant `step` of `onDrag` (Form.cpp 306). -/
def step : ℚ := 10

/-- The body shared by all loops of `onDrag`:
`m_selectedWidget->setPosition(getPosition() + dp)`, `m_selectedWidget->setSize(getSize() + ds)`,
`m_draggingPos += da`, `updated = true`. A loop that leaves the position (or the size, or one
axis) alone passes a zero component; a decrement by `c` is the increment by `-c`. Every loop
body dereferences `m_selectedWidget`. -/
def dragStep (dp ds da : Vector2f) (f : DragFrame) : Except DragError DragFrame :=
  match f.form.m_selectedWidget with
  | none => .error .nullPointer
  | some w =>
    let old := f.form.heap w
    .ok
      { form := { f.form with
          heap := Function.update f.form.heap w
            ⟨⟨old.position.x + dp.x, old.position.y + dp.y⟩, ⟨old.size.x + ds.x, old.size.y + ds.y⟩⟩
          m_draggingPos := ⟨f.form.m_draggingPos.x + da.x, f.form.m_draggingPos.y + da.y⟩ }
        updated := true }

/-- Loop condition `pos.x - m_draggingPos.x >= c`. -/
def pointerRight (pos : Vector2f) (c : ℚ) (f : DragFrame) : Bool :=
  decide (pos.x - f.form.m_draggingPos.x ≥ c)

/-- Loop condition `m_draggingPos.x - pos.x >= c`. -/
def pointerLeft (pos : Vector2f) (c : ℚ) (f : DragFrame) : Bool :=
  decide (f.form.m_draggingPos.x - pos.x ≥ c)

/-- Loop condition `pos.y - m_draggingPos.y >= c`. -/
def pointerDown (pos : Vector2f) (c : ℚ) (f : DragFrame) : Bool :=
  decide (pos.y - f.form.m_draggingPos.y ≥ c)

/-- Loop condition `m_draggingPos.y - pos.y >= c`. -/
def pointerUp (pos : Vector2f) (c : ℚ) (f : DragFrame) : Bool :=
  decide (f.form.m_draggingPos.y - pos.y ≥ c)

/-- Sequencing of two statements that may fail. -/
def andThen (a b : DragFrame → Except DragError DragFrame) (f : DragFrame) :
    Except DragError DragFrame :=
  (a f).bind b

/-- The four loops under `if (m_draggingWidget)` (Form.cpp 312-338). -/
def moveLoops (fuel : Nat) (pos : Vector2f) : DragFrame → Except DragError DragFrame :=
  andThen
    (andThen (whileLoop (pointerRight pos step) (dragStep ⟨step, 0⟩ ⟨0, 0⟩ ⟨step, 0⟩) fuel)
      (whileLoop (pointerLeft pos step) (dragStep ⟨-step, 0⟩ ⟨0, 0⟩ ⟨-step, 0⟩) fuel))
    (andThen (whileLoop (pointerDown pos step) (dragStep ⟨0, step⟩ ⟨0, 0⟩ ⟨0, step⟩) fuel)
      (whileLoop (pointerUp pos step) (dragStep ⟨0, -step⟩ ⟨0, 0⟩ ⟨0, -step⟩) fuel))

/-- The loops of the top handle, square 1 (Form.cpp 345-359). -/
def topLoops (fuel : Nat) (pos : Vector2f) : DragFrame → Except DragError DragFrame :=
  andThen (whileLoop (pointerDown pos step) (dragStep ⟨0, step⟩ ⟨0, -step⟩ ⟨0, step⟩) fuel)
    (whileLoop (pointerUp pos step) (dragStep ⟨0, -step⟩ ⟨0, step⟩ ⟨0, -step⟩) fuel)

/-- The loops of the right handle, square 3 (Form.cpp 363-375). -/
def rightLoops (fuel : Nat) (pos : Vector2f) : DragFrame → Except DragError DragFrame :=
  andThen (whileLoop (pointerRight pos step) (dragStep ⟨0, 0⟩ ⟨step, 0⟩ ⟨step, 0⟩) fuel)
    (whileLoop (pointerLeft pos step) (dragStep ⟨0, 0⟩ ⟨-step, 0⟩ ⟨-step, 0⟩) fuel)

/-- The loops of the bottom handle, square 5 (Form.cpp 379-391). -/
def bottomLoops (fuel : Nat) (pos : Vector2f) : DragFrame → Except DragError DragFrame :=
  andThen (whileLoop (pointerDown pos step) (dragStep ⟨0, 0⟩ ⟨0, step⟩ ⟨0, step⟩) fuel)
    (whileLoop (pointerUp pos step) (dragStep ⟨0, 0⟩ ⟨0, -step⟩ ⟨0, -step⟩) fuel)

/-- The loops of the left handle, square 7 (Form.cpp 395-409). -/
def leftLoops (fuel : Nat) (pos : Vector2f) : DragFrame → Except DragError DragFrame :=
  andThen (whileLoop (pointerRight pos step) (dragStep ⟨step, 0⟩ ⟨-step, 0⟩ ⟨step, 0⟩) fuel)
    (whileLoop (pointerLeft pos step) (dragStep ⟨-step, 0⟩ ⟨step, 0⟩ ⟨-step, 0⟩) fuel)

/-- The vector `change` of a corner resize (Form.cpp 413-419) for a widget of size `size`. -/
def cornerChange (size : Vector2f) : Vector2f :=
  let ratio := size.y / size.x
  if ratio ≤ 1 then ⟨step, step * ratio⟩ else ⟨step / ratio, step⟩

/-- The loops of the top left corner, square 0 (Form.cpp 423-439). -/
def topLeftLoops (fuel : Nat) (pos change : Vector2f) :
    DragFrame → Except DragError DragFrame :=
  andThen
    (whileLoop (fun f => pointerRight pos change.x f && pointerDown pos change.y f)
      (dragStep ⟨change.x, change.y⟩ ⟨-change.x, -change.y⟩ ⟨change.x, change.y⟩) fuel)
    (whileLoop (fun f => pointerLeft pos change.x f && pointerUp pos change.y f)
      (dragStep ⟨-change.x, -change.y⟩ ⟨change.x, change.y⟩ ⟨-change.x, -change.y⟩) fuel)

/-- The loops of the top right corner, square 2 (Form.cpp 443-459). -/
def topRightLoops (fuel : Nat) (pos change : Vector2f) :
    DragFrame → Except DragError DragFrame :=
  andThen
    (whileLoop (fun f => pointerLeft pos change.x f && pointerDown pos change.y f)
      (dragStep ⟨0, change.y⟩ ⟨-change.x, -change.y⟩ ⟨-change.x, change.y⟩) fuel)
    (whileLoop (fun f => pointerRight pos change.x f && pointerUp pos change.y f)
      (dragStep ⟨0, -change.y⟩ ⟨change.x, change.y⟩ ⟨change.x, -change.y⟩) fuel)

/-- The loops of the bottom right corner, square 4 (Form.cpp 463-477). -/
def bottomRightLoops (fuel : Nat) (pos change : Vector2f) :
    DragFrame → Except DragError DragFrame :=
  andThen
    (whileLoop (fun f => pointerLeft pos change.x f && pointerUp pos change.y f)
      (dragStep ⟨0, 0⟩ ⟨-change.x, -change.y⟩ ⟨-change.x, -change.y⟩) fuel)
    (whileLoop (fun f => pointerRight pos change.x f && pointerDown pos change.y f)
      (dragStep ⟨0, 0⟩ ⟨change.x, change.y⟩ ⟨change.x, change.y⟩) fuel)

/-- The loops of the bottom left corner, square 6 (Form.cpp 481-497). -/
def bottomLeftLoops (fuel : Nat) (pos change : Vector2f) :
    DragFrame → Except DragError DragFrame :=
  andThen
    (whileLoop (fun f => pointerRight pos change.x f && pointerUp pos change.y f)
      (dragStep ⟨change.x, 0⟩ ⟨-change.x, -change.y⟩ ⟨change.x, -change.y⟩) fuel)
    (whileLoop (fun f => pointerLeft pos change.x f && pointerDown pos change.y f)
      (dragStep ⟨-change.x, 0⟩ ⟨change.x, change.y⟩ ⟨-change.x, change.y⟩) fuel)

/-- The choice among the four corners (Form.cpp 421-498) for a given `change`. -/
def cornerDispatch (fuel : Nat) (pos change : Vector2f) (square : Fin 8) (f : DragFrame) :
    Except DragError DragFrame :=
  if square = 0 then topLeftLoops fuel pos change f
  else if square = 2 then topRightLoops fuel pos change f
  else if square = 4 then bottomRightLoops fuel pos change f
  else if square = 6 then bottomLeftLoops fuel pos change f
  else .ok f

/-- The `else // Corner` branch (Form.cpp 411-499): `ratio` reads the size of
`m_selectedWidget` before any loop (a division by a zero width is not modelled). -/
def cornerLoops (fuel : Nat) (pos : Vector2f) (square : Fin 8) (f : DragFrame) :
    Except DragError DragFrame :=
  match f.form.m_selectedWidget with
  | none => .error .nullPointer
  | some w => cornerDispatch fuel pos (cornerChange (f.form.heap w).size) square f

/-- The block under `if (m_draggingSelectionSquare)` (Form.cpp 341-500). -/
def squareLoops (fuel : Nat) (pos : Vector2f) (f : DragFrame) : Except DragError DragFrame :=
  match f.form.m_draggingSelectionSquare with
  | none => .ok f
  | some square =>
    if square = 1 then topLoops fuel pos f
    else if square = 3 then rightLoops fuel pos f
    else if square = 5 then bottomLoops fuel pos f
    else if square = 7 then leftLoops fuel pos f
    else cornerLoops fuel pos square f

/-- The pointer `pos` of `onDrag` in form coordinates (Form.cpp 305). -/
def dragPointer (s : FormState) (mousePos : Vector2i) : Vector2f :=
  ⟨(mousePos.x : ℚ) - s.windowPosition.x - s.childWidgetsOffset.x + s.contentOffset.x,
    (mousePos.y : ℚ) - s.windowPosition.y - s.childWidgetsOffset.y + s.contentOffset.y⟩

/-- All loops of `onDrag` (Form.cpp 308-500), started with `updated = false`. -/
def onDragLoops (fuel : Nat) (pos : Vector2f) (s : FormState) : Except DragError DragFrame :=
  andThen (fun f => if f.form.m_draggingWidget = true then moveLoops fuel pos f else .ok f)
    (squareLoops fuel pos) ⟨s, false⟩

/-- The block under `if (updated)` (Form.cpp 502-507). -/
def afterDrag (f : DragFrame) : Except DragError FormState :=
  if f.updated = true then
    (updateSelectionSquarePositions (setChanged f.form true)).map fun s =>
      { s with reloadPropertiesCalls := s.reloadPropertiesCalls + 1 }
  else
    .ok f.form

/-- Method `Form::onDrag` (Form.cpp 303-508). -/
def onDrag (fuel : Nat) (s : FormState) (mousePos : Vector2i) : Except DragError FormState :=
  (onDragLoops fuel (dragPointer s mousePos) s).bind afterDrag

/-- Method `Form::mouseMoved` (Form.cpp 175-179). -/
def mouseMoved (fuel : Nat) (s : FormState) (pos : Vector2i) : Except DragError FormState :=
  if s.m_draggingWidget = true ∨ s.m_draggingSelectionSquare ≠ none then onDrag fuel s pos
  else .ok s

/-- Quotient of `q` by one, rounded toward zero. -/
def truncate (q : ℚ) : ℤ := if 0 ≤ q then ⌊q⌋ else ⌈q⌉

/-! ### The widget map, `addWidget`, `removeWidget`, `load` and `save` -/

/-- What `Form` reads from outside Form.cpp: `ptrToString widget` is the id
`tgui::to_string(widget.get())`, `stoi` is `tgui::stoi` (declared to return an `int`),
`loadWidgetsFromFile filename container` is the container after
`m_widgetsContainer->loadWidgetsFromFile(filename)`. None of them is under src/. -/
structure FormEnv where
  ptrToString : WidgetPtr → String
  stoi : String → Int
  loadWidgetsFromFile : String → Container → Container

/-- The value `m_widgets[id]` of the `std::map`: a null pointer when the key is absent. -/
def widgetAt (m : List (String × Option WidgetPtr)) (id : String) : Option WidgetPtr :=
  match m.find? (fun e => decide (e.1 = id)) with
  | some e => e.2
  | none => none

/-- The map after the expression `m_widgets[id]` was evaluated: an absent key is inserted with a
null pointer. -/
def indexWidgets (m : List (String × Option WidgetPtr)) (id : String) :
    List (String × Option WidgetPtr) :=
  if m.any (fun e => decide (e.1 = id)) = true then m else m ++ [(id, none)]

/-- The map after `m_widgets[id] = widget`. -/
def assignWidget (m : List (String × Option WidgetPtr)) (id : String)
    (widget : Option WidgetPtr) : List (String × Option WidgetPtr) :=
  if m.any (fun e => decide (e.1 = id)) = true then
    m.map fun e => if e.1 = id then (id, widget) else e
  else
    m ++ [(id, widget)]

/-- The map after `m_widgets.erase(id)`. -/
def eraseWidgetId (m : List (String × Option WidgetPtr)) (id : String) :
    List (String × Option WidgetPtr) :=
  m.filter fun e => decide (e.1 ≠ id)

/-- The constructor `Form::Form` (Form.cpp 31-61) as far as it sets the members of the state:
`initial` holds the members as they are when the body starts (their initialisers are in
Form.hpp, not under src/) and the buttons as `tgui::Button::create()` returns them;
`squareSize` is the image size of the texture of the selection square theme. -/
def create (initial : FormState) (filename : String) (squareSize : Vector2f) : FormState :=
  { initial with
    m_filename := filename
    m_widgets := assignWidget initial.m_widgets "form" none
    title := filename
    m_selectionSquares := fun i =>
      { initial.m_selectionSquares i with size := squareSize, visible := false } }

/-- Method `Form::addWidget` (Form.cpp 65-76): the new state and the returned name;
`tgui::to_string` of the counter prints its decimal digits. -/
def addWidget (env : FormEnv) (s : FormState) (widget : WidgetPtr) : FormState × String :=
  let id := env.ptrToString widget
  let s := { s with m_widgets := assignWidget s.m_widgets id (some widget) }
  let s := { s with m_idCounter := uadd s.m_idCounter 1 }
  let name := "Widget" ++ toString s.m_idCounter
  let s := { s with container := s.container.add widget name }
  let s := selectWidget s (some widget)
  (setChanged s true, name)

/-- Method `Form::removeWidget` (Form.cpp 80-88); `remove` of a null pointer finds no child. -/
def removeWidget (s : FormState) (id : String) : FormState :=
  let widget := widgetAt s.m_widgets id
  let s := { s with m_widgets := eraseWidgetId s.m_widgets id }
  let s :=
    match widget with
    | some w => { s with container := s.container.remove w }
    | none => s
  setChanged s true

/-- Method `Form::selectWidgetById` (Form.cpp 153-156). -/
def selectWidgetById (s : FormState) (id : String) : FormState :=
  let widget := widgetAt s.m_widgets id
  let s := { s with m_widgets := indexWidgets s.m_widgets id }
  selectWidget s widget

/-- Method `Form::setFilename` (Form.cpp 191-195). -/
def setFilename (s : FormState) (filename : String) : FormState :=
  let s := { s with m_filename := filename }
  setChanged s s.m_changed

/-- Method `Form::getFilename` (Form.cpp 199-202). -/
def getFilename (s : FormState) : String := s.m_filename

/-- Method `Form::save` (Form.cpp 266-270); `saveWidgetsToFile` writes a file and leaves the
form as it is. -/
def save (s : FormState) : FormState := setChanged s false

/-- Conversion of an `int` to `unsigned int`, as in `std::max<unsigned int>(m_idCounter, ...)`. -/
def intToUnsigned (z : Int) : Nat := Int.toNat (z % (uintSize : Int))

/-- The test of `load` for a default name (Form.cpp 255 and 258): at least 7 characters, the
first six are `Widget`, the others are digits. -/
def isDefaultName (name : String) : Bool :=
  decide (name.length ≥ 7) && decide (name.take 6 = "Widget") &&
    (name.drop 6).toList.all Char.isDigit

/-- One pass of the loop of `load` (Form.cpp 251-260) for the widget and name of `entry`. -/
def loadStep (env : FormEnv) (s : FormState) (entry : WidgetPtr × String) : FormState :=
  let s := { s with
    m_widgets := assignWidget s.m_widgets (env.ptrToString entry.1) (some entry.1) }
  if entry.2.length ≥ 7 ∧ entry.2.take 6 = "Widget" then
    let potentialNumber := entry.2.drop 6
    if potentialNumber.toList.all Char.isDigit = true then
      { s with m_idCounter := max s.m_idCounter (intToUnsigned (env.stoi potentialNumber)) }
    else
      s
  else
    s

/-- Method `Form::load` (Form.cpp 243-262). -/
def load (env : FormEnv) (s : FormState) : FormState :=
  let s := { s with container := env.loadWidgetsFromFile (getFilename s) s.container }
  s.container.entries.foldl (loadStep env) s

end Form

/-! ## ListBox (spec section 4.4, `src/tests/Widgets/ListBox.cpp`) -/

/-- Modelled from the spec: an item of a list box, a pair (displayText, id); the id is the empty
string when `addItem` is called without one. -/
structure ListBoxItem where
  text : String
  id : String
deriving DecidableEq

/-- Modelled from the spec: the state of a `tgui::ListBox` as far as the item operations read or
write it. `m_selectedItem` is the selected index, or -1 when no item is selected; `m_maxItems` is
the maximum item count, 0 when there is no limit (ListBox.hpp 429-430); `m_scroll` tells whether
a scroll capability is configured, and `itemFits count` whether one more item fits within the
visible height of a list box that holds `count` items. -/
structure ListBox where
  m_items : List ListBoxItem
  m_selectedItem : Int
  m_maxItems : Nat
  m_scroll : Bool
  itemFits : Nat → Bool

namespace ListBox

/-- Modelled from the spec: the index of the first item that satisfies `p`. -/
def firstIndex (p : ListBoxItem → Bool) : List ListBoxItem → Option Nat
  | [] => none
  | item :: rest => if p item = true then some 0 else (firstIndex p rest).map (· + 1)

/-- Modelled from the spec: the items with the text of the item at `index` replaced, id and
position preserved. -/
def setText (text : String) : Nat → List ListBoxItem → List ListBoxItem
  | _, [] => []
  | 0, item :: rest => { item with text := text } :: rest
  | index + 1, item :: rest => item :: setText text index rest

/-- Modelled from the spec: `getItemCount()`. -/
def getItemCount (lb : ListBox) : Nat := lb.m_items.length

/-- Modelled from the spec: `getItems()`, the texts of the items in order. -/
def getItems (lb : ListBox) : List String := lb.m_items.map fun item => item.text

/-- Modelled from the spec: `addItem(text, id)` fails without a change when the list box is at
capacity (a maximum is set and reached) or, with no scroll capability, when the item would not
fit within the visible height; otherwise the item is appended. -/
def addItem (lb : ListBox) (text id : String) : ListBox × Bool :=
  if lb.m_maxItems > 0 ∧ lb.m_items.length ≥ lb.m_maxItems then
    (lb, false)
  else if lb.m_scroll = false ∧ lb.itemFits lb.m_items.length = false then
    (lb, false)
  else
    ({ lb with m_items := lb.m_items ++ [⟨text, id⟩] }, true)

/-- Modelled from the spec: `deselectItem()`. -/
def deselectItem (lb : ListBox) : ListBox := { lb with m_selectedItem := -1 }

/-- Modelled from the spec: `removeItemByIndex(index)` fails if `index ≥ count`, else erases the
item at `index`. The spec says nothing on the selection here: the selection follows its item,
and is cleared when the selected item is the one erased. -/
def removeItemByIndex (lb : ListBox) (index : Nat) : ListBox × Bool :=
  if index < lb.m_items.length then
    ({ lb with
        m_items := lb.m_items.eraseIdx index
        m_selectedItem :=
          if lb.m_selectedItem = (index : Int) then -1
          else if lb.m_selectedItem > (index : Int) then lb.m_selectedItem - 1
          else lb.m_selectedItem }, true)
  else
    (lb, false)

/-- Modelled from the spec: `removeItem(text)` removes the first item whose text matches
exactly. -/
def removeItem (lb : ListBox) (text : String) : ListBox × Bool :=
  match firstIndex (fun item => decide (item.text = text)) lb.m_items with
  | some index => lb.removeItemByIndex index
  | none => (lb, false)

/-- Modelled from the spec: `removeItemById(id)` removes the first match by id. -/
def removeItemById (lb : ListBox) (id : String) : ListBox × Bool :=
  match firstIndex (fun item => decide (item.id = id)) lb.m_items with
  | some index => lb.removeItemByIndex index
  | none => (lb, false)

/-- Modelled from the spec: `removeAllItems()`. -/
def removeAllItems (lb : ListBox) : ListBox := { lb with m_items := [], m_selectedItem := -1 }

/-- Modelled from the spec: `changeItemByIndex(index, newText)` mutates the text in place,
preserving id and position, and fails if `index ≥ count`. -/
def changeItemByIndex (lb : ListBox) (index : Nat) (newText : String) : ListBox × Bool :=
  if index < lb.m_items.length then
    ({ lb with m_items := setText newText index lb.m_items }, true)
  else
    (lb, false)

/-- Modelled from the spec: `changeItem(originalText, newText)`. -/
def changeItem (lb : ListBox) (originalText newText : String) : ListBox × Bool :=
  match firstIndex (fun item => decide (item.text = originalText)) lb.m_items with
  | some index => lb.changeItemByIndex index newText
  | none => (lb, false)

/-- Modelled from the spec: `changeItemById(id, newText)`. -/
def changeItemById (lb : ListBox) (id newText : String) : ListBox × Bool :=
  match firstIndex (fun item => decide (item.id = id)) lb.m_items with
  | some index => lb.changeItemByIndex index newText
  | none => (lb, false)

/-- Modelled from the spec: `setSelectedItemByIndex(index)` selects the item at `index`. On
failure (`index ≥ count`) it returns false; the spec says that the selection is then left
unchanged, but the test `Selecting items` (tests/Widgets/ListBox.cpp 211-219) requires
`getSelectedItemIndex() == -1` after a failed call on a list box with a selected item, so the
selection is cleared here. -/
def setSelectedItemByIndex (lb : ListBox) (index : Nat) : ListBox × Bool :=
  if index < lb.m_items.length then
    ({ lb with m_selectedItem := (index : Int) }, true)
  else
    (lb.deselectItem, false)

/-- Modelled from the spec: `setSelectedItem(text)` selects the first item whose text matches;
a failed call returns false and leaves the selection unchanged (sections 4.4 and 8 of the spec;
the test `Selecting items` makes its failed call, lines 204-205, with no item selected, where
the two readings agree). -/
def setSelectedItem (lb : ListBox) (text : String) : ListBox × Bool :=
  match firstIndex (fun item => decide (item.text = text)) lb.m_items with
  | some index => lb.setSelectedItemByIndex index
  | none => (lb, false)

/-- Modelled from the spec: `setSelectedItemById(id)` selects the first item with this id; a
failed call returns false and clears the selection: the spec says that the selection is left
unchanged, but the test `Selecting items` (tests/Widgets/ListBox.cpp 211-212) requires
`getSelectedItemIndex() == -1` after a failed call on a list box with a selected item. -/
def setSelectedItemById (lb : ListBox) (id : String) : ListBox × Bool :=
  match firstIndex (fun item => decide (item.id = id)) lb.m_items with
  | some index => lb.setSelectedItemByIndex index
  | none => (lb.deselectItem, false)

/-- Modelled from the spec: the selected item, if any. -/
def selectedEntry (lb : ListBox) : Option ListBoxItem :=
  if lb.m_selectedItem < 0 then none else lb.m_items[lb.m_selectedItem.toNat]?

/-- Modelled from the spec: `getSelectedItem()`, the empty string when no item is selected. -/
def getSelectedItem (lb : ListBox) : String :=
  match lb.selectedEntry with
  | some item => item.text
  | none => ""

/-- Modelled from the spec: `getSelectedItemId()`, the empty string when no item is selected. -/
def getSelectedItemId (lb : ListBox) : String :=
  match lb.selectedEntry with
  | some item => item.id
  | none => ""

/-- Modelled from the spec: `getSelectedItemIndex()`, -1 when no item is selected. -/
def getSelectedItemIndex (lb : ListBox) : Int := lb.m_selectedItem

/-- Modelled from the spec: `getItemById(id)`, the text of the first item with this id, the
empty string without one. -/
def getItemById (lb : ListBox) (id : String) : String :=
  match lb.m_items.find? (fun item => decide (item.id = id)) with
  | some item => item.text
  | none => ""

/-- Modelled from the spec: `setMaximumItems(n)`: if the current count exceeds `n`, truncate to
the first `n` items and clear a selection that was truncated away; 0 removes the limit. -/
def setMaximumItems (lb : ListBox) (maximumItems : Nat) : ListBox :=
  let lb := { lb with m_maxItems := maximumItems }
  if maximumItems > 0 ∧ maximumItems < lb.m_items.length then
    { lb with
      m_items := lb.m_items.take maximumItems
      m_selectedItem :=
        if lb.m_selectedItem ≥ (maximumItems : Int) then -1 else lb.m_selectedItem }
  else
    lb

end ListBox

/-! ## Specification helpers and sample states -/

/-- The pair of a widget after the selected widget `w` was renamed to `name`. -/
def renameEntry (w : WidgetPtr) (name : String) (e : WidgetPtr × String) : WidgetPtr × String :=
  if e.1 = w then (e.1, name) else e


namespace Scrollbar

/-- The scaled arrow length `m_TextureArrowNormal->getSize().y * scaling * curScale` that
`mouseMoved` computes (`arrowHeight`, `arrowWidth`). -/
def arrowLength (s : Scrollbar) : ℚ :=
  if s.m_VerticalScroll = true then
    (s.arrowTextureSize.y : ℚ) * s.scalingX * s.scale.y
  else
    (s.arrowTextureSize.y : ℚ) * s.scalingY * s.scale.x

/-- The scaled length of the bar along the scroll direction. -/
def barLength (s : Scrollbar) : ℚ :=
  if s.m_VerticalScroll = true then s.m_Size.y * s.scale.y else s.m_Size.x * s.scale.x

/-- The offset of the point from the start of the bar along the scroll direction. -/
def barOffset (s : Scrollbar) (x y : ℚ) : ℚ :=
  if s.m_VerticalScroll = true then y - s.position.y else x - s.position.x

/-- The point lies on the track: after the first arrow and not after the start of the second
one (the two tests of `mouseMoved` before a track click is handled). -/
def onTrack (s : Scrollbar) (x y : ℚ) : Prop :=
  s.barOffset x y > s.arrowLength ∧ s.barOffset x y ≤ s.barLength - s.arrowLength

/-- The content coordinate of a track click:
(offset into the track / track length) * maximum. -/
def trackCoordinate (s : Scrollbar) (x y : ℚ) : ℚ :=
  (s.barOffset x y - s.arrowLength) / (s.barLength - 2 * s.arrowLength) * (s.m_Maximum : ℚ)

/-- Specification: the value asked for by the gentle scroll rule at content coordinate `c`,
before the clamp to `maximum - lowValue`. -/
def gentleTarget (s : Scrollbar) (c : ℚ) : Nat :=
  if c ≤ (s.m_Value : ℚ) then
    if c ≥ (s.m_LowValue : ℚ) / 3 then Int.toNat ⌊c - (s.m_LowValue : ℚ) / 3 + 1 / 2⌋ else 0
  else
    if c ≤ ((s.m_Maximum - s.m_LowValue : Nat) : ℚ) + 2 * (s.m_LowValue : ℚ) / 3 then
      Int.toNat ⌊c - 2 * (s.m_LowValue : ℚ) / 3 + 1 / 2⌋
    else
      s.m_Maximum - s.m_LowValue

/-- The layout test of `mouseOnObject` and `draw`: the arrows are drawn at full size. -/
def drawnFullSize (s : Scrollbar) : Prop :=
  if s.m_VerticalScroll = true then
    s.m_Size.y > s.twiceArrow * s.scalingX
  else
    s.m_Size.x > s.twiceArrow * s.scalingY

/-- The point lies in the first half of the scaled bar. -/
def inFirstHalf (s : Scrollbar) (x y : ℚ) : Prop :=
  s.barOffset x y < s.barLength / 2

instance (s : Scrollbar) (x y : ℚ) : Decidable (inFirstHalf s x y) := by
  unfold inFirstHalf; infer_instance

/-- The length of one arrow inside the bar, before the scale of the widget is applied: the
arrow texture height times the scaling of the bar. -/
def layoutArrowLength (s : Scrollbar) : ℚ :=
  (s.arrowTextureSize.y : ℚ) * (if s.m_VerticalScroll = true then s.scalingX else s.scalingY)

/-- Specification: the track length `T = bar length - 2 * scaled arrow length`. -/
def specTrackLength (s : Scrollbar) : ℚ :=
  (if s.m_VerticalScroll = true then s.m_Size.y else s.m_Size.x) - 2 * s.layoutArrowLength

/-- Specification: the thumb length `(lowValue / maximum) * T`. -/
def specThumbLength (s : Scrollbar) : ℚ :=
  (s.m_LowValue : ℚ) / (s.m_Maximum : ℚ) * s.specTrackLength

/-- Specification: the thumb offset `(value / (maximum - lowValue)) * (T - thumbLength)` after
the first arrow. -/
def specThumbOffset (s : Scrollbar) : ℚ :=
  (s.m_Value : ℚ) / (((s.m_Maximum - s.m_LowValue : Nat)) : ℚ)
    * (s.specTrackLength - s.specThumbLength)

/-- Specification: the rectangle of the thumb on the screen, built from the thumb length and
offset above: the thumb lies `layoutArrowLength + specThumbOffset` after the start of the bar,
and every length is multiplied by the scale of the widget. -/
def specThumbRect (s : Scrollbar) : FloatRect :=
  if s.m_VerticalScroll = true then
    ⟨s.position.x, s.position.y + (s.layoutArrowLength + s.specThumbOffset) * s.scale.y,
      s.m_ThumbSize.x * s.scale.x, s.specThumbLength * s.scale.y⟩
  else
    ⟨s.position.x + (s.layoutArrowLength + s.specThumbOffset) * s.scale.x, s.position.y,
      s.specThumbLength * s.scale.x, s.m_ThumbSize.y * s.scale.y⟩

/-- The point `p` mapped by one factor of an `sf::Transform` product (SFML): the transform of
the widget, a scaling, a translation, or a rotation about a centre. Only the quarter turns by 90
and -90 degrees, the angles that `draw` uses, are given a value. -/
def TransformOp.apply : TransformOp → Vector2f → Option Vector2f
  | .object origin factor, p => some ⟨origin.x + factor.x * p.x, origin.y + factor.y * p.y⟩
  | .scale x y, p => some ⟨x * p.x, y * p.y⟩
  | .translate x y, p => some ⟨p.x + x, p.y + y⟩
  | .rotate angle centreX centreY, p =>
    if angle = 90 then some ⟨centreX + centreY - p.y, p.x + centreY - centreX⟩
    else if angle = -90 then some ⟨p.y + centreX - centreY, centreX + centreY - p.x⟩
    else none

/-- The point `p` mapped by a product of factors: the factor that was combined last acts
first. -/
def transformPoint (ops : List TransformOp) (p : Vector2f) : Option Vector2f :=
  ops.foldr (fun op acc => acc.bind op.apply) (some p)

/-- The scaling of the arrows and the thumb in `draw`: `scaling.x` of a vertical scrollbar,
`scaling.y` of a horizontal one. -/
def drawScaling (s : Scrollbar) : ℚ :=
  if s.m_VerticalScroll = true then s.scalingX else s.scalingY

/-- The real track length of `draw` and `mouseOnObject` in the full-size layout. -/
def realTrack (s : Scrollbar) : ℚ :=
  (if s.m_VerticalScroll = true then s.m_Size.y else s.m_Size.x) - s.twiceArrow * s.drawScaling

/-- The factors that `draw` combines, after the transform of the widget, for the thumb in the
full-size layout (Scrollbar.cpp 745-775 and 828-861). -/
def drawThumbOps (s : Scrollbar) : List TransformOp :=
  let thumbLength := if s.m_VerticalScroll = true then s.m_ThumbSize.y else s.m_ThumbSize.x
  let arrow : List TransformOp :=
    if s.m_VerticalScroll = true then
      [TransformOp.scale s.drawScaling s.drawScaling]
    else
      [TransformOp.scale s.drawScaling s.drawScaling,
        TransformOp.rotate (-90) ((s.arrowTextureSize.x : ℚ) * (1 / 2))
          ((s.arrowTextureSize.x : ℚ) * (1 / 2))]
  if s.m_VerticalImage = true then
    arrow ++ [TransformOp.translate 0 (drawThumbTranslation s s.realTrack s.drawScaling),
      TransformOp.scale 1 (drawThumbScale s s.realTrack thumbLength)]
  else
    arrow ++ [TransformOp.rotate 90 ((s.thumbTextureSize.y : ℚ) * (1 / 2))
        ((s.thumbTextureSize.y : ℚ) * (1 / 2)),
      TransformOp.translate (drawThumbTranslation s s.realTrack s.drawScaling) 0,
      TransformOp.scale (drawThumbScale s s.realTrack thumbLength) 1]

/-- The coordinate of a point along the scroll direction. -/
def alongBar (s : Scrollbar) (p : Vector2f) : ℚ :=
  if s.m_VerticalScroll = true then p.y else p.x

/-- The start of the thumb that `mouseOnObject` computes (`thumbTop` or `thumbLeft`). -/
def thumbStart (s : Scrollbar) : ℚ :=
  if s.m_VerticalScroll = true then s.thumbRegion.thumbTop else s.thumbRegion.thumbLeft

/-- The length of the thumb that `mouseOnObject` computes (`thumbHeight` or `thumbWidth`). -/
def thumbExtent (s : Scrollbar) : ℚ :=
  if s.m_VerticalScroll = true then s.thumbRegion.thumbHeight else s.thumbRegion.thumbWidth

/-- The scale of the widget along the scroll direction. -/
def scaleAlongBar (s : Scrollbar) : ℚ :=
  if s.m_VerticalScroll = true then s.scale.y else s.scale.x

/-- The value is in range: `value ≤ maximum - lowValue`. -/
def InRange (s : Scrollbar) : Prop := s.m_Value ≤ s.m_Maximum - s.m_LowValue

/-- The state `t` has the maximum and the low value of `s` and a value in their range. -/
def KeepsRange (s t : Scrollbar) : Prop :=
  t.m_Value ≤ s.m_Maximum - s.m_LowValue ∧ t.m_Maximum = s.m_Maximum ∧
    t.m_LowValue = s.m_LowValue

/-- The pathname that `load` stores in `m_LoadedPathname` (Scrollbar.cpp 108-112). -/
def storedPathname (pathname : String) : String :=
  if pathname.back ≠ '/' then pathname.push '/' else pathname

/-- The value of the local `imageExtension` of `load` after the info file was read: the value
of the last `extension` property, `png` without one. -/
def readExtension (properties : List (String × String)) : String :=
  properties.foldl (fun extension entry => if entry.1 = "extension" then entry.2 else extension)
    "png"

end Scrollbar

namespace ListBox

/-- One call of an item operation of a list box. -/
inductive Op where
  | addItem (text id : String)
  | removeItem (text : String)
  | removeItemById (id : String)
  | removeItemByIndex (index : Nat)
  | changeItem (originalText newText : String)
  | changeItemById (id newText : String)
  | changeItemByIndex (index : Nat) (newText : String)

/-- The call `op` on the list box: the new state and the returned flag. -/
def Op.apply (lb : ListBox) : Op → ListBox × Bool
  | .addItem text id => lb.addItem text id
  | .removeItem text => lb.removeItem text
  | .removeItemById id => lb.removeItemById id
  | .removeItemByIndex index => lb.removeItemByIndex index
  | .changeItem originalText newText => lb.changeItem originalText newText
  | .changeItemById id newText => lb.changeItemById id newText
  | .changeItemByIndex index newText => lb.changeItemByIndex index newText

/-- The call is one of the `changeItem` variants. -/
def Op.isChange : Op → Bool
  | .changeItem _ _ => true
  | .changeItemById _ _ => true
  | .changeItemByIndex _ _ => true
  | _ => false

/-- A list box together with the record of the calls made on it: `added` holds the items of
the successful `addItem` calls in call order, `removes` counts the successful remove calls, and
`stamps` gives for every item of the list box, in order, the position in `added` of the call
that inserted it. -/
structure Trace where
  box : ListBox
  added : List ListBoxItem
  removes : Nat
  stamps : List Nat

/-- The record after a remove call with result `result` that looked at the item at `index`:
a returned true is counted, and the stamp of the erased item is dropped. -/
def Trace.removal (t : Trace) (result : ListBox × Bool) (index : Option Nat) : Trace :=
  { box := result.1
    added := t.added
    removes := if result.2 = true then t.removes + 1 else t.removes
    stamps :=
      match index with
      | some i => t.stamps.eraseIdx i
      | none => t.stamps }

/-- The record after one more call. -/
def Trace.step (t : Trace) : Op → Trace
  | .addItem text id =>
    if (t.box.addItem text id).2 = true then
      { box := (t.box.addItem text id).1
        added := t.added ++ [⟨text, id⟩]
        removes := t.removes
        stamps := t.stamps ++ [t.added.length] }
    else
      { t with box := (t.box.addItem text id).1 }
  | .removeItem text =>
    t.removal (t.box.removeItem text)
      (firstIndex (fun item => decide (item.text = text)) t.box.m_items)
  | .removeItemById id =>
    t.removal (t.box.removeItemById id)
      (firstIndex (fun item => decide (item.id = id)) t.box.m_items)
  | .removeItemByIndex index =>
    t.removal (t.box.removeItemByIndex index)
      (if index < t.box.m_items.length then some index else none)
  | .changeItem originalText newText =>
    { t with box := (t.box.changeItem originalText newText).1 }
  | .changeItemById id newText =>
    { t with box := (t.box.changeItemById id newText).1 }
  | .changeItemByIndex index newText =>
    { t with box := (t.box.changeItemByIndex index newText).1 }

/-- The record of a sequence of calls on the list box `lb`. -/
def runOps (lb : ListBox) (ops : List Op) : Trace :=
  ops.foldl Trace.step ⟨lb, [], 0, []⟩

/-- The item with stamp `stamp` is the item of that successful `addItem` call: same id, and
same text when `exact` is set. -/
def Trace.Tagged (exact : Bool) (added : List ListBoxItem) (item : ListBoxItem) (stamp : Nat) :
    Prop :=
  ∃ a, added[stamp]? = some a ∧ item.id = a.id ∧ (exact = true → item.text = a.text)

/-- The record is consistent: count plus removes is the number of adds, the stamps increase,
and every item carries the id of the call that inserted it. -/
def Trace.Inv (exact : Bool) (t : Trace) : Prop :=
  t.box.m_items.length + t.removes = t.added.length ∧
    t.stamps.Pairwise (fun a b => a < b) ∧
    (∀ k ∈ t.stamps, k < t.added.length) ∧
    List.Forall₂ (Trace.Tagged exact t.added) t.box.m_items t.stamps

end ListBox

/-- The empty list box of the tests: no maximum, with a scroll capability. -/
def testListBox : ListBox where
  m_items := []
  m_selectedItem := -1
  m_maxItems := 0
  m_scroll := true
  itemFits := fun _ => true

/-- The list box of the tests after `addItem("Item 1", "1")`, `addItem("Item 2", "2")` and
`addItem("Item 3", "3")`. -/
def threeItemListBox : ListBox :=
  (((testListBox.addItem "Item 1" "1").1.addItem "Item 2" "2").1.addItem "Item 3" "3").1

/-- The list box `threeItemListBox` after `setSelectedItem("Item 1")`: index 0 is selected. -/
def selectedListBox : ListBox := (threeItemListBox.setSelectedItem "Item 1").1

/-- The calls of the section `Removing items` of the test up to the last `removeItemById`,
followed by a `changeItem` of the surviving item. -/
def removingOps : List ListBox.Op :=
  [.addItem "Item 1" "1", .addItem "Item 2" "2", .addItem "Item 3" "3", .removeItem "Item 0",
    .removeItem "Item 2", .addItem "Item 4" "4", .removeItemByIndex 3, .removeItemByIndex 0,
    .removeItemById "2", .removeItemById "4", .changeItem "Item 3" "Item 30"]

/-- The list box of the tests after `addItem` of `Item 1` to `Item 5` without ids. -/
def fiveItemListBox : ListBox :=
  (((((testListBox.addItem "Item 1" "").1.addItem "Item 2" "").1.addItem "Item 3" "").1.addItem
    "Item 4" "").1.addItem "Item 5" "").1

/-- A vertical scrollbar of size 10 x 30 with 10 x 20 arrows, drawn at scale (1, 2):
maximum 10, low value 2, value 8. -/
def tallScrollbar : Scrollbar where
  m_Loaded := true
  autoHide := true
  m_Maximum := 10
  m_LowValue := 2
  m_Value := 8
  m_MouseDown := false
  m_MouseDownOnArrow := false
  m_MouseDownOnThumb := false
  m_MouseDownOnThumbPos := ⟨0, 0⟩
  m_MouseHover := false
  m_VerticalScroll := true
  m_VerticalImage := true
  m_Size := ⟨10, 30⟩
  m_ThumbSize := ⟨10, 10⟩
  position := ⟨0, 0⟩
  scale := ⟨1, 2⟩
  trackTextureSize := ⟨10, 30⟩
  arrowTextureSize := ⟨10, 20⟩
  callbackID := 0
  callbacks := []
  thumbTextureSize := ⟨10, 10⟩
  m_ObjectPhase := 1
  m_LoadedPathname := "widgets/Scrollbar/"

/-- The scrollbar `tallScrollbar` with content that fits: maximum 2, low value 2, value 0. -/
def fittingScrollbar : Scrollbar := { tallScrollbar with m_Maximum := 2, m_Value := 0 }

/-- A theme directory with no info file. -/
def emptyTheme : Scrollbar.LoadEnv where
  openFile := fun _ => none
  getTexture := fun _ => none
  extractPhases := fun _ => 0
  objectPhaseHover := 2

/-- A theme directory whose info file sets the extension `jpg` and that holds no texture. -/
def bareTheme : Scrollbar.LoadEnv where
  openFile := fun _ => some [("extension", "jpg")]
  getTexture := fun _ => none
  extractPhases := fun _ => 0
  objectPhaseHover := 2

/-- A theme directory with an empty info file and every normal texture: the track is 10 x 30,
every other texture 10 x 10; hover textures are not asked for. -/
def plainTheme : Scrollbar.LoadEnv where
  openFile := fun _ => some []
  getTexture := fun path => if path = "theme/Track_Normal.png" then some ⟨10, 30⟩ else some ⟨10, 10⟩
  extractPhases := fun _ => 0
  objectPhaseHover := 2

/-- The scrollbar `tallScrollbar` scrolled to the top (value 0). -/
def topScrollbar : Scrollbar := { tallScrollbar with m_Value := 0 }

/-- A vertical scrollbar of size 10 x 50 with 10 x 20 arrows, drawn at scale (1, 1/2):
maximum 10, low value 2, value 3. -/
def shrunkScrollbar : Scrollbar :=
  { tallScrollbar with
    m_Size := ⟨10, 50⟩, scale := ⟨1, 1 / 2⟩, trackTextureSize := ⟨10, 50⟩, m_Value := 3 }

/-- A vertical scrollbar of size 10 x 50 with 10 x 20 arrows at scale (1, 1), so with a track
from 20 to 30: maximum 10, low value 2, value 3, the mouse button down on the track. -/
def pressedScrollbar : Scrollbar :=
  { shrunkScrollbar with scale := ⟨1, 1⟩, m_MouseDown := true }

/-- The scrollbar `pressedScrollbar` with a low value above the maximum: maximum 10, low value
20, value 8, `autoHide` set, the mouse button down on the track. -/
def overfullScrollbar : Scrollbar :=
  { pressedScrollbar with m_LowValue := 20, m_Value := 8 }

/-- A horizontal scrollbar of size 50 x 10 drawn from a vertical image (track texture 10 x 50,
arrows 10 x 20) at scale (1, 1): maximum 10, low value 2, value 3. -/
def wideScrollbar : Scrollbar :=
  { pressedScrollbar with m_VerticalScroll := false, m_Size := ⟨50, 10⟩, m_MouseDown := false }

namespace Form

/-- The vector `v` taken `k` times. -/
def scaled (k : ℤ) (v : Vector2f) : Vector2f := ⟨(k : ℚ) * v.x, (k : ℚ) * v.y⟩

/-- The frame `f` after the selected widget `w` was moved by `P` and resized by `S`, the drag
anchor advanced by `A`, and `updated` set when `u` holds. -/
def moved (w : WidgetPtr) (P S A : Vector2f) (u : Bool) (f : DragFrame) : DragFrame :=
  { form := { f.form with
      heap := Function.update f.form.heap w
        ⟨⟨(f.form.heap w).position.x + P.x, (f.form.heap w).position.y + P.y⟩,
          ⟨(f.form.heap w).size.x + S.x, (f.form.heap w).size.y + S.y⟩⟩
      m_draggingPos := ⟨f.form.m_draggingPos.x + A.x, f.form.m_draggingPos.y + A.y⟩ }
    updated := f.updated || u }

/-- The frame `f` after `k` iterations of a loop whose body is `dragStep dp ds da` (for a
negative `k`: after `-k` iterations of the loop with the opposite body). -/
def movedBy (w : WidgetPtr) (dp ds da : Vector2f) (k : ℤ) (f : DragFrame) : DragFrame :=
  moved w (scaled k dp) (scaled k ds) (scaled k da) (decide (k ≠ 0)) f

end Form

/-- A form with two overlapping widgets: widget 1 at (0, 0) and widget 2 at (50, 20), both of
size 100 x 50, added in this order; widget 1 is selected. -/
def twoWidgetForm : FormState where
  heap := fun w => if w = 1 then ⟨⟨0, 0⟩, ⟨100, 50⟩⟩ else ⟨⟨50, 20⟩, ⟨100, 50⟩⟩
  container := ⟨[(1, "Widget1"), (2, "Widget2")]⟩
  m_widgets := [("1", some 1), ("2", some 2), ("form", none)]
  m_idCounter := 2
  m_selectedWidget := some 1
  m_selectionSquares := fun _ => ⟨⟨0, 0⟩, ⟨6, 6⟩, true⟩
  m_draggingWidget := false
  m_draggingSelectionSquare := none
  m_draggingPos := ⟨0, 0⟩
  m_changed := false
  m_filename := "form.txt"
  title := "form.txt"
  windowPosition := ⟨0, 0⟩
  childWidgetsOffset := ⟨0, 0⟩
  contentOffset := ⟨0, 0⟩
  reloadPropertiesCalls := 0
  widgetSelectedCalls := []

namespace Form

/-- The eight selection squares are shown when a widget is selected and hidden when none is. -/
def HandlesMatchSelection (s : FormState) : Prop :=
  (s.m_selectedWidget ≠ none → ∀ i, (s.m_selectionSquares i).visible = true) ∧
    (s.m_selectedWidget = none → ∀ i, (s.m_selectionSquares i).visible = false)

/-- One call that can change the selection of a form. -/
inductive SelectOp where
  | selectWidget (widget : Option WidgetPtr)
  | selectWidgetById (id : String)
  | onFormMousePress (pos : Vector2f)
  | addWidget (widget : WidgetPtr)

/-- The form after the call `op`. -/
def SelectOp.apply (env : FormEnv) (s : FormState) : SelectOp → FormState
  | .selectWidget widget => Form.selectWidget s widget
  | .selectWidgetById id => Form.selectWidgetById s id
  | .onFormMousePress pos => Form.onFormMousePress s pos
  | .addWidget widget => (Form.addWidget env s widget).1

/-- Successive `addWidget` calls for the widgets of a list: the last state and the returned
names in call order. -/
def addWidgets (env : FormEnv) (s : FormState) : List WidgetPtr → FormState × List String
  | [] => (s, [])
  | widget :: rest =>
    ((addWidgets env (addWidget env s widget).1 rest).1,
      (addWidget env s widget).2 :: (addWidgets env (addWidget env s widget).1 rest).2)

end Form

/-- A form as its constructor leaves it: file `form.txt`, no widget, no selection, squares of
size 6 x 6, all hidden. -/
def blankForm : FormState :=
  Form.create
    { twoWidgetForm with
      container := ⟨[]⟩, m_widgets := [], m_idCounter := 0, m_selectedWidget := none }
    "form.txt" ⟨6, 6⟩

/-- An environment whose layout file holds widget 1 named `Widget12` and widget 2 named
`Button`; `stoi` reads `12`. -/
def testFormEnv : Form.FormEnv where
  ptrToString := fun widget => toString widget
  stoi := fun text => if text = "12" then 12 else 0
  loadWidgetsFromFile := fun _ _ => ⟨[(1, "Widget12"), (2, "Button")]⟩

/-- An environment whose layout file holds one widget named `Widget4294967295`, with `stoi` a
given function. -/
def limitFormEnv (stoi : String → Int) : Form.FormEnv where
  ptrToString := fun widget => toString widget
  stoi := stoi
  loadWidgetsFromFile := fun _ _ => ⟨[(1, "Widget4294967295")]⟩

/-- The form `twoWidgetForm` during a move-drag of widget 1 anchored at (10, 10). -/
def movingForm : FormState :=
  { twoWidgetForm with m_draggingWidget := true, m_draggingPos := ⟨10, 10⟩ }

/-- The form `twoWidgetForm` with selection square `square` of widget 1 grabbed at (10, 10). -/
def resizingForm (square : Fin 8) : FormState :=
  { twoWidgetForm with m_draggingSelectionSquare := some square, m_draggingPos := ⟨10, 10⟩ }

/-! ## Float arithmetic with rounding

The definitions above read every `float` operation of the source as exact. The definitions of
this section follow the same source lines with the result of every `float` operation, and of
every conversion of an integer to `float`, passed through the function `round` of a
`FloatModel`, and with a conversion to `unsigned int` that yields a value for every float.
`exactFloats` rounds nothing; `binary32` rounds to IEEE 754 single precision, the `float` of the
compiled program. The members of a state hold floats: numbers that `round` leaves as they are. -/

namespace Binary32

/-- The quotient `p / q` rounded to the nearest natural number, a tie to the even one. -/
def roundHalfEven (p q : Nat) : Nat :=
  if 2 * (p % q) < q then p / q
  else if q < 2 * (p % q) then p / q + 1
  else if (p / q) % 2 = 0 then p / q
  else p / q + 1

/-- The number of binary digits of `n`, found with at most `fuel` halvings. -/
def bitLength : Nat → Nat → Nat
  | 0, _ => 0
  | fuel + 1, n => if n = 0 then 0 else bitLength fuel (n / 2) + 1

/-- The exponent of the leading binary digit of `n`: `2 ^ log2 n ≤ n < 2 ^ (log2 n + 1)` for a
positive `n`. -/
def log2 (n : Nat) : Nat := bitLength n n - 1

/-- The exponent `e` of the positive rational `p / q`: `2 ^ e ≤ p / q < 2 ^ (e + 1)`. -/
def exponent (p q : Nat) : Int :=
  if q * 2 ^ log2 p ≤ p * 2 ^ log2 q then (log2 p : Int) - (log2 q : Int)
  else (log2 p : Int) - (log2 q : Int) - 1

/-- The binary32 number nearest to the positive rational `p / q`, a tie to the even
significand: a multiple of `2 ^ (e - 23)`, with `e` the exponent of `p / q` and at least -126
(below `2 ^ (-126)` the numbers are subnormal). A result of `2 ^ 128` or more, which the
format replaces by infinity, is kept as a number. -/
def roundPos (p q : Nat) : ℚ :=
  let e := max (exponent p q) (-126)
  let up := Int.toNat (23 - e)
  let down := Int.toNat (e - 23)
  ((roundHalfEven (p * 2 ^ up) (q * 2 ^ down) * 2 ^ down : Nat) : ℚ) / ((2 ^ up : Nat) : ℚ)

/-- The binary32 number nearest to `x` (round to nearest, ties to even). -/
def round (x : ℚ) : ℚ :=
  if x = 0 then 0
  else if x < 0 then -roundPos (Int.toNat (-x.num)) x.den
  else roundPos (Int.toNat x.num) x.den

end Binary32

/-- The float arithmetic of a run of the program: `round` gives the float that stands for the
exact result of an operation, and `wild f` is what `static_cast<unsigned int>(f)` yields, modulo
`2 ^ 32`, for a float `f` outside the range of `unsigned int`, where C++ leaves the result
open. -/
structure FloatModel where
  round : ℚ → ℚ
  wild : ℚ → Nat

namespace FloatModel

/-- Float addition. -/
def add (m : FloatModel) (a b : ℚ) : ℚ := m.round (a + b)

/-- Float subtraction. -/
def sub (m : FloatModel) (a b : ℚ) : ℚ := m.round (a - b)

/-- Float multiplication. -/
def mul (m : FloatModel) (a b : ℚ) : ℚ := m.round (a * b)

/-- Float division. A division by zero, which gives an infinity or a NaN in IEEE arithmetic,
is not modelled: the quotient is then `round 0`, as `a / 0 = 0` in `ℚ`. -/
def div (m : FloatModel) (a b : ℚ) : ℚ := m.round (a / b)

/-- Conversion of an `unsigned int` to `float`. -/
def ofNat (m : FloatModel) (n : Nat) : ℚ := m.round (n : ℚ)

/-- Conversion of an `int` to `float`. -/
def ofInt (m : FloatModel) (z : ℤ) : ℚ := m.round (z : ℚ)

/-- Conversion `static_cast<unsigned int>(f)`: truncation toward zero where C++ defines it. -/
def toUnsigned (m : FloatModel) (f : ℚ) : Nat :=
  match floatToUnsigned f with
  | some n => n
  | none => m.wild f % uintSize

end FloatModel

/-- Exact arithmetic: no operation rounds. -/
def exactFloats : FloatModel where
  round := fun x => x
  wild := fun _ => 0

/-- IEEE 754 single precision. A float outside the range of `unsigned int` converts to the low
32 bits of its truncated value, as the conversion through a 64-bit integer on x86-64 does for a
float of magnitude below `2 ^ 63`. -/
def binary32 : FloatModel where
  round := Binary32.round
  wild := fun f => Int.toNat (Form.truncate f % (uintSize : Int))

namespace FloatRect.Rounded

/-- Method `sf::Rect<float>::contains` (SFML). -/
def contains (m : FloatModel) (r : FloatRect) (p : Vector2f) : Bool :=
  let minX := min r.left (m.add r.left r.width)
  let maxX := max r.left (m.add r.left r.width)
  let minY := min r.top (m.add r.top r.height)
  let maxY := max r.top (m.add r.top r.height)
  decide (p.x ≥ minX) && decide (p.x < maxX) && decide (p.y ≥ minY) && decide (p.y < maxY)

end FloatRect.Rounded

namespace Scrollbar.Rounded

/-- The factor `scalingX` of a vertical scrollbar. -/
def scalingX (m : FloatModel) (s : Scrollbar) : ℚ :=
  if s.m_VerticalImage = s.m_VerticalScroll then
    m.div s.m_Size.x (m.ofNat s.trackTextureSize.x)
  else
    m.div s.m_Size.x (m.ofNat s.trackTextureSize.y)

/-- The factor `scalingY` of a horizontal scrollbar. -/
def scalingY (m : FloatModel) (s : Scrollbar) : ℚ :=
  if s.m_VerticalImage = s.m_VerticalScroll then
    m.div s.m_Size.y (m.ofNat s.trackTextureSize.y)
  else
    m.div s.m_Size.y (m.ofNat s.trackTextureSize.x)

/-- The product `2 * m_TextureArrowNormal->getSize().y`, computed in `unsigned int` and then
converted to `float`. -/
def twiceArrow (m : FloatModel) (s : Scrollbar) : ℚ :=
  m.ofNat ((2 * s.arrowTextureSize.y) % uintSize)

/-- The track branch of `mouseMoved` once the click is known to lie between the arrows
(Scrollbar.cpp 583-605 and 648-670): `value` is the clicked content coordinate. -/
def trackClick (m : FloatModel) (s : Scrollbar) (value : ℚ) : Scrollbar :=
  if value ≤ m.ofNat s.m_Value then
    let subtractValue : ℚ := m.div (m.ofNat s.m_LowValue) 3
    if value ≥ subtractValue then
      s.setValue (m.toUnsigned (m.add (m.sub value subtractValue) (1 / 2)))
    else
      s.setValue 0
  else
    let subtractValue : ℚ := m.div (m.mul (m.ofNat s.m_LowValue) 2) 3
    if value ≤ m.add (m.ofNat (usub s.m_Maximum s.m_LowValue)) subtractValue then
      s.setValue (m.toUnsigned (m.add (m.sub value subtractValue) (1 / 2)))
    else
      s.setValue (usub s.m_Maximum s.m_LowValue)

/-- The thumb branch of `mouseMoved` (Scrollbar.cpp 560-572 and 625-637): `offset` is the pointer
offset into the track and `trackLength` the scaled bar length minus both arrows. -/
def thumbDrag (m : FloatModel) (s : Scrollbar) (offset trackLength : ℚ) : Scrollbar :=
  if offset > 0 then
    let value :=
      m.toUnsigned (m.add (m.mul (m.div offset trackLength) (m.ofNat s.m_Maximum)) (1 / 2))
    if value ≤ usub s.m_Maximum s.m_LowValue then
      s.setValue value
    else
      s.setValue (usub s.m_Maximum s.m_LowValue)
  else
    s.setValue 0

/-- Method `Scrollbar::mouseMoved` (Scrollbar.cpp 522-687). -/
def mouseMoved (m : FloatModel) (s : Scrollbar) (x y : ℚ) : Scrollbar :=
  if s.m_Loaded = false then
    s
  else
    let s := { s with m_MouseHover := true }
    if s.m_MouseDown = true ∧ s.m_MouseDownOnArrow = false then
      if s.m_Maximum ≤ s.m_LowValue ∧ s.autoHide = false then
        s
      else
        let position := s.position
        let curScale := s.scale
        let oldValue := s.m_Value
        let moved : Scrollbar :=
          if s.m_VerticalScroll = true then
            let arrowHeight : ℚ :=
              m.mul (m.mul (m.ofNat s.arrowTextureSize.y) (scalingX m s)) curScale.y
            if s.m_MouseDownOnThumb = true then
              thumbDrag m s
                (m.sub (m.sub (m.sub y s.m_MouseDownOnThumbPos.y) position.y) arrowHeight)
                (m.sub (m.mul s.m_Size.y curScale.y) (m.mul 2 arrowHeight))
            else if y > m.add position.y arrowHeight then
              if y ≤ m.sub (m.add position.y (m.mul s.m_Size.y curScale.y)) arrowHeight then
                trackClick m s
                  (m.mul
                    (m.div (m.sub (m.sub y position.y) arrowHeight)
                      (m.sub (m.mul s.m_Size.y curScale.y) (m.mul 2 arrowHeight)))
                    (m.ofNat s.m_Maximum))
              else
                s
            else
              s
          else
            let arrowWidth : ℚ :=
              m.mul (m.mul (m.ofNat s.arrowTextureSize.y) (scalingY m s)) curScale.x
            if s.m_MouseDownOnThumb = true then
              thumbDrag m s
                (m.sub (m.sub (m.sub x s.m_MouseDownOnThumbPos.x) position.x) arrowWidth)
                (m.sub (m.mul s.m_Size.x curScale.x) (m.mul 2 arrowWidth))
            else if x > m.add position.x arrowWidth then
              if x ≤ m.sub (m.add position.x (m.mul s.m_Size.x curScale.x)) arrowWidth then
                trackClick m s
                  (m.mul
                    (m.div (m.sub (m.sub x position.x) arrowWidth)
                      (m.sub (m.mul s.m_Size.x curScale.x) (m.mul 2 arrowWidth)))
                    (m.ofNat s.m_Maximum))
              else
                s
            else
              s
        addValueCallback oldValue moved
    else
      s

/-- The arrow test of `leftMousePressed` (Scrollbar.cpp 354-398): decide whether the press went
down on an arrow. -/
def pressArrowTest (m : FloatModel) (s : Scrollbar) (x y : ℚ) : Scrollbar :=
  if s.m_VerticalScroll = true then
    let curScale := s.scale
    if m.mul s.m_Size.y curScale.y > m.mul (twiceArrow m s) (scalingX m s) then
      if y < m.add s.position.y
          (m.mul (m.mul (m.ofNat s.arrowTextureSize.y) (scalingX m s)) curScale.y) then
        { s with m_MouseDownOnArrow := true }
      else if y > m.sub (m.add s.position.y (m.mul s.m_Size.y curScale.y))
          (m.mul (m.mul (m.ofNat s.arrowTextureSize.y) (scalingX m s)) curScale.y) then
        { s with m_MouseDownOnArrow := true }
      else
        s
    else
      { s with m_MouseDownOnArrow := true }
  else
    let curScale := s.scale
    if m.mul s.m_Size.x curScale.x > m.mul (twiceArrow m s) (scalingY m s) then
      if x < m.add s.position.x
          (m.mul (m.mul (m.ofNat s.arrowTextureSize.y) (scalingY m s)) curScale.x) then
        { s with m_MouseDownOnArrow := true }
      else if x > m.sub (m.add s.position.x (m.mul s.m_Size.x curScale.x))
          (m.mul (m.mul (m.ofNat s.arrowTextureSize.y) (scalingY m s)) curScale.x) then
        { s with m_MouseDownOnArrow := true }
      else
        s
    else
      { s with m_MouseDownOnArrow := true }

/-- Method `Scrollbar::leftMousePressed` (Scrollbar.cpp 349-403). -/
def leftMousePressed (m : FloatModel) (s : Scrollbar) (x y : ℚ) : Scrollbar :=
  let s := { s with m_MouseDown := true, m_MouseDownOnArrow := false }
  let s := pressArrowTest m s x y
  if s.m_MouseDownOnArrow = false then
    mouseMoved m s x y
  else
    s

/-- Method `Scrollbar::leftMouseReleased` (Scrollbar.cpp 407-518). -/
def leftMouseReleased (m : FloatModel) (s : Scrollbar) (x y : ℚ) : Scrollbar :=
  let s :=
    if s.m_MouseDown = true ∧ s.m_MouseDownOnArrow = true then
      if s.m_Maximum > s.m_LowValue then
        let oldValue := s.m_Value
        let curScale := s.scale
        let s :=
          if s.m_VerticalScroll = true then
            if m.mul s.m_Size.y curScale.y > m.mul (twiceArrow m s) (scalingX m s) then
              if y < m.add s.position.y
                  (m.mul (m.mul (m.ofNat s.arrowTextureSize.y) (scalingX m s)) curScale.y) then
                decrementValue s
              else if y > m.sub (m.add s.position.y (m.mul s.m_Size.y curScale.y))
                  (m.mul (m.mul (m.ofNat s.arrowTextureSize.y) (scalingX m s)) curScale.y) then
                incrementValue s
              else
                s
            else
              if y < m.add s.position.y
                  (m.mul (m.mul (m.ofNat s.arrowTextureSize.y) curScale.y)
                    (m.div (m.mul s.m_Size.y (1 / 2)) (m.ofNat s.arrowTextureSize.y))) then
                decrementValue s
              else
                incrementValue s
          else
            if m.mul s.m_Size.x curScale.x > m.mul (twiceArrow m s) (scalingY m s) then
              if x < m.add s.position.x
                  (m.mul (m.mul (m.ofNat s.arrowTextureSize.y) (scalingY m s)) curScale.x) then
                decrementValue s
              else if x > m.sub (m.add s.position.x (m.mul s.m_Size.x curScale.x))
                  (m.mul (m.mul (m.ofNat s.arrowTextureSize.y) (scalingY m s)) curScale.x) then
                incrementValue s
              else
                s
            else
              if x < m.add s.position.x
                  (m.mul (m.mul (m.ofNat s.arrowTextureSize.y) curScale.x)
                    (m.div (m.mul s.m_Size.x (1 / 2)) (m.ofNat s.arrowTextureSize.y))) then
                decrementValue s
              else
                incrementValue s
        addValueCallback oldValue s
      else
        s
    else
      s
  { s with m_MouseDown := false }

/-- The thumb geometry computed by `mouseOnObject` (Scrollbar.cpp 267-322). -/
def thumbRegion (m : FloatModel) (s : Scrollbar) : ThumbRegion :=
  let curScale := s.scale
  if s.m_VerticalScroll = true then
    if s.m_Size.y > m.mul (twiceArrow m s) (scalingX m s) then
      let realTrackHeight := m.sub s.m_Size.y (m.mul (twiceArrow m s) (scalingX m s))
      let thumbHeight := m.mul (m.div (m.ofNat s.m_LowValue) (m.ofNat s.m_Maximum)) realTrackHeight
      let thumbTop :=
        m.mul
          (m.add (m.mul (m.ofNat s.arrowTextureSize.y) (scalingX m s))
            (m.mul (m.div (m.ofNat s.m_Value) (m.ofNat (usub s.m_Maximum s.m_LowValue)))
              (m.sub realTrackHeight thumbHeight)))
          curScale.y
      ⟨0, thumbTop, s.m_ThumbSize.x, thumbHeight⟩
    else
      ⟨0, m.mul (m.ofNat s.arrowTextureSize.y) curScale.y, s.m_ThumbSize.x, 0⟩
  else
    if s.m_Size.x > m.mul (twiceArrow m s) (scalingY m s) then
      let realTrackWidth := m.sub s.m_Size.x (m.mul (twiceArrow m s) (scalingY m s))
      let thumbWidth := m.mul (m.div (m.ofNat s.m_LowValue) (m.ofNat s.m_Maximum)) realTrackWidth
      let thumbLeft :=
        m.mul
          (m.add (m.mul (m.ofNat s.arrowTextureSize.y) (scalingY m s))
            (m.mul (m.div (m.ofNat s.m_Value) (m.ofNat (usub s.m_Maximum s.m_LowValue)))
              (m.sub realTrackWidth thumbWidth)))
          curScale.x
      ⟨thumbLeft, 0, thumbWidth, s.m_ThumbSize.y⟩
    else
      ⟨m.mul (m.ofNat s.arrowTextureSize.y) curScale.x, 0, 0, s.m_ThumbSize.y⟩

/-- The rectangle of the thumb test of `mouseOnObject` (Scrollbar.cpp 325). -/
def thumbRect (m : FloatModel) (s : Scrollbar) : FloatRect :=
  ⟨m.add s.position.x (thumbRegion m s).thumbLeft, m.add s.position.y (thumbRegion m s).thumbTop,
    m.mul (thumbRegion m s).thumbWidth s.scale.x, m.mul (thumbRegion m s).thumbHeight s.scale.y⟩

/-- Method `Scrollbar::mouseOnObject` (Scrollbar.cpp 250-345): the new state and the returned
flag. The rectangle of the bar is `getTransform().transformRect(0, 0, m_Size.x, m_Size.y)`. -/
def mouseOnObject (m : FloatModel) (s : Scrollbar) (x y : ℚ) : Scrollbar × Bool :=
  if s.m_Loaded = false then
    (s, false)
  else if s.m_Maximum ≤ s.m_LowValue ∧ s.autoHide = true then
    (s, false)
  else if FloatRect.Rounded.contains m (FloatRect.mk s.position.x s.position.y (m.mul s.m_Size.x s.scale.x)
      (m.mul s.m_Size.y s.scale.y)) ⟨x, y⟩ = true then
    let position := s.position
    let thumb := thumbRegion m s
    if FloatRect.Rounded.contains m (thumbRect m s) ⟨x, y⟩ = true then
      let s :=
        if s.m_MouseDown = false then
          { s with m_MouseDownOnThumbPos :=
              ⟨m.sub (m.sub x position.x) thumb.thumbLeft,
                m.sub (m.sub y position.y) thumb.thumbTop⟩ }
        else
          s
      ({ s with m_MouseDownOnThumb := true }, true)
    else
      ({ s with m_MouseDownOnThumb := false }, true)
  else
    ({ s with m_MouseHover := false }, false)

end Scrollbar.Rounded

namespace Form.Rounded

/-- The centre given to square `i` by `updateSelectionSquarePositions` (Form.cpp 137-144). -/
def squareCentre (m : FloatModel) (w : WidgetData) (i : Fin 8) : Vector2f :=
  match i.val with
  | 0 => ⟨w.position.x, w.position.y⟩
  | 1 => ⟨m.add w.position.x (m.div w.size.x 2), w.position.y⟩
  | 2 => ⟨m.add w.position.x w.size.x, w.position.y⟩
  | 3 => ⟨m.add w.position.x w.size.x, m.add w.position.y (m.div w.size.y 2)⟩
  | 4 => ⟨m.add w.position.x w.size.x, m.add w.position.y w.size.y⟩
  | 5 => ⟨m.add w.position.x (m.div w.size.x 2), m.add w.position.y w.size.y⟩
  | 6 => ⟨w.position.x, m.add w.position.y w.size.y⟩
  | _ => ⟨w.position.x, m.add w.position.y (m.div w.size.y 2)⟩

/-- The body of `updateSelectionSquarePositions` (Form.cpp 133-149) for a non-null selected
widget `widget`. -/
def placeSelectionSquares (m : FloatModel) (s : FormState) (widget : WidgetPtr) : FormState :=
  { s with m_selectionSquares := fun i =>
      let square := s.m_selectionSquares i
      let centre := squareCentre m (s.heap widget) i
      { square with
        position := ⟨m.sub centre.x (m.div square.size.x 2),
          m.sub centre.y (m.div square.size.y 2)⟩ } }

/-- Method `Form::updateSelectionSquarePositions` (Form.cpp 133-149). -/
def updateSelectionSquarePositions (m : FloatModel) (s : FormState) :
    Except DragError FormState :=
  match s.m_selectedWidget with
  | none => .error .nullPointer
  | some widget => .ok (placeSelectionSquares m s widget)

/-- The body shared by all loops of `onDrag`, as `Form.dragStep`, with float additions. -/
def dragStep (m : FloatModel) (dp ds da : Vector2f) (f : DragFrame) :
    Except DragError DragFrame :=
  match f.form.m_selectedWidget with
  | none => .error .nullPointer
  | some w =>
    let old := f.form.heap w
    .ok
      { form := { f.form with
          heap := Function.update f.form.heap w
            ⟨⟨m.add old.position.x dp.x, m.add old.position.y dp.y⟩,
              ⟨m.add old.size.x ds.x, m.add old.size.y ds.y⟩⟩
          m_draggingPos :=
            ⟨m.add f.form.m_draggingPos.x da.x, m.add f.form.m_draggingPos.y da.y⟩ }
        updated := true }

/-- Loop condition `pos.x - m_draggingPos.x >= c`. -/
def pointerRight (m : FloatModel) (pos : Vector2f) (c : ℚ) (f : DragFrame) : Bool :=
  decide (m.sub pos.x f.form.m_draggingPos.x ≥ c)

/-- Loop condition `m_draggingPos.x - pos.x >= c`. -/
def pointerLeft (m : FloatModel) (pos : Vector2f) (c : ℚ) (f : DragFrame) : Bool :=
  decide (m.sub f.form.m_draggingPos.x pos.x ≥ c)

/-- Loop condition `pos.y - m_draggingPos.y >= c`. -/
def pointerDown (m : FloatModel) (pos : Vector2f) (c : ℚ) (f : DragFrame) : Bool :=
  decide (m.sub pos.y f.form.m_draggingPos.y ≥ c)

/-- Loop condition `m_draggingPos.y - pos.y >= c`. -/
def pointerUp (m : FloatModel) (pos : Vector2f) (c : ℚ) (f : DragFrame) : Bool :=
  decide (m.sub f.form.m_draggingPos.y pos.y ≥ c)

/-- The four loops under `if (m_draggingWidget)` (Form.cpp 312-338). -/
def moveLoops (m : FloatModel) (fuel : Nat) (pos : Vector2f) :
    DragFrame → Except DragError DragFrame :=
  andThen
    (andThen
      (whileLoop (pointerRight m pos step)
        (dragStep m ⟨step, 0⟩ ⟨0, 0⟩ ⟨step, 0⟩) fuel)
      (whileLoop (pointerLeft m pos step)
        (dragStep m ⟨-step, 0⟩ ⟨0, 0⟩ ⟨-step, 0⟩) fuel))
    (andThen
      (whileLoop (pointerDown m pos step)
        (dragStep m ⟨0, step⟩ ⟨0, 0⟩ ⟨0, step⟩) fuel)
      (whileLoop (pointerUp m pos step)
        (dragStep m ⟨0, -step⟩ ⟨0, 0⟩ ⟨0, -step⟩) fuel))

/-- The loops of the top handle, square 1 (Form.cpp 345-359). -/
def topLoops (m : FloatModel) (fuel : Nat) (pos : Vector2f) :
    DragFrame → Except DragError DragFrame :=
  andThen
    (whileLoop (pointerDown m pos step)
      (dragStep m ⟨0, step⟩ ⟨0, -step⟩ ⟨0, step⟩) fuel)
    (whileLoop (pointerUp m pos step)
      (dragStep m ⟨0, -step⟩ ⟨0, step⟩ ⟨0, -step⟩) fuel)

/-- The loops of the right handle, square 3 (Form.cpp 363-375). -/
def rightLoops (m : FloatModel) (fuel : Nat) (pos : Vector2f) :
    DragFrame → Except DragError DragFrame :=
  andThen
    (whileLoop (pointerRight m pos step)
      (dragStep m ⟨0, 0⟩ ⟨step, 0⟩ ⟨step, 0⟩) fuel)
    (whileLoop (pointerLeft m pos step)
      (dragStep m ⟨0, 0⟩ ⟨-step, 0⟩ ⟨-step, 0⟩) fuel)

/-- The loops of the bottom handle, square 5 (Form.cpp 379-391). -/
def bottomLoops (m : FloatModel) (fuel : Nat) (pos : Vector2f) :
    DragFrame → Except DragError DragFrame :=
  andThen
    (whileLoop (pointerDown m pos step)
      (dragStep m ⟨0, 0⟩ ⟨0, step⟩ ⟨0, step⟩) fuel)
    (whileLoop (pointerUp m pos step)
      (dragStep m ⟨0, 0⟩ ⟨0, -step⟩ ⟨0, -step⟩) fuel)

/-- The loops of the left handle, square 7 (Form.cpp 395-409). -/
def leftLoops (m : FloatModel) (fuel : Nat) (pos : Vector2f) :
    DragFrame → Except DragError DragFrame :=
  andThen
    (whileLoop (pointerRight m pos step)
      (dragStep m ⟨step, 0⟩ ⟨-step, 0⟩ ⟨step, 0⟩) fuel)
    (whileLoop (pointerLeft m pos step)
      (dragStep m ⟨-step, 0⟩ ⟨step, 0⟩ ⟨-step, 0⟩) fuel)

/-- The vector `change` of a corner resize (Form.cpp 413-419) for a widget of size `size`. -/
def cornerChange (m : FloatModel) (size : Vector2f) : Vector2f :=
  let ratio := m.div size.y size.x
  if ratio ≤ 1 then ⟨step, m.mul step ratio⟩ else ⟨m.div step ratio, step⟩

/-- The loops of the top left corner, square 0 (Form.cpp 423-439). -/
def topLeftLoops (m : FloatModel) (fuel : Nat) (pos change : Vector2f) :
    DragFrame → Except DragError DragFrame :=
  andThen
    (whileLoop (fun f => pointerRight m pos change.x f && pointerDown m pos change.y f)
      (dragStep m ⟨change.x, change.y⟩ ⟨-change.x, -change.y⟩ ⟨change.x, change.y⟩) fuel)
    (whileLoop (fun f => pointerLeft m pos change.x f && pointerUp m pos change.y f)
      (dragStep m ⟨-change.x, -change.y⟩ ⟨change.x, change.y⟩ ⟨-change.x, -change.y⟩) fuel)

/-- The loops of the top right corner, square 2 (Form.cpp 443-459). -/
def topRightLoops (m : FloatModel) (fuel : Nat) (pos change : Vector2f) :
    DragFrame → Except DragError DragFrame :=
  andThen
    (whileLoop (fun f => pointerLeft m pos change.x f && pointerDown m pos change.y f)
      (dragStep m ⟨0, change.y⟩ ⟨-change.x, -change.y⟩ ⟨-change.x, change.y⟩) fuel)
    (whileLoop (fun f => pointerRight m pos change.x f && pointerUp m pos change.y f)
      (dragStep m ⟨0, -change.y⟩ ⟨change.x, change.y⟩ ⟨change.x, -change.y⟩) fuel)

/-- The loops of the bottom right corner, square 4 (Form.cpp 463-477). -/
def bottomRightLoops (m : FloatModel) (fuel : Nat) (pos change : Vector2f) :
    DragFrame → Except DragError DragFrame :=
  andThen
    (whileLoop (fun f => pointerLeft m pos change.x f && pointerUp m pos change.y f)
      (dragStep m ⟨0, 0⟩ ⟨-change.x, -change.y⟩ ⟨-change.x, -change.y⟩) fuel)
    (whileLoop (fun f => pointerRight m pos change.x f && pointerDown m pos change.y f)
      (dragStep m ⟨0, 0⟩ ⟨change.x, change.y⟩ ⟨change.x, change.y⟩) fuel)

/-- The loops of the bottom left corner, square 6 (Form.cpp 481-497). -/
def bottomLeftLoops (m : FloatModel) (fuel : Nat) (pos change : Vector2f) :
    DragFrame → Except DragError DragFrame :=
  andThen
    (whileLoop (fun f => pointerRight m pos change.x f && pointerUp m pos change.y f)
      (dragStep m ⟨change.x, 0⟩ ⟨-change.x, -change.y⟩ ⟨change.x, -change.y⟩) fuel)
    (whileLoop (fun f => pointerLeft m pos change.x f && pointerDown m pos change.y f)
      (dragStep m ⟨-change.x, 0⟩ ⟨change.x, change.y⟩ ⟨-change.x, change.y⟩) fuel)

/-- The choice among the four corners (Form.cpp 421-498) for a given `change`. -/
def cornerDispatch (m : FloatModel) (fuel : Nat) (pos change : Vector2f) (square : Fin 8)
    (f : DragFrame) : Except DragError DragFrame :=
  if square = 0 then topLeftLoops m fuel pos change f
  else if square = 2 then topRightLoops m fuel pos change f
  else if square = 4 then bottomRightLoops m fuel pos change f
  else if square = 6 then bottomLeftLoops m fuel pos change f
  else .ok f

/-- The `else // Corner` branch (Form.cpp 411-499). -/
def cornerLoops (m : FloatModel) (fuel : Nat) (pos : Vector2f) (square : Fin 8)
    (f : DragFrame) : Except DragError DragFrame :=
  match f.form.m_selectedWidget with
  | none => .error .nullPointer
  | some w => cornerDispatch m fuel pos (cornerChange m (f.form.heap w).size) square f

/-- The block under `if (m_draggingSelectionSquare)` (Form.cpp 341-500). -/
def squareLoops (m : FloatModel) (fuel : Nat) (pos : Vector2f) (f : DragFrame) :
    Except DragError DragFrame :=
  match f.form.m_draggingSelectionSquare with
  | none => .ok f
  | some square =>
    if square = 1 then topLoops m fuel pos f
    else if square = 3 then rightLoops m fuel pos f
    else if square = 5 then bottomLoops m fuel pos f
    else if square = 7 then leftLoops m fuel pos f
    else cornerLoops m fuel pos square f

/-- The pointer `pos` of `onDrag` in form coordinates (Form.cpp 305). -/
def dragPointer (m : FloatModel) (s : FormState) (mousePos : Vector2i) : Vector2f :=
  ⟨m.add (m.sub (m.sub (m.ofInt mousePos.x) s.windowPosition.x) s.childWidgetsOffset.x)
      s.contentOffset.x,
    m.add (m.sub (m.sub (m.ofInt mousePos.y) s.windowPosition.y) s.childWidgetsOffset.y)
      s.contentOffset.y⟩

/-- All loops of `onDrag` (Form.cpp 308-500), started with `updated = false`. -/
def onDragLoops (m : FloatModel) (fuel : Nat) (pos : Vector2f) (s : FormState) :
    Except DragError DragFrame :=
  andThen
    (fun f => if f.form.m_draggingWidget = true then moveLoops m fuel pos f else .ok f)
    (squareLoops m fuel pos) ⟨s, false⟩

/-- The block under `if (updated)` (Form.cpp 502-507). -/
def afterDrag (m : FloatModel) (f : DragFrame) : Except DragError FormState :=
  if f.updated = true then
    (updateSelectionSquarePositions m (setChanged f.form true)).map fun s =>
      { s with reloadPropertiesCalls := s.reloadPropertiesCalls + 1 }
  else
    .ok f.form

/-- Method `Form::onDrag` (Form.cpp 303-508). -/
def onDrag (m : FloatModel) (fuel : Nat) (s : FormState) (mousePos : Vector2i) :
    Except DragError FormState :=
  (onDragLoops m fuel (dragPointer m s mousePos) s).bind (afterDrag m)

end Form.Rounded

/-- The position and the size of widget `w` in the form that `onDrag` returned, if it returned
one. -/
def widgetAfter (r : Except DragError FormState) (w : WidgetPtr) : Option (Vector2f × Vector2f) :=
  match r with
  | .ok s => some ((s.heap w).position, (s.heap w).size)
  | .error _ => none

/-- A loaded vertical scrollbar of size 10 x 22 with 10 x 5 arrows at scale (1, 1), so with a
track from 5 to 17: maximum 2, low value 1, value 0, the mouse button down on the track. -/
def shortScrollbar : Scrollbar :=
  { tallScrollbar with
    m_Maximum := 2, m_LowValue := 1, m_Value := 0, m_MouseDown := true
    m_Size := ⟨10, 22⟩, scale := ⟨1, 1⟩, trackTextureSize := ⟨10, 22⟩
    arrowTextureSize := ⟨10, 5⟩ }

/-- A loaded vertical scrollbar of size 10 x 11 with 10 x 5 arrows at scale (1, 1), so with a
track of length 1 from 5 to 6: maximum 11, low value 3, value 8. -/
def thinTrackScrollbar : Scrollbar :=
  { tallScrollbar with
    m_Maximum := 11, m_LowValue := 3, m_Value := 8
    m_Size := ⟨10, 11⟩, scale := ⟨1, 1⟩, trackTextureSize := ⟨10, 11⟩
    arrowTextureSize := ⟨10, 5⟩ }

/-- A loaded vertical scrollbar of size 10 x 21 with 10 x 5 arrows at scale (1, 1), so with a
track of length 11 from 5 to 16: maximum 5, low value 1, value 4. -/
def fiveStepScrollbar : Scrollbar :=
  { tallScrollbar with
    m_Maximum := 5, m_LowValue := 1, m_Value := 4
    m_Size := ⟨10, 21⟩, scale := ⟨1, 1⟩, trackTextureSize := ⟨10, 21⟩
    arrowTextureSize := ⟨10, 5⟩ }

/-- The scrollbar `pressedScrollbar` with low value 9 and value 0: the track runs from 20 to
30, `maximum - lowValue` is 1, the mouse button is down on the track. -/
def tightScrollbar : Scrollbar := { pressedScrollbar with m_LowValue := 9, m_Value := 0 }

/-- A loaded vertical scrollbar of size 10 x 14 with 10 x 13 arrows at scale (1, 1), so in the
reduced layout, after a press: maximum 10, low value 2, value 3. -/
def stubScrollbar : Scrollbar :=
  { tallScrollbar with
    m_Value := 3, m_MouseDown := true, m_MouseDownOnArrow := true
    m_Size := ⟨10, 14⟩, scale := ⟨1, 1⟩, trackTextureSize := ⟨10, 14⟩
    arrowTextureSize := ⟨10, 13⟩ }

/-- The float `0.1f`. -/
def tenth : ℚ := Binary32.round (1 / 10)

/-- The form `twoWidgetForm` with the form window at (`0.1f`, 0) and widget 1 at (`0.1f`, 0),
during a move-drag of widget 1 anchored at (`2.9f`, 0). -/
def driftingForm : FormState :=
  { twoWidgetForm with
    heap := fun w => if w = 1 then ⟨⟨tenth, 0⟩, ⟨100, 50⟩⟩ else ⟨⟨50, 20⟩, ⟨100, 50⟩⟩
    windowPosition := ⟨tenth, 0⟩
    m_draggingWidget := true
    m_draggingPos := ⟨Binary32.round (29 / 10), 0⟩ }

/-- The form `twoWidgetForm` with widget 1 of size 30 x 10 at (0, 0) and its bottom right
handle (square 4) grabbed at (0, 0). -/
def slimForm : FormState :=
  { twoWidgetForm with
    heap := fun w => if w = 1 then ⟨⟨0, 0⟩, ⟨30, 10⟩⟩ else ⟨⟨50, 20⟩, ⟨100, 50⟩⟩
    m_draggingSelectionSquare := some 4 }

theorem usub_of_le {a b : Nat} (ha : a < uintSize) (hb : b ≤ a) : usub a b = a - b := by
  unfold usub
  have hb' : b < uintSize := lt_of_le_of_lt hb ha
  rw [Nat.mod_eq_of_lt hb']
  have h : a + uintSize - b = (a - b) + uintSize := by omega
  rw [h, Nat.add_mod_right]
  exact Nat.mod_eq_of_lt (by omega)

/-- C1: for a scrollbar with `maximum ≥ lowValue`, after `setValue(v)` the value is
`min(v, maximum - lowValue)`, that is `v` clamped to `[0, maximum - lowValue]`; maximum and low
value are not touched. -/
theorem Scrollbar.setValue_clamps (s : Scrollbar) (v : Nat)
    (hmax : s.m_Maximum < uintSize) (hle : s.m_LowValue ≤ s.m_Maximum) :
    (s.setValue v).m_Value = min v (s.m_Maximum - s.m_LowValue) ∧
      (s.setValue v).m_Maximum = s.m_Maximum ∧ (s.setValue v).m_LowValue = s.m_LowValue := by
  have hsub := usub_of_le hmax hle
  unfold Scrollbar.setValue
  simp only [hsub]
  by_cases h : v > s.m_Maximum - s.m_LowValue
  · simp [h]; omega
  · simp [h]; omega

theorem Scrollbar.setValue_clamps_witness :
    tallScrollbar.m_Maximum < uintSize ∧ tallScrollbar.m_LowValue ≤ tallScrollbar.m_Maximum ∧
      (tallScrollbar.setValue 9).m_Value = 8 ∧
      (tallScrollbar.setValue 9).m_Maximum = tallScrollbar.m_Maximum ∧
      (tallScrollbar.setValue 9).m_LowValue = tallScrollbar.m_LowValue :=
  ⟨by decide, by decide, Scrollbar.setValue_clamps tallScrollbar 9 (by decide) (by decide)⟩

/-- C2 (the code at the failing input): on a scrollbar with maximum 10, low value 2 and value 8,
`setLowValue(5)` keeps the value 8, which is above `maximum - lowValue = 5`. -/
theorem Scrollbar.setLowValue_leaves_value_out_of_range :
    tallScrollbar.m_Value ≤ tallScrollbar.m_Maximum - tallScrollbar.m_LowValue ∧
      (tallScrollbar.setLowValue 5).m_Value = 8 ∧
      ¬ (tallScrollbar.setLowValue 5).m_Value ≤
          (tallScrollbar.setLowValue 5).m_Maximum - (tallScrollbar.setLowValue 5).m_LowValue := by
  decide

theorem Scrollbar.pressArrowTest_on_arrow (s : Scrollbar) (x y : ℚ)
    (hfull : s.fullSizeLayout) (hpress : s.inFirstArrow x y ∨ s.inSecondArrow x y) :
    s.pressArrowTest x y = { s with m_MouseDownOnArrow := true } := by
  unfold Scrollbar.fullSizeLayout at hfull
  unfold Scrollbar.inFirstArrow Scrollbar.inSecondArrow at hpress
  unfold Scrollbar.pressArrowTest
  by_cases hv : s.m_VerticalScroll = true
  · simp only [hv, if_true] at hfull hpress ⊢
    rw [if_pos hfull]
    rcases hpress with h | h
    · rw [if_pos h]
    · split_ifs <;> rfl
  · simp only [hv, Bool.false_eq_true, if_false] at hfull hpress ⊢
    rw [if_pos hfull]
    rcases hpress with h | h
    · rw [if_pos h]
    · split_ifs <;> rfl

/-- A press in an arrow region of the full-size layout only records the press. -/
theorem Scrollbar.leftMousePressed_on_arrow (s : Scrollbar) (x y : ℚ)
    (hfull : s.fullSizeLayout) (hpress : s.inFirstArrow x y ∨ s.inSecondArrow x y) :
    s.leftMousePressed x y
      = some { s with m_MouseDown := true, m_MouseDownOnArrow := true } := by
  unfold Scrollbar.leftMousePressed
  have h := Scrollbar.pressArrowTest_on_arrow
    { s with m_MouseDown := true, m_MouseDownOnArrow := false } x y hfull hpress
  simp only [h]
  rfl

/-- The release of an arrow click in the full-size layout. -/
theorem Scrollbar.leftMouseReleased_on_arrow (s : Scrollbar) (x y : ℚ)
    (hdown : s.m_MouseDown = true) (harrow : s.m_MouseDownOnArrow = true)
    (hfull : s.fullSizeLayout) (hmax : s.m_LowValue < s.m_Maximum) :
    (s.leftMouseReleased x y).m_Value =
      if s.inFirstArrow x y then (s.decrementValue).m_Value
      else if s.inSecondArrow x y then (s.incrementValue).m_Value
      else s.m_Value := by
  unfold Scrollbar.fullSizeLayout at hfull
  unfold Scrollbar.inFirstArrow Scrollbar.inSecondArrow
  unfold Scrollbar.leftMouseReleased
  have hm : s.m_Maximum > s.m_LowValue := hmax
  simp only [hdown, harrow, and_self, if_true, hm]
  by_cases hv : s.m_VerticalScroll = true
  · simp only [hv, if_true] at hfull ⊢
    rw [if_pos hfull]
    unfold Scrollbar.addValueCallback
    split_ifs <;> rfl
  · simp only [hv, Bool.false_eq_true, if_false] at hfull ⊢
    rw [if_pos hfull]
    unfold Scrollbar.addValueCallback
    split_ifs <;> rfl

/-- C10 (the code at the failing input): the scrollbar `topScrollbar` (value 0, maximum 10, low
value 2) is in the full-size layout of the handlers; the point (0, 35) lies in its second arrow
region; a press there leaves the value 0, and the release there leaves it 0 as well, not 1. -/
theorem Scrollbar.arrow_release_in_overlap_keeps_value :
    topScrollbar.fullSizeLayout ∧ topScrollbar.m_LowValue < topScrollbar.m_Maximum ∧
      topScrollbar.m_Value < topScrollbar.m_Maximum - topScrollbar.m_LowValue ∧
      topScrollbar.inSecondArrow 0 35 ∧
      ∃ pressed, topScrollbar.leftMousePressed 0 35 = some pressed ∧ pressed.m_Value = 0 ∧
        (pressed.leftMouseReleased 0 35).m_Value = 0 := by
  have hfull : topScrollbar.fullSizeLayout := by
    norm_num [Scrollbar.fullSizeLayout, topScrollbar, tallScrollbar, Scrollbar.twiceArrow,
      Scrollbar.scalingX, uintSize]
  have hsecond : topScrollbar.inSecondArrow 0 35 := by
    norm_num [Scrollbar.inSecondArrow, topScrollbar, tallScrollbar, Scrollbar.scalingX]
  have hfirst : topScrollbar.inFirstArrow 0 35 := by
    norm_num [Scrollbar.inFirstArrow, topScrollbar, tallScrollbar, Scrollbar.scalingX]
  refine ⟨hfull, by decide, by decide, hsecond, _,
    Scrollbar.leftMousePressed_on_arrow topScrollbar 0 35 hfull (Or.inr hsecond), rfl, ?_⟩
  have hrel := Scrollbar.leftMouseReleased_on_arrow
    { topScrollbar with m_MouseDown := true, m_MouseDownOnArrow := true } 0 35 rfl rfl hfull
    (by decide)
  rw [hrel]
  refine Eq.trans (if_pos ?_) rfl
  exact hfirst

/-- The same defect seen from the layout test of `draw` and `mouseOnObject`
(`m_Size.y > 2 * arrow height * scalingX`): `shrunkScrollbar` passes that test, a press at
(0, 5) lies in its first arrow region and leaves the value 3, and the release at (0, 12), a point
in neither arrow region, lowers the value to 2, because the handlers take the reduced-arrow
branch. -/
theorem Scrollbar.arrow_release_on_track_of_shrunk_bar :
    shrunkScrollbar.m_Size.y > shrunkScrollbar.twiceArrow * shrunkScrollbar.scalingX ∧
      shrunkScrollbar.inFirstArrow 0 5 ∧
      ¬ shrunkScrollbar.inFirstArrow 0 12 ∧ ¬ shrunkScrollbar.inSecondArrow 0 12 ∧
      ∃ pressed, shrunkScrollbar.leftMousePressed 0 5 = some pressed ∧ pressed.m_Value = 3 ∧
        (pressed.leftMouseReleased 0 12).m_Value = 2 := by
  refine ⟨?_, ?_, ?_, ?_,
    { shrunkScrollbar with m_MouseDown := true, m_MouseDownOnArrow := true }, ?_, rfl, ?_⟩
  · norm_num [shrunkScrollbar, tallScrollbar, Scrollbar.twiceArrow, Scrollbar.scalingX, uintSize]
  · norm_num [Scrollbar.inFirstArrow, shrunkScrollbar, tallScrollbar, Scrollbar.scalingX]
  · norm_num [Scrollbar.inFirstArrow, shrunkScrollbar, tallScrollbar, Scrollbar.scalingX]
  · norm_num [Scrollbar.inSecondArrow, shrunkScrollbar, tallScrollbar, Scrollbar.scalingX]
  · norm_num [Scrollbar.leftMousePressed, Scrollbar.pressArrowTest, shrunkScrollbar,
      tallScrollbar, Scrollbar.twiceArrow, Scrollbar.scalingX, uintSize]
  · norm_num [Scrollbar.leftMouseReleased, Scrollbar.decrementValue,
      Scrollbar.addValueCallback, shrunkScrollbar, tallScrollbar, Scrollbar.twiceArrow,
      Scrollbar.scalingX, uintSize, usub]

/-! ## Theorems: selection by a press on the form -/

theorem find?_reverse_eq_getLast?_filter {α : Type} (p : α → Bool) (l : List α) :
    l.reverse.find? p = (l.filter p).getLast? := by
  induction l using List.reverseRecOn with
  | nil => rfl
  | append_singleton l a ih =>
    rw [List.reverse_append, List.reverse_singleton, List.singleton_append, List.find?_cons,
      List.filter_append]
    by_cases h : p a
    · simp [h]
    · rw [Bool.not_eq_true] at h
      simp only [h, List.filter, List.append_nil]
      exact ih

theorem Form.selectWidget_selected (s : FormState) (widget : Option WidgetPtr) :
    (Form.selectWidget s widget).m_selectedWidget = widget := by
  unfold Form.selectWidget
  by_cases h : s.m_selectedWidget = widget
  · simp [h]
  · cases widget <;> simp [h, Form.placeSelectionSquares]

theorem Form.selectWidget_dragging (s : FormState) (widget : Option WidgetPtr) :
    (Form.selectWidget s widget).m_draggingWidget = s.m_draggingWidget ∧
      (Form.selectWidget s widget).m_draggingPos = s.m_draggingPos ∧
      (Form.selectWidget s widget).container = s.container ∧
      (Form.selectWidget s widget).heap = s.heap := by
  unfold Form.selectWidget
  by_cases h : s.m_selectedWidget = widget
  · simp [h]
  · cases widget <;> simp [h, Form.placeSelectionSquares]

/-- C6: `onFormMousePress(pos)` selects the last widget of the container order among those
whose rectangle contains `pos` and starts a move-drag anchored at `pos`; when no rectangle
contains `pos` the selection becomes empty (and no drag is started). For two widgets `a` then
`b` added in that order with `pos` under both, `b` is selected. -/
theorem Form.onFormMousePress_selects_topmost (s : FormState) (pos : Vector2f) :
    (Form.onFormMousePress s pos).m_selectedWidget
        = (s.container.getWidgets.filter
            (fun w => (Form.widgetRect (s.heap w)).contains pos)).getLast? ∧
      ((∃ w ∈ s.container.getWidgets, (Form.widgetRect (s.heap w)).contains pos = true) →
        (Form.onFormMousePress s pos).m_draggingWidget = true ∧
          (Form.onFormMousePress s pos).m_draggingPos = pos) ∧
      ((∀ w ∈ s.container.getWidgets, (Form.widgetRect (s.heap w)).contains pos = false) →
        (Form.onFormMousePress s pos).m_selectedWidget = none ∧
          (Form.onFormMousePress s pos).m_draggingWidget = s.m_draggingWidget ∧
          (Form.onFormMousePress s pos).m_draggingPos = s.m_draggingPos) ∧
      (∀ (a b : WidgetPtr) (nameA nameB : String),
        (Form.widgetRect (s.heap a)).contains pos = true →
        (Form.widgetRect (s.heap b)).contains pos = true →
        (Form.onFormMousePress
          { s with container := (s.container.add a nameA).add b nameB } pos).m_selectedWidget
            = some b) := by
  have key : ∀ t : FormState, (Form.onFormMousePress t pos).m_selectedWidget
      = t.container.getWidgets.reverse.find?
          (fun w => (Form.widgetRect (t.heap w)).contains pos) := by
    intro t
    unfold Form.onFormMousePress
    cases hf : t.container.getWidgets.reverse.find?
        (fun w => (Form.widgetRect (t.heap w)).contains pos) with
    | none => simp [Form.selectWidget_selected]
    | some w => simp [Form.selectWidget_selected]
  refine ⟨?_, ?_, ?_, ?_⟩
  · rw [key, find?_reverse_eq_getLast?_filter]
  · rintro ⟨w, hw, hc⟩
    unfold Form.onFormMousePress
    cases hf : s.container.getWidgets.reverse.find?
        (fun w => (Form.widgetRect (s.heap w)).contains pos) with
    | none =>
      rw [List.find?_eq_none] at hf
      exact absurd hc (hf w (List.mem_reverse.mpr hw))
    | some v => simp
  · intro hnone
    have hf : s.container.getWidgets.reverse.find?
        (fun w => (Form.widgetRect (s.heap w)).contains pos) = none := by
      rw [List.find?_eq_none]
      intro w hw
      simp [hnone w (List.mem_reverse.mp hw)]
    unfold Form.onFormMousePress
    rw [hf]
    have hd := Form.selectWidget_dragging s none
    exact ⟨Form.selectWidget_selected s none, hd.1, hd.2.1⟩
  · intro a b nameA nameB _ hb
    rw [key]
    simp [Container.add, Container.getWidgets, hb]

theorem Form.onFormMousePress_selects_topmost_witness :
    (Form.onFormMousePress twoWidgetForm ⟨60, 30⟩).m_selectedWidget = some 2 ∧
      (Form.onFormMousePress twoWidgetForm ⟨60, 30⟩).m_draggingWidget = true ∧
      (Form.onFormMousePress twoWidgetForm ⟨60, 30⟩).m_draggingPos = ⟨60, 30⟩ := by
  have hc : ∀ w, (Form.widgetRect (twoWidgetForm.heap w)).contains ⟨60, 30⟩ = true := by
    intro w
    by_cases h : w = 1 <;>
      simp [twoWidgetForm, h, Form.widgetRect, FloatRect.contains] <;> norm_num
  have h := Form.onFormMousePress_selects_topmost twoWidgetForm ⟨60, 30⟩
  refine ⟨?_, h.2.1 ⟨1, by simp [twoWidgetForm, Container.getWidgets], hc 1⟩⟩
  have hw : twoWidgetForm.container.getWidgets = [1, 2] := rfl
  rw [h.1, hw]
  simp only [List.filter, hc]
  rfl

/-! ## Theorems: renaming the selected widget -/

theorem Container.findWidget_append_of_not_mem (w : WidgetPtr)
    (pre rest : List (WidgetPtr × String)) (h : w ∉ pre.map Prod.fst) :
    Container.findWidget w (pre ++ rest) = Container.findWidget w rest := by
  induction pre with
  | nil => rfl
  | cons e es ih =>
    have h1 : e.1 ≠ w := fun he => h (by simp [he])
    have h2 : w ∉ es.map Prod.fst := fun hm => h (by simp [List.mem_map] at hm ⊢; tauto)
    simp [Container.findWidget, h1, ih h2]

theorem Container.eraseWidget_append_of_not_mem (w : WidgetPtr)
    (pre rest : List (WidgetPtr × String)) (h : w ∉ pre.map Prod.fst) :
    Container.eraseWidget w (pre ++ rest) = pre ++ Container.eraseWidget w rest := by
  induction pre with
  | nil => rfl
  | cons e es ih =>
    have h1 : e.1 ≠ w := fun he => h (by simp [he])
    have h2 : w ∉ es.map Prod.fst := fun hm => h (by simp [List.mem_map] at hm ⊢; tauto)
    simp [Container.eraseWidget, h1, ih h2]

theorem Form.renameLoop_not_found (selected : Option WidgetPtr) (name : String)
    (l rest : List WidgetPtr) (c : Container) (h : ∀ w ∈ l, some w ≠ selected) :
    Form.renameLoop selected name (l ++ rest) false c
      = Form.renameLoop selected name rest false c := by
  induction l with
  | nil => rfl
  | cons w ws ih =>
    have h1 : some w ≠ selected := h w (by simp)
    have h2 : ∀ v ∈ ws, some v ≠ selected := fun v hv => h v (by simp [hv])
    simp [Form.renameLoop, h1, ih h2]

theorem Form.renameLoop_found (selected : Option WidgetPtr) (name : String)
    (post : List (WidgetPtr × String)) :
    ∀ (pre acc : List (WidgetPtr × String)),
      (∀ e ∈ post, e.1 ∉ pre.map Prod.fst) → (post.map Prod.fst).Nodup →
      Form.renameLoop selected name (post.map Prod.fst) true ⟨pre ++ post ++ acc⟩
        = ⟨pre ++ acc ++ post⟩ := by
  induction post with
  | nil => intro pre acc _ _; simp [Form.renameLoop]
  | cons e es ih =>
    intro pre acc hpre hnd
    have he : e.1 ∉ pre.map Prod.fst := hpre e (by simp)
    have hes : ∀ e' ∈ es, e'.1 ∉ pre.map Prod.fst := fun e' h' => hpre e' (by simp [h'])
    have hnd' : (es.map Prod.fst).Nodup := (List.nodup_cons.mp hnd).2
    have hfind : Container.findWidget e.1 (pre ++ (e :: es) ++ acc) = some e := by
      rw [List.append_assoc, Container.findWidget_append_of_not_mem _ _ _ he]
      simp [Container.findWidget]
    have herase : Container.eraseWidget e.1 (pre ++ (e :: es) ++ acc) = pre ++ es ++ acc := by
      rw [List.append_assoc, Container.eraseWidget_append_of_not_mem _ _ _ he]
      simp [Container.eraseWidget]
    have hmove : Container.moveWidgetToFront ⟨pre ++ (e :: es) ++ acc⟩ e.1
        = ⟨pre ++ es ++ (acc ++ [e])⟩ := by
      unfold Container.moveWidgetToFront
      simp only [hfind, herase]
      simp only [List.append_assoc]
    simp only [List.map_cons, Form.renameLoop]
    rw [hmove, ih pre (acc ++ [e]) hes hnd']
    simp

/-- The container after `setSelectedWidgetName`, for pairwise distinct widgets: every pair
stays where it was and the pair of the selected widget carries the new name. -/
theorem Form.renameLoop_entries (w : WidgetPtr) (name : String) (c : Container)
    (hnd : c.getWidgets.Nodup) (hmem : w ∈ c.getWidgets) :
    Form.renameLoop (some w) name c.getWidgets false c
      = ⟨c.entries.map (renameEntry w name)⟩ := by
  obtain ⟨entries⟩ := c
  simp only [Container.getWidgets] at hnd hmem ⊢
  obtain ⟨e, he, hew⟩ := List.mem_map.mp hmem
  obtain ⟨pre, post, hsplit⟩ := List.append_of_mem he
  subst hsplit
  rw [List.map_append, List.map_cons] at hnd
  have hdis := List.nodup_append.mp hnd
  have hpre : w ∉ pre.map Prod.fst := by
    intro hm
    exact hdis.2.2 hm (by simp [hew])
  have hpost : w ∉ post.map Prod.fst := by
    have := (List.nodup_cons.mp hdis.2.1).1
    rwa [hew] at this
  have hpostpre : ∀ e' ∈ post, e'.1 ∉ pre.map Prod.fst := by
    intro e' he' hm
    exact hdis.2.2 hm (by simp; right; exact ⟨e'.2, he'⟩)
  have hpostnd : (post.map Prod.fst).Nodup := (List.nodup_cons.mp hdis.2.1).2
  have hskip : ∀ v ∈ pre.map Prod.fst, some v ≠ some w := by
    intro v hv hvw
    exact hpre (by rw [← Option.some.inj hvw]; exact hv)
  rw [List.map_append, List.map_cons, Form.renameLoop_not_found _ _ _ _ _ hskip]
  have herase : Container.eraseWidget e.1 (pre ++ e :: post) = pre ++ post := by
    rw [Container.eraseWidget_append_of_not_mem _ _ _ (hew ▸ hpre)]
    simp [Container.eraseWidget]
  simp only [Form.renameLoop, hew, if_true, Container.remove, Container.add]
  rw [← hew, herase, Form.renameLoop_found _ _ post pre [(e.1, name)] hpostpre hpostnd]
  have hmapid : ∀ l : List (WidgetPtr × String), w ∉ l.map Prod.fst →
      l.map (renameEntry w name) = l := by
    intro l hl
    induction l with
    | nil => rfl
    | cons a as ih =>
      have h1 : a.1 ≠ w := fun h => hl (by simp [h])
      have h2 : w ∉ as.map Prod.fst := fun hm => hl (by simp [List.mem_map] at hm ⊢; tauto)
      simp [renameEntry, h1, ih h2]
  simp [hmapid pre hpre, hmapid post hpost, renameEntry, hew]

theorem Container.findWidget_map_renameEntry (w v : WidgetPtr) (name : String)
    (l : List (WidgetPtr × String)) :
    Container.findWidget v (l.map (renameEntry w name))
      = (Container.findWidget v l).map (renameEntry w name) := by
  induction l with
  | nil => rfl
  | cons e es ih =>
    have h1 : (renameEntry w name e).1 = e.1 := by
      unfold renameEntry; split_ifs <;> rfl
    by_cases h : e.1 = v
    · simp [Container.findWidget, h1, h]
    · simp [Container.findWidget, h1, h, ih]

theorem Container.findWidget_fst (v : WidgetPtr) (l : List (WidgetPtr × String))
    (e : WidgetPtr × String) (h : Container.findWidget v l = some e) : e.1 = v := by
  induction l with
  | nil => simp [Container.findWidget] at h
  | cons a as ih =>
    by_cases ha : a.1 = v
    · simp [Container.findWidget, ha] at h; rw [← h]; exact ha
    · simp [Container.findWidget, ha] at h; exact ih h

theorem Container.findWidget_isSome_of_mem (v : WidgetPtr) (l : List (WidgetPtr × String))
    (h : v ∈ l.map Prod.fst) : ∃ e, Container.findWidget v l = some e := by
  induction l with
  | nil => simp at h
  | cons a as ih =>
    by_cases ha : a.1 = v
    · exact ⟨a, by simp [Container.findWidget, ha]⟩
    · have : v ∈ as.map Prod.fst := by
        simp only [List.map_cons, List.mem_cons] at h
        rcases h with h | h
        · exact absurd h.symm ha
        · exact h
      obtain ⟨e, he⟩ := ih this
      exact ⟨e, by simp [Container.findWidget, ha, he]⟩

theorem Form.setSelectedWidgetName_unselected (s : FormState) (name : String)
    (h : ∀ w ∈ s.container.getWidgets, some w ≠ s.m_selectedWidget) :
    Form.setSelectedWidgetName s name = s := by
  have hloop := Form.renameLoop_not_found s.m_selectedWidget name s.container.getWidgets []
    s.container h
  rw [List.append_nil] at hloop
  unfold Form.setSelectedWidgetName
  simp only [hloop, Form.renameLoop]

theorem Form.setSelectedWidgetName_entries (s : FormState) (name : String) (w : WidgetPtr)
    (hnd : s.container.getWidgets.Nodup) (hsel : s.m_selectedWidget = some w)
    (hmem : w ∈ s.container.getWidgets) :
    (Form.setSelectedWidgetName s name).container.entries
      = s.container.entries.map (renameEntry w name) := by
  have hloop := Form.renameLoop_entries w name s.container hnd hmem
  unfold Form.setSelectedWidgetName
  simp only [hsel]
  rw [hloop]

theorem Form.setSelectedWidgetName_getWidgets (s : FormState) (name : String) (w : WidgetPtr)
    (hnd : s.container.getWidgets.Nodup) (hsel : s.m_selectedWidget = some w)
    (hmem : w ∈ s.container.getWidgets) :
    (Form.setSelectedWidgetName s name).container.getWidgets = s.container.getWidgets := by
  simp only [Container.getWidgets, Form.setSelectedWidgetName_entries s name w hnd hsel hmem,
    List.map_map]
  apply List.map_congr_left
  intro e _
  simp only [Function.comp, renameEntry]
  split_ifs <;> rfl

/-- C7 (counterexample): on the form `twoWidgetForm` (widgets 1 then 2, widget 1 selected and in
the container) renaming the selected widget leaves widget 2, not the renamed widget, at the end
of the widget sequence. -/
theorem Form.setSelectedWidgetName_not_last :
    twoWidgetForm.m_selectedWidget = some 1 ∧ 1 ∈ twoWidgetForm.container.getWidgets ∧
      (Form.setSelectedWidgetName twoWidgetForm "Button").container.getWidgets.getLast?
        ≠ some 1 := by
  decide

/-- C7 (amended): for a container of pairwise distinct widgets that holds the selected widget,
`setSelectedWidgetName` leaves the renamed widget at the index it had in the widget sequence: it
is the last element afterwards exactly when it was the last element before. -/
theorem Form.setSelectedWidgetName_keeps_index (s : FormState) (name : String) (w : WidgetPtr)
    (hnd : s.container.getWidgets.Nodup) (hsel : s.m_selectedWidget = some w)
    (hmem : w ∈ s.container.getWidgets) :
    (Form.setSelectedWidgetName s name).container.getWidgets.indexOf w
        = s.container.getWidgets.indexOf w ∧
      ((Form.setSelectedWidgetName s name).container.getWidgets.getLast? = some w ↔
        s.container.getWidgets.getLast? = some w) := by
  rw [Form.setSelectedWidgetName_getWidgets s name w hnd hsel hmem]
  exact ⟨rfl, Iff.rfl⟩

theorem Form.setSelectedWidgetName_keeps_index_witness :
    (Form.setSelectedWidgetName twoWidgetForm "Button").container.getWidgets.indexOf 1
        = twoWidgetForm.container.getWidgets.indexOf 1 ∧
      ((Form.setSelectedWidgetName twoWidgetForm "Button").container.getWidgets.getLast? = some 1 ↔
        twoWidgetForm.container.getWidgets.getLast? = some 1) :=
  Form.setSelectedWidgetName_keeps_index twoWidgetForm "Button" 1 (by decide) rfl (by decide)

/-- C8: for a container of pairwise distinct widgets, after `setSelectedWidgetName(newName)` the
sequence returned by `getWidgets()` is the same as before; when the selected widget is in the
container its name is `newName` afterwards and every other widget keeps its name (the pairs
are the old ones with only the selected widget's name replaced); when the selected widget is
none or not in the container the form is unchanged. -/
theorem Form.setSelectedWidgetName_keeps_order (s : FormState) (name : String)
    (hnd : s.container.getWidgets.Nodup) :
    (Form.setSelectedWidgetName s name).container.getWidgets = s.container.getWidgets ∧
      (∀ w, s.m_selectedWidget = some w → w ∈ s.container.getWidgets →
        (Form.setSelectedWidgetName s name).container.entries
            = s.container.entries.map (renameEntry w name) ∧
          (Form.setSelectedWidgetName s name).container.getWidgetName w = name ∧
          ∀ v, v ≠ w → (Form.setSelectedWidgetName s name).container.getWidgetName v
            = s.container.getWidgetName v) ∧
      ((s.m_selectedWidget = none ∨ ∃ w, s.m_selectedWidget = some w ∧ w ∉ s.container.getWidgets) →
        Form.setSelectedWidgetName s name = s) := by
  have hun : (s.m_selectedWidget = none ∨
      ∃ w, s.m_selectedWidget = some w ∧ w ∉ s.container.getWidgets) →
      Form.setSelectedWidgetName s name = s := by
    intro h
    apply Form.setSelectedWidgetName_unselected
    intro v hv hvs
    rcases h with h | ⟨w, hw, hnot⟩
    · rw [h] at hvs; exact Option.noConfusion hvs
    · rw [hw] at hvs
      exact hnot (Option.some.inj hvs ▸ hv)
  have hentries : ∀ w, s.m_selectedWidget = some w → w ∈ s.container.getWidgets →
      (Form.setSelectedWidgetName s name).container.entries
        = s.container.entries.map (renameEntry w name) :=
    fun w hsel hmem => Form.setSelectedWidgetName_entries s name w hnd hsel hmem
  refine ⟨?_, ?_, hun⟩
  · cases hsel : s.m_selectedWidget with
    | none => rw [hun (Or.inl hsel)]
    | some w =>
      by_cases hmem : w ∈ s.container.getWidgets
      · exact Form.setSelectedWidgetName_getWidgets s name w hnd hsel hmem
      · rw [hun (Or.inr ⟨w, hsel, hmem⟩)]
  · intro w hsel hmem
    refine ⟨hentries w hsel hmem, ?_, ?_⟩
    · obtain ⟨e, he⟩ := Container.findWidget_isSome_of_mem w s.container.entries hmem
      have hfst := Container.findWidget_fst w _ e he
      simp [Container.getWidgetName, hentries w hsel hmem,
        Container.findWidget_map_renameEntry, he, renameEntry, hfst]
    · intro v hv
      simp only [Container.getWidgetName, hentries w hsel hmem,
        Container.findWidget_map_renameEntry]
      cases he : Container.findWidget v s.container.entries with
      | none => rfl
      | some e =>
        have hfst := Container.findWidget_fst v _ e he
        simp [renameEntry, hfst, hv]

theorem Form.setSelectedWidgetName_keeps_order_witness :
    (Form.setSelectedWidgetName twoWidgetForm "Button").container.getWidgets
        = twoWidgetForm.container.getWidgets ∧
      (Form.setSelectedWidgetName twoWidgetForm "Button").container.getWidgetName 1 = "Button" ∧
      (Form.setSelectedWidgetName twoWidgetForm "Button").container.getWidgetName 2
        = twoWidgetForm.container.getWidgetName 2 :=
  have h := Form.setSelectedWidgetName_keeps_order twoWidgetForm "Button" (by decide)
  ⟨h.1, (h.2.1 1 rfl (by decide)).2.1, (h.2.1 1 rfl (by decide)).2.2 2 (by decide)⟩

/-! ## Theorems: the loops of `onDrag` -/

namespace Form

theorem moved_moved (w : WidgetPtr) (P1 S1 A1 P2 S2 A2 : Vector2f) (u1 u2 : Bool)
    (f : DragFrame) :
    moved w P2 S2 A2 u2 (moved w P1 S1 A1 u1 f)
      = moved w ⟨P1.x + P2.x, P1.y + P2.y⟩ ⟨S1.x + S2.x, S1.y + S2.y⟩
          ⟨A1.x + A2.x, A1.y + A2.y⟩ (u1 || u2) f := by
  simp only [moved, Function.update_same, Function.update_idem, add_assoc, Bool.or_assoc]

theorem moved_zero (w : WidgetPtr) (f : DragFrame) :
    moved w ⟨0, 0⟩ ⟨0, 0⟩ ⟨0, 0⟩ false f = f := by
  simp only [moved, add_zero, Bool.or_false]
  have : Function.update f.form.heap w (f.form.heap w) = f.form.heap :=
    Function.update_eq_self w f.form.heap
  rw [this]

theorem movedBy_zero (w : WidgetPtr) (dp ds da : Vector2f) (f : DragFrame) :
    movedBy w dp ds da 0 f = f := by
  simp [movedBy, scaled, moved_zero]

theorem dragStep_eq (w : WidgetPtr) (dp ds da : Vector2f) (f : DragFrame)
    (hsel : f.form.m_selectedWidget = some w) :
    dragStep dp ds da f = .ok (movedBy w dp ds da 1 f) := by
  simp [dragStep, hsel, movedBy, moved, scaled]

theorem movedBy_movedBy (w : WidgetPtr) (dp ds da : Vector2f) (i j : ℤ) (f : DragFrame)
    (hij : (i ≠ 0 ∨ j ≠ 0) ↔ i + j ≠ 0) :
    movedBy w dp ds da j (movedBy w dp ds da i f) = movedBy w dp ds da (i + j) f := by
  unfold movedBy
  rw [moved_moved]
  have hu : (decide (i ≠ 0) || decide (j ≠ 0)) = decide (i + j ≠ 0) := by
    rw [← Bool.decide_or]
    exact decide_eq_decide.mpr hij
  rw [hu]
  simp only [scaled, Int.cast_add, add_mul]

theorem movedBy_selected (w : WidgetPtr) (dp ds da : Vector2f) (k : ℤ) (f : DragFrame) :
    (movedBy w dp ds da k f).form.m_selectedWidget = f.form.m_selectedWidget := rfl

theorem movedBy_draggingPos (w : WidgetPtr) (dp ds da : Vector2f) (k : ℤ)
    (f : DragFrame) :
    (movedBy w dp ds da k f).form.m_draggingPos
      = ⟨f.form.m_draggingPos.x + (k : ℚ) * da.x, f.form.m_draggingPos.y + (k : ℚ) * da.y⟩ := rfl

theorem movedBy_heap (w : WidgetPtr) (dp ds da : Vector2f) (k : ℤ) (f : DragFrame) :
    (movedBy w dp ds da k f).form.heap w
      = ⟨⟨(f.form.heap w).position.x + (k : ℚ) * dp.x,
            (f.form.heap w).position.y + (k : ℚ) * dp.y⟩,
          ⟨(f.form.heap w).size.x + (k : ℚ) * ds.x, (f.form.heap w).size.y + (k : ℚ) * ds.y⟩⟩ := by
  simp [movedBy, moved, scaled]

theorem movedBy_updated (w : WidgetPtr) (dp ds da : Vector2f) (k : ℤ) (f : DragFrame) :
    (movedBy w dp ds da k f).updated = (f.updated || decide (k ≠ 0)) := rfl

theorem whileLoop_done (cond : DragFrame → Bool)
    (body : DragFrame → Except DragError DragFrame) (fuel : Nat) (f : DragFrame)
    (h : cond f = false) : whileLoop cond body fuel f = .ok f := by
  cases fuel <;> simp [whileLoop, h]

theorem andThen_ok (a b : DragFrame → Except DragError DragFrame) (f g : DragFrame)
    (h : a f = .ok g) : andThen a b f = b g := by
  simp [andThen, h, Except.bind]

theorem whileLoop_forward (cond : DragFrame → Bool) (w : WidgetPtr) (dp ds da : Vector2f) :
    ∀ (n : ℕ) (f : DragFrame), f.form.m_selectedWidget = some w →
      (∀ i : ℕ, i < n → cond (movedBy w dp ds da i f) = true) →
      cond (movedBy w dp ds da n f) = false →
      ∀ fuel, n ≤ fuel →
        whileLoop cond (dragStep dp ds da) fuel f = .ok (movedBy w dp ds da n f) := by
  intro n
  induction n with
  | zero =>
    intro f _ _ hstop fuel _
    simp only [Nat.cast_zero, movedBy_zero] at hstop ⊢
    exact whileLoop_done cond _ fuel f hstop
  | succ n ih =>
    intro f hsel hrun hstop fuel hfuel
    obtain ⟨m, rfl⟩ : ∃ m, fuel = m + 1 := ⟨fuel - 1, by omega⟩
    have h0 : cond f = true := by
      have := hrun 0 (by omega)
      simpa only [Nat.cast_zero, movedBy_zero] using this
    have hshift : ∀ i : ℕ, movedBy w dp ds da i (movedBy w dp ds da 1 f)
        = movedBy w dp ds da ((i + 1 : ℕ) : ℤ) f := by
      intro i
      rw [movedBy_movedBy w dp ds da 1 i f (by constructor <;> intro _ <;> omega)]
      congr 1
      push_cast
      ring
    have hrec := ih (movedBy w dp ds da 1 f) (by simpa using hsel)
      (fun i hi => by rw [hshift]; exact hrun (i + 1) (by omega))
      (by rw [hshift]; exact hstop) m (by omega)
    simp only [whileLoop, h0, if_true, dragStep_eq w dp ds da f hsel, Except.bind]
    rw [hrec, hshift]

theorem movedBy_neg (w : WidgetPtr) (dp ds da : Vector2f) (k : ℤ) (f : DragFrame) :
    movedBy w ⟨-dp.x, -dp.y⟩ ⟨-ds.x, -ds.y⟩ ⟨-da.x, -da.y⟩ k f = movedBy w dp ds da (-k) f := by
  have hu : decide (k ≠ 0) = decide (-k ≠ 0) := decide_eq_decide.mpr (by simp)
  simp only [movedBy, scaled, hu, Int.cast_neg, mul_neg, neg_mul]

/-- Two consecutive loops of `onDrag` with opposite bodies: the first runs `k` times when
`0 ≤ k`, the second `-k` times when `k ≤ 0`. -/
theorem loopPair_spec (cond1 cond2 : DragFrame → Bool) (w : WidgetPtr)
    (dp ds da : Vector2f) (f : DragFrame) (hsel : f.form.m_selectedWidget = some w)
    (hT1 : ∃ n : ℕ, cond1 (movedBy w dp ds da n f) = false)
    (hT2 : ∃ n : ℕ, cond2 (movedBy w dp ds da (-(n : ℤ)) f) = false)
    (hX : ∀ i : ℕ, cond1 (movedBy w dp ds da i f) = true →
      cond2 (movedBy w dp ds da ((i : ℤ) + 1) f) = false) :
    ∃ k : ℤ,
      (∃ N, ∀ fuel, N ≤ fuel →
        andThen (whileLoop cond1 (dragStep dp ds da) fuel)
          (whileLoop cond2 (dragStep ⟨-dp.x, -dp.y⟩ ⟨-ds.x, -ds.y⟩ ⟨-da.x, -da.y⟩) fuel) f
          = .ok (movedBy w dp ds da k f)) ∧
      (0 ≤ k → cond1 (movedBy w dp ds da k f) = false) ∧
      cond2 (movedBy w dp ds da k f) = false ∧
      (0 < k → cond1 (movedBy w dp ds da (k - 1) f) = true ∧ cond1 f = true) ∧
      (k < 0 → cond2 (movedBy w dp ds da (k + 1) f) = true ∧ cond2 f = true) ∧
      (k ≤ 0 → cond1 f = false) := by
  classical
  by_cases h1 : cond1 f = true
  · -- the first loop runs
    have hpos : 0 < Nat.find hT1 := by
      rw [Nat.find_pos]
      simp only [Nat.cast_zero, movedBy_zero, h1]
      decide
    have hstop := Nat.find_spec hT1
    have hrun : ∀ i : ℕ, i < Nat.find hT1 → cond1 (movedBy w dp ds da i f) = true := by
      intro i hi
      have := Nat.find_min hT1 hi
      simpa using this
    have hlast := hrun (Nat.find hT1 - 1) (by omega)
    have hcast : ((Nat.find hT1 - 1 : ℕ) : ℤ) = (Nat.find hT1 : ℤ) - 1 := by omega
    have hc2 : cond2 (movedBy w dp ds da (Nat.find hT1 : ℤ) f) = false := by
      have := hX (Nat.find hT1 - 1) hlast
      rwa [hcast, sub_add_cancel] at this
    refine ⟨(Nat.find hT1 : ℤ), ⟨Nat.find hT1, ?_⟩, fun _ => hstop, hc2, ?_, ?_, ?_⟩
    · intro fuel hfuel
      rw [andThen_ok _ _ _ _ (whileLoop_forward cond1 w dp ds da _ f hsel hrun hstop fuel hfuel)]
      exact whileLoop_done _ _ _ _ hc2
    · intro _
      exact ⟨by rw [← hcast]; exact hlast, h1⟩
    · intro hneg; omega
    · intro hle; omega
  · -- the first loop does not run
    have h1' : cond1 f = false := by simpa using h1
    have hstop := Nat.find_spec hT2
    have hrun : ∀ i : ℕ, i < Nat.find hT2 →
        cond2 (movedBy w ⟨-dp.x, -dp.y⟩ ⟨-ds.x, -ds.y⟩ ⟨-da.x, -da.y⟩ i f) = true := by
      intro i hi
      have := Nat.find_min hT2 hi
      rw [movedBy_neg]
      simpa using this
    have hstop' : cond2 (movedBy w ⟨-dp.x, -dp.y⟩ ⟨-ds.x, -ds.y⟩ ⟨-da.x, -da.y⟩
        (Nat.find hT2 : ℤ) f) = false := by
      rw [movedBy_neg]; exact hstop
    refine ⟨-(Nat.find hT2 : ℤ), ⟨Nat.find hT2, ?_⟩, ?_, hstop, ?_, ?_, fun _ => h1'⟩
    · intro fuel hfuel
      rw [andThen_ok _ _ _ _ (whileLoop_done cond1 _ fuel f h1')]
      rw [whileLoop_forward cond2 w _ _ _ _ f hsel hrun hstop' fuel hfuel, movedBy_neg]
    · intro hk
      have : (Nat.find hT2 : ℤ) = 0 := by omega
      rw [this, neg_zero, movedBy_zero]
      exact h1'
    · intro hk; omega
    · intro hk
      have hpos : 0 < Nat.find hT2 := by omega
      have hlast := hrun (Nat.find hT2 - 1) (by omega)
      have hfirst := hrun 0 hpos
      rw [movedBy_neg] at hlast
      rw [Nat.cast_zero, movedBy_zero] at hfirst
      have hcast : -((Nat.find hT2 - 1 : ℕ) : ℤ) = -(Nat.find hT2 : ℤ) + 1 := by omega
      rw [hcast] at hlast
      exact ⟨hlast, hfirst⟩

theorem step_pos : 0 < step := by unfold step; norm_num

theorem truncate_eq_of_bounds (q : ℚ) (k : ℤ)
    (hpos : 0 < k → (k : ℚ) ≤ q ∧ q < k + 1)
    (hneg : k < 0 → (k : ℚ) - 1 < q ∧ q ≤ k)
    (hzero : k = 0 → -1 < q ∧ q < 1) : truncate q = k := by
  unfold truncate
  rcases lt_trichotomy k 0 with hk | hk | hk
  · obtain ⟨h1, h2⟩ := hneg hk
    have hkq : (k : ℚ) < 0 := by exact_mod_cast hk
    rw [if_neg (by linarith), Int.ceil_eq_iff]
    exact ⟨h1, h2⟩
  · obtain ⟨h1, h2⟩ := hzero hk
    subst hk
    split_ifs with h
    · rw [Int.floor_eq_iff]; constructor <;> simp <;> linarith
    · rw [Int.ceil_eq_iff]; constructor <;> simp <;> linarith
  · obtain ⟨h1, h2⟩ := hpos hk
    have hkq : (0 : ℚ) < k := by exact_mod_cast hk
    rw [if_pos (by linarith), Int.floor_eq_iff]
    exact ⟨h1, h2⟩

/-- A pair of opposite loops driven by one gap `g` and a positive threshold `c`: the body runs
`g / c` times, rounded toward zero (negative: the second loop runs). -/
theorem linearPair_spec (cond1 cond2 : DragFrame → Bool) (w : WidgetPtr)
    (dp ds da : Vector2f) (f : DragFrame) (hsel : f.form.m_selectedWidget = some w)
    (g c : ℚ) (hc : 0 < c)
    (h1 : ∀ k : ℤ, cond1 (movedBy w dp ds da k f) = decide (g - k * c ≥ c))
    (h2 : ∀ k : ℤ, cond2 (movedBy w dp ds da k f) = decide (k * c - g ≥ c)) :
    ∃ N, ∀ fuel, N ≤ fuel →
      andThen (whileLoop cond1 (dragStep dp ds da) fuel)
        (whileLoop cond2 (dragStep ⟨-dp.x, -dp.y⟩ ⟨-ds.x, -ds.y⟩ ⟨-da.x, -da.y⟩) fuel) f
        = .ok (movedBy w dp ds da (truncate (g / c)) f) := by
  have hT1 : ∃ n : ℕ, cond1 (movedBy w dp ds da n f) = false := by
    refine ⟨⌈g / c⌉₊, ?_⟩
    rw [h1]
    have := Nat.le_ceil (g / c)
    rw [div_le_iff₀ hc] at this
    simp only [Int.cast_natCast, decide_eq_false_iff_not, not_le]
    linarith
  have hT2 : ∃ n : ℕ, cond2 (movedBy w dp ds da (-(n : ℤ)) f) = false := by
    refine ⟨⌈-g / c⌉₊, ?_⟩
    rw [h2]
    have := Nat.le_ceil (-g / c)
    rw [div_le_iff₀ hc] at this
    simp only [Int.cast_neg, Int.cast_natCast, decide_eq_false_iff_not, not_le]
    linarith
  have hX : ∀ i : ℕ, cond1 (movedBy w dp ds da i f) = true →
      cond2 (movedBy w dp ds da ((i : ℤ) + 1) f) = false := by
    intro i hi
    rw [h1] at hi
    rw [h2]
    simp only [Int.cast_natCast, decide_eq_true_eq] at hi
    simp only [Int.cast_add, Int.cast_natCast, Int.cast_one, decide_eq_false_iff_not, not_le]
    linarith
  obtain ⟨k, hrun, hk1, hk2, hk3, hk4, hk5⟩ :=
    loopPair_spec cond1 cond2 w dp ds da f hsel hT1 hT2 hX
  have hk : truncate (g / c) = k := by
    have e1 : k ≤ 0 → g < c := by
      intro hle
      have := hk5 hle
      have h0 := h1 0
      rw [movedBy_zero, this] at h0
      simp only [Int.cast_zero, zero_mul, sub_zero] at h0
      have := of_decide_eq_false h0.symm
      linarith
    have e2 : k * c - g < c := by
      rw [h2] at hk2
      have := of_decide_eq_false hk2
      linarith
    apply truncate_eq_of_bounds
    · intro hpos
      have ha := (hk3 hpos).1
      have hb := hk1 hpos.le
      rw [h1] at ha hb
      have ha' := of_decide_eq_true ha
      have hb' := of_decide_eq_false hb
      push_cast at ha'
      rw [le_div_iff₀ hc, div_lt_iff₀ hc]
      constructor <;> linarith
    · intro hneg
      have ha := (hk4 hneg).1
      rw [h2] at ha
      have ha' := of_decide_eq_true ha
      push_cast at ha'
      rw [lt_div_iff₀ hc, div_le_iff₀ hc]
      constructor <;> linarith
    · intro hz
      subst hz
      have := e1 le_rfl
      simp only [Int.cast_zero, zero_mul, zero_sub] at e2
      rw [lt_div_iff₀ hc, div_lt_iff₀ hc]
      constructor <;> linarith
  rw [hk]
  exact hrun

/-- A pair of opposite corner loops, each guarded by two gaps: it terminates because the
threshold `cx` on the first gap is positive. -/
theorem cornerPair_spec (cond1 cond2 : DragFrame → Bool) (w : WidgetPtr)
    (dp ds da : Vector2f) (f : DragFrame) (hsel : f.form.m_selectedWidget = some w)
    (gx gy cx cy : ℚ) (hcx : 0 < cx)
    (h1 : ∀ k : ℤ, cond1 (movedBy w dp ds da k f)
      = (decide (gx - k * cx ≥ cx) && decide (gy - k * cy ≥ cy)))
    (h2 : ∀ k : ℤ, cond2 (movedBy w dp ds da k f)
      = (decide (k * cx - gx ≥ cx) && decide (k * cy - gy ≥ cy))) :
    ∃ k : ℤ,
      (∃ N, ∀ fuel, N ≤ fuel →
        andThen (whileLoop cond1 (dragStep dp ds da) fuel)
          (whileLoop cond2 (dragStep ⟨-dp.x, -dp.y⟩ ⟨-ds.x, -ds.y⟩ ⟨-da.x, -da.y⟩) fuel) f
          = .ok (movedBy w dp ds da k f)) ∧
      (cond1 f = false → cond2 f = false → k = 0) := by
  have hT1 : ∃ n : ℕ, cond1 (movedBy w dp ds da n f) = false := by
    refine ⟨⌈gx / cx⌉₊, ?_⟩
    rw [h1]
    have := Nat.le_ceil (gx / cx)
    rw [div_le_iff₀ hcx] at this
    have hx : ¬ (gx - ((⌈gx / cx⌉₊ : ℕ) : ℤ) * cx ≥ cx) := by
      simp only [Int.cast_natCast, not_le]; linarith
    rw [decide_eq_false hx, Bool.false_and]
  have hT2 : ∃ n : ℕ, cond2 (movedBy w dp ds da (-(n : ℤ)) f) = false := by
    refine ⟨⌈-gx / cx⌉₊, ?_⟩
    rw [h2]
    have := Nat.le_ceil (-gx / cx)
    rw [div_le_iff₀ hcx] at this
    have hx : ¬ (((-((⌈-gx / cx⌉₊ : ℕ) : ℤ) : ℤ) : ℚ) * cx - gx ≥ cx) := by
      simp only [Int.cast_neg, Int.cast_natCast, not_le]; linarith
    rw [decide_eq_false hx, Bool.false_and]
  have hX : ∀ i : ℕ, cond1 (movedBy w dp ds da i f) = true →
      cond2 (movedBy w dp ds da ((i : ℤ) + 1) f) = false := by
    intro i hi
    rw [h1] at hi
    rw [h2]
    simp only [Int.cast_natCast, Bool.and_eq_true, decide_eq_true_eq] at hi
    have hx : ¬ ((((i : ℤ) + 1 : ℤ) : ℚ) * cx - gx ≥ cx) := by
      simp only [Int.cast_add, Int.cast_natCast, Int.cast_one, not_le]
      linarith [hi.1]
    rw [decide_eq_false hx, Bool.false_and]
  obtain ⟨k, hrun, _, _, hk3, hk4, _⟩ :=
    loopPair_spec cond1 cond2 w dp ds da f hsel hT1 hT2 hX
  refine ⟨k, hrun, ?_⟩
  intro hc1 hc2
  rcases lt_trichotomy k 0 with hk | hk | hk
  · have := (hk4 hk).2
    rw [hc2] at this
    exact Bool.noConfusion this
  · exact hk
  · have := (hk3 hk).2
    rw [hc1] at this
    exact Bool.noConfusion this

theorem pointerRight_movedBy (pos : Vector2f) (c : ℚ) (w : WidgetPtr) (dp ds da : Vector2f)
    (k : ℤ) (f : DragFrame) :
    pointerRight pos c (movedBy w dp ds da k f)
      = decide ((pos.x - f.form.m_draggingPos.x) - k * da.x ≥ c) := by
  simp only [pointerRight, movedBy_draggingPos]
  exact decide_eq_decide.mpr (by constructor <;> intro h <;> linarith)

theorem pointerLeft_movedBy (pos : Vector2f) (c : ℚ) (w : WidgetPtr) (dp ds da : Vector2f)
    (k : ℤ) (f : DragFrame) :
    pointerLeft pos c (movedBy w dp ds da k f)
      = decide (k * da.x - (pos.x - f.form.m_draggingPos.x) ≥ c) := by
  simp only [pointerLeft, movedBy_draggingPos]
  exact decide_eq_decide.mpr (by constructor <;> intro h <;> linarith)

theorem pointerDown_movedBy (pos : Vector2f) (c : ℚ) (w : WidgetPtr) (dp ds da : Vector2f)
    (k : ℤ) (f : DragFrame) :
    pointerDown pos c (movedBy w dp ds da k f)
      = decide ((pos.y - f.form.m_draggingPos.y) - k * da.y ≥ c) := by
  simp only [pointerDown, movedBy_draggingPos]
  exact decide_eq_decide.mpr (by constructor <;> intro h <;> linarith)

theorem pointerUp_movedBy (pos : Vector2f) (c : ℚ) (w : WidgetPtr) (dp ds da : Vector2f)
    (k : ℤ) (f : DragFrame) :
    pointerUp pos c (movedBy w dp ds da k f)
      = decide (k * da.y - (pos.y - f.form.m_draggingPos.y) ≥ c) := by
  simp only [pointerUp, movedBy_draggingPos]
  exact decide_eq_decide.mpr (by constructor <;> intro h <;> linarith)

/-- The pair of loops of one handle (or of a move) along the x axis. -/
theorem axisX_spec (w : WidgetPtr) (dp ds : Vector2f) (pos : Vector2f) (f : DragFrame)
    (hsel : f.form.m_selectedWidget = some w) :
    ∃ N, ∀ fuel, N ≤ fuel →
      andThen (whileLoop (pointerRight pos step) (dragStep dp ds ⟨step, 0⟩) fuel)
        (whileLoop (pointerLeft pos step)
          (dragStep ⟨-dp.x, -dp.y⟩ ⟨-ds.x, -ds.y⟩ ⟨-step, 0⟩) fuel) f
        = .ok (movedBy w dp ds ⟨step, 0⟩
            (truncate ((pos.x - f.form.m_draggingPos.x) / step)) f) := by
  have h := linearPair_spec (pointerRight pos step) (pointerLeft pos step) w dp ds ⟨step, 0⟩ f
    hsel (pos.x - f.form.m_draggingPos.x) step step_pos
    (fun k => pointerRight_movedBy pos step w dp ds ⟨step, 0⟩ k f)
    (fun k => pointerLeft_movedBy pos step w dp ds ⟨step, 0⟩ k f)
  simpa only [neg_zero] using h

/-- The pair of loops of one handle (or of a move) along the y axis. -/
theorem axisY_spec (w : WidgetPtr) (dp ds : Vector2f) (pos : Vector2f) (f : DragFrame)
    (hsel : f.form.m_selectedWidget = some w) :
    ∃ N, ∀ fuel, N ≤ fuel →
      andThen (whileLoop (pointerDown pos step) (dragStep dp ds ⟨0, step⟩) fuel)
        (whileLoop (pointerUp pos step)
          (dragStep ⟨-dp.x, -dp.y⟩ ⟨-ds.x, -ds.y⟩ ⟨0, -step⟩) fuel) f
        = .ok (movedBy w dp ds ⟨0, step⟩
            (truncate ((pos.y - f.form.m_draggingPos.y) / step)) f) := by
  have h := linearPair_spec (pointerDown pos step) (pointerUp pos step) w dp ds ⟨0, step⟩ f
    hsel (pos.y - f.form.m_draggingPos.y) step step_pos
    (fun k => pointerDown_movedBy pos step w dp ds ⟨0, step⟩ k f)
    (fun k => pointerUp_movedBy pos step w dp ds ⟨0, step⟩ k f)
  simpa only [neg_zero] using h

/-- The frame after the four loops of a move-drag. -/
theorem moveLoops_spec (w : WidgetPtr) (pos : Vector2f) (f : DragFrame)
    (hsel : f.form.m_selectedWidget = some w) :
    ∃ N, ∀ fuel, N ≤ fuel →
      moveLoops fuel pos f
        = .ok (movedBy w ⟨0, step⟩ ⟨0, 0⟩ ⟨0, step⟩
            (truncate ((pos.y - f.form.m_draggingPos.y) / step))
            (movedBy w ⟨step, 0⟩ ⟨0, 0⟩ ⟨step, 0⟩
              (truncate ((pos.x - f.form.m_draggingPos.x) / step)) f)) := by
  obtain ⟨N1, h1⟩ := axisX_spec w ⟨step, 0⟩ ⟨0, 0⟩ pos f hsel
  obtain ⟨N2, h2⟩ := axisY_spec w ⟨0, step⟩ ⟨0, 0⟩ pos
    (movedBy w ⟨step, 0⟩ ⟨0, 0⟩ ⟨step, 0⟩
      (truncate ((pos.x - f.form.m_draggingPos.x) / step)) f) (by simpa using hsel)
  refine ⟨max N1 N2, fun fuel hfuel => ?_⟩
  have h1' := h1 fuel (le_trans (le_max_left _ _) hfuel)
  have h2' := h2 fuel (le_trans (le_max_right _ _) hfuel)
  simp only [neg_zero, movedBy_draggingPos, mul_zero, add_zero] at h1' h2'
  unfold moveLoops
  rw [andThen_ok _ _ _ _ h1', h2']

/-- The frame after the loops of the top handle. -/
theorem topLoops_spec (w : WidgetPtr) (pos : Vector2f) (f : DragFrame)
    (hsel : f.form.m_selectedWidget = some w) :
    ∃ N, ∀ fuel, N ≤ fuel →
      topLoops fuel pos f
        = .ok (movedBy w ⟨0, step⟩ ⟨0, -step⟩ ⟨0, step⟩
            (truncate ((pos.y - f.form.m_draggingPos.y) / step)) f) := by
  have h := axisY_spec w ⟨0, step⟩ ⟨0, -step⟩ pos f hsel
  simpa only [neg_zero, neg_neg] using h

/-- The frame after the loops of the right handle. -/
theorem rightLoops_spec (w : WidgetPtr) (pos : Vector2f) (f : DragFrame)
    (hsel : f.form.m_selectedWidget = some w) :
    ∃ N, ∀ fuel, N ≤ fuel →
      rightLoops fuel pos f
        = .ok (movedBy w ⟨0, 0⟩ ⟨step, 0⟩ ⟨step, 0⟩
            (truncate ((pos.x - f.form.m_draggingPos.x) / step)) f) := by
  have h := axisX_spec w ⟨0, 0⟩ ⟨step, 0⟩ pos f hsel
  simpa only [neg_zero, neg_neg] using h

/-- The frame after the loops of the bottom handle. -/
theorem bottomLoops_spec (w : WidgetPtr) (pos : Vector2f) (f : DragFrame)
    (hsel : f.form.m_selectedWidget = some w) :
    ∃ N, ∀ fuel, N ≤ fuel →
      bottomLoops fuel pos f
        = .ok (movedBy w ⟨0, 0⟩ ⟨0, step⟩ ⟨0, step⟩
            (truncate ((pos.y - f.form.m_draggingPos.y) / step)) f) := by
  have h := axisY_spec w ⟨0, 0⟩ ⟨0, step⟩ pos f hsel
  simpa only [neg_zero, neg_neg] using h

/-- The frame after the loops of the left handle. -/
theorem leftLoops_spec (w : WidgetPtr) (pos : Vector2f) (f : DragFrame)
    (hsel : f.form.m_selectedWidget = some w) :
    ∃ N, ∀ fuel, N ≤ fuel →
      leftLoops fuel pos f
        = .ok (movedBy w ⟨step, 0⟩ ⟨-step, 0⟩ ⟨step, 0⟩
            (truncate ((pos.x - f.form.m_draggingPos.x) / step)) f) := by
  have h := axisX_spec w ⟨step, 0⟩ ⟨-step, 0⟩ pos f hsel
  simpa only [neg_zero, neg_neg] using h

theorem cornerChange_x_pos (size : Vector2f) : 0 < (cornerChange size).x := by
  simp only [cornerChange]
  split_ifs with h
  · exact step_pos
  · have hr : 0 < size.y / size.x := by linarith [not_le.mp h]
    exact div_pos step_pos hr

theorem cornerChange_has_step (size : Vector2f) :
    (cornerChange size).x = step ∨ (cornerChange size).y = step := by
  simp only [cornerChange]
  split_ifs
  · exact Or.inl rfl
  · exact Or.inr rfl

theorem cornerChange_ratio (size : Vector2f) :
    (cornerChange size).y = size.y / size.x * (cornerChange size).x := by
  simp only [cornerChange]
  split_ifs with h
  · simp only; ring
  · have hr : size.y / size.x ≠ 0 := by
      have := not_le.mp h
      intro h0
      rw [h0] at this
      norm_num at this
    simp only
    generalize size.y / size.x = r at hr
    field_simp

theorem cornerLoops_eq (fuel : Nat) (w : WidgetPtr) (pos : Vector2f) (square : Fin 8)
    (f : DragFrame) (hsel : f.form.m_selectedWidget = some w) :
    cornerLoops fuel pos square f
      = cornerDispatch fuel pos (cornerChange (f.form.heap w).size) square f := by
  simp only [cornerLoops, hsel]

theorem corner_idle (c : Vector2f) (hstep : c.x = step ∨ c.y = step) (gx gy : ℚ)
    (hx : |gx| < step) (hy : |gy| < step) (a b : Bool)
    (ha : a = true → gx ≥ c.x ∨ -gx ≥ c.x) (hb : b = true → gy ≥ c.y ∨ -gy ≥ c.y) :
    (a && b) = false := by
  have h1 := abs_lt.mp hx
  have h2 := abs_lt.mp hy
  rcases hstep with h | h
  · cases a
    · rfl
    · rcases ha rfl with h' | h' <;> linarith
  · cases b
    · exact Bool.and_false a
    · rcases hb rfl with h' | h' <;> linarith

theorem cornerDispatch_spec (w : WidgetPtr) (pos c : Vector2f) (square : Fin 8) (f : DragFrame)
    (hsel : f.form.m_selectedWidget = some w) (hcx : 0 < c.x)
    (hstep : c.x = step ∨ c.y = step)
    (hcorner : square = 0 ∨ square = 2 ∨ square = 4 ∨ square = 6) :
    ∃ (k : ℤ) (dp da : Vector2f),
      (∃ N, ∀ fuel, N ≤ fuel →
        cornerDispatch fuel pos c square f = .ok (movedBy w dp ⟨-c.x, -c.y⟩ da k f)) ∧
      (da.x = c.x ∨ da.x = -c.x) ∧
      (|pos.x - f.form.m_draggingPos.x| < step → |pos.y - f.form.m_draggingPos.y| < step →
        k = 0) := by
  have hR : ∀ v : ℚ, pointerRight pos v f = true →
      pos.x - f.form.m_draggingPos.x ≥ v ∨ -(pos.x - f.form.m_draggingPos.x) ≥ v :=
    fun v h => Or.inl (of_decide_eq_true h)
  have hL : ∀ v : ℚ, pointerLeft pos v f = true →
      pos.x - f.form.m_draggingPos.x ≥ v ∨ -(pos.x - f.form.m_draggingPos.x) ≥ v :=
    fun v h => Or.inr (by have := of_decide_eq_true h; linarith)
  have hD : ∀ v : ℚ, pointerDown pos v f = true →
      pos.y - f.form.m_draggingPos.y ≥ v ∨ -(pos.y - f.form.m_draggingPos.y) ≥ v :=
    fun v h => Or.inl (of_decide_eq_true h)
  have hU : ∀ v : ℚ, pointerUp pos v f = true →
      pos.y - f.form.m_draggingPos.y ≥ v ∨ -(pos.y - f.form.m_draggingPos.y) ≥ v :=
    fun v h => Or.inr (by have := of_decide_eq_true h; linarith)
  rcases hcorner with rfl | rfl | rfl | rfl
  · -- top left
    obtain ⟨k, ⟨N, hN⟩, hk⟩ := cornerPair_spec
      (fun f => pointerRight pos c.x f && pointerDown pos c.y f)
      (fun f => pointerLeft pos c.x f && pointerUp pos c.y f) w ⟨c.x, c.y⟩ ⟨-c.x, -c.y⟩
      ⟨c.x, c.y⟩ f hsel (pos.x - f.form.m_draggingPos.x) (pos.y - f.form.m_draggingPos.y)
      c.x c.y hcx
      (fun k => by simp only [pointerRight_movedBy, pointerDown_movedBy])
      (fun k => by simp only [pointerLeft_movedBy, pointerUp_movedBy])
    refine ⟨k, ⟨c.x, c.y⟩, ⟨c.x, c.y⟩, ⟨N, fun fuel hfuel => ?_⟩, Or.inl rfl, fun hx hy => ?_⟩
    · have := hN fuel hfuel
      simp only [neg_neg] at this
      simp only [cornerDispatch, topLeftLoops, if_true]
      exact this
    · exact hk (corner_idle c hstep _ _ hx hy _ _ (hR _) (hD _))
        (corner_idle c hstep _ _ hx hy _ _ (hL _) (hU _))
  · -- top right
    obtain ⟨k, ⟨N, hN⟩, hk⟩ := cornerPair_spec
      (fun f => pointerLeft pos c.x f && pointerDown pos c.y f)
      (fun f => pointerRight pos c.x f && pointerUp pos c.y f) w ⟨0, c.y⟩ ⟨-c.x, -c.y⟩
      ⟨-c.x, c.y⟩ f hsel (f.form.m_draggingPos.x - pos.x) (pos.y - f.form.m_draggingPos.y)
      c.x c.y hcx
      (fun k => by
        simp only [pointerLeft_movedBy, pointerDown_movedBy]
        congr 1
        exact decide_eq_decide.mpr (by constructor <;> intro h <;> linarith))
      (fun k => by
        simp only [pointerRight_movedBy, pointerUp_movedBy]
        congr 1
        exact decide_eq_decide.mpr (by constructor <;> intro h <;> linarith))
    refine ⟨k, ⟨0, c.y⟩, ⟨-c.x, c.y⟩, ⟨N, fun fuel hfuel => ?_⟩, Or.inr rfl, fun hx hy => ?_⟩
    · have := hN fuel hfuel
      simp only [neg_neg, neg_zero] at this
      simp only [cornerDispatch, topRightLoops, if_true]
      exact this
    · exact hk (corner_idle c hstep _ _ hx hy _ _ (hL _) (hD _))
        (corner_idle c hstep _ _ hx hy _ _ (hR _) (hU _))
  · -- bottom right
    obtain ⟨k, ⟨N, hN⟩, hk⟩ := cornerPair_spec
      (fun f => pointerLeft pos c.x f && pointerUp pos c.y f)
      (fun f => pointerRight pos c.x f && pointerDown pos c.y f) w ⟨0, 0⟩ ⟨-c.x, -c.y⟩
      ⟨-c.x, -c.y⟩ f hsel (f.form.m_draggingPos.x - pos.x) (f.form.m_draggingPos.y - pos.y)
      c.x c.y hcx
      (fun k => by
        simp only [pointerLeft_movedBy, pointerUp_movedBy]
        congr 1 <;> exact decide_eq_decide.mpr (by constructor <;> intro h <;> linarith))
      (fun k => by
        simp only [pointerRight_movedBy, pointerDown_movedBy]
        congr 1 <;> exact decide_eq_decide.mpr (by constructor <;> intro h <;> linarith))
    refine ⟨k, ⟨0, 0⟩, ⟨-c.x, -c.y⟩, ⟨N, fun fuel hfuel => ?_⟩, Or.inr rfl, fun hx hy => ?_⟩
    · have := hN fuel hfuel
      simp only [neg_neg, neg_zero] at this
      simp only [cornerDispatch, bottomRightLoops, if_true]
      exact this
    · exact hk (corner_idle c hstep _ _ hx hy _ _ (hL _) (hU _))
        (corner_idle c hstep _ _ hx hy _ _ (hR _) (hD _))
  · -- bottom left
    obtain ⟨k, ⟨N, hN⟩, hk⟩ := cornerPair_spec
      (fun f => pointerRight pos c.x f && pointerUp pos c.y f)
      (fun f => pointerLeft pos c.x f && pointerDown pos c.y f) w ⟨c.x, 0⟩ ⟨-c.x, -c.y⟩
      ⟨c.x, -c.y⟩ f hsel (pos.x - f.form.m_draggingPos.x) (f.form.m_draggingPos.y - pos.y)
      c.x c.y hcx
      (fun k => by
        simp only [pointerRight_movedBy, pointerUp_movedBy]
        congr 1
        exact decide_eq_decide.mpr (by constructor <;> intro h <;> linarith))
      (fun k => by
        simp only [pointerLeft_movedBy, pointerDown_movedBy]
        congr 1
        exact decide_eq_decide.mpr (by constructor <;> intro h <;> linarith))
    refine ⟨k, ⟨c.x, 0⟩, ⟨c.x, -c.y⟩, ⟨N, fun fuel hfuel => ?_⟩, Or.inl rfl, fun hx hy => ?_⟩
    · have := hN fuel hfuel
      simp only [neg_neg, neg_zero] at this
      simp only [cornerDispatch, bottomLeftLoops, if_true]
      exact this
    · exact hk (corner_idle c hstep _ _ hx hy _ _ (hR _) (hU _))
        (corner_idle c hstep _ _ hx hy _ _ (hL _) (hD _))

theorem truncate_small (g : ℚ) (h : |g| < step) : truncate (g / step) = 0 := by
  have hb := abs_lt.mp h
  apply truncate_eq_of_bounds
  · intro h0; exact absurd h0 (lt_irrefl 0)
  · intro h0; exact absurd h0 (lt_irrefl 0)
  · intro _
    rw [lt_div_iff₀ step_pos, div_lt_iff₀ step_pos]
    constructor <;> linarith

theorem truncate_remainder (g : ℚ) : |g - truncate (g / step) * step| < step := by
  have hs := step_pos
  unfold truncate
  rw [abs_lt]
  split_ifs with h
  · have h1 := Int.floor_le (g / step)
    have h2 := Int.lt_floor_add_one (g / step)
    rw [le_div_iff₀ hs] at h1
    rw [div_lt_iff₀ hs] at h2
    constructor <;> linarith
  · have h1 := Int.ceil_lt_add_one (g / step)
    have h2 := Int.le_ceil (g / step)
    have h1' := sub_lt_iff_lt_add.mpr h1
    rw [lt_div_iff₀ hs] at h1'
    rw [div_le_iff₀ hs] at h2
    constructor <;> linarith

theorem step_ne_zero : step ≠ 0 := ne_of_gt step_pos

/-- The frame after the block of the grabbed selection square: `k` iterations of a body
`dragStep dp ds da` (negative `k`: of the opposite body), with the body of each handle. -/
theorem squareLoops_spec (w : WidgetPtr) (pos : Vector2f) (f : DragFrame)
    (hsel : f.form.m_selectedWidget = some w) :
    ∃ (k : ℤ) (dp ds da : Vector2f),
      (∃ N, ∀ fuel, N ≤ fuel → squareLoops fuel pos f = .ok (movedBy w dp ds da k f)) ∧
      (da.x ≠ 0 ∨ da.y ≠ 0) ∧
      (f.form.m_draggingSelectionSquare = none → k = 0) ∧
      (|pos.x - f.form.m_draggingPos.x| < step → |pos.y - f.form.m_draggingPos.y| < step →
        k = 0) ∧
      (f.form.m_draggingSelectionSquare = some 1 → dp = ⟨0, step⟩ ∧ ds = ⟨0, -step⟩) ∧
      (f.form.m_draggingSelectionSquare = some 3 → dp = ⟨0, 0⟩ ∧ ds = ⟨step, 0⟩) ∧
      (f.form.m_draggingSelectionSquare = some 5 → dp = ⟨0, 0⟩ ∧ ds = ⟨0, step⟩) ∧
      (f.form.m_draggingSelectionSquare = some 7 → dp = ⟨step, 0⟩ ∧ ds = ⟨-step, 0⟩) ∧
      (∀ sq, f.form.m_draggingSelectionSquare = some sq →
        sq = 0 ∨ sq = 2 ∨ sq = 4 ∨ sq = 6 →
        ds = ⟨-(cornerChange (f.form.heap w).size).x,
          -(cornerChange (f.form.heap w).size).y⟩) := by
  have hfin : ∀ sq : Fin 8, sq ≠ 1 → sq ≠ 3 → sq ≠ 5 → sq ≠ 7 →
      sq = 0 ∨ sq = 2 ∨ sq = 4 ∨ sq = 6 := by decide
  have hsqdef : ∀ fuel, squareLoops fuel pos f =
      match f.form.m_draggingSelectionSquare with
      | none => .ok f
      | some square =>
        if square = 1 then topLoops fuel pos f
        else if square = 3 then rightLoops fuel pos f
        else if square = 5 then bottomLoops fuel pos f
        else if square = 7 then leftLoops fuel pos f
        else cornerLoops fuel pos square f := fun _ => rfl
  cases hsq : f.form.m_draggingSelectionSquare with
  | none =>
    refine ⟨0, ⟨0, 0⟩, ⟨0, 0⟩, ⟨step, 0⟩, ⟨0, fun fuel _ => ?_⟩, Or.inl step_ne_zero,
      fun _ => rfl, fun _ _ => rfl, by simp, by simp, by simp, by simp, by simp⟩
    rw [hsqdef, hsq, movedBy_zero]
  | some sq =>
    by_cases h1 : sq = 1
    · subst h1
      obtain ⟨N, hN⟩ := topLoops_spec w pos f hsel
      refine ⟨_, ⟨0, step⟩, ⟨0, -step⟩, ⟨0, step⟩, ⟨N, fun fuel hfuel => ?_⟩,
        Or.inr step_ne_zero, by simp, fun _ hy => truncate_small _ hy, fun _ => ⟨rfl, rfl⟩,
        by simp, by simp, by simp, ?_⟩
      · rw [hsqdef, hsq]; exact hN fuel hfuel
      · intro sq h hc
        have := Option.some.inj h
        subst this
        exact absurd hc (by decide)
    by_cases h3 : sq = 3
    · subst h3
      obtain ⟨N, hN⟩ := rightLoops_spec w pos f hsel
      refine ⟨_, ⟨0, 0⟩, ⟨step, 0⟩, ⟨step, 0⟩, ⟨N, fun fuel hfuel => ?_⟩,
        Or.inl step_ne_zero, by simp, fun hx _ => truncate_small _ hx, by simp,
        fun _ => ⟨rfl, rfl⟩, by simp, by simp, ?_⟩
      · rw [hsqdef, hsq]; exact hN fuel hfuel
      · intro sq h hc
        have := Option.some.inj h
        subst this
        exact absurd hc (by decide)
    by_cases h5 : sq = 5
    · subst h5
      obtain ⟨N, hN⟩ := bottomLoops_spec w pos f hsel
      refine ⟨_, ⟨0, 0⟩, ⟨0, step⟩, ⟨0, step⟩, ⟨N, fun fuel hfuel => ?_⟩,
        Or.inr step_ne_zero, by simp, fun _ hy => truncate_small _ hy, by simp, by simp,
        fun _ => ⟨rfl, rfl⟩, by simp, ?_⟩
      · rw [hsqdef, hsq]; exact hN fuel hfuel
      · intro sq h hc
        have := Option.some.inj h
        subst this
        exact absurd hc (by decide)
    by_cases h7 : sq = 7
    · subst h7
      obtain ⟨N, hN⟩ := leftLoops_spec w pos f hsel
      refine ⟨_, ⟨step, 0⟩, ⟨-step, 0⟩, ⟨step, 0⟩, ⟨N, fun fuel hfuel => ?_⟩,
        Or.inl step_ne_zero, by simp, fun hx _ => truncate_small _ hx, by simp, by simp,
        by simp, fun _ => ⟨rfl, rfl⟩, ?_⟩
      · rw [hsqdef, hsq]; exact hN fuel hfuel
      · intro sq h hc
        have := Option.some.inj h
        subst this
        exact absurd hc (by decide)
    have hcorner := hfin sq h1 h3 h5 h7
    obtain ⟨k, dp, da, ⟨N, hN⟩, hda, hidle⟩ := cornerDispatch_spec w pos
      (cornerChange (f.form.heap w).size) sq f hsel (cornerChange_x_pos _)
      (cornerChange_has_step _) hcorner
    have hcx := cornerChange_x_pos (f.form.heap w).size
    refine ⟨k, dp, _, da, ⟨N, fun fuel hfuel => ?_⟩, Or.inl ?_, by simp, hidle,
      ?_, ?_, ?_, ?_, fun _ _ _ => rfl⟩
    · rw [hsqdef, hsq]
      simp only [if_neg h1, if_neg h3, if_neg h5, if_neg h7]
      rw [cornerLoops_eq fuel w pos sq f hsel]
      exact hN fuel hfuel
    · rcases hda with h | h
      · rw [h]; exact ne_of_gt hcx
      · rw [h]; exact neg_ne_zero.mpr (ne_of_gt hcx)
    · intro h; exact absurd (Option.some.inj h) h1
    · intro h; exact absurd (Option.some.inj h) h3
    · intro h; exact absurd (Option.some.inj h) h5
    · intro h; exact absurd (Option.some.inj h) h7

/-- All loops of `onDrag`, for a selected widget `w`: the widget is moved by `P` and resized by
`S`, the anchor advances by `A`, and `updated` is set exactly when the anchor advanced. -/
theorem onDragLoops_spec (s : FormState) (w : WidgetPtr) (pos : Vector2f)
    (hsel : s.m_selectedWidget = some w) :
    ∃ (P S A : Vector2f) (u : Bool),
      (∃ N, ∀ fuel, N ≤ fuel → onDragLoops fuel pos s = .ok (moved w P S A u ⟨s, false⟩)) ∧
      (u = true ↔ A ≠ ⟨0, 0⟩) ∧
      (u = false → P = ⟨0, 0⟩ ∧ S = ⟨0, 0⟩) ∧
      (s.m_draggingWidget = true →
        P = ⟨truncate ((pos.x - s.m_draggingPos.x) / step) * step,
              truncate ((pos.y - s.m_draggingPos.y) / step) * step⟩ ∧
          S = ⟨0, 0⟩ ∧ A = P) ∧
      (s.m_draggingWidget = false → s.m_draggingSelectionSquare = some 1 →
        ∃ k : ℤ, P = ⟨0, k * step⟩ ∧ S = ⟨0, -(k * step)⟩) ∧
      (s.m_draggingWidget = false → s.m_draggingSelectionSquare = some 3 →
        ∃ k : ℤ, P = ⟨0, 0⟩ ∧ S = ⟨k * step, 0⟩) ∧
      (s.m_draggingWidget = false → s.m_draggingSelectionSquare = some 5 →
        ∃ k : ℤ, P = ⟨0, 0⟩ ∧ S = ⟨0, k * step⟩) ∧
      (s.m_draggingWidget = false → s.m_draggingSelectionSquare = some 7 →
        ∃ k : ℤ, P = ⟨k * step, 0⟩ ∧ S = ⟨-(k * step), 0⟩) ∧
      (∀ sq, s.m_draggingSelectionSquare = some sq → sq = 0 ∨ sq = 2 ∨ sq = 4 ∨ sq = 6 →
        ∃ m : ℚ, S = ⟨m * (cornerChange (s.heap w).size).x,
          m * (cornerChange (s.heap w).size).y⟩) := by
  by_cases hd : s.m_draggingWidget = true
  · -- a move-drag: the four move loops run, then the block of the square finds nothing to do
    obtain ⟨N1, hN1⟩ := moveLoops_spec w pos ⟨s, false⟩ hsel
    simp only [] at hN1
    set kx := truncate ((pos.x - s.m_draggingPos.x) / step) with hkx
    set ky := truncate ((pos.y - s.m_draggingPos.y) / step) with hky
    set f1 := movedBy w ⟨0, step⟩ ⟨0, 0⟩ ⟨0, step⟩ ky
      (movedBy w ⟨step, 0⟩ ⟨0, 0⟩ ⟨step, 0⟩ kx ⟨s, false⟩) with hf1
    have hsel1 : f1.form.m_selectedWidget = some w := hsel
    obtain ⟨k, dp, ds, da, ⟨N2, hN2⟩, _, _, hidle, _⟩ := squareLoops_spec w pos f1 hsel1
    have hk : k = 0 := by
      apply hidle
      · have := truncate_remainder (pos.x - s.m_draggingPos.x)
        simp only [hf1, movedBy_draggingPos, mul_zero, add_zero]
        rw [← hkx] at this
        rwa [sub_add_eq_sub_sub]
      · have := truncate_remainder (pos.y - s.m_draggingPos.y)
        simp only [hf1, movedBy_draggingPos, mul_zero, add_zero]
        rw [← hky] at this
        rwa [sub_add_eq_sub_sub]
    subst hk
    rw [movedBy_zero] at hN2
    have hshape : f1 = moved w ⟨kx * step, ky * step⟩ ⟨0, 0⟩ ⟨kx * step, ky * step⟩
        (decide (kx ≠ 0) || decide (ky ≠ 0)) ⟨s, false⟩ := by
      simp only [hf1, movedBy, moved_moved, scaled, mul_zero, add_zero, zero_add]
    refine ⟨⟨kx * step, ky * step⟩, ⟨0, 0⟩, ⟨kx * step, ky * step⟩,
      decide (kx ≠ 0) || decide (ky ≠ 0), ⟨max N1 N2, fun fuel hfuel => ?_⟩, ?_, ?_,
      fun _ => ⟨rfl, rfl, rfl⟩, fun h => absurd hd (by simp [h]), fun h => absurd hd (by simp [h]),
      fun h => absurd hd (by simp [h]), fun h => absurd hd (by simp [h]),
      fun _ _ _ => ⟨0, by simp⟩⟩
    · have h1 := hN1 fuel (le_trans (le_max_left _ _) hfuel)
      have h2 := hN2 fuel (le_trans (le_max_right _ _) hfuel)
      have hfirst : (fun f : DragFrame =>
          if f.form.m_draggingWidget = true then moveLoops fuel pos f else .ok f) ⟨s, false⟩
          = .ok f1 := by
        simp only [hd, if_true]
        exact h1
      unfold onDragLoops
      rw [andThen_ok _ _ _ _ hfirst, h2, hshape]
    · have hs := step_ne_zero
      simp only [Bool.or_eq_true, decide_eq_true_eq, ne_eq, Vector2f.mk.injEq, mul_eq_zero,
        Int.cast_eq_zero, hs, or_false, not_and_or]
    · intro hu
      simp only [Bool.or_eq_false_iff, decide_eq_false_iff_not, ne_eq, not_not] at hu
      simp [hu.1, hu.2]
  · -- no move-drag: only the block of the square runs
    have hd' : s.m_draggingWidget = false := by simpa using hd
    obtain ⟨k, dp, ds, da, ⟨N, hN⟩, hda, _, _, h1, h3, h5, h7, hc⟩ :=
      squareLoops_spec w pos ⟨s, false⟩ hsel
    simp only [] at h1 h3 h5 h7 hc
    refine ⟨scaled k dp, scaled k ds, scaled k da, decide (k ≠ 0), ⟨N, fun fuel hfuel => ?_⟩,
      ?_, ?_, fun h => absurd h hd, ?_, ?_, ?_, ?_, ?_⟩
    · have hfirst : (fun f : DragFrame =>
          if f.form.m_draggingWidget = true then moveLoops fuel pos f else .ok f) ⟨s, false⟩
          = .ok ⟨s, false⟩ := by
        simp only [hd', Bool.false_eq_true, if_false]
      unfold onDragLoops
      rw [andThen_ok _ _ _ _ hfirst, hN fuel hfuel]
      rfl
    · simp only [decide_eq_true_eq, ne_eq, scaled, Vector2f.mk.injEq, mul_eq_zero,
        Int.cast_eq_zero, not_and_or]
      constructor
      · intro hk
        rcases hda with h | h
        · left; exact fun h' => h'.elim hk h
        · right; exact fun h' => h'.elim hk h
      · intro h hk
        rcases h with h | h <;> exact h (Or.inl hk)
    · intro hu
      have hk : k = 0 := by simpa using hu
      subst hk
      simp [scaled]
    · intro _ hsq
      obtain ⟨hdp, hds⟩ := h1 hsq
      exact ⟨k, by simp [scaled, hdp], by simp [scaled, hds]⟩
    · intro _ hsq
      obtain ⟨hdp, hds⟩ := h3 hsq
      exact ⟨k, by simp [scaled, hdp], by simp [scaled, hds]⟩
    · intro _ hsq
      obtain ⟨hdp, hds⟩ := h5 hsq
      exact ⟨k, by simp [scaled, hdp], by simp [scaled, hds]⟩
    · intro _ hsq
      obtain ⟨hdp, hds⟩ := h7 hsq
      exact ⟨k, by simp [scaled, hdp], by simp [scaled, hds]⟩
    · intro sq hsq hcorner
      have hds := hc sq hsq hcorner
      exact ⟨-(k : ℚ), by simp [scaled, hds]⟩

theorem afterDrag_idle (f : DragFrame) (hu : f.updated = false) :
    afterDrag f = .ok f.form := by
  simp [afterDrag, hu]

theorem afterDrag_updated (f : DragFrame) (w : WidgetPtr)
    (hsel : f.form.m_selectedWidget = some w) (hu : f.updated = true) :
    afterDrag f = .ok
      { placeSelectionSquares (setChanged f.form true) w with
        reloadPropertiesCalls := f.form.reloadPropertiesCalls + 1 } := by
  have h : (setChanged f.form true).m_selectedWidget = some w := hsel
  simp only [afterDrag, hu, if_true, updateSelectionSquarePositions, h, Except.map]
  rfl

/-- The result of `onDrag` for a selected widget `w`, from the frame its loops produce. -/
theorem onDrag_spec (s : FormState) (w : WidgetPtr) (mousePos : Vector2i)
    (hsel : s.m_selectedWidget = some w) :
    ∃ (P S A : Vector2f) (u : Bool) (s' : FormState),
      (∃ N, ∀ fuel, N ≤ fuel →
        onDragLoops fuel (dragPointer s mousePos) s = .ok (moved w P S A u ⟨s, false⟩) ∧
          onDrag fuel s mousePos = .ok s') ∧
      (u = true ↔ A ≠ ⟨0, 0⟩) ∧
      (u = false → s' = s) ∧
      (u = true → s'.m_changed = true ∧ s'.title = "*" ++ s.m_filename ∧
        s'.reloadPropertiesCalls = s.reloadPropertiesCalls + 1 ∧
        ∀ i, (s'.m_selectionSquares i).position
          = ⟨(squareCentre (s'.heap w) i).x - (s.m_selectionSquares i).size.x / 2,
              (squareCentre (s'.heap w) i).y - (s.m_selectionSquares i).size.y / 2⟩) ∧
      (s'.heap w).position
        = ⟨(s.heap w).position.x + P.x, (s.heap w).position.y + P.y⟩ ∧
      (s'.heap w).size = ⟨(s.heap w).size.x + S.x, (s.heap w).size.y + S.y⟩ ∧
      s'.m_draggingPos = ⟨s.m_draggingPos.x + A.x, s.m_draggingPos.y + A.y⟩ ∧
      (s.m_draggingWidget = true →
        P = ⟨truncate (((dragPointer s mousePos).x - s.m_draggingPos.x) / step) * step,
              truncate (((dragPointer s mousePos).y - s.m_draggingPos.y) / step) * step⟩ ∧
          S = ⟨0, 0⟩ ∧ A = P) ∧
      (s.m_draggingWidget = false → s.m_draggingSelectionSquare = some 1 →
        ∃ k : ℤ, P = ⟨0, k * step⟩ ∧ S = ⟨0, -(k * step)⟩) ∧
      (s.m_draggingWidget = false → s.m_draggingSelectionSquare = some 3 →
        ∃ k : ℤ, P = ⟨0, 0⟩ ∧ S = ⟨k * step, 0⟩) ∧
      (s.m_draggingWidget = false → s.m_draggingSelectionSquare = some 5 →
        ∃ k : ℤ, P = ⟨0, 0⟩ ∧ S = ⟨0, k * step⟩) ∧
      (s.m_draggingWidget = false → s.m_draggingSelectionSquare = some 7 →
        ∃ k : ℤ, P = ⟨k * step, 0⟩ ∧ S = ⟨-(k * step), 0⟩) ∧
      (∀ sq, s.m_draggingSelectionSquare = some sq → sq = 0 ∨ sq = 2 ∨ sq = 4 ∨ sq = 6 →
        ∃ m : ℚ, S = ⟨m * (cornerChange (s.heap w).size).x,
          m * (cornerChange (s.heap w).size).y⟩) := by
  obtain ⟨P, S, A, u, ⟨N, hN⟩, hu, hzero, hrest⟩ :=
    onDragLoops_spec s w (dragPointer s mousePos) hsel
  cases u with
  | false =>
    have hA : A = ⟨0, 0⟩ := by
      by_contra hne
      exact Bool.noConfusion (hu.mpr hne)
    obtain ⟨hP, hS⟩ := hzero rfl
    have hf : moved w P S A false ⟨s, false⟩ = ⟨s, false⟩ := by
      rw [hP, hS, hA, moved_zero]
    refine ⟨P, S, A, false, s, ⟨N, fun fuel hfuel => ?_⟩, hu, fun _ => rfl,
      fun h => Bool.noConfusion h, ?_, ?_, ?_, hrest⟩
    · have h := hN fuel hfuel
      refine ⟨h, ?_⟩
      unfold onDrag
      rw [h, hf]
      simp only [Except.bind]
      exact afterDrag_idle _ rfl
    · rw [hP]; simp
    · rw [hS]; simp
    · rw [hA]; simp
  | true =>
    have hselF : (moved w P S A true ⟨s, false⟩).form.m_selectedWidget = some w := hsel
    have hupd : (moved w P S A true ⟨s, false⟩).updated = true := rfl
    refine ⟨P, S, A, true,
      { placeSelectionSquares (setChanged (moved w P S A true ⟨s, false⟩).form true) w with
        reloadPropertiesCalls := s.reloadPropertiesCalls + 1 },
      ⟨N, fun fuel hfuel => ?_⟩, hu, fun h => Bool.noConfusion h,
      fun _ => ⟨rfl, rfl, rfl, fun i => rfl⟩, ?_, ?_, rfl, hrest⟩
    · have h := hN fuel hfuel
      refine ⟨h, ?_⟩
      unfold onDrag
      rw [h]
      simp only [Except.bind]
      exact afterDrag_updated _ w hselF hupd
    · simp [placeSelectionSquares, setChanged, moved]
    · simp [placeSelectionSquares, setChanged, moved]

end Form

/-! ## Theorems: dragging on the form -/

/-- C3 (amended): in exact arithmetic (the float operations of `onDrag` without rounding),
with widget `w` selected, a move-drag in progress and no handle grabbed, `onDrag` returns (for
every sufficient fuel) a form in which the position of `w` changed on each axis by
exactly `10 * k`, `k` the quotient of pointer minus anchor by 10 rounded toward zero, and the
anchor advanced by the same amount (the size is untouched); so a displacement of exactly 10 moves
the widget by exactly 10 and a displacement below 10 on both axes leaves the position as it
was. -/
theorem Form.onDrag_move_snaps_to_grid (s : FormState) (w : WidgetPtr) (mousePos : Vector2i)
    (hsel : s.m_selectedWidget = some w) (hdrag : s.m_draggingWidget = true)
    (_hsq : s.m_draggingSelectionSquare = none) :
    ∃ s', (∃ N, ∀ fuel, N ≤ fuel → Form.onDrag fuel s mousePos = .ok s') ∧
      (s'.heap w).position
        = ⟨(s.heap w).position.x
              + 10 * Form.truncate (((Form.dragPointer s mousePos).x - s.m_draggingPos.x) / 10),
            (s.heap w).position.y
              + 10 * Form.truncate (((Form.dragPointer s mousePos).y - s.m_draggingPos.y) / 10)⟩ ∧
      s'.m_draggingPos
        = ⟨s.m_draggingPos.x
              + 10 * Form.truncate (((Form.dragPointer s mousePos).x - s.m_draggingPos.x) / 10),
            s.m_draggingPos.y
              + 10 * Form.truncate (((Form.dragPointer s mousePos).y - s.m_draggingPos.y) / 10)⟩ ∧
      (s'.heap w).size = (s.heap w).size ∧
      ((Form.dragPointer s mousePos).x - s.m_draggingPos.x = 10 →
        (s'.heap w).position.x = (s.heap w).position.x + 10) ∧
      ((Form.dragPointer s mousePos).y - s.m_draggingPos.y = 10 →
        (s'.heap w).position.y = (s.heap w).position.y + 10) ∧
      (|(Form.dragPointer s mousePos).x - s.m_draggingPos.x| < 10 →
        |(Form.dragPointer s mousePos).y - s.m_draggingPos.y| < 10 →
        (s'.heap w).position = (s.heap w).position) := by
  obtain ⟨P, S, A, u, s', ⟨N, hN⟩, -, -, -, hpos, hsize, hanchor, hmove, -⟩ :=
    Form.onDrag_spec s w mousePos hsel
  obtain ⟨hP, hS, hA⟩ := hmove hdrag
  have hstep : Form.step = 10 := rfl
  rw [hstep] at hP
  have hone : Form.truncate ((10 : ℚ) / 10) = 1 := by
    norm_num [Form.truncate]
  refine ⟨s', ⟨N, fun fuel hfuel => (hN fuel hfuel).2⟩, ?_, ?_, ?_, ?_, ?_, ?_⟩
  · rw [hpos, hP]; simp only [mul_comm]
  · rw [hanchor, hA, hP]; simp only [mul_comm]
  · rw [hsize, hS]; simp
  · intro h
    rw [hpos, hP, h, hone]; simp
  · intro h
    rw [hpos, hP, h, hone]; simp
  · intro hx hy
    have h1 := Form.truncate_small _ (hstep ▸ hx)
    have h2 := Form.truncate_small _ (hstep ▸ hy)
    rw [hstep] at h1 h2
    rw [hpos, hP, h1, h2]; simp

theorem Form.onDrag_move_snaps_to_grid_witness :
    movingForm.m_selectedWidget = some 1 ∧ movingForm.m_draggingWidget = true ∧
      movingForm.m_draggingSelectionSquare = none ∧
      ∃ s', (∃ N, ∀ fuel, N ≤ fuel → Form.onDrag fuel movingForm ⟨20, 15⟩ = .ok s') ∧
        (s'.heap 1).position.x = (movingForm.heap 1).position.x + 10 ∧
        (s'.heap 1).size = (movingForm.heap 1).size :=
  ⟨rfl, rfl, rfl,
    (Form.onDrag_move_snaps_to_grid movingForm 1 ⟨20, 15⟩ rfl rfl rfl).imp
      fun _ h => ⟨h.1,
        h.2.2.2.2.1 (by norm_num [Form.dragPointer, movingForm, twoWidgetForm]), h.2.2.2.1⟩⟩

/-- C4 (amended): in exact arithmetic (the float operations of `onDrag` without rounding),
with widget `w` of non-zero width selected and one of the four corner handles (squares 0, 2,
4, 6) grabbed, `onDrag` returns (for every sufficient fuel) a form in which, if the new
width is non-zero, new height / new width equals the old height / old width; so the ratio read
by the next `onDrag` call of the drag, and with it the vector `change`, is that of this call. -/
theorem Form.onDrag_corner_keeps_ratio (s : FormState) (w : WidgetPtr) (mousePos : Vector2i)
    (square : Fin 8) (hsel : s.m_selectedWidget = some w)
    (hsq : s.m_draggingSelectionSquare = some square)
    (hcorner : square = 0 ∨ square = 2 ∨ square = 4 ∨ square = 6)
    (hwidth : (s.heap w).size.x ≠ 0) :
    ∃ s', (∃ N, ∀ fuel, N ≤ fuel → Form.onDrag fuel s mousePos = .ok s') ∧
      ((s'.heap w).size.x ≠ 0 →
        (s'.heap w).size.y / (s'.heap w).size.x = (s.heap w).size.y / (s.heap w).size.x ∧
          Form.cornerChange (s'.heap w).size = Form.cornerChange (s.heap w).size) := by
  obtain ⟨P, S, A, u, s', ⟨N, hN⟩, -, -, -, -, hsize, -, -, -, -, -, -, hc⟩ :=
    Form.onDrag_spec s w mousePos hsel
  obtain ⟨m, hS⟩ := hc square hsq hcorner
  refine ⟨s', ⟨N, fun fuel hfuel => (hN fuel hfuel).2⟩, ?_⟩
  intro hnew
  have hratio := Form.cornerChange_ratio (s.heap w).size
  have hkeep : (s'.heap w).size.y / (s'.heap w).size.x
      = (s.heap w).size.y / (s.heap w).size.x := by
    rw [hsize, hS] at hnew ⊢
    simp only at hnew ⊢
    rw [hratio]
    rw [div_eq_div_iff hnew hwidth]
    field_simp
    ring
  refine ⟨hkeep, ?_⟩
  simp only [Form.cornerChange, hkeep]

theorem Form.onDrag_corner_keeps_ratio_witness :
    (resizingForm 4).m_selectedWidget = some 1 ∧
      (resizingForm 4).m_draggingSelectionSquare = some 4 ∧
      ((resizingForm 4).heap 1).size.x ≠ 0 ∧
      ∃ s', (∃ N, ∀ fuel, N ≤ fuel → Form.onDrag fuel (resizingForm 4) ⟨45, 30⟩ = .ok s') ∧
        ((s'.heap 1).size.x ≠ 0 →
          (s'.heap 1).size.y / (s'.heap 1).size.x
            = ((resizingForm 4).heap 1).size.y / ((resizingForm 4).heap 1).size.x) :=
  ⟨rfl, rfl, by norm_num [resizingForm, twoWidgetForm],
    (Form.onDrag_corner_keeps_ratio (resizingForm 4) 1 ⟨45, 30⟩ 4 rfl rfl
      (Or.inr (Or.inr (Or.inl rfl))) (by norm_num [resizingForm, twoWidgetForm])).imp
      fun _ h => ⟨h.1, fun hne => (h.2 hne).1⟩⟩

theorem Scrollbar.setValue_value (s : Scrollbar) (v : Nat) :
    (s.setValue v).m_Value = min v (usub s.m_Maximum s.m_LowValue) := by
  unfold Scrollbar.setValue
  by_cases h : v > usub s.m_Maximum s.m_LowValue
  · simp only [h, if_true]; omega
  · simp only [h, if_false]; omega

theorem floatToUnsigned_of_range (f : ℚ) (h1 : -1 < f) (h2 : f < (uintSize : ℚ)) :
    floatToUnsigned f = some (Int.toNat ⌊f⌋) := by
  simp [floatToUnsigned, h1, h2]

theorem usub_lt (a b : Nat) : usub a b < uintSize := by
  unfold usub
  exact Nat.mod_lt _ (by unfold uintSize; norm_num)

/-- A track click at content coordinate `c`, before or after the thumb, sets the value to the
gentle scroll target clamped by `setValue`. -/
theorem Scrollbar.trackClick_value (s : Scrollbar) (c : ℚ) (hmax : s.m_Maximum < uintSize)
    (hle : s.m_LowValue ≤ s.m_Maximum) (hvalue : s.m_Value < uintSize)
    (hoff : c ≤ (s.m_Value : ℚ) ∨ (s.m_Value : ℚ) + (s.m_LowValue : ℚ) ≤ c) :
    ∃ s', s.trackClick c = some s' ∧
      s'.m_Value = min (s.gentleTarget c) (s.m_Maximum - s.m_LowValue) := by
  have husub := usub_of_le hmax hle
  have hlow : (0 : ℚ) ≤ (s.m_LowValue : ℚ) := Nat.cast_nonneg _
  have hval0 : (0 : ℚ) ≤ (s.m_Value : ℚ) := Nat.cast_nonneg _
  have hvalq : (s.m_Value : ℚ) + 1 ≤ (uintSize : ℚ) := by exact_mod_cast hvalue
  have hu : ((s.m_Maximum - s.m_LowValue : Nat) : ℚ) + 1 ≤ (uintSize : ℚ) := by
    have : s.m_Maximum - s.m_LowValue < uintSize := lt_of_le_of_lt (Nat.sub_le _ _) hmax
    exact_mod_cast this
  have hset : ∀ v, (s.setValue v).m_Value = min v (s.m_Maximum - s.m_LowValue) := by
    intro v
    rw [Scrollbar.setValue_value, husub]
  unfold Scrollbar.trackClick Scrollbar.gentleTarget
  rw [husub]
  by_cases h1 : c ≤ (s.m_Value : ℚ)
  · simp only [h1, if_true]
    by_cases h2 : c ≥ (s.m_LowValue : ℚ) / 3
    · simp only [h2, if_true]
      rw [floatToUnsigned_of_range _ (by linarith) (by linarith)]
      exact ⟨_, rfl, hset _⟩
    · simp only [h2, if_false]
      exact ⟨_, rfl, hset _⟩
  · simp only [h1, if_false]
    have hafter : (s.m_Value : ℚ) + (s.m_LowValue : ℚ) ≤ c := by
      rcases hoff with h | h
      · exact absurd h h1
      · exact h
    by_cases h2 : c ≤ ((s.m_Maximum - s.m_LowValue : Nat) : ℚ) + (s.m_LowValue : ℚ) * 2 / 3
    · have h2' : c ≤ ((s.m_Maximum - s.m_LowValue : Nat) : ℚ) + 2 * (s.m_LowValue : ℚ) / 3 := by
        linarith
      simp only [h2, h2', if_true]
      rw [floatToUnsigned_of_range _ (by linarith) (by linarith)]
      refine ⟨_, rfl, ?_⟩
      rw [hset]
      have : c - (s.m_LowValue : ℚ) * 2 / 3 + 1 / 2 = c - 2 * (s.m_LowValue : ℚ) / 3 + 1 / 2 := by
        ring
      rw [this]
    · have h2' : ¬ c ≤ ((s.m_Maximum - s.m_LowValue : Nat) : ℚ)
          + 2 * (s.m_LowValue : ℚ) / 3 := by
        intro h; exact h2 (by linarith)
      simp only [h2, h2', if_false]
      exact ⟨_, rfl, hset _⟩

/-- C13: for every scrollbar state with `autoHide` set and `maximum ≤ lowValue`,
`mouseOnObject(x, y)` returns false for every point and leaves the state as it is, and `draw`
makes no draw call. -/
theorem Scrollbar.autoHide_hides_scrollbar (s : Scrollbar) (hauto : s.autoHide = true)
    (hfit : s.m_Maximum ≤ s.m_LowValue) :
    (∀ x y : ℚ, s.mouseOnObject x y = (s, false)) ∧
      ∀ (objectPhaseHover : Nat) (states : List TransformOp),
        s.draw objectPhaseHover states = [] := by
  constructor
  · intro x y
    unfold Scrollbar.mouseOnObject
    by_cases hl : s.m_Loaded = false
    · rw [if_pos hl]
    · rw [if_neg hl, if_pos ⟨hfit, hauto⟩]
  · intro objectPhaseHover states
    unfold Scrollbar.draw
    by_cases hl : s.m_Loaded = false
    · rw [if_pos hl]
    · rw [if_neg hl, if_pos ⟨hauto, hfit⟩]

theorem Scrollbar.autoHide_hides_scrollbar_witness :
    fittingScrollbar.autoHide = true ∧ fittingScrollbar.m_Maximum ≤ fittingScrollbar.m_LowValue ∧
      (∀ x y : ℚ, fittingScrollbar.mouseOnObject x y = (fittingScrollbar, false)) ∧
      ∀ (objectPhaseHover : Nat) (states : List TransformOp),
        fittingScrollbar.draw objectPhaseHover states = [] :=
  ⟨rfl, by decide, Scrollbar.autoHide_hides_scrollbar fittingScrollbar rfl (by decide)⟩

theorem Scrollbar.readProperty_fields (env : Scrollbar.LoadEnv) (acc : Scrollbar × String)
    (entry : String × String) :
    (Scrollbar.readProperty env acc entry).1.m_Loaded = acc.1.m_Loaded ∧
      (Scrollbar.readProperty env acc entry).1.m_LoadedPathname = acc.1.m_LoadedPathname ∧
      (Scrollbar.readProperty env acc entry).2
        = if entry.1 = "extension" then entry.2 else acc.2 := by
  unfold Scrollbar.readProperty
  by_cases h1 : entry.1 = "phases"
  · have h2 : ¬ entry.1 = "extension" := by rw [h1]; decide
    rw [if_pos h1, if_neg h2]
    exact ⟨rfl, rfl, rfl⟩
  · by_cases h2 : entry.1 = "extension"
    · rw [if_neg h1, if_pos h2, if_pos h2]
      exact ⟨rfl, rfl, rfl⟩
    · rw [if_neg h1, if_neg h2, if_neg h2]
      split_ifs <;> exact ⟨rfl, rfl, rfl⟩

theorem Scrollbar.foldl_readProperty_fields (env : Scrollbar.LoadEnv)
    (properties : List (String × String)) (acc : Scrollbar × String) :
    (properties.foldl (Scrollbar.readProperty env) acc).1.m_Loaded = acc.1.m_Loaded ∧
      (properties.foldl (Scrollbar.readProperty env) acc).1.m_LoadedPathname
        = acc.1.m_LoadedPathname ∧
      (properties.foldl (Scrollbar.readProperty env) acc).2
        = properties.foldl
            (fun extension entry => if entry.1 = "extension" then entry.2 else extension)
            acc.2 := by
  induction properties generalizing acc with
  | nil => exact ⟨rfl, rfl, rfl⟩
  | cons entry rest ih =>
    have h := Scrollbar.readProperty_fields env acc entry
    have h2 := ih (Scrollbar.readProperty env acc entry)
    simp only [List.foldl_cons]
    refine ⟨h2.1.trans h.1, h2.2.1.trans h.2.1, ?_⟩
    rw [h2.2.2, h.2.2]

/-- The texture part of `load` returns the flag it stores in `m_Loaded`. -/
theorem Scrollbar.loadTextures_flag (env : Scrollbar.LoadEnv) (s : Scrollbar)
    (imageExtension : String) (hl : s.m_Loaded = false) :
    (Scrollbar.loadTextures env s imageExtension).2
      = (Scrollbar.loadTextures env s imageExtension).1.m_Loaded := by
  unfold Scrollbar.loadTextures
  cases env.getTexture (s.m_LoadedPathname ++ "Track_Normal." ++ imageExtension) with
  | none => exact hl.symm
  | some track =>
    simp only
    cases env.getTexture (s.m_LoadedPathname ++ "Thumb_Normal." ++ imageExtension) with
    | none => exact hl.symm
    | some thumb =>
      simp only
      cases env.getTexture (s.m_LoadedPathname ++ "Arrow_Normal." ++ imageExtension) with
      | none => exact hl.symm
      | some arrow =>
        simp only
        split_ifs
        · rfl
        · exact hl.symm

/-- A required texture that is missing makes the texture part of `load` fail. -/
theorem Scrollbar.loadTextures_missing (env : Scrollbar.LoadEnv) (s : Scrollbar)
    (imageExtension name : String)
    (hname : name ∈ ["Track_Normal.", "Thumb_Normal.", "Arrow_Normal."])
    (hmiss : env.getTexture (s.m_LoadedPathname ++ name ++ imageExtension) = none) :
    (Scrollbar.loadTextures env s imageExtension).2 = false := by
  unfold Scrollbar.loadTextures
  cases ht : env.getTexture (s.m_LoadedPathname ++ "Track_Normal." ++ imageExtension) with
  | none => rfl
  | some track =>
    simp only
    cases hb : env.getTexture (s.m_LoadedPathname ++ "Thumb_Normal." ++ imageExtension) with
    | none => rfl
    | some thumb =>
      simp only
      cases ha : env.getTexture (s.m_LoadedPathname ++ "Arrow_Normal." ++ imageExtension) with
      | none => rfl
      | some arrow =>
        exfalso
        simp only [List.mem_cons, List.mem_singleton, List.not_mem_nil, or_false] at hname
        rcases hname with h | h | h
        · rw [h, ht] at hmiss; exact absurd hmiss (by simp)
        · rw [h, hb] at hmiss; exact absurd hmiss (by simp)
        · rw [h, ha] at hmiss; exact absurd hmiss (by simp)

/-- The state in which `load` starts to read the info file. -/
theorem Scrollbar.load_eq (env : Scrollbar.LoadEnv) (s : Scrollbar) (pathname : String) :
    Scrollbar.load env s pathname =
      if pathname.isEmpty = true then
        ({ s with m_Loaded := false }, false)
      else
        match env.openFile (Scrollbar.storedPathname pathname ++ "info.txt") with
        | none =>
          ({ s with m_Loaded := false, m_LoadedPathname := Scrollbar.storedPathname pathname },
            false)
        | some properties =>
          Scrollbar.loadTextures env
            (properties.foldl (Scrollbar.readProperty env)
              ({ s with
                  m_Loaded := false
                  m_LoadedPathname := Scrollbar.storedPathname pathname
                  m_VerticalImage := true
                  m_VerticalScroll := true }, "png")).1
            (properties.foldl (Scrollbar.readProperty env)
              ({ s with
                  m_Loaded := false
                  m_LoadedPathname := Scrollbar.storedPathname pathname
                  m_VerticalImage := true
                  m_VerticalScroll := true }, "png")).2 := by
  unfold Scrollbar.load Scrollbar.storedPathname
  by_cases he : pathname.isEmpty = true
  · rw [if_pos he, if_pos he]
  · rw [if_neg he, if_neg he]
    by_cases hb : pathname.back ≠ '/'
    · simp only [if_pos hb]
    · simp only [if_neg hb]

/-- Method `load` returns the flag it stores in `m_Loaded`. -/
theorem Scrollbar.load_flag (env : Scrollbar.LoadEnv) (s : Scrollbar) (pathname : String) :
    (Scrollbar.load env s pathname).2 = (Scrollbar.load env s pathname).1.m_Loaded := by
  rw [Scrollbar.load_eq]
  by_cases he : pathname.isEmpty = true
  · rw [if_pos he]
  · rw [if_neg he]
    cases env.openFile (Scrollbar.storedPathname pathname ++ "info.txt") with
    | none => rfl
    | some properties =>
      simp only
      apply Scrollbar.loadTextures_flag
      rw [(Scrollbar.foldl_readProperty_fields env properties _).1]

/-- A scrollbar that is not loaded ignores the mouse. -/
theorem Scrollbar.not_loaded_is_inert (s : Scrollbar) (hl : s.m_Loaded = false) (x y : ℚ) :
    s.mouseOnObject x y = (s, false) ∧ s.mouseMoved x y = some s := by
  unfold Scrollbar.mouseOnObject Scrollbar.mouseMoved
  rw [if_pos hl, if_pos hl]
  exact ⟨rfl, rfl⟩

/-- C14: `load` returns true if and only if the scrollbar is marked loaded afterwards; it
returns false for an empty pathname, for an info file that cannot be opened, and when one of the
three required textures (track, thumb, arrow, with the extension read from the info file) is
missing; and when `load` returned false, `mouseOnObject` returns false at every point and
`mouseMoved` leaves the scrollbar, so also its value, unchanged. -/
theorem Scrollbar.load_failure_is_inert (env : Scrollbar.LoadEnv) (s : Scrollbar)
    (pathname : String) :
    ((Scrollbar.load env s pathname).2 = true
        ↔ (Scrollbar.load env s pathname).1.m_Loaded = true) ∧
      (pathname.isEmpty = true → (Scrollbar.load env s pathname).2 = false) ∧
      (env.openFile (Scrollbar.storedPathname pathname ++ "info.txt") = none →
        (Scrollbar.load env s pathname).2 = false) ∧
      (∀ (properties : List (String × String)) (name : String),
        env.openFile (Scrollbar.storedPathname pathname ++ "info.txt") = some properties →
        name ∈ ["Track_Normal.", "Thumb_Normal.", "Arrow_Normal."] →
        env.getTexture
          (Scrollbar.storedPathname pathname ++ name ++ Scrollbar.readExtension properties)
          = none →
        (Scrollbar.load env s pathname).2 = false) ∧
      ((Scrollbar.load env s pathname).2 = false → ∀ x y : ℚ,
        ((Scrollbar.load env s pathname).1.mouseOnObject x y).2 = false ∧
        (Scrollbar.load env s pathname).1.mouseMoved x y
          = some (Scrollbar.load env s pathname).1 ∧
        ∀ s', (Scrollbar.load env s pathname).1.mouseMoved x y = some s' →
          s'.m_Value = (Scrollbar.load env s pathname).1.m_Value) := by
  refine ⟨?_, ?_, ?_, ?_, ?_⟩
  · rw [Scrollbar.load_flag]
  · intro he
    rw [Scrollbar.load_eq, if_pos he]
  · intro hopen
    rw [Scrollbar.load_eq]
    by_cases he : pathname.isEmpty = true
    · rw [if_pos he]
    · rw [if_neg he, hopen]
  · intro properties name hopen hname hmiss
    rw [Scrollbar.load_eq]
    by_cases he : pathname.isEmpty = true
    · rw [if_pos he]
    · rw [if_neg he, hopen]
      simp only
      have hf := Scrollbar.foldl_readProperty_fields env properties
        ({ s with
            m_Loaded := false
            m_LoadedPathname := Scrollbar.storedPathname pathname
            m_VerticalImage := true
            m_VerticalScroll := true }, "png")
      apply Scrollbar.loadTextures_missing env _ _ name hname
      rw [hf.2.1, hf.2.2]
      exact hmiss
  · intro hfail x y
    have hl : (Scrollbar.load env s pathname).1.m_Loaded = false := by
      rw [← Scrollbar.load_flag]; exact hfail
    have h := Scrollbar.not_loaded_is_inert _ hl x y
    refine ⟨by rw [h.1], h.2, ?_⟩
    intro s' hs'
    rw [h.2] at hs'
    cases hs'
    rfl

theorem Scrollbar.load_failure_is_inert_witness :
    (Scrollbar.load emptyTheme tallScrollbar "").2 = false ∧
      (Scrollbar.load emptyTheme tallScrollbar "theme").2 = false ∧
      (Scrollbar.load bareTheme tallScrollbar "theme").2 = false ∧
      ∀ x y : ℚ,
        ((Scrollbar.load emptyTheme tallScrollbar "theme").1.mouseOnObject x y).2 = false ∧
        (Scrollbar.load emptyTheme tallScrollbar "theme").1.mouseMoved x y
          = some (Scrollbar.load emptyTheme tallScrollbar "theme").1 ∧
        ∀ s', (Scrollbar.load emptyTheme tallScrollbar "theme").1.mouseMoved x y = some s' →
          s'.m_Value = (Scrollbar.load emptyTheme tallScrollbar "theme").1.m_Value :=
  ⟨(Scrollbar.load_failure_is_inert emptyTheme tallScrollbar "").2.1 (by decide),
    (Scrollbar.load_failure_is_inert emptyTheme tallScrollbar "theme").2.2.1 rfl,
    (Scrollbar.load_failure_is_inert bareTheme tallScrollbar "theme").2.2.2.1
      [("extension", "jpg")] "Thumb_Normal." rfl (by simp) rfl,
    (Scrollbar.load_failure_is_inert emptyTheme tallScrollbar "theme").2.2.2.2
      ((Scrollbar.load_failure_is_inert emptyTheme tallScrollbar "theme").2.2.1 rfl)⟩

/-- A load that succeeds: the theme `plainTheme` holds every required texture, so `load` returns
true, marks the scrollbar loaded, stores the pathname with a slash and takes the size of the
track texture. -/
theorem Scrollbar.load_plainTheme :
    (Scrollbar.load plainTheme tallScrollbar "theme").2 = true ∧
      (Scrollbar.load plainTheme tallScrollbar "theme").1.m_Loaded = true ∧
      (Scrollbar.load plainTheme tallScrollbar "theme").1.m_LoadedPathname = "theme/" ∧
      (Scrollbar.load plainTheme tallScrollbar "theme").1.m_Size = ⟨10, 30⟩ := by
  decide

/-- The doubled arrow height does not wrap when it is representable. -/
theorem Scrollbar.twiceArrow_eq (s : Scrollbar) (harrow : 2 * s.arrowTextureSize.y < uintSize) :
    s.twiceArrow = 2 * (s.arrowTextureSize.y : ℚ) := by
  unfold Scrollbar.twiceArrow
  rw [Nat.mod_eq_of_lt harrow]
  push_cast
  rfl

/-- The rectangle that `mouseOnObject` tests for the thumb, in the full-size layout. -/
theorem Scrollbar.thumbRect_eq (s : Scrollbar) (hmax : s.m_Maximum < uintSize)
    (harrow : 2 * s.arrowTextureSize.y < uintSize) (hlow : s.m_LowValue < s.m_Maximum)
    (hfull : s.drawnFullSize) :
    FloatRect.mk (s.position.x + s.thumbRegion.thumbLeft) (s.position.y + s.thumbRegion.thumbTop)
        (s.thumbRegion.thumbWidth * s.scale.x) (s.thumbRegion.thumbHeight * s.scale.y)
      = s.specThumbRect := by
  have htw := Scrollbar.twiceArrow_eq s harrow
  have husub := usub_of_le hmax (le_of_lt hlow)
  unfold Scrollbar.drawnFullSize at hfull
  unfold Scrollbar.specThumbRect Scrollbar.thumbRegion Scrollbar.specThumbOffset
    Scrollbar.specThumbLength Scrollbar.specTrackLength Scrollbar.layoutArrowLength
  by_cases hv : s.m_VerticalScroll = true
  · simp only [hv, if_true] at hfull ⊢
    rw [if_pos hfull, husub, htw]
    simp only [FloatRect.mk.injEq]
    refine ⟨by ring, by ring, trivial, by ring⟩
  · simp only [hv, Bool.false_eq_true, if_false] at hfull ⊢
    rw [if_pos hfull, husub, htw]
    simp only [FloatRect.mk.injEq]
    refine ⟨by ring, by ring, by ring, trivial⟩

/-- C12 (amended): in exact arithmetic (the float operations of `mouseOnObject` without
rounding), in the full-size layout of `mouseOnObject` (bar length above twice the arrow
length), with `maximum > lowValue` and `T = bar length - 2 * arrow length`, the thumb region of
`mouseOnObject` has length `(lowValue / maximum) * T` and starts
`(value / (maximum - lowValue)) * (T - thumbLength)` after the first arrow; on the screen both
are multiplied by the scale of the widget. For a point on the bar of a loaded scrollbar
`mouseOnObject` returns true and sets `m_MouseDownOnThumb` exactly when the point lies in that
region. -/
theorem Scrollbar.mouseOnObject_thumb_geometry (s : Scrollbar) (hmax : s.m_Maximum < uintSize)
    (harrow : 2 * s.arrowTextureSize.y < uintSize) (hlow : s.m_LowValue < s.m_Maximum)
    (hfull : s.drawnFullSize) :
    (if s.m_VerticalScroll = true then
        s.thumbRegion.thumbHeight = s.specThumbLength ∧
        s.thumbRegion.thumbTop = (s.layoutArrowLength + s.specThumbOffset) * s.scale.y
      else
        s.thumbRegion.thumbWidth = s.specThumbLength ∧
        s.thumbRegion.thumbLeft = (s.layoutArrowLength + s.specThumbOffset) * s.scale.x) ∧
      ∀ x y : ℚ, s.m_Loaded = true →
        (FloatRect.mk s.position.x s.position.y (s.m_Size.x * s.scale.x)
          (s.m_Size.y * s.scale.y)).contains ⟨x, y⟩ = true →
        (s.mouseOnObject x y).2 = true ∧
        (s.mouseOnObject x y).1.m_MouseDownOnThumb = s.specThumbRect.contains ⟨x, y⟩ := by
  constructor
  · have htw := Scrollbar.twiceArrow_eq s harrow
    have husub := usub_of_le hmax (le_of_lt hlow)
    unfold Scrollbar.drawnFullSize at hfull
    unfold Scrollbar.thumbRegion Scrollbar.specThumbOffset
      Scrollbar.specThumbLength Scrollbar.specTrackLength Scrollbar.layoutArrowLength
    by_cases hv : s.m_VerticalScroll = true
    · simp only [hv, if_true] at hfull ⊢
      rw [if_pos hfull, husub, htw]
      refine ⟨by ring, by ring⟩
    · simp only [hv, Bool.false_eq_true, if_false] at hfull ⊢
      rw [if_pos hfull, husub, htw]
      refine ⟨by ring, by ring⟩
  · intro x y hloaded hbar
    have hrect := Scrollbar.thumbRect_eq s hmax harrow hlow hfull
    have hshow : ¬ (s.m_Maximum ≤ s.m_LowValue ∧ s.autoHide = true) := fun h =>
      absurd h.1 (not_le.mpr hlow)
    have hl : ¬ s.m_Loaded = false := by rw [hloaded]; decide
    unfold Scrollbar.mouseOnObject
    rw [if_neg hl, if_neg hshow, if_pos hbar]
    simp only [hrect]
    by_cases hthumb : s.specThumbRect.contains ⟨x, y⟩ = true
    · rw [if_pos hthumb, hthumb]
      exact ⟨rfl, rfl⟩
    · rw [if_neg hthumb]
      rw [Bool.not_eq_true] at hthumb
      rw [hthumb]
      exact ⟨rfl, rfl⟩

theorem Scrollbar.mouseOnObject_thumb_geometry_witness :
    shrunkScrollbar.m_Maximum < uintSize ∧ 2 * shrunkScrollbar.arrowTextureSize.y < uintSize ∧
      shrunkScrollbar.m_LowValue < shrunkScrollbar.m_Maximum ∧ shrunkScrollbar.drawnFullSize ∧
      (shrunkScrollbar.thumbRegion.thumbHeight = shrunkScrollbar.specThumbLength ∧
        shrunkScrollbar.thumbRegion.thumbTop
          = (shrunkScrollbar.layoutArrowLength + shrunkScrollbar.specThumbOffset)
            * shrunkScrollbar.scale.y) ∧
      (shrunkScrollbar.mouseOnObject 5 12).2 = true ∧
      (shrunkScrollbar.mouseOnObject 5 12).1.m_MouseDownOnThumb
        = shrunkScrollbar.specThumbRect.contains ⟨5, 12⟩ :=
  have hfull : shrunkScrollbar.drawnFullSize := by
    norm_num [Scrollbar.drawnFullSize, shrunkScrollbar, tallScrollbar, Scrollbar.twiceArrow,
      Scrollbar.scalingX, uintSize]
  have hbar : (FloatRect.mk shrunkScrollbar.position.x shrunkScrollbar.position.y
      (shrunkScrollbar.m_Size.x * shrunkScrollbar.scale.x)
      (shrunkScrollbar.m_Size.y * shrunkScrollbar.scale.y)).contains ⟨5, 12⟩ = true := by
    norm_num [FloatRect.contains, shrunkScrollbar, tallScrollbar]
  ⟨by decide, by decide, by decide, hfull,
    Eq.mp (if_pos rfl)
      (Scrollbar.mouseOnObject_thumb_geometry shrunkScrollbar (by decide) (by decide) (by decide)
        hfull).1,
    (Scrollbar.mouseOnObject_thumb_geometry shrunkScrollbar (by decide) (by decide) (by decide)
      hfull).2 5 12 rfl hbar⟩

/-- The thumb of `shrunkScrollbar` (size 10 x 50, arrows of height 20, maximum 10, low value 2,
value 3, scale (1, 1/2)): the track is 10 long, the thumb 2 long and 3 after the first arrow;
the point (5, 12) lies on it and (5, 13) does not. -/
theorem Scrollbar.shrunkScrollbar_thumb :
    shrunkScrollbar.specTrackLength = 10 ∧ shrunkScrollbar.specThumbLength = 2 ∧
      shrunkScrollbar.specThumbOffset = 3 ∧
      shrunkScrollbar.thumbRegion = ⟨0, 23 / 2, 10, 2⟩ ∧
      (shrunkScrollbar.mouseOnObject 5 12).1.m_MouseDownOnThumb = true ∧
      (shrunkScrollbar.mouseOnObject 5 13).1.m_MouseDownOnThumb = false := by
  refine ⟨?_, ?_, ?_, ?_, ?_, ?_⟩
  · norm_num [Scrollbar.specTrackLength, Scrollbar.layoutArrowLength, shrunkScrollbar,
      tallScrollbar, Scrollbar.scalingX]
  · norm_num [Scrollbar.specThumbLength, Scrollbar.specTrackLength, Scrollbar.layoutArrowLength,
      shrunkScrollbar, tallScrollbar, Scrollbar.scalingX]
  · norm_num [Scrollbar.specThumbOffset, Scrollbar.specThumbLength, Scrollbar.specTrackLength,
      Scrollbar.layoutArrowLength, shrunkScrollbar, tallScrollbar, Scrollbar.scalingX]
  · norm_num [Scrollbar.thumbRegion, shrunkScrollbar, tallScrollbar, Scrollbar.twiceArrow,
      Scrollbar.scalingX, uintSize, usub]
  · norm_num [Scrollbar.mouseOnObject, Scrollbar.thumbRegion, FloatRect.contains,
      shrunkScrollbar, tallScrollbar, Scrollbar.twiceArrow, Scrollbar.scalingX, uintSize, usub]
  · norm_num [Scrollbar.mouseOnObject, Scrollbar.thumbRegion, FloatRect.contains,
      shrunkScrollbar, tallScrollbar, Scrollbar.twiceArrow, Scrollbar.scalingX, uintSize, usub]

/-! ## Theorems: the reduced-arrow layout -/

theorem Scrollbar.pressArrowTest_reduced (s : Scrollbar) (x y : ℚ) (hred : ¬ s.fullSizeLayout) :
    s.pressArrowTest x y = { s with m_MouseDownOnArrow := true } := by
  unfold Scrollbar.fullSizeLayout at hred
  unfold Scrollbar.pressArrowTest
  by_cases hv : s.m_VerticalScroll = true
  · simp only [hv, if_true] at hred ⊢
    rw [if_neg hred]
  · simp only [hv, Bool.false_eq_true, if_false] at hred ⊢
    rw [if_neg hred]

/-- A press in the reduced-arrow layout only records an arrow press. -/
theorem Scrollbar.leftMousePressed_reduced (s : Scrollbar) (x y : ℚ) (hred : ¬ s.fullSizeLayout) :
    s.leftMousePressed x y
      = some { s with m_MouseDown := true, m_MouseDownOnArrow := true } := by
  unfold Scrollbar.leftMousePressed
  have h := Scrollbar.pressArrowTest_reduced
    { s with m_MouseDown := true, m_MouseDownOnArrow := false } x y hred
  simp only [h]
  rfl

/-- The release of an arrow click in the reduced-arrow layout. -/
theorem Scrollbar.leftMouseReleased_reduced (s : Scrollbar) (x y : ℚ)
    (hdown : s.m_MouseDown = true) (harrow : s.m_MouseDownOnArrow = true)
    (hred : ¬ s.fullSizeLayout) (hmax : s.m_LowValue < s.m_Maximum)
    (hne : s.arrowTextureSize.y ≠ 0) :
    (s.leftMouseReleased x y).m_Value =
      if s.inFirstHalf x y then (s.decrementValue).m_Value else (s.incrementValue).m_Value := by
  have hq : (s.arrowTextureSize.y : ℚ) ≠ 0 := Nat.cast_ne_zero.mpr hne
  have hy : (s.arrowTextureSize.y : ℚ) * s.scale.y
      * (s.m_Size.y * (1 / 2) / (s.arrowTextureSize.y : ℚ)) = s.m_Size.y * s.scale.y / 2 := by
    field_simp
    ring
  have hx : (s.arrowTextureSize.y : ℚ) * s.scale.x
      * (s.m_Size.x * (1 / 2) / (s.arrowTextureSize.y : ℚ)) = s.m_Size.x * s.scale.x / 2 := by
    field_simp
    ring
  unfold Scrollbar.fullSizeLayout at hred
  unfold Scrollbar.inFirstHalf Scrollbar.barOffset Scrollbar.barLength
  unfold Scrollbar.leftMouseReleased
  have hm : s.m_Maximum > s.m_LowValue := hmax
  simp only [hdown, harrow, and_self, if_true, hm]
  by_cases hv : s.m_VerticalScroll = true
  · simp only [hv, if_true] at hred ⊢
    rw [if_neg hred, hy]
    unfold Scrollbar.addValueCallback
    by_cases hhalf : y - s.position.y < s.m_Size.y * s.scale.y / 2
    · have hhalf' : y < s.position.y + s.m_Size.y * s.scale.y / 2 := by linarith
      rw [if_pos hhalf, if_pos hhalf']
      split_ifs <;> rfl
    · have hhalf' : ¬ y < s.position.y + s.m_Size.y * s.scale.y / 2 := by
        intro h; exact hhalf (by linarith)
      rw [if_neg hhalf, if_neg hhalf']
      split_ifs <;> rfl
  · simp only [hv, Bool.false_eq_true, if_false] at hred ⊢
    rw [if_neg hred, hx]
    unfold Scrollbar.addValueCallback
    by_cases hhalf : x - s.position.x < s.m_Size.x * s.scale.x / 2
    · have hhalf' : x < s.position.x + s.m_Size.x * s.scale.x / 2 := by linarith
      rw [if_pos hhalf, if_pos hhalf']
      split_ifs <;> rfl
    · have hhalf' : ¬ x < s.position.x + s.m_Size.x * s.scale.x / 2 := by
        intro h; exact hhalf (by linarith)
      rw [if_neg hhalf, if_neg hhalf']
      split_ifs <;> rfl

theorem usub_one {a : Nat} (ha : a < uintSize) (hpos : 0 < a) : usub a 1 = a - 1 :=
  usub_of_le ha hpos

theorem uadd_one {a : Nat} (ha : a + 1 < uintSize) : uadd a 1 = a + 1 := by
  unfold uadd
  exact Nat.mod_eq_of_lt ha

/-- The reduced layout of the handlers in exact arithmetic: when the layout test of the press
and release handlers fails (the scaled bar length is not greater than twice the arrow length
times the texture scaling), `leftMousePressed` records an arrow press at
every point and changes nothing else; with `maximum > lowValue` the release that follows lowers
the value by 1 (if it is above 0) when the release point lies in the first half of the bar, and
otherwise raises it by 1 (if it is below `maximum - lowValue`). -/
theorem Scrollbar.reduced_layout_press_release (s : Scrollbar) (hwf : s.WellFormed)
    (hred : ¬ s.fullSizeLayout) (hne : s.arrowTextureSize.y ≠ 0) :
    (∀ x y : ℚ, s.leftMousePressed x y
        = some { s with m_MouseDown := true, m_MouseDownOnArrow := true }) ∧
      (s.m_LowValue < s.m_Maximum → ∀ (x y x' y' : ℚ) (pressed : Scrollbar),
        s.leftMousePressed x y = some pressed →
        (pressed.leftMouseReleased x' y').m_Value =
          if s.inFirstHalf x' y' then
            (if s.m_Value > 0 then s.m_Value - 1 else s.m_Value)
          else
            (if s.m_Value < s.m_Maximum - s.m_LowValue then s.m_Value + 1 else s.m_Value)) := by
  refine ⟨fun x y => Scrollbar.leftMousePressed_reduced s x y hred, ?_⟩
  intro hmax x y x' y' pressed hpress
  rw [Scrollbar.leftMousePressed_reduced s x y hred] at hpress
  cases hpress
  have hrel := Scrollbar.leftMouseReleased_reduced
    { s with m_MouseDown := true, m_MouseDownOnArrow := true } x' y' rfl rfl hred hmax hne
  rw [hrel]
  have husub := usub_of_le hwf.1 (le_of_lt hmax)
  have hfirst : Scrollbar.inFirstHalf { s with m_MouseDown := true, m_MouseDownOnArrow := true }
      x' y' ↔ s.inFirstHalf x' y' := Iff.rfl
  by_cases hh : s.inFirstHalf x' y'
  · rw [if_pos (hfirst.mpr hh), if_pos hh]
    unfold Scrollbar.decrementValue
    by_cases hv : s.m_Value > 0
    · rw [if_pos hv, if_pos hv]
      exact usub_one hwf.2.2 hv
    · rw [if_neg hv, if_neg hv]
  · rw [if_neg (fun h => hh (hfirst.mp h)), if_neg hh]
    unfold Scrollbar.incrementValue
    show (if s.m_Value < usub s.m_Maximum s.m_LowValue then _ else _ : Scrollbar).m_Value = _
    rw [husub]
    by_cases hv : s.m_Value < s.m_Maximum - s.m_LowValue
    · rw [if_pos hv, if_pos hv]
      have hlt : s.m_Value + 1 < uintSize := by
        have := hwf.1
        omega
      exact uadd_one hlt
    · rw [if_neg hv, if_neg hv]

theorem Scrollbar.reduced_layout_press_release_witness :
    shrunkScrollbar.WellFormed ∧ ¬ shrunkScrollbar.fullSizeLayout ∧
      shrunkScrollbar.arrowTextureSize.y ≠ 0 ∧
      (∀ x y : ℚ, shrunkScrollbar.leftMousePressed x y
        = some { shrunkScrollbar with m_MouseDown := true, m_MouseDownOnArrow := true }) ∧
      (shrunkScrollbar.m_LowValue < shrunkScrollbar.m_Maximum →
        ∀ (x y x' y' : ℚ) (pressed : Scrollbar),
        shrunkScrollbar.leftMousePressed x y = some pressed →
        (pressed.leftMouseReleased x' y').m_Value =
          if shrunkScrollbar.inFirstHalf x' y' then
            (if shrunkScrollbar.m_Value > 0 then shrunkScrollbar.m_Value - 1
              else shrunkScrollbar.m_Value)
          else
            (if shrunkScrollbar.m_Value < shrunkScrollbar.m_Maximum - shrunkScrollbar.m_LowValue
              then shrunkScrollbar.m_Value + 1 else shrunkScrollbar.m_Value)) :=
  have hwf : shrunkScrollbar.WellFormed := by
    unfold Scrollbar.WellFormed; decide
  have hred : ¬ shrunkScrollbar.fullSizeLayout := by
    norm_num [Scrollbar.fullSizeLayout, shrunkScrollbar, tallScrollbar, Scrollbar.twiceArrow,
      Scrollbar.scalingX, uintSize]
  ⟨hwf, hred, by decide,
    Scrollbar.reduced_layout_press_release shrunkScrollbar hwf hred (by decide)⟩

/-- The reduced-arrow layout on `shrunkScrollbar` (value 3, scaled bar length 25): a press at
(0, 12) and the release there, in the first half of the bar, give the value 2; the release at
(0, 13), in the second half, gives 4. -/
theorem Scrollbar.shrunkScrollbar_release :
    (∃ pressed, shrunkScrollbar.leftMousePressed 0 12 = some pressed ∧ pressed.m_Value = 3 ∧
      (pressed.leftMouseReleased 0 12).m_Value = 2 ∧
      (pressed.leftMouseReleased 0 13).m_Value = 4) := by
  refine ⟨{ shrunkScrollbar with m_MouseDown := true, m_MouseDownOnArrow := true }, ?_, rfl,
    ?_, ?_⟩
  · norm_num [Scrollbar.leftMousePressed, Scrollbar.pressArrowTest, shrunkScrollbar,
      tallScrollbar, Scrollbar.twiceArrow, Scrollbar.scalingX, uintSize]
  · norm_num [Scrollbar.leftMouseReleased, Scrollbar.decrementValue,
      Scrollbar.addValueCallback, shrunkScrollbar, tallScrollbar, Scrollbar.twiceArrow,
      Scrollbar.scalingX, uintSize, usub]
  · norm_num [Scrollbar.leftMouseReleased, Scrollbar.incrementValue,
      Scrollbar.addValueCallback, shrunkScrollbar, tallScrollbar, Scrollbar.twiceArrow,
      Scrollbar.scalingX, uintSize, usub, uadd]

/-! ## Theorems: the track click of `mouseMoved` -/

theorem Scrollbar.addValueCallback_value (oldValue : Nat) (s : Scrollbar) :
    (Scrollbar.addValueCallback oldValue s).m_Value = s.m_Value := by
  unfold Scrollbar.addValueCallback
  split_ifs <;> rfl

/-- A move with the button down on the track runs the track branch of `mouseMoved`. -/
theorem Scrollbar.mouseMoved_on_track (s : Scrollbar) (x y : ℚ) (hloaded : s.m_Loaded = true)
    (hdown : s.m_MouseDown = true) (harrow : s.m_MouseDownOnArrow = false)
    (hthumb : s.m_MouseDownOnThumb = false)
    (hneeded : ¬ (s.m_Maximum ≤ s.m_LowValue ∧ s.autoHide = false))
    (htrack : s.onTrack x y) :
    s.mouseMoved x y
      = (Scrollbar.trackClick { s with m_MouseHover := true } (s.trackCoordinate x y)).map
          (Scrollbar.addValueCallback s.m_Value) := by
  have hl : ¬ s.m_Loaded = false := by rw [hloaded]; decide
  have ht : ¬ s.m_MouseDownOnThumb = true := by rw [hthumb]; decide
  unfold Scrollbar.onTrack Scrollbar.barOffset Scrollbar.barLength Scrollbar.arrowLength at htrack
  unfold Scrollbar.trackCoordinate Scrollbar.barOffset Scrollbar.barLength Scrollbar.arrowLength
  unfold Scrollbar.mouseMoved
  rw [if_neg hl]
  simp only []
  rw [if_pos ⟨hdown, harrow⟩, if_neg hneeded]
  by_cases hv : s.m_VerticalScroll = true
  · simp only [if_pos hv] at htrack ⊢
    have h1 : y > s.position.y + (s.arrowTextureSize.y : ℚ)
        * Scrollbar.scalingX { s with m_MouseHover := true } * s.scale.y := by
      have := htrack.1
      show y > s.position.y + (s.arrowTextureSize.y : ℚ) * s.scalingX * s.scale.y
      linarith
    have h2 : y ≤ s.position.y + s.m_Size.y * s.scale.y - (s.arrowTextureSize.y : ℚ)
        * Scrollbar.scalingX { s with m_MouseHover := true } * s.scale.y := by
      have := htrack.2
      show y ≤ s.position.y + s.m_Size.y * s.scale.y
        - (s.arrowTextureSize.y : ℚ) * s.scalingX * s.scale.y
      linarith
    rw [if_neg ht, if_pos h1, if_pos h2]
    rfl
  · simp only [if_neg hv] at htrack ⊢
    have h1 : x > s.position.x + (s.arrowTextureSize.y : ℚ)
        * Scrollbar.scalingY { s with m_MouseHover := true } * s.scale.x := by
      have := htrack.1
      show x > s.position.x + (s.arrowTextureSize.y : ℚ) * s.scalingY * s.scale.x
      linarith
    have h2 : x ≤ s.position.x + s.m_Size.x * s.scale.x - (s.arrowTextureSize.y : ℚ)
        * Scrollbar.scalingY { s with m_MouseHover := true } * s.scale.x := by
      have := htrack.2
      show x ≤ s.position.x + s.m_Size.x * s.scale.x
        - (s.arrowTextureSize.y : ℚ) * s.scalingY * s.scale.x
      linarith
    rw [if_neg ht, if_pos h1, if_pos h2]
    rfl

/-- C11 (amended): in exact arithmetic (the float operations of `mouseMoved` without
rounding), for a move or press with the button down on the track (not on an arrow, not on the
thumb) of a loaded scrollbar, at content coordinate
`c = (offset into track / track length) * maximum` lying before the thumb (`c ≤ value`) or after
it (`c ≥ value + lowValue`), `mouseMoved` sets the value to the gentle scroll target clamped to
`maximum - lowValue`: for `c ≤ value` the target is `floor(c - lowValue/3 + 1/2)` when
`c ≥ lowValue/3` and 0 otherwise; for `c > value` it is `floor(c - 2*lowValue/3 + 1/2)` when
`c ≤ maximum - lowValue + 2*lowValue/3` and `maximum - lowValue` otherwise. -/
theorem Scrollbar.mouseMoved_track_click (s : Scrollbar) (x y : ℚ) (hloaded : s.m_Loaded = true)
    (hdown : s.m_MouseDown = true) (harrow : s.m_MouseDownOnArrow = false)
    (hthumb : s.m_MouseDownOnThumb = false)
    (hneeded : ¬ (s.m_Maximum ≤ s.m_LowValue ∧ s.autoHide = false))
    (hmax : s.m_Maximum < uintSize) (hle : s.m_LowValue ≤ s.m_Maximum)
    (hvalue : s.m_Value < uintSize) (htrack : s.onTrack x y)
    (hoff : s.trackCoordinate x y ≤ (s.m_Value : ℚ)
      ∨ (s.m_Value : ℚ) + (s.m_LowValue : ℚ) ≤ s.trackCoordinate x y) :
    ∃ s', s.mouseMoved x y = some s' ∧
      s'.m_Value = min
        (if s.trackCoordinate x y ≤ (s.m_Value : ℚ) then
          (if s.trackCoordinate x y ≥ (s.m_LowValue : ℚ) / 3 then
            Int.toNat ⌊s.trackCoordinate x y - (s.m_LowValue : ℚ) / 3 + 1 / 2⌋
          else 0)
        else
          (if s.trackCoordinate x y
              ≤ ((s.m_Maximum - s.m_LowValue : Nat) : ℚ) + 2 * (s.m_LowValue : ℚ) / 3 then
            Int.toNat ⌊s.trackCoordinate x y - 2 * (s.m_LowValue : ℚ) / 3 + 1 / 2⌋
          else s.m_Maximum - s.m_LowValue))
        (s.m_Maximum - s.m_LowValue) := by
  obtain ⟨s', hs', hv⟩ := Scrollbar.trackClick_value { s with m_MouseHover := true }
    (s.trackCoordinate x y) hmax hle hvalue hoff
  refine ⟨Scrollbar.addValueCallback s.m_Value s', ?_, ?_⟩
  · rw [Scrollbar.mouseMoved_on_track s x y hloaded hdown harrow hthumb hneeded htrack, hs']
    rfl
  · rw [Scrollbar.addValueCallback_value, hv]
    rfl

theorem Scrollbar.mouseMoved_track_click_witness :
    pressedScrollbar.onTrack 0 28 ∧
      ((pressedScrollbar.trackCoordinate 0 28 ≤ (pressedScrollbar.m_Value : ℚ))
        ∨ (pressedScrollbar.m_Value : ℚ) + (pressedScrollbar.m_LowValue : ℚ)
          ≤ pressedScrollbar.trackCoordinate 0 28) ∧
      ∃ s', pressedScrollbar.mouseMoved 0 28 = some s' ∧
        s'.m_Value = min
          (if pressedScrollbar.trackCoordinate 0 28 ≤ (pressedScrollbar.m_Value : ℚ) then
            (if pressedScrollbar.trackCoordinate 0 28 ≥ (pressedScrollbar.m_LowValue : ℚ) / 3 then
              Int.toNat ⌊pressedScrollbar.trackCoordinate 0 28
                - (pressedScrollbar.m_LowValue : ℚ) / 3 + 1 / 2⌋
            else 0)
          else
            (if pressedScrollbar.trackCoordinate 0 28
                ≤ ((pressedScrollbar.m_Maximum - pressedScrollbar.m_LowValue : Nat) : ℚ)
                  + 2 * (pressedScrollbar.m_LowValue : ℚ) / 3 then
              Int.toNat ⌊pressedScrollbar.trackCoordinate 0 28
                - 2 * (pressedScrollbar.m_LowValue : ℚ) / 3 + 1 / 2⌋
            else pressedScrollbar.m_Maximum - pressedScrollbar.m_LowValue))
          (pressedScrollbar.m_Maximum - pressedScrollbar.m_LowValue) :=
  have htrack : pressedScrollbar.onTrack 0 28 := by
    norm_num [Scrollbar.onTrack, Scrollbar.barOffset, Scrollbar.barLength, Scrollbar.arrowLength,
      pressedScrollbar, shrunkScrollbar, tallScrollbar, Scrollbar.scalingX]
  have hoff : (pressedScrollbar.trackCoordinate 0 28 ≤ (pressedScrollbar.m_Value : ℚ))
      ∨ (pressedScrollbar.m_Value : ℚ) + (pressedScrollbar.m_LowValue : ℚ)
        ≤ pressedScrollbar.trackCoordinate 0 28 := by
    right
    norm_num [Scrollbar.trackCoordinate, Scrollbar.barOffset, Scrollbar.barLength,
      Scrollbar.arrowLength, pressedScrollbar, shrunkScrollbar, tallScrollbar, Scrollbar.scalingX]
  ⟨htrack, hoff,
    Scrollbar.mouseMoved_track_click pressedScrollbar 0 28 rfl rfl rfl rfl (by decide) (by decide)
      (by decide) (by decide) htrack hoff⟩

/-- Two track clicks on `pressedScrollbar` (value 3, low value 2, maximum 10, track from 20 to
30): a click at 28, content coordinate 8, after the thumb, gives the value
`floor(8 - 4/3 + 1/2) = 7`; a click at 21, content coordinate 1, before the thumb, gives
`floor(1 - 2/3 + 1/2) = 0`. -/
theorem Scrollbar.pressedScrollbar_track_clicks :
    pressedScrollbar.trackCoordinate 0 28 = 8 ∧ pressedScrollbar.trackCoordinate 0 21 = 1 ∧
      (∃ s', pressedScrollbar.mouseMoved 0 28 = some s' ∧ s'.m_Value = 7) ∧
      (∃ s', pressedScrollbar.mouseMoved 0 21 = some s' ∧ s'.m_Value = 0) := by
  have hc28 : pressedScrollbar.trackCoordinate 0 28 = 8 := by
    norm_num [Scrollbar.trackCoordinate, Scrollbar.barOffset, Scrollbar.barLength,
      Scrollbar.arrowLength, pressedScrollbar, shrunkScrollbar, tallScrollbar, Scrollbar.scalingX]
  have hc21 : pressedScrollbar.trackCoordinate 0 21 = 1 := by
    norm_num [Scrollbar.trackCoordinate, Scrollbar.barOffset, Scrollbar.barLength,
      Scrollbar.arrowLength, pressedScrollbar, shrunkScrollbar, tallScrollbar, Scrollbar.scalingX]
  have ht28 : pressedScrollbar.onTrack 0 28 := by
    norm_num [Scrollbar.onTrack, Scrollbar.barOffset, Scrollbar.barLength, Scrollbar.arrowLength,
      pressedScrollbar, shrunkScrollbar, tallScrollbar, Scrollbar.scalingX]
  have ht21 : pressedScrollbar.onTrack 0 21 := by
    norm_num [Scrollbar.onTrack, Scrollbar.barOffset, Scrollbar.barLength, Scrollbar.arrowLength,
      pressedScrollbar, shrunkScrollbar, tallScrollbar, Scrollbar.scalingX]
  have hf28 : ⌊(8 : ℚ) - 2 * 2 / 3 + 1 / 2⌋ = 7 := by
    rw [Int.floor_eq_iff]; norm_num
  have hf21 : ⌊(1 : ℚ) - 2 / 3 + 1 / 2⌋ = 0 := by
    rw [Int.floor_eq_iff]; norm_num
  refine ⟨hc28, hc21, ?_, ?_⟩
  · obtain ⟨s', hs', hv⟩ := Scrollbar.trackClick_value { pressedScrollbar with m_MouseHover := true }
      8 (by decide) (by decide) (by decide) (Or.inr (by norm_num [pressedScrollbar,
        shrunkScrollbar, tallScrollbar]))
    refine ⟨Scrollbar.addValueCallback pressedScrollbar.m_Value s', ?_, ?_⟩
    · rw [Scrollbar.mouseMoved_on_track pressedScrollbar 0 28 rfl rfl rfl rfl (by decide) ht28,
        hc28, hs']
      rfl
    · rw [Scrollbar.addValueCallback_value, hv]
      norm_num [Scrollbar.gentleTarget, pressedScrollbar, shrunkScrollbar, tallScrollbar, hf28]
      rfl
  · obtain ⟨s', hs', hv⟩ := Scrollbar.trackClick_value { pressedScrollbar with m_MouseHover := true }
      1 (by decide) (by decide) (by decide) (Or.inl (by norm_num [pressedScrollbar,
        shrunkScrollbar, tallScrollbar]))
    refine ⟨Scrollbar.addValueCallback pressedScrollbar.m_Value s', ?_, ?_⟩
    · rw [Scrollbar.mouseMoved_on_track pressedScrollbar 0 21 rfl rfl rfl rfl (by decide) ht21,
        hc21, hs']
      rfl
    · rw [Scrollbar.addValueCallback_value, hv]
      norm_num [Scrollbar.gentleTarget, pressedScrollbar, shrunkScrollbar, tallScrollbar, hf21]

/-! ## Theorems: ListBox, the scenarios of `tests/Widgets/ListBox.cpp` -/

/-- The section `Adding items` of the test (ListBox.cpp 97-113) holds on the model. -/
theorem ListBox.test_adding_items :
    testListBox.getItemCount = 0 ∧
      (testListBox.addItem "Item 1" "1").1.getItemCount = 1 ∧
      ((((testListBox.addItem "Item 1" "1").1.addItem "Item 2" "2").1.addItem "Item 3" "").1).getItems
        = ["Item 1", "Item 2", "Item 3"] ∧
      ((((testListBox.addItem "Item 1" "1").1.addItem "Item 2" "2").1.addItem "Item 3" "").1).getItemById
        "1" = "Item 1" ∧
      ((((testListBox.addItem "Item 1" "1").1.addItem "Item 2" "2").1.addItem "Item 3" "").1).getItemById
        "2" = "Item 2" ∧
      ((((testListBox.addItem "Item 1" "1").1.addItem "Item 2" "2").1.addItem "Item 3" "").1).getItemById
        "3" = "" := by
  decide

/-- The section `Removing items` of the test (ListBox.cpp 115-152) holds on the model. -/
theorem ListBox.test_removing_items :
    threeItemListBox.getItemCount = 3 ∧
      (threeItemListBox.removeItem "Item 0").2 = false ∧
      (threeItemListBox.removeItem "Item 0").1.getItemCount = 3 ∧
      (threeItemListBox.removeItem "Item 2").2 = true ∧
      (threeItemListBox.removeItem "Item 2").1.getItemCount = 2 ∧
      ((threeItemListBox.removeItem "Item 2").1.addItem "Item 4" "4").1.getItems
        = ["Item 1", "Item 3", "Item 4"] ∧
      (((threeItemListBox.removeItem "Item 2").1.addItem "Item 4" "4").1.removeItemByIndex 3).2
        = false ∧
      (((threeItemListBox.removeItem "Item 2").1.addItem "Item 4" "4").1.removeItemByIndex 0).2
        = true ∧
      (((threeItemListBox.removeItem "Item 2").1.addItem "Item 4" "4").1.removeItemByIndex 0).1.getItems
        = ["Item 3", "Item 4"] ∧
      ((((threeItemListBox.removeItem "Item 2").1.addItem "Item 4" "4").1.removeItemByIndex
        0).1.removeItemById "2").2 = false ∧
      ((((threeItemListBox.removeItem "Item 2").1.addItem "Item 4" "4").1.removeItemByIndex
        0).1.removeItemById "4").2 = true ∧
      ((((threeItemListBox.removeItem "Item 2").1.addItem "Item 4" "4").1.removeItemByIndex
        0).1.removeItemById "4").1.getItems = ["Item 3"] ∧
      threeItemListBox.removeAllItems.getItemCount = 0 := by
  decide

/-- The section `Changing items` of the test (ListBox.cpp 154-192) holds on the model. -/
theorem ListBox.test_changing_items :
    (threeItemListBox.changeItem "Item 0" "Item 00").2 = false ∧
      (threeItemListBox.changeItem "Item 0" "Item 00").1.getItems
        = ["Item 1", "Item 2", "Item 3"] ∧
      (threeItemListBox.changeItem "Item 1" "Item 10").2 = true ∧
      (threeItemListBox.changeItem "Item 1" "Item 10").1.getItems
        = ["Item 10", "Item 2", "Item 3"] ∧
      ((threeItemListBox.changeItem "Item 1" "Item 10").1.changeItemById "0" "Item 00").2
        = false ∧
      ((threeItemListBox.changeItem "Item 1" "Item 10").1.changeItemById "3" "Item 30").2
        = true ∧
      ((threeItemListBox.changeItem "Item 1" "Item 10").1.changeItemById "3" "Item 30").1.getItems
        = ["Item 10", "Item 2", "Item 30"] ∧
      (((threeItemListBox.changeItem "Item 1" "Item 10").1.changeItemById "3"
        "Item 30").1.changeItemByIndex 3 "Item 00").2 = false ∧
      (((threeItemListBox.changeItem "Item 1" "Item 10").1.changeItemById "3"
        "Item 30").1.changeItemByIndex 1 "Item 20").2 = true ∧
      (((threeItemListBox.changeItem "Item 1" "Item 10").1.changeItemById "3"
        "Item 30").1.changeItemByIndex 1 "Item 20").1.getItems
        = ["Item 10", "Item 20", "Item 30"] := by
  decide

/-- The section `Selecting items` of the test (ListBox.cpp 194-229) holds on the model. -/
theorem ListBox.test_selecting_items :
    threeItemListBox.getSelectedItem = "" ∧ threeItemListBox.getSelectedItemId = "" ∧
      threeItemListBox.getSelectedItemIndex = -1 ∧
      (threeItemListBox.setSelectedItem "Item 0").2 = false ∧
      (threeItemListBox.setSelectedItem "Item 0").1.getSelectedItemIndex = -1 ∧
      (threeItemListBox.setSelectedItem "Item 1").2 = true ∧
      (threeItemListBox.setSelectedItem "Item 1").1.getSelectedItem = "Item 1" ∧
      (threeItemListBox.setSelectedItem "Item 1").1.getSelectedItemId = "1" ∧
      (threeItemListBox.setSelectedItem "Item 1").1.getSelectedItemIndex = 0 ∧
      ((threeItemListBox.setSelectedItem "Item 1").1.setSelectedItemById "0").2 = false ∧
      ((threeItemListBox.setSelectedItem "Item 1").1.setSelectedItemById "0").1.getSelectedItemIndex
        = -1 ∧
      ((threeItemListBox.setSelectedItem "Item 1").1.setSelectedItemById "2").2 = true ∧
      ((threeItemListBox.setSelectedItem "Item 1").1.setSelectedItemById "2").1.getSelectedItem
        = "Item 2" ∧
      ((threeItemListBox.setSelectedItem "Item 1").1.setSelectedItemById "2").1.getSelectedItemId
        = "2" ∧
      ((threeItemListBox.setSelectedItem "Item 1").1.setSelectedItemById "2").1.getSelectedItemIndex
        = 1 ∧
      (((threeItemListBox.setSelectedItem "Item 1").1.setSelectedItemById
        "2").1.setSelectedItemByIndex 3).2 = false ∧
      (((threeItemListBox.setSelectedItem "Item 1").1.setSelectedItemById
        "2").1.setSelectedItemByIndex 3).1.getSelectedItemIndex = -1 ∧
      (((threeItemListBox.setSelectedItem "Item 1").1.setSelectedItemById
        "2").1.setSelectedItemByIndex 2).2 = true ∧
      (((threeItemListBox.setSelectedItem "Item 1").1.setSelectedItemById
        "2").1.setSelectedItemByIndex 2).1.getSelectedItem = "Item 3" ∧
      (((threeItemListBox.setSelectedItem "Item 1").1.setSelectedItemById
        "2").1.setSelectedItemByIndex 2).1.getSelectedItemId = "3" ∧
      (((threeItemListBox.setSelectedItem "Item 1").1.setSelectedItemById
        "2").1.setSelectedItemByIndex 2).1.getSelectedItemIndex = 2 ∧
      (((threeItemListBox.setSelectedItem "Item 1").1.setSelectedItemById
        "2").1.setSelectedItemByIndex 2).1.deselectItem.getSelectedItemIndex = -1 ∧
      (((threeItemListBox.setSelectedItem "Item 1").1.setSelectedItemById
        "2").1.setSelectedItemByIndex 2).1.deselectItem.getSelectedItem = "" := by
  decide

/-- The section `MaximumItems` of the test (ListBox.cpp 237-254) holds on the model. -/
theorem ListBox.test_maximum_items :
    fiveItemListBox.getItemCount = 5 ∧
      (fiveItemListBox.setMaximumItems 3).getItems = ["Item 1", "Item 2", "Item 3"] ∧
      ((fiveItemListBox.setMaximumItems 3).addItem "Item 6" "").2 = false ∧
      ((fiveItemListBox.setMaximumItems 3).addItem "Item 6" "").1.getItems
        = ["Item 1", "Item 2", "Item 3"] := by
  decide

/-! ## Theorems: ListBox, removal and selection -/

theorem ListBox.firstIndex_none (p : ListBoxItem → Bool) (l : List ListBoxItem) :
    ListBox.firstIndex p l = none ↔ ∀ x ∈ l, p x = false := by
  induction l with
  | nil => simp [ListBox.firstIndex]
  | cons item rest ih =>
    unfold ListBox.firstIndex
    by_cases h : p item = true
    · rw [if_pos h]
      simp only [List.mem_cons, forall_eq_or_imp, h, false_and]
      simp
    · rw [if_neg h]
      rw [Bool.not_eq_true] at h
      simp only [Option.map_eq_none', ih, List.mem_cons, forall_eq_or_imp, h, true_and]

theorem ListBox.firstIndex_split (p : ListBoxItem → Bool) (l : List ListBoxItem) (i : Nat)
    (h : ListBox.firstIndex p l = some i) :
    ∃ pre item post, l = pre ++ item :: post ∧ pre.length = i ∧ p item = true ∧
      ∀ x ∈ pre, p x = false := by
  induction l generalizing i with
  | nil => simp [ListBox.firstIndex] at h
  | cons item rest ih =>
    unfold ListBox.firstIndex at h
    by_cases hp : p item = true
    · rw [if_pos hp] at h
      cases h
      exact ⟨[], item, rest, rfl, rfl, hp, by simp⟩
    · rw [if_neg hp] at h
      rw [Bool.not_eq_true] at hp
      cases hr : ListBox.firstIndex p rest with
      | none => rw [hr] at h; simp at h
      | some j =>
        rw [hr] at h
        simp only [Option.map_some', Option.some.injEq] at h
        obtain ⟨pre, it, post, hl, hlen, hit, hpre⟩ := ih j hr
        refine ⟨item :: pre, it, post, by rw [hl]; rfl, by simp [hlen, h], hit, ?_⟩
        intro x hx
        rcases List.mem_cons.mp hx with hx | hx
        · rw [hx]; exact hp
        · exact hpre x hx

/-- The first index among `pre ++ item :: post` when `item` is the first match. -/
theorem ListBox.firstIndex_of_split (p : ListBoxItem → Bool) (pre post : List ListBoxItem)
    (item : ListBoxItem) (hitem : p item = true) (hpre : ∀ x ∈ pre, p x = false) :
    ListBox.firstIndex p (pre ++ item :: post) = some pre.length := by
  induction pre with
  | nil =>
    unfold ListBox.firstIndex
    simp [hitem]
  | cons x rest ih =>
    have hx : p x = false := hpre x (List.mem_cons_self _ _)
    have hrest : ∀ y ∈ rest, p y = false := fun y hy => hpre y (List.mem_cons_of_mem _ hy)
    show ListBox.firstIndex p (x :: (rest ++ item :: post)) = _
    unfold ListBox.firstIndex
    rw [if_neg (by rw [hx]; decide), ih hrest]
    rfl

theorem ListBox.eraseIdx_split (pre post : List ListBoxItem) (item : ListBoxItem) :
    (pre ++ item :: post).eraseIdx pre.length = pre ++ post := by
  induction pre with
  | nil => rfl
  | cons x rest ih =>
    show (x :: (rest ++ item :: post)).eraseIdx (rest.length + 1) = x :: (rest ++ post)
    rw [List.eraseIdx_cons_succ, ih]

theorem ListBox.split_of_lt (l : List ListBoxItem) (i : Nat) (h : i < l.length) :
    ∃ pre item post, l = pre ++ item :: post ∧ pre.length = i := by
  induction l generalizing i with
  | nil => simp at h
  | cons x rest ih =>
    cases i with
    | zero => exact ⟨[], x, rest, rfl, rfl⟩
    | succ j =>
      obtain ⟨pre, item, post, hl, hlen⟩ := ih j (by simpa using h)
      exact ⟨x :: pre, item, post, by rw [hl]; rfl, by simp [hlen]⟩

/-- The two outcomes of `removeItemByIndex`. -/
theorem ListBox.removeItemByIndex_spec (lb : ListBox) (index : Nat) :
    ((lb.removeItemByIndex index).2 = true ↔ index < lb.m_items.length) ∧
      ((lb.removeItemByIndex index).2 = true →
        (lb.removeItemByIndex index).1.m_items = lb.m_items.eraseIdx index) ∧
      ((lb.removeItemByIndex index).2 = false → (lb.removeItemByIndex index).1 = lb) := by
  unfold ListBox.removeItemByIndex
  by_cases h : index < lb.m_items.length
  · rw [if_pos h]
    exact ⟨⟨fun _ => h, fun _ => rfl⟩, fun _ => rfl,
      fun hf => absurd (show true = false from hf) (by decide)⟩
  · rw [if_neg h]
    exact ⟨⟨fun hf => absurd (show false = true from hf) (by decide), fun hlt => absurd hlt h⟩,
      fun hf => absurd (show false = true from hf) (by decide), fun _ => rfl⟩

/-- A removal of the first item that satisfies `p`, as `removeItem` and `removeItemById` do
it. -/
theorem ListBox.removeFirst_spec (lb : ListBox) (p : ListBoxItem → Bool) (r : ListBox × Bool)
    (hr : r = match ListBox.firstIndex p lb.m_items with
      | some index => lb.removeItemByIndex index
      | none => (lb, false)) :
    (r.2 = true ↔ ∃ item ∈ lb.m_items, p item = true) ∧
      (r.2 = true → ∃ pre item post, lb.m_items = pre ++ item :: post ∧
        (∀ x ∈ pre, p x = false) ∧ p item = true ∧ r.1.m_items = pre ++ post) ∧
      (r.2 = false → r.1 = lb) := by
  cases hf : ListBox.firstIndex p lb.m_items with
  | none =>
    rw [hf] at hr
    have hnone := (ListBox.firstIndex_none p lb.m_items).mp hf
    subst hr
    refine ⟨⟨fun h => absurd (show false = true from h) (by decide), ?_⟩,
      fun h => absurd (show false = true from h) (by decide), fun _ => rfl⟩
    rintro ⟨item, hmem, hp⟩
    rw [hnone item hmem] at hp
    exact absurd hp (by decide)
  | some i =>
    rw [hf] at hr
    obtain ⟨pre, item, post, hl, hlen, hitem, hpre⟩ := ListBox.firstIndex_split p _ i hf
    have hlt : i < lb.m_items.length := by
      rw [hl, ← hlen]; simp
    have hspec := ListBox.removeItemByIndex_spec lb i
    have htrue : r.2 = true := by
      subst hr
      exact hspec.1.mpr hlt
    refine ⟨⟨fun _ => ⟨item, by rw [hl]; simp, hitem⟩, fun _ => htrue⟩, fun _ => ?_,
      fun h => ?_⟩
    · refine ⟨pre, item, post, hl, hpre, hitem, ?_⟩
      subst hr
      rw [hspec.2.1 (hspec.1.mpr hlt), ← hlen]
      rw [hl]
      exact ListBox.eraseIdx_split pre post item
    · rw [htrue] at h
      exact absurd h (by decide)

/-- C17: `removeItem(text)` and `removeItemById(id)` return true exactly when some item has
that text (that id), and then erase only the first such item: the items were
`pre ++ item :: post` with no match in `pre`, and are `pre ++ post` afterwards;
`removeItemByIndex(i)` returns true exactly when `i < getItemCount()` and then erases the item
at index `i`; a call that returns false leaves the list box unchanged. -/
theorem ListBox.removal_semantics (lb : ListBox) :
    (∀ text : String,
      ((lb.removeItem text).2 = true ↔ ∃ item ∈ lb.m_items, item.text = text) ∧
      ((lb.removeItem text).2 = true → ∃ pre item post, lb.m_items = pre ++ item :: post ∧
        (∀ x ∈ pre, x.text ≠ text) ∧ item.text = text ∧
        (lb.removeItem text).1.m_items = pre ++ post) ∧
      ((lb.removeItem text).2 = false → (lb.removeItem text).1 = lb)) ∧
    (∀ id : String,
      ((lb.removeItemById id).2 = true ↔ ∃ item ∈ lb.m_items, item.id = id) ∧
      ((lb.removeItemById id).2 = true → ∃ pre item post, lb.m_items = pre ++ item :: post ∧
        (∀ x ∈ pre, x.id ≠ id) ∧ item.id = id ∧
        (lb.removeItemById id).1.m_items = pre ++ post) ∧
      ((lb.removeItemById id).2 = false → (lb.removeItemById id).1 = lb)) ∧
    (∀ index : Nat,
      ((lb.removeItemByIndex index).2 = true ↔ index < lb.getItemCount) ∧
      ((lb.removeItemByIndex index).2 = true → ∃ pre item post,
        lb.m_items = pre ++ item :: post ∧ pre.length = index ∧
        (lb.removeItemByIndex index).1.m_items = pre ++ post) ∧
      ((lb.removeItemByIndex index).2 = false → (lb.removeItemByIndex index).1 = lb)) := by
  refine ⟨fun text => ?_, fun id => ?_, fun index => ?_⟩
  · have h := ListBox.removeFirst_spec lb (fun item => decide (item.text = text))
      (lb.removeItem text) rfl
    refine ⟨?_, ?_, h.2.2⟩
    · rw [h.1]
      simp only [decide_eq_true_eq]
    · intro ht
      obtain ⟨pre, item, post, hl, hpre, hitem, hres⟩ := h.2.1 ht
      refine ⟨pre, item, post, hl, ?_, of_decide_eq_true hitem, hres⟩
      intro x hx
      exact of_decide_eq_false (hpre x hx)
  · have h := ListBox.removeFirst_spec lb (fun item => decide (item.id = id))
      (lb.removeItemById id) rfl
    refine ⟨?_, ?_, h.2.2⟩
    · rw [h.1]
      simp only [decide_eq_true_eq]
    · intro ht
      obtain ⟨pre, item, post, hl, hpre, hitem, hres⟩ := h.2.1 ht
      refine ⟨pre, item, post, hl, ?_, of_decide_eq_true hitem, hres⟩
      intro x hx
      exact of_decide_eq_false (hpre x hx)
  · have h := ListBox.removeItemByIndex_spec lb index
    refine ⟨h.1, ?_, h.2.2⟩
    intro ht
    obtain ⟨pre, item, post, hl, hlen⟩ := ListBox.split_of_lt lb.m_items index (h.1.mp ht)
    refine ⟨pre, item, post, hl, hlen, ?_⟩
    rw [h.2.1 ht, hl, ← hlen]
    exact ListBox.eraseIdx_split pre post item

theorem ListBox.removal_semantics_witness :
    (threeItemListBox.removeItem "Item 2").2 = true ∧
      (∃ pre item post, threeItemListBox.m_items = pre ++ item :: post ∧
        (∀ x ∈ pre, x.text ≠ "Item 2") ∧ item.text = "Item 2" ∧
        (threeItemListBox.removeItem "Item 2").1.m_items = pre ++ post) ∧
      (threeItemListBox.removeItemById "0").1 = threeItemListBox ∧
      (threeItemListBox.removeItemByIndex 3).1 = threeItemListBox :=
  ⟨((ListBox.removal_semantics threeItemListBox).1 "Item 2").1.mpr
      ⟨⟨"Item 2", "2"⟩, by decide, rfl⟩,
    ((ListBox.removal_semantics threeItemListBox).1 "Item 2").2.1 (by decide),
    ((ListBox.removal_semantics threeItemListBox).2.1 "0").2.2 (by decide),
    ((ListBox.removal_semantics threeItemListBox).2.2 3).2.2 (by decide)⟩

/-- A failed `setSelectedItemByIndex` clears the selection and keeps the items. -/
theorem ListBox.setSelectedItemByIndex_failure (lb : ListBox) (index : Nat)
    (h : lb.m_items.length ≤ index) :
    lb.setSelectedItemByIndex index = (lb.deselectItem, false) := by
  unfold ListBox.setSelectedItemByIndex
  rw [if_neg (not_lt.mpr h)]

/-- A successful `setSelectedItemByIndex` makes the getters describe the item at the index. -/
theorem ListBox.setSelectedItemByIndex_success (lb : ListBox) (pre post : List ListBoxItem)
    (item : ListBoxItem) (hl : lb.m_items = pre ++ item :: post) :
    (lb.setSelectedItemByIndex pre.length).2 = true ∧
      (lb.setSelectedItemByIndex pre.length).1.getSelectedItemIndex = (pre.length : Int) ∧
      (lb.setSelectedItemByIndex pre.length).1.getSelectedItem = item.text ∧
      (lb.setSelectedItemByIndex pre.length).1.getSelectedItemId = item.id ∧
      (lb.setSelectedItemByIndex pre.length).1.m_items = lb.m_items := by
  have hlt : pre.length < lb.m_items.length := by rw [hl]; simp
  have hentry : ListBox.selectedEntry { lb with m_selectedItem := (pre.length : Int) }
      = some item := by
    unfold ListBox.selectedEntry
    have hn : ¬ ((pre.length : Int) < 0) := by omega
    simp only [hn, if_false, Int.toNat_ofNat, hl]
    rw [List.getElem?_append_right (le_refl _), Nat.sub_self]
    exact List.getElem?_cons_zero
  unfold ListBox.setSelectedItemByIndex
  rw [if_pos hlt]
  refine ⟨rfl, rfl, ?_, ?_, rfl⟩
  · unfold ListBox.getSelectedItem
    simp only [hentry]
  · unfold ListBox.getSelectedItemId
    simp only [hentry]

/-- A selection of the first item that satisfies `p`, as `setSelectedItem` and
`setSelectedItemById` do it. -/
theorem ListBox.selectFirst_spec (lb : ListBox) (p : ListBoxItem → Bool)
    (r fallback : ListBox × Bool)
    (hr : r = match ListBox.firstIndex p lb.m_items with
      | some index => lb.setSelectedItemByIndex index
      | none => fallback) :
    ((∀ item ∈ lb.m_items, p item = false) → r = fallback) ∧
      (∀ (pre post : List ListBoxItem) (item : ListBoxItem), lb.m_items = pre ++ item :: post →
        (∀ x ∈ pre, p x = false) → p item = true →
        r.2 = true ∧ r.1.getSelectedItemIndex = (pre.length : Int) ∧
        r.1.getSelectedItem = item.text ∧ r.1.getSelectedItemId = item.id ∧
        r.1.m_items = lb.m_items) := by
  constructor
  · intro hnone
    rw [(ListBox.firstIndex_none p lb.m_items).mpr hnone] at hr
    exact hr
  · intro pre post item hl hpre hitem
    have hf := ListBox.firstIndex_of_split p pre post item hitem hpre
    rw [← hl] at hf
    rw [hf] at hr
    subst hr
    exact ListBox.setSelectedItemByIndex_success lb pre post item hl

/-- C19 (the claim fails for `setSelectedItem`): on `selectedListBox`, where index 0 is
selected, no item has the text `Item 0`; `setSelectedItem("Item 0")` returns false and
afterwards `getSelectedItemIndex()` is still 0, not -1: the spec leaves the selection unchanged
after a failed selection by text, and the test makes this call only with nothing selected. -/
theorem ListBox.failed_text_selection_keeps_index :
    (∀ item ∈ selectedListBox.m_items, item.text ≠ "Item 0") ∧
      selectedListBox.getSelectedItemIndex = 0 ∧
      (selectedListBox.setSelectedItem "Item 0").2 = false ∧
      (selectedListBox.setSelectedItem "Item 0").1.getSelectedItemIndex = 0 ∧
      (selectedListBox.setSelectedItem "Item 0").1.getSelectedItemIndex ≠ -1 := by
  decide

/-- C19 (amended): a call of `setSelectedItemById` or `setSelectedItemByIndex` that matches no
item (unknown id, index not below the count) returns false and afterwards
`getSelectedItemIndex()` is -1, on every list box and so also on one with an item selected; a
call of `setSelectedItem` with a text that matches no item returns false and leaves the list box
and its selection as they were; a call that matches returns true, and afterwards
`getSelectedItemIndex()` is the index of the first matching item and `getSelectedItem()`,
`getSelectedItemId()` are its text and id. -/
theorem ListBox.selection_semantics (lb : ListBox) :
    (∀ text : String, (∀ item ∈ lb.m_items, item.text ≠ text) →
      (lb.setSelectedItem text).2 = false ∧
      (lb.setSelectedItem text).1.getSelectedItemIndex = lb.getSelectedItemIndex ∧
      (lb.setSelectedItem text).1.m_items = lb.m_items) ∧
    (∀ id : String, (∀ item ∈ lb.m_items, item.id ≠ id) →
      (lb.setSelectedItemById id).2 = false ∧
      (lb.setSelectedItemById id).1.getSelectedItemIndex = -1) ∧
    (∀ index : Nat, lb.getItemCount ≤ index →
      (lb.setSelectedItemByIndex index).2 = false ∧
      (lb.setSelectedItemByIndex index).1.getSelectedItemIndex = -1) ∧
    (∀ (text : String) (pre post : List ListBoxItem) (item : ListBoxItem),
      lb.m_items = pre ++ item :: post → (∀ x ∈ pre, x.text ≠ text) → item.text = text →
      (lb.setSelectedItem text).2 = true ∧
      (lb.setSelectedItem text).1.getSelectedItemIndex = (pre.length : Int) ∧
      (lb.setSelectedItem text).1.getSelectedItem = text ∧
      (lb.setSelectedItem text).1.getSelectedItemId = item.id) ∧
    (∀ (id : String) (pre post : List ListBoxItem) (item : ListBoxItem),
      lb.m_items = pre ++ item :: post → (∀ x ∈ pre, x.id ≠ id) → item.id = id →
      (lb.setSelectedItemById id).2 = true ∧
      (lb.setSelectedItemById id).1.getSelectedItemIndex = (pre.length : Int) ∧
      (lb.setSelectedItemById id).1.getSelectedItem = item.text ∧
      (lb.setSelectedItemById id).1.getSelectedItemId = id) ∧
    (∀ (pre post : List ListBoxItem) (item : ListBoxItem),
      lb.m_items = pre ++ item :: post →
      (lb.setSelectedItemByIndex pre.length).2 = true ∧
      (lb.setSelectedItemByIndex pre.length).1.getSelectedItemIndex = (pre.length : Int) ∧
      (lb.setSelectedItemByIndex pre.length).1.getSelectedItem = item.text ∧
      (lb.setSelectedItemByIndex pre.length).1.getSelectedItemId = item.id) := by
  refine ⟨?_, ?_, ?_, ?_, ?_, ?_⟩
  · intro text hnone
    have h := (ListBox.selectFirst_spec lb (fun item => decide (item.text = text))
      (lb.setSelectedItem text) (lb, false) rfl).1
      (fun item hmem => decide_eq_false (hnone item hmem))
    rw [h]
    exact ⟨rfl, rfl, rfl⟩
  · intro id hnone
    have h := (ListBox.selectFirst_spec lb (fun item => decide (item.id = id))
      (lb.setSelectedItemById id) (lb.deselectItem, false) rfl).1
      (fun item hmem => decide_eq_false (hnone item hmem))
    rw [h]
    exact ⟨rfl, rfl⟩
  · intro index hle
    rw [ListBox.setSelectedItemByIndex_failure lb index hle]
    exact ⟨rfl, rfl⟩
  · intro text pre post item hl hpre hitem
    have h := (ListBox.selectFirst_spec lb (fun item => decide (item.text = text))
      (lb.setSelectedItem text) (lb, false) rfl).2 pre post item hl
      (fun x hx => decide_eq_false (hpre x hx)) (decide_eq_true hitem)
    exact ⟨h.1, h.2.1, by rw [h.2.2.1, hitem], h.2.2.2.1⟩
  · intro id pre post item hl hpre hitem
    have h := (ListBox.selectFirst_spec lb (fun item => decide (item.id = id))
      (lb.setSelectedItemById id) (lb.deselectItem, false) rfl).2 pre post item hl
      (fun x hx => decide_eq_false (hpre x hx)) (decide_eq_true hitem)
    exact ⟨h.1, h.2.1, h.2.2.1, by rw [h.2.2.2.1, hitem]⟩
  · intro pre post item hl
    have h := ListBox.setSelectedItemByIndex_success lb pre post item hl
    exact ⟨h.1, h.2.1, h.2.2.1, h.2.2.2.1⟩

theorem ListBox.selection_semantics_witness :
    ((selectedListBox.setSelectedItemById "0").2 = false ∧
      (selectedListBox.setSelectedItemById "0").1.getSelectedItemIndex = -1) ∧
    ((selectedListBox.setSelectedItemByIndex 3).2 = false ∧
      (selectedListBox.setSelectedItemByIndex 3).1.getSelectedItemIndex = -1) ∧
    ((selectedListBox.setSelectedItem "Item 0").2 = false ∧
      (selectedListBox.setSelectedItem "Item 0").1.getSelectedItemIndex
        = selectedListBox.getSelectedItemIndex ∧
      (selectedListBox.setSelectedItem "Item 0").1.m_items = selectedListBox.m_items) ∧
    ((selectedListBox.setSelectedItem "Item 2").2 = true ∧
      (selectedListBox.setSelectedItem "Item 2").1.getSelectedItemIndex = 1 ∧
      (selectedListBox.setSelectedItem "Item 2").1.getSelectedItem = "Item 2" ∧
      (selectedListBox.setSelectedItem "Item 2").1.getSelectedItemId = "2") :=
  ⟨(ListBox.selection_semantics selectedListBox).2.1 "0" (by decide),
    (ListBox.selection_semantics selectedListBox).2.2.1 3 (by decide),
    (ListBox.selection_semantics selectedListBox).1 "Item 0" (by decide),
    (ListBox.selection_semantics selectedListBox).2.2.2.1 "Item 2" [⟨"Item 1", "1"⟩]
      [⟨"Item 3", "3"⟩] ⟨"Item 2", "2"⟩ rfl (by decide) rfl⟩

/-- C18 (the claim fails for the selection by id and by index): on `selectedListBox`, where
index 0 is selected, no item has the id `0` and the count is 3; `setSelectedItemById("0")` and
`setSelectedItemByIndex(3)` return false, and afterwards `getSelectedItemIndex()` is -1, not
the index 0 from before the call, as tests/Widgets/ListBox.cpp 211-212 and 218-219 require. -/
theorem ListBox.failed_selection_changes_index :
    (∀ item ∈ selectedListBox.m_items, item.id ≠ "0") ∧
      selectedListBox.getItemCount ≤ 3 ∧
      selectedListBox.getSelectedItemIndex = 0 ∧
      (selectedListBox.setSelectedItemById "0").2 = false ∧
      (selectedListBox.setSelectedItemById "0").1.getSelectedItemIndex = -1 ∧
      (selectedListBox.setSelectedItemById "0").1.getSelectedItemIndex
        ≠ selectedListBox.getSelectedItemIndex ∧
      (selectedListBox.setSelectedItemByIndex 3).2 = false ∧
      (selectedListBox.setSelectedItemByIndex 3).1.getSelectedItemIndex = -1 ∧
      (selectedListBox.setSelectedItemByIndex 3).1.getSelectedItemIndex
        ≠ selectedListBox.getSelectedItemIndex := by
  decide

/-- C18 (amended): for every list box and every text that matches no item,
`setSelectedItem(text)` returns false, and `getSelectedItemIndex()` and the items are the same
as before the call; `setSelectedItemById` with an unknown id and `setSelectedItemByIndex` with
an index not below the count return false, keep the items and clear the selection: afterwards
`getSelectedItemIndex()` is -1, which is the index from before the call exactly when no item was
selected before. -/
theorem ListBox.failed_selection_effect (lb : ListBox) :
    (∀ text : String, (∀ item ∈ lb.m_items, item.text ≠ text) →
      (lb.setSelectedItem text).2 = false ∧
      (lb.setSelectedItem text).1.m_items = lb.m_items ∧
      (lb.setSelectedItem text).1.getSelectedItemIndex = lb.getSelectedItemIndex) ∧
    (∀ id : String, (∀ item ∈ lb.m_items, item.id ≠ id) →
      (lb.setSelectedItemById id).2 = false ∧
      (lb.setSelectedItemById id).1.m_items = lb.m_items ∧
      (lb.setSelectedItemById id).1.getSelectedItemIndex = -1 ∧
      ((lb.setSelectedItemById id).1.getSelectedItemIndex = lb.getSelectedItemIndex
        ↔ lb.getSelectedItemIndex = -1)) ∧
    (∀ index : Nat, lb.getItemCount ≤ index →
      (lb.setSelectedItemByIndex index).2 = false ∧
      (lb.setSelectedItemByIndex index).1.m_items = lb.m_items ∧
      (lb.setSelectedItemByIndex index).1.getSelectedItemIndex = -1 ∧
      ((lb.setSelectedItemByIndex index).1.getSelectedItemIndex = lb.getSelectedItemIndex
        ↔ lb.getSelectedItemIndex = -1)) := by
  have hiff : (lb.deselectItem.getSelectedItemIndex = lb.getSelectedItemIndex
      ↔ lb.getSelectedItemIndex = -1) := by
    show ((-1 : Int) = lb.getSelectedItemIndex ↔ lb.getSelectedItemIndex = -1)
    exact eq_comm
  refine ⟨?_, ?_, ?_⟩
  · intro text hnone
    have h := (ListBox.selectFirst_spec lb (fun item => decide (item.text = text))
      (lb.setSelectedItem text) (lb, false) rfl).1
      (fun item hmem => decide_eq_false (hnone item hmem))
    rw [h]
    exact ⟨rfl, rfl, rfl⟩
  · intro id hnone
    have h := (ListBox.selectFirst_spec lb (fun item => decide (item.id = id))
      (lb.setSelectedItemById id) (lb.deselectItem, false) rfl).1
      (fun item hmem => decide_eq_false (hnone item hmem))
    rw [h]
    exact ⟨rfl, rfl, rfl, hiff⟩
  · intro index hle
    rw [ListBox.setSelectedItemByIndex_failure lb index hle]
    exact ⟨rfl, rfl, rfl, hiff⟩

theorem ListBox.failed_selection_effect_witness :
    ((selectedListBox.setSelectedItem "Item 0").2 = false ∧
      (selectedListBox.setSelectedItem "Item 0").1.m_items = selectedListBox.m_items ∧
      (selectedListBox.setSelectedItem "Item 0").1.getSelectedItemIndex
        = selectedListBox.getSelectedItemIndex) ∧
    ((selectedListBox.setSelectedItemById "0").2 = false ∧
      (selectedListBox.setSelectedItemById "0").1.m_items = selectedListBox.m_items ∧
      (selectedListBox.setSelectedItemById "0").1.getSelectedItemIndex = -1 ∧
      ((selectedListBox.setSelectedItemById "0").1.getSelectedItemIndex
          = selectedListBox.getSelectedItemIndex
        ↔ selectedListBox.getSelectedItemIndex = -1)) :=
  ⟨(ListBox.failed_selection_effect selectedListBox).1 "Item 0" (by decide),
    (ListBox.failed_selection_effect selectedListBox).2.1 "0" (by decide)⟩

/-- C16: for a list box with `n` items and `0 < k < n`, `setMaximumItems(k)` leaves exactly the
first `k` items in their order; afterwards `addItem` fails and changes nothing, and so does every
`addItem` on any list box with maximum `k` that holds `k` items. -/
theorem ListBox.setMaximumItems_truncates (lb : ListBox) (k : Nat) (hk : 0 < k)
    (hlt : k < lb.getItemCount) :
    (lb.setMaximumItems k).m_items = lb.m_items.take k ∧
      (lb.setMaximumItems k).getItems = lb.getItems.take k ∧
      (lb.setMaximumItems k).getItemCount = k ∧
      (∀ text id : String,
        (lb.setMaximumItems k).addItem text id = (lb.setMaximumItems k, false)) ∧
      (∀ later : ListBox, later.m_maxItems = k → later.getItemCount = k →
        ∀ text id : String, later.addItem text id = (later, false)) := by
  have hfull : ∀ later : ListBox, later.m_maxItems = k → later.getItemCount = k →
      ∀ text id : String, later.addItem text id = (later, false) := by
    intro later hmax hcount text id
    unfold ListBox.addItem
    unfold ListBox.getItemCount at hcount
    rw [if_pos ⟨by rw [hmax]; exact hk, by rw [hmax, hcount]⟩]
  have hitems : (lb.setMaximumItems k).m_items = lb.m_items.take k := by
    unfold ListBox.setMaximumItems
    unfold ListBox.getItemCount at hlt
    simp only []
    rw [if_pos ⟨hk, hlt⟩]
  have hmax : (lb.setMaximumItems k).m_maxItems = k := by
    unfold ListBox.setMaximumItems
    simp only []
    split_ifs <;> rfl
  have hcount : (lb.setMaximumItems k).getItemCount = k := by
    unfold ListBox.getItemCount at hlt ⊢
    rw [hitems, List.length_take]
    omega
  refine ⟨hitems, ?_, hcount, hfull _ hmax hcount, hfull⟩
  unfold ListBox.getItems
  rw [hitems, List.map_take]

theorem ListBox.setMaximumItems_truncates_witness :
    0 < 3 ∧ 3 < fiveItemListBox.getItemCount ∧
      (fiveItemListBox.setMaximumItems 3).m_items = fiveItemListBox.m_items.take 3 ∧
      (fiveItemListBox.setMaximumItems 3).getItems = fiveItemListBox.getItems.take 3 ∧
      (fiveItemListBox.setMaximumItems 3).getItemCount = 3 ∧
      (∀ text id : String, (fiveItemListBox.setMaximumItems 3).addItem text id
        = (fiveItemListBox.setMaximumItems 3, false)) ∧
      (∀ later : ListBox, later.m_maxItems = 3 → later.getItemCount = 3 →
        ∀ text id : String, later.addItem text id = (later, false)) :=
  ⟨by decide, by decide,
    ListBox.setMaximumItems_truncates fiveItemListBox 3 (by decide) (by decide)⟩

/-! ## Theorems: ListBox, sequences of calls -/

theorem ListBox.forall2_eraseIdx {α β : Type} {R : α → β → Prop} {l1 : List α} {l2 : List β}
    (h : List.Forall₂ R l1 l2) (i : Nat) :
    List.Forall₂ R (l1.eraseIdx i) (l2.eraseIdx i) := by
  induction h generalizing i with
  | nil => exact List.Forall₂.nil
  | cons hab hrest ih =>
    cases i with
    | zero => exact hrest
    | succ j => exact List.Forall₂.cons hab (ih j)

theorem ListBox.forall2_setText {R : ListBoxItem → Nat → Prop} {l1 : List ListBoxItem}
    {l2 : List Nat} (h : List.Forall₂ R l1 l2) (text : String) (i : Nat)
    (hR : ∀ a k, R a k → R { a with text := text } k) :
    List.Forall₂ R (ListBox.setText text i l1) l2 := by
  induction h generalizing i with
  | nil => cases i <;> exact List.Forall₂.nil
  | cons hab hrest ih =>
    cases i with
    | zero => exact List.Forall₂.cons (hR _ _ hab) hrest
    | succ j => exact List.Forall₂.cons hab (ih j)

theorem ListBox.setText_length (text : String) (i : Nat) (l : List ListBoxItem) :
    (ListBox.setText text i l).length = l.length := by
  induction l generalizing i with
  | nil => cases i <;> rfl
  | cons x rest ih =>
    cases i with
    | zero => rfl
    | succ j => exact congrArg (· + 1) (ih j)

/-- The two outcomes of `addItem`. -/
theorem ListBox.addItem_spec (lb : ListBox) (text id : String) :
    ((lb.addItem text id).2 = true →
        (lb.addItem text id).1.m_items = lb.m_items ++ [⟨text, id⟩]) ∧
      ((lb.addItem text id).2 = false → (lb.addItem text id).1 = lb) := by
  unfold ListBox.addItem
  by_cases h1 : lb.m_maxItems > 0 ∧ lb.m_items.length ≥ lb.m_maxItems
  · rw [if_pos h1]
    exact ⟨fun h => absurd (show false = true from h) (by decide), fun _ => rfl⟩
  · rw [if_neg h1]
    by_cases h2 : lb.m_scroll = false ∧ lb.itemFits lb.m_items.length = false
    · rw [if_pos h2]
      exact ⟨fun h => absurd (show false = true from h) (by decide), fun _ => rfl⟩
    · rw [if_neg h2]
      exact ⟨fun _ => rfl, fun h => absurd (show true = false from h) (by decide)⟩

/-- The items after `changeItemByIndex`. -/
theorem ListBox.changeItemByIndex_items (lb : ListBox) (index : Nat) (newText : String) :
    (lb.changeItemByIndex index newText).1.m_items = lb.m_items ∨
      (lb.changeItemByIndex index newText).1.m_items
        = ListBox.setText newText index lb.m_items := by
  unfold ListBox.changeItemByIndex
  split_ifs
  · exact Or.inr rfl
  · exact Or.inl rfl

/-- The items after a change of the first item that satisfies `p`. -/
theorem ListBox.changeFirst_items (lb : ListBox) (p : ListBoxItem → Bool) (newText : String)
    (r : ListBox × Bool)
    (hr : r = match ListBox.firstIndex p lb.m_items with
      | some index => lb.changeItemByIndex index newText
      | none => (lb, false)) :
    r.1.m_items = lb.m_items ∨ ∃ index, r.1.m_items = ListBox.setText newText index lb.m_items := by
  cases hf : ListBox.firstIndex p lb.m_items with
  | none =>
    rw [hf] at hr
    subst hr
    exact Or.inl rfl
  | some i =>
    rw [hf] at hr
    subst hr
    rcases ListBox.changeItemByIndex_items lb i newText with h | h
    · exact Or.inl h
    · exact Or.inr ⟨i, h⟩

theorem ListBox.Trace.Tagged_append (exact : Bool) (added : List ListBoxItem)
    (extra item : ListBoxItem) (stamp : Nat) (h : ListBox.Trace.Tagged exact added item stamp) :
    ListBox.Trace.Tagged exact (added ++ [extra]) item stamp := by
  obtain ⟨a, ha, hid, htext⟩ := h
  have hlt : stamp < added.length := (List.getElem?_eq_some.mp ha).1
  exact ⟨a, by rw [List.getElem?_append_left hlt]; exact ha, hid, htext⟩

/-- A successful `addItem` keeps the record consistent. -/
theorem ListBox.Trace.Inv_add (exact : Bool) (t : ListBox.Trace) (box : ListBox)
    (text id : String) (hinv : ListBox.Trace.Inv exact t)
    (hbox : box.m_items = t.box.m_items ++ [⟨text, id⟩]) :
    ListBox.Trace.Inv exact
      { box := box, added := t.added ++ [⟨text, id⟩], removes := t.removes,
        stamps := t.stamps ++ [t.added.length] } := by
  obtain ⟨hcount, hsorted, hbound, htagged⟩ := hinv
  refine ⟨?_, ?_, ?_, ?_⟩
  · show box.m_items.length + t.removes = (t.added ++ [ListBoxItem.mk text id]).length
    rw [hbox, List.length_append, List.length_append]
    simp only [List.length_singleton]
    omega
  · show (t.stamps ++ [t.added.length]).Pairwise (fun a b => a < b)
    rw [List.pairwise_append]
    refine ⟨hsorted, List.pairwise_singleton _ _, ?_⟩
    intro a ha b hb
    rw [List.mem_singleton] at hb
    rw [hb]
    exact hbound a ha
  · intro k hk
    show k < (t.added ++ [ListBoxItem.mk text id]).length
    rw [List.length_append]
    rcases List.mem_append.mp hk with h | h
    · have := hbound k h
      omega
    · rw [List.mem_singleton] at h
      rw [h]
      simp
  · show List.Forall₂ (ListBox.Trace.Tagged exact (t.added ++ [ListBoxItem.mk text id]))
      box.m_items (t.stamps ++ [t.added.length])
    rw [hbox]
    refine List.rel_append
      (htagged.imp fun a b h => ListBox.Trace.Tagged_append exact t.added _ a b h) ?_
    refine List.Forall₂.cons ?_ List.Forall₂.nil
    exact ⟨⟨text, id⟩, List.getElem?_concat_length _ _, rfl, fun _ => rfl⟩

/-- A remove call keeps the record consistent. -/
theorem ListBox.Trace.Inv_removal (exact : Bool) (t : ListBox.Trace) (r : ListBox × Bool)
    (index : Option Nat) (hinv : ListBox.Trace.Inv exact t)
    (hsome : ∀ i, index = some i → i < t.box.m_items.length ∧ r.2 = true ∧
      r.1.m_items = t.box.m_items.eraseIdx i)
    (hnone : index = none → r.2 = false ∧ r.1.m_items = t.box.m_items) :
    ListBox.Trace.Inv exact (t.removal r index) := by
  obtain ⟨hcount, hsorted, hbound, htagged⟩ := hinv
  unfold ListBox.Trace.removal
  cases index with
  | none =>
    obtain ⟨hflag, hitems⟩ := hnone rfl
    refine ⟨?_, hsorted, hbound, ?_⟩
    · show r.1.m_items.length + (if r.2 = true then t.removes + 1 else t.removes)
        = t.added.length
      rw [hflag, hitems]
      exact hcount
    · show List.Forall₂ (ListBox.Trace.Tagged exact t.added) r.1.m_items t.stamps
      rw [hitems]
      exact htagged
  | some i =>
    obtain ⟨hlt, hflag, hitems⟩ := hsome i rfl
    refine ⟨?_, ?_, ?_, ?_⟩
    · show r.1.m_items.length + (if r.2 = true then t.removes + 1 else t.removes)
        = t.added.length
      rw [hflag, hitems, List.length_eraseIdx_of_lt hlt, if_pos rfl]
      omega
    · exact List.Pairwise.sublist (List.eraseIdx_sublist _ _) hsorted
    · intro k hk
      exact hbound k ((List.eraseIdx_sublist _ _).subset hk)
    · show List.Forall₂ (ListBox.Trace.Tagged exact t.added) r.1.m_items (t.stamps.eraseIdx i)
      rw [hitems]
      exact ListBox.forall2_eraseIdx htagged i

/-- A removal of the first item that satisfies `p` keeps the record consistent. -/
theorem ListBox.Trace.Inv_removeFirst (exact : Bool) (t : ListBox.Trace)
    (p : ListBoxItem → Bool) (r : ListBox × Bool) (hinv : ListBox.Trace.Inv exact t)
    (hr : r = match ListBox.firstIndex p t.box.m_items with
      | some index => t.box.removeItemByIndex index
      | none => (t.box, false)) :
    ListBox.Trace.Inv exact (t.removal r (ListBox.firstIndex p t.box.m_items)) := by
  apply ListBox.Trace.Inv_removal exact t r _ hinv
  · intro i hi
    rw [hi] at hr
    obtain ⟨pre, item, post, hl, hlen, _, _⟩ := ListBox.firstIndex_split p _ i hi
    have hlt : i < t.box.m_items.length := by
      rw [hl, ← hlen]; simp
    have hspec := ListBox.removeItemByIndex_spec t.box i
    subst hr
    exact ⟨hlt, hspec.1.mpr hlt, hspec.2.1 (hspec.1.mpr hlt)⟩
  · intro hn
    rw [hn] at hr
    subst hr
    exact ⟨rfl, rfl⟩

/-- A change call keeps the record consistent as far as the ids go. -/
theorem ListBox.Trace.Inv_change (t : ListBox.Trace) (box : ListBox) (newText : String)
    (hinv : ListBox.Trace.Inv false t)
    (hbox : box.m_items = t.box.m_items
      ∨ ∃ index, box.m_items = ListBox.setText newText index t.box.m_items) :
    ListBox.Trace.Inv false { t with box := box } := by
  obtain ⟨hcount, hsorted, hbound, htagged⟩ := hinv
  rcases hbox with h | ⟨index, h⟩
  · refine ⟨?_, hsorted, hbound, ?_⟩
    · show box.m_items.length + t.removes = t.added.length
      rw [h]; exact hcount
    · show List.Forall₂ (ListBox.Trace.Tagged false t.added) box.m_items t.stamps
      rw [h]; exact htagged
  · refine ⟨?_, hsorted, hbound, ?_⟩
    · show box.m_items.length + t.removes = t.added.length
      rw [h, ListBox.setText_length]; exact hcount
    · show List.Forall₂ (ListBox.Trace.Tagged false t.added) box.m_items t.stamps
      rw [h]
      refine ListBox.forall2_setText htagged newText index ?_
      rintro a k ⟨b, hb, hid, _⟩
      exact ⟨b, hb, hid, fun hf => absurd hf (by decide)⟩

/-- Every call keeps the record consistent; with `exact` set the call is not a change. -/
theorem ListBox.Trace.Inv_step (exact : Bool) (t : ListBox.Trace) (op : ListBox.Op)
    (hinv : ListBox.Trace.Inv exact t) (hop : exact = true → op.isChange = false) :
    ListBox.Trace.Inv exact (t.step op) := by
  cases op with
  | addItem text id =>
    show ListBox.Trace.Inv exact (if (t.box.addItem text id).2 = true then _ else _)
    by_cases h : (t.box.addItem text id).2 = true
    · rw [if_pos h]
      exact ListBox.Trace.Inv_add exact t _ text id hinv ((ListBox.addItem_spec t.box text id).1 h)
    · rw [if_neg h]
      rw [Bool.not_eq_true] at h
      rw [(ListBox.addItem_spec t.box text id).2 h]
      exact hinv
  | removeItem text =>
    exact ListBox.Trace.Inv_removeFirst exact t _ _ hinv rfl
  | removeItemById id =>
    exact ListBox.Trace.Inv_removeFirst exact t _ _ hinv rfl
  | removeItemByIndex index =>
    show ListBox.Trace.Inv exact (t.removal (t.box.removeItemByIndex index)
      (if index < t.box.m_items.length then some index else none))
    have hspec := ListBox.removeItemByIndex_spec t.box index
    apply ListBox.Trace.Inv_removal exact t _ _ hinv
    · intro i hi
      by_cases hlt : index < t.box.m_items.length
      · rw [if_pos hlt] at hi
        cases hi
        exact ⟨hlt, hspec.1.mpr hlt, hspec.2.1 (hspec.1.mpr hlt)⟩
      · rw [if_neg hlt] at hi
        cases hi
    · intro hn
      by_cases hlt : index < t.box.m_items.length
      · rw [if_pos hlt] at hn
        cases hn
      · have hf : (t.box.removeItemByIndex index).2 = false := by
          cases hb : (t.box.removeItemByIndex index).2 with
          | false => rfl
          | true => exact absurd (hspec.1.mp hb) hlt
        exact ⟨hf, by rw [hspec.2.2 hf]⟩
  | changeItem originalText newText =>
    cases exact with
    | true => exact absurd (show true = false from hop rfl) (by decide)
    | false =>
      exact ListBox.Trace.Inv_change t _ newText hinv
        (ListBox.changeFirst_items t.box _ newText _ rfl)
  | changeItemById id newText =>
    cases exact with
    | true => exact absurd (show true = false from hop rfl) (by decide)
    | false =>
      exact ListBox.Trace.Inv_change t _ newText hinv
        (ListBox.changeFirst_items t.box _ newText _ rfl)
  | changeItemByIndex index newText =>
    cases exact with
    | true => exact absurd (show true = false from hop rfl) (by decide)
    | false =>
      refine ListBox.Trace.Inv_change t _ newText hinv ?_
      rcases ListBox.changeItemByIndex_items t.box index newText with h | h
      · exact Or.inl h
      · exact Or.inr ⟨index, h⟩

/-- A sequence of calls keeps the record consistent. -/
theorem ListBox.Trace.Inv_foldl (exact : Bool) (ops : List ListBox.Op) (t : ListBox.Trace)
    (hinv : ListBox.Trace.Inv exact t)
    (hops : exact = true → ∀ op ∈ ops, op.isChange = false) :
    ListBox.Trace.Inv exact (ops.foldl ListBox.Trace.step t) := by
  induction ops generalizing t with
  | nil => exact hinv
  | cons op rest ih =>
    rw [List.foldl_cons]
    apply ih
    · exact ListBox.Trace.Inv_step exact t op hinv
        (fun he => hops he op (List.mem_cons_self _ _))
    · intro he o ho
      exact hops he o (List.mem_cons_of_mem _ ho)

/-- The record of a sequence of calls on an empty list box is consistent. -/
theorem ListBox.runOps_inv (exact : Bool) (lb : ListBox) (hempty : lb.m_items = [])
    (ops : List ListBox.Op) (hops : exact = true → ∀ op ∈ ops, op.isChange = false) :
    ListBox.Trace.Inv exact (ListBox.runOps lb ops) := by
  unfold ListBox.runOps
  apply ListBox.Trace.Inv_foldl exact ops _ _ hops
  refine ⟨?_, List.Pairwise.nil, ?_, ?_⟩
  · show lb.m_items.length + 0 = 0
    rw [hempty]; rfl
  · intro k hk
    cases hk
  · show List.Forall₂ _ lb.m_items []
    rw [hempty]
    exact List.Forall₂.nil

/-- C15: for every sequence of `addItem`, `removeItem`, `removeItemById`, `removeItemByIndex`
and `changeItem*` calls on an empty list box, `getItemCount()` is the number of successful adds
minus the number of successful removes, and the items are the surviving items in insertion
order: the stamps of the items (the positions of their `addItem` calls among the successful
adds) increase strictly, every item has the id it was added with, and, when the sequence holds
no `changeItem*` call, also the text, so that `getItems()` lists the added texts at the
stamps. -/
theorem ListBox.runOps_count_and_order (lb : ListBox) (hempty : lb.m_items = [])
    (ops : List ListBox.Op) :
    (ListBox.runOps lb ops).box.getItemCount
        = (ListBox.runOps lb ops).added.length - (ListBox.runOps lb ops).removes ∧
      (ListBox.runOps lb ops).removes ≤ (ListBox.runOps lb ops).added.length ∧
      (ListBox.runOps lb ops).stamps.Pairwise (fun a b => a < b) ∧
      List.Forall₂
        (fun item stamp => ∃ a, (ListBox.runOps lb ops).added[stamp]? = some a ∧ item.id = a.id)
        (ListBox.runOps lb ops).box.m_items (ListBox.runOps lb ops).stamps ∧
      ((∀ op ∈ ops, op.isChange = false) →
        List.Forall₂ (fun item stamp => (ListBox.runOps lb ops).added[stamp]? = some item)
          (ListBox.runOps lb ops).box.m_items (ListBox.runOps lb ops).stamps ∧
        List.Forall₂
          (fun text stamp => ∃ a, (ListBox.runOps lb ops).added[stamp]? = some a ∧ text = a.text)
          (ListBox.runOps lb ops).box.getItems (ListBox.runOps lb ops).stamps) := by
  have hinv := ListBox.runOps_inv false lb hempty ops
    (fun h => absurd (show false = true from h) (by decide))
  obtain ⟨hcount, hsorted, _, htagged⟩ := hinv
  refine ⟨?_, ?_, hsorted, ?_, ?_⟩
  · unfold ListBox.getItemCount
    omega
  · omega
  · exact htagged.imp fun item stamp h => by
      obtain ⟨a, ha, hid, _⟩ := h
      exact ⟨a, ha, hid⟩
  · intro hops
    have hexact := (ListBox.runOps_inv true lb hempty ops (fun _ => hops)).2.2.2
    have hitems : List.Forall₂
        (fun item stamp => (ListBox.runOps lb ops).added[stamp]? = some item)
        (ListBox.runOps lb ops).box.m_items (ListBox.runOps lb ops).stamps :=
      hexact.imp fun item stamp h => by
        obtain ⟨a, ha, hid, htext⟩ := h
        have heq : item = a := by
          cases item
          cases a
          simp only [ListBoxItem.mk.injEq]
          exact ⟨htext rfl, hid⟩
        rw [heq]
        exact ha
    refine ⟨hitems, ?_⟩
    unfold ListBox.getItems
    rw [List.forall₂_map_left_iff]
    exact hitems.imp fun item stamp h => ⟨item, h, rfl⟩

theorem ListBox.runOps_count_and_order_witness :
    testListBox.m_items = [] ∧
      (ListBox.runOps testListBox removingOps).box.getItemCount
        = (ListBox.runOps testListBox removingOps).added.length
          - (ListBox.runOps testListBox removingOps).removes ∧
      (ListBox.runOps testListBox removingOps).removes
        ≤ (ListBox.runOps testListBox removingOps).added.length ∧
      (ListBox.runOps testListBox removingOps).stamps.Pairwise (fun a b => a < b) :=
  ⟨rfl, (ListBox.runOps_count_and_order testListBox rfl removingOps).1,
    (ListBox.runOps_count_and_order testListBox rfl removingOps).2.1,
    (ListBox.runOps_count_and_order testListBox rfl removingOps).2.2.1⟩

/-- The record of `removingOps` on the empty list box of the tests: four successful adds, three
successful removes, one surviving item, `Item 3` added by the third successful add (stamp 2),
shown with its changed text. -/
theorem ListBox.runOps_removingOps :
    (ListBox.runOps testListBox removingOps).added.length = 4 ∧
      (ListBox.runOps testListBox removingOps).removes = 3 ∧
      (ListBox.runOps testListBox removingOps).box.getItemCount = 1 ∧
      (ListBox.runOps testListBox removingOps).stamps = [2] ∧
      (ListBox.runOps testListBox removingOps).box.getItems = ["Item 30"] ∧
      (ListBox.runOps testListBox removingOps).box.m_items.map (fun item => item.id) = ["3"] := by
  decide

/-! ## Theorems: scrollbar, the value after the mouse handlers -/

/-- C21 (the code at the failing input): `overfullScrollbar` is loaded, has `autoHide` set and
maximum 10 below its low value 20, with value 8 and the button down on the track; `mouseMoved`
at the track point (0, 21) runs the value calculation and sets the value to 0. -/
theorem Scrollbar.mouseMoved_changes_value_when_content_fits :
    overfullScrollbar.m_Loaded = true ∧ overfullScrollbar.autoHide = true ∧
      overfullScrollbar.m_Maximum ≤ overfullScrollbar.m_LowValue ∧
      overfullScrollbar.m_Value = 8 ∧
      ∃ s', overfullScrollbar.mouseMoved 0 21 = some s' ∧ s'.m_Value = 0 := by
  have htrack : overfullScrollbar.onTrack 0 21 := by
    norm_num [Scrollbar.onTrack, Scrollbar.barOffset, Scrollbar.barLength, Scrollbar.arrowLength,
      overfullScrollbar, pressedScrollbar, shrunkScrollbar, tallScrollbar, Scrollbar.scalingX]
  have hc : overfullScrollbar.trackCoordinate 0 21 = 1 := by
    norm_num [Scrollbar.trackCoordinate, Scrollbar.barOffset, Scrollbar.barLength,
      Scrollbar.arrowLength, overfullScrollbar, pressedScrollbar, shrunkScrollbar, tallScrollbar,
      Scrollbar.scalingX]
  refine ⟨rfl, rfl, by decide, rfl,
    Scrollbar.addValueCallback 8
      (Scrollbar.setValue { overfullScrollbar with m_MouseHover := true } 0), ?_, ?_⟩
  · rw [Scrollbar.mouseMoved_on_track overfullScrollbar 0 21 rfl rfl rfl rfl (by decide) htrack,
      hc]
    norm_num [Scrollbar.trackClick, overfullScrollbar, pressedScrollbar, shrunkScrollbar,
      tallScrollbar]
  · rw [Scrollbar.addValueCallback_value, Scrollbar.setValue_value]
    exact Nat.zero_min _

/-- With `autoHide` off and a maximum that is not above the low value, `mouseMoved` returns
before any value calculation. -/
theorem Scrollbar.mouseMoved_idle_when_shown (s : Scrollbar) (x y : ℚ)
    (hfit : s.m_Maximum ≤ s.m_LowValue) (hshown : s.autoHide = false) :
    ∃ s', s.mouseMoved x y = some s' ∧ s'.m_Value = s.m_Value := by
  unfold Scrollbar.mouseMoved
  by_cases hl : s.m_Loaded = false
  · rw [if_pos hl]
    exact ⟨s, rfl, rfl⟩
  · rw [if_neg hl]
    simp only []
    by_cases hd : s.m_MouseDown = true ∧ s.m_MouseDownOnArrow = false
    · rw [if_pos hd, if_pos ⟨hfit, hshown⟩]
      exact ⟨_, rfl, rfl⟩
    · rw [if_neg hd]
      exact ⟨_, rfl, rfl⟩

/-- Whatever value is passed, `setValue` leaves a value in range. -/
theorem Scrollbar.setValue_keepsRange (s : Scrollbar) (v : Nat) (hmax : s.m_Maximum < uintSize)
    (hle : s.m_LowValue ≤ s.m_Maximum) : Scrollbar.KeepsRange s (s.setValue v) := by
  refine ⟨?_, ?_, ?_⟩
  · rw [Scrollbar.setValue_value, usub_of_le hmax hle]
    exact min_le_right _ _
  · unfold Scrollbar.setValue
    simp only []
    split_ifs <;> rfl
  · unfold Scrollbar.setValue
    simp only []
    split_ifs <;> rfl

theorem Scrollbar.addValueCallback_keepsRange (s t : Scrollbar) (oldValue : Nat)
    (h : Scrollbar.KeepsRange s t) :
    Scrollbar.KeepsRange s (Scrollbar.addValueCallback oldValue t) := by
  unfold Scrollbar.addValueCallback
  split_ifs
  · exact h
  · exact h

theorem Scrollbar.map_setValue_keepsRange (s t : Scrollbar) (cast : Option Nat)
    (hmax : s.m_Maximum < uintSize) (hle : s.m_LowValue ≤ s.m_Maximum)
    (h : cast.map s.setValue = some t) : Scrollbar.KeepsRange s t := by
  cases cast with
  | none => cases h
  | some v =>
    simp only [Option.map_some', Option.some.injEq] at h
    rw [← h]
    exact Scrollbar.setValue_keepsRange s v hmax hle

theorem Scrollbar.trackClick_keepsRange (s t : Scrollbar) (c : ℚ)
    (hmax : s.m_Maximum < uintSize) (hle : s.m_LowValue ≤ s.m_Maximum)
    (h : s.trackClick c = some t) : Scrollbar.KeepsRange s t := by
  unfold Scrollbar.trackClick at h
  simp only [] at h
  split_ifs at h
  · exact Scrollbar.map_setValue_keepsRange s t _ hmax hle h
  · simp only [Option.some.injEq] at h
    rw [← h]
    exact Scrollbar.setValue_keepsRange s _ hmax hle
  · exact Scrollbar.map_setValue_keepsRange s t _ hmax hle h
  · simp only [Option.some.injEq] at h
    rw [← h]
    exact Scrollbar.setValue_keepsRange s _ hmax hle

theorem Scrollbar.thumbDrag_keepsRange (s t : Scrollbar) (offset trackLength : ℚ)
    (hmax : s.m_Maximum < uintSize) (hle : s.m_LowValue ≤ s.m_Maximum)
    (h : s.thumbDrag offset trackLength = some t) : Scrollbar.KeepsRange s t := by
  unfold Scrollbar.thumbDrag at h
  split_ifs at h
  · cases hcast : floatToUnsigned (offset / trackLength * (s.m_Maximum : ℚ) + 1 / 2) with
    | none => rw [hcast] at h; cases h
    | some v =>
      rw [hcast] at h
      simp only [Option.map_some', Option.some.injEq] at h
      rw [← h]
      split_ifs
      · exact Scrollbar.setValue_keepsRange s _ hmax hle
      · exact Scrollbar.setValue_keepsRange s _ hmax hle
  · simp only [Option.some.injEq] at h
    rw [← h]
    exact Scrollbar.setValue_keepsRange s _ hmax hle

/-- Every result of `mouseMoved` on a scrollbar with a value in range has a value in range. -/
theorem Scrollbar.mouseMoved_keepsRange (s t : Scrollbar) (x y : ℚ)
    (hmax : s.m_Maximum < uintSize) (hle : s.m_LowValue ≤ s.m_Maximum) (hrange : s.InRange)
    (h : s.mouseMoved x y = some t) : Scrollbar.KeepsRange s t := by
  have hs : Scrollbar.KeepsRange s s := ⟨hrange, rfl, rfl⟩
  have hhover : Scrollbar.KeepsRange s { s with m_MouseHover := true } := ⟨hrange, rfl, rfl⟩
  have htrack : ∀ (c : ℚ) (m : Scrollbar),
      Scrollbar.trackClick { s with m_MouseHover := true } c = some m →
      Scrollbar.KeepsRange s m := fun c m hm =>
    Scrollbar.trackClick_keepsRange { s with m_MouseHover := true } m c hmax hle hm
  have hdrag : ∀ (a b : ℚ) (m : Scrollbar),
      Scrollbar.thumbDrag { s with m_MouseHover := true } a b = some m →
      Scrollbar.KeepsRange s m := fun a b m hm =>
    Scrollbar.thumbDrag_keepsRange { s with m_MouseHover := true } m a b hmax hle hm
  unfold Scrollbar.mouseMoved at h
  by_cases hl : s.m_Loaded = false
  · rw [if_pos hl] at h
    cases h
    exact hs
  · rw [if_neg hl] at h
    simp only [] at h
    by_cases hd : s.m_MouseDown = true ∧ s.m_MouseDownOnArrow = false
    · rw [if_pos hd] at h
      by_cases he : s.m_Maximum ≤ s.m_LowValue ∧ s.autoHide = false
      · rw [if_pos he] at h
        cases h
        exact hhover
      · rw [if_neg he] at h
        rw [Option.map_eq_some'] at h
        obtain ⟨m, hm, hmt⟩ := h
        rw [← hmt]
        apply Scrollbar.addValueCallback_keepsRange
        split_ifs at hm
        · exact hdrag _ _ m hm
        · exact htrack _ m hm
        · cases hm; exact hhover
        · cases hm; exact hhover
        · exact hdrag _ _ m hm
        · exact htrack _ m hm
        · cases hm; exact hhover
        · cases hm; exact hhover
    · rw [if_neg hd] at h
      cases h
      exact hhover

theorem Scrollbar.pressArrowTest_fields (s : Scrollbar) (x y : ℚ) :
    (s.pressArrowTest x y).m_Value = s.m_Value ∧
      (s.pressArrowTest x y).m_Maximum = s.m_Maximum ∧
      (s.pressArrowTest x y).m_LowValue = s.m_LowValue := by
  unfold Scrollbar.pressArrowTest
  simp only []
  split_ifs <;> exact ⟨rfl, rfl, rfl⟩

/-- Every result of `leftMousePressed` on a scrollbar with a value in range has a value in
range. -/
theorem Scrollbar.leftMousePressed_keepsRange (s t : Scrollbar) (x y : ℚ)
    (hmax : s.m_Maximum < uintSize) (hle : s.m_LowValue ≤ s.m_Maximum) (hrange : s.InRange)
    (h : s.leftMousePressed x y = some t) : Scrollbar.KeepsRange s t := by
  unfold Scrollbar.leftMousePressed at h
  simp only [] at h
  obtain ⟨hv, hm, hl⟩ := Scrollbar.pressArrowTest_fields
    { s with m_MouseDown := true, m_MouseDownOnArrow := false } x y
  have hv' : (Scrollbar.pressArrowTest
      { s with m_MouseDown := true, m_MouseDownOnArrow := false } x y).m_Value = s.m_Value := hv
  have hm' : (Scrollbar.pressArrowTest
      { s with m_MouseDown := true, m_MouseDownOnArrow := false } x y).m_Maximum
      = s.m_Maximum := hm
  have hl' : (Scrollbar.pressArrowTest
      { s with m_MouseDown := true, m_MouseDownOnArrow := false } x y).m_LowValue
      = s.m_LowValue := hl
  split_ifs at h
  · have hk := Scrollbar.mouseMoved_keepsRange _ t x y (by rw [hm']; exact hmax)
      (by rw [hm', hl']; exact hle)
      (by unfold Scrollbar.InRange; rw [hv', hm', hl']; exact hrange) h
    unfold Scrollbar.KeepsRange at hk ⊢
    rw [hm', hl'] at hk
    exact hk
  · cases h
    unfold Scrollbar.KeepsRange
    rw [hv', hm', hl']
    exact ⟨hrange, rfl, rfl⟩

theorem Scrollbar.decrementValue_keepsRange (s : Scrollbar) (hmax : s.m_Maximum < uintSize)
    (hrange : s.InRange) : Scrollbar.KeepsRange s s.decrementValue := by
  unfold Scrollbar.InRange at hrange
  unfold Scrollbar.decrementValue
  split_ifs with hv
  · refine ⟨?_, rfl, rfl⟩
    show usub s.m_Value 1 ≤ s.m_Maximum - s.m_LowValue
    rw [usub_of_le (by omega) hv]
    omega
  · exact ⟨hrange, rfl, rfl⟩

theorem Scrollbar.incrementValue_keepsRange (s : Scrollbar) (hmax : s.m_Maximum < uintSize)
    (hle : s.m_LowValue ≤ s.m_Maximum) (hrange : s.InRange) :
    Scrollbar.KeepsRange s s.incrementValue := by
  unfold Scrollbar.InRange at hrange
  unfold Scrollbar.incrementValue
  rw [usub_of_le hmax hle]
  split_ifs with hv
  · refine ⟨?_, rfl, rfl⟩
    show uadd s.m_Value 1 ≤ s.m_Maximum - s.m_LowValue
    rw [uadd_one (by omega)]
    omega
  · exact ⟨hrange, rfl, rfl⟩

/-- The result of `leftMouseReleased` on a scrollbar with a value in range has a value in
range. -/
theorem Scrollbar.leftMouseReleased_keepsRange (s : Scrollbar) (x y : ℚ)
    (hmax : s.m_Maximum < uintSize) (hle : s.m_LowValue ≤ s.m_Maximum) (hrange : s.InRange) :
    Scrollbar.KeepsRange s (s.leftMouseReleased x y) := by
  have hs : Scrollbar.KeepsRange s s := ⟨hrange, rfl, rfl⟩
  have hdec := Scrollbar.decrementValue_keepsRange s hmax hrange
  have hinc := Scrollbar.incrementValue_keepsRange s hmax hle hrange
  have hfinal : ∀ t, Scrollbar.KeepsRange s t →
      Scrollbar.KeepsRange s { t with m_MouseDown := false } := fun t ht => ht
  unfold Scrollbar.leftMouseReleased
  simp only []
  apply hfinal
  split_ifs
  all_goals first
    | exact hs
    | exact Scrollbar.addValueCallback_keepsRange s _ _ hdec
    | exact Scrollbar.addValueCallback_keepsRange s _ _ hinc
    | exact Scrollbar.addValueCallback_keepsRange s _ _ hs

/-- The handlers of exact arithmetic keep the value in range: for a loaded scrollbar with
`maximum ≥ lowValue` and `value ≤ maximum - lowValue` and every point, every state that
`leftMousePressed` or `mouseMoved` returns, and the state after `leftMouseReleased`, has the same
maximum and low value and a value with `value ≤ maximum - lowValue`. -/
theorem Scrollbar.exact_handlers_keep_value_in_range (s : Scrollbar) (x y : ℚ)
    (_hloaded : s.m_Loaded = true) (hmax : s.m_Maximum < uintSize)
    (hle : s.m_LowValue ≤ s.m_Maximum) (hrange : s.InRange) :
    (∀ t, s.leftMousePressed x y = some t → Scrollbar.KeepsRange s t) ∧
      (∀ t, s.mouseMoved x y = some t → Scrollbar.KeepsRange s t) ∧
      Scrollbar.KeepsRange s (s.leftMouseReleased x y) ∧
      (¬ (s.m_MouseDown = true ∧ s.m_MouseDownOnArrow = false) →
        ∃ t, s.mouseMoved x y = some t) ∧
      (∀ v : Nat, Scrollbar.KeepsRange s (s.setValue v)) := by
  refine ⟨fun t h => Scrollbar.leftMousePressed_keepsRange s t x y hmax hle hrange h,
    fun t h => Scrollbar.mouseMoved_keepsRange s t x y hmax hle hrange h,
    Scrollbar.leftMouseReleased_keepsRange s x y hmax hle hrange, ?_,
    fun v => Scrollbar.setValue_keepsRange s v hmax hle⟩
  intro hd
  unfold Scrollbar.mouseMoved
  by_cases hl : s.m_Loaded = false
  · rw [if_pos hl]
    exact ⟨_, rfl⟩
  · rw [if_neg hl]
    simp only []
    rw [if_neg hd]
    exact ⟨_, rfl⟩

/-! ## Theorems: scrollbar, the place of the thumb -/

/-- The thumb that `mouseOnObject` computes in the full-size layout, along the scroll
direction. -/
theorem Scrollbar.thumbRegion_full (s : Scrollbar) (hmax : s.m_Maximum < uintSize)
    (harrow : 2 * s.arrowTextureSize.y < uintSize) (hlow : s.m_LowValue < s.m_Maximum)
    (hfull : s.drawnFullSize) :
    s.thumbExtent = s.specThumbLength ∧
      s.thumbStart = (s.layoutArrowLength + s.specThumbOffset) * s.scaleAlongBar := by
  have htw := Scrollbar.twiceArrow_eq s harrow
  have husub := usub_of_le hmax (le_of_lt hlow)
  unfold Scrollbar.drawnFullSize at hfull
  unfold Scrollbar.thumbExtent Scrollbar.thumbStart Scrollbar.scaleAlongBar
    Scrollbar.thumbRegion Scrollbar.specThumbOffset
    Scrollbar.specThumbLength Scrollbar.specTrackLength Scrollbar.layoutArrowLength
  by_cases hv : s.m_VerticalScroll = true
  · simp only [hv, if_true] at hfull ⊢
    rw [if_pos hfull, husub, htw]
    refine ⟨by ring, by ring⟩
  · simp only [hv, Bool.false_eq_true, if_false] at hfull ⊢
    rw [if_pos hfull, husub, htw]
    refine ⟨by ring, by ring⟩

/-- The track of the full-size layout has a positive length. -/
theorem Scrollbar.specTrackLength_pos (s : Scrollbar)
    (harrow : 2 * s.arrowTextureSize.y < uintSize) (hfull : s.drawnFullSize) :
    0 < s.specTrackLength := by
  have htw := Scrollbar.twiceArrow_eq s harrow
  unfold Scrollbar.drawnFullSize at hfull
  unfold Scrollbar.specTrackLength Scrollbar.layoutArrowLength
  by_cases hv : s.m_VerticalScroll = true
  · simp only [hv, if_true] at hfull ⊢
    rw [htw] at hfull
    linarith
  · simp only [hv, Bool.false_eq_true, if_false] at hfull ⊢
    rw [htw] at hfull
    linarith

/-- C25 (amended): in exact arithmetic (the float operations of `mouseOnObject` without
rounding), in the full-size layout, with `maximum > lowValue` and
`value ≤ maximum - lowValue`, the thumb region of `mouseOnObject` has the length `thumbLength = (lowValue / maximum) * T` and
starts `thumbOffset` after the end of the first arrow (both times the scale of the widget on the
screen), with `0 ≤ thumbOffset` and `thumbOffset + thumbLength ≤ T`, `T > 0` the track
length. -/
theorem Scrollbar.thumb_stays_between_arrows (s : Scrollbar) (hmax : s.m_Maximum < uintSize)
    (harrow : 2 * s.arrowTextureSize.y < uintSize) (hlow : s.m_LowValue < s.m_Maximum)
    (hrange : s.InRange) (hfull : s.drawnFullSize) :
    s.thumbExtent = s.specThumbLength ∧
      s.thumbStart = (s.layoutArrowLength + s.specThumbOffset) * s.scaleAlongBar ∧
      0 < s.specTrackLength ∧ 0 ≤ s.specThumbLength ∧ 0 ≤ s.specThumbOffset ∧
      s.specThumbOffset + s.specThumbLength ≤ s.specTrackLength := by
  have hT := Scrollbar.specTrackLength_pos s harrow hfull
  obtain ⟨hext, hstart⟩ := Scrollbar.thumbRegion_full s hmax harrow hlow hfull
  unfold Scrollbar.InRange at hrange
  have hmaxq : (0 : ℚ) < (s.m_Maximum : ℚ) := by
    have : 0 < s.m_Maximum := by omega
    exact_mod_cast this
  have hlowq : (0 : ℚ) ≤ (s.m_LowValue : ℚ) := Nat.cast_nonneg _
  have hlowmax : (s.m_LowValue : ℚ) ≤ (s.m_Maximum : ℚ) := by exact_mod_cast le_of_lt hlow
  have hdq : (0 : ℚ) < ((s.m_Maximum - s.m_LowValue : Nat) : ℚ) := by
    have : 0 < s.m_Maximum - s.m_LowValue := by omega
    exact_mod_cast this
  have hvalq : (0 : ℚ) ≤ (s.m_Value : ℚ) := Nat.cast_nonneg _
  have hvald : (s.m_Value : ℚ) ≤ ((s.m_Maximum - s.m_LowValue : Nat) : ℚ) := by
    exact_mod_cast hrange
  have hfrac0 : (0 : ℚ) ≤ (s.m_LowValue : ℚ) / (s.m_Maximum : ℚ) := div_nonneg hlowq hmaxq.le
  have hfrac1 : (s.m_LowValue : ℚ) / (s.m_Maximum : ℚ) ≤ 1 := (div_le_one hmaxq).mpr hlowmax
  have hpos0 : (0 : ℚ) ≤ (s.m_Value : ℚ) / ((s.m_Maximum - s.m_LowValue : Nat) : ℚ) :=
    div_nonneg hvalq hdq.le
  have hpos1 : (s.m_Value : ℚ) / ((s.m_Maximum - s.m_LowValue : Nat) : ℚ) ≤ 1 :=
    (div_le_one hdq).mpr hvald
  have hlen0 : 0 ≤ s.specThumbLength := by
    unfold Scrollbar.specThumbLength
    exact mul_nonneg hfrac0 hT.le
  have hlenT : s.specThumbLength ≤ s.specTrackLength := by
    unfold Scrollbar.specThumbLength
    exact mul_le_of_le_one_left hT.le hfrac1
  have hoff0 : 0 ≤ s.specThumbOffset := by
    unfold Scrollbar.specThumbOffset
    exact mul_nonneg hpos0 (by linarith)
  have hoffT : s.specThumbOffset ≤ s.specTrackLength - s.specThumbLength := by
    unfold Scrollbar.specThumbOffset
    exact mul_le_of_le_one_left (by linarith) hpos1
  exact ⟨hext, hstart, hT, hlen0, hoff0, by linarith⟩

theorem Scrollbar.thumb_stays_between_arrows_witness :
    shrunkScrollbar.m_Maximum < uintSize ∧ 2 * shrunkScrollbar.arrowTextureSize.y < uintSize ∧
      shrunkScrollbar.m_LowValue < shrunkScrollbar.m_Maximum ∧ shrunkScrollbar.InRange ∧
      shrunkScrollbar.drawnFullSize ∧
      shrunkScrollbar.thumbExtent = shrunkScrollbar.specThumbLength ∧
      shrunkScrollbar.thumbStart
        = (shrunkScrollbar.layoutArrowLength + shrunkScrollbar.specThumbOffset)
          * shrunkScrollbar.scaleAlongBar ∧
      0 < shrunkScrollbar.specTrackLength ∧ 0 ≤ shrunkScrollbar.specThumbLength ∧
      0 ≤ shrunkScrollbar.specThumbOffset ∧
      shrunkScrollbar.specThumbOffset + shrunkScrollbar.specThumbLength
        ≤ shrunkScrollbar.specTrackLength :=
  have hfull : shrunkScrollbar.drawnFullSize := by
    norm_num [Scrollbar.drawnFullSize, shrunkScrollbar, tallScrollbar, Scrollbar.twiceArrow,
      Scrollbar.scalingX, uintSize]
  ⟨by decide, by decide, by decide, by unfold Scrollbar.InRange; decide, hfull,
    Scrollbar.thumb_stays_between_arrows shrunkScrollbar (by decide) (by decide) (by decide)
      (by unfold Scrollbar.InRange; decide) hfull⟩

/-- In the full-size layout `draw` draws the thumb with the transform of the widget followed by
the factors `drawThumbOps`. -/
theorem Scrollbar.draw_thumb_call (s : Scrollbar) (objectPhaseHover : Nat)
    (states : List Scrollbar.TransformOp) (hloaded : s.m_Loaded = true)
    (hlow : s.m_LowValue < s.m_Maximum) (hfull : s.drawnFullSize) :
    Scrollbar.DrawCall.mk Scrollbar.Sprite.thumbNormal
        (states ++ [Scrollbar.TransformOp.object s.position s.scale] ++ s.drawThumbOps)
      ∈ s.draw objectPhaseHover states := by
  have hl : ¬ s.m_Loaded = false := by rw [hloaded]; decide
  have hshow : ¬ (s.autoHide = true ∧ s.m_Maximum ≤ s.m_LowValue) := fun h =>
    absurd h.2 (not_le.mpr hlow)
  unfold Scrollbar.drawnFullSize at hfull
  unfold Scrollbar.draw
  rw [if_neg hl, if_neg hshow]
  cases hvs : s.m_VerticalScroll <;> cases hvi : s.m_VerticalImage <;>
    simp only [hvs, hvi, Scrollbar.drawThumbOps, Scrollbar.drawScaling, Scrollbar.realTrack,
      Scrollbar.scalingX, Scrollbar.scalingY, if_true, if_false, Bool.false_eq_true,
      Bool.true_eq_false] at hfull ⊢ <;>
    rw [if_pos hfull] <;>
    simp only [List.mem_append, List.mem_singleton, List.mem_cons, List.append_assoc,
      List.singleton_append, List.cons_append, List.nil_append, true_or, or_true]

/-- The factors of the thumb map the origin of the thumb sprite to a point that lies, along the
scroll direction, at the scaled translation of `draw`. -/
theorem Scrollbar.transformPoint_drawThumbOps (s : Scrollbar) :
    ∃ p, Scrollbar.transformPoint s.drawThumbOps ⟨0, 0⟩ = some p ∧
      s.alongBar p
        = s.drawScaling * Scrollbar.drawThumbTranslation s s.realTrack s.drawScaling := by
  cases hvs : s.m_VerticalScroll <;> cases hvi : s.m_VerticalImage <;>
    norm_num [Scrollbar.transformPoint, Scrollbar.TransformOp.apply, Scrollbar.drawThumbOps,
      Scrollbar.alongBar, hvs, hvi]

/-- C24: for a loaded scrollbar in the full-size layout with `maximum > lowValue`, unit scale
and a nonzero scaling of the bar, the thumb offset of `mouseOnObject` is
`arrowLength + (value / (maximum - lowValue)) * (T - (lowValue / maximum) * T)`; `draw` draws
the thumb sprite with factors that map its origin to a point at `arrowLength + value * (T /
maximum)` along the scroll direction; and the two offsets are equal (`T` the track length,
exact arithmetic). -/
theorem Scrollbar.hit_test_and_draw_place_thumb_alike (s : Scrollbar) (objectPhaseHover : Nat)
    (states : List Scrollbar.TransformOp) (hloaded : s.m_Loaded = true)
    (hmax : s.m_Maximum < uintSize) (harrow : 2 * s.arrowTextureSize.y < uintSize)
    (hlow : s.m_LowValue < s.m_Maximum) (hfull : s.drawnFullSize)
    (hunit : s.scale = ⟨1, 1⟩) (hscaling : s.drawScaling ≠ 0) :
    s.thumbStart = s.layoutArrowLength
        + (s.m_Value : ℚ) / ((s.m_Maximum - s.m_LowValue : Nat) : ℚ)
          * (s.specTrackLength - (s.m_LowValue : ℚ) / (s.m_Maximum : ℚ) * s.specTrackLength) ∧
      ∃ p, Scrollbar.DrawCall.mk Scrollbar.Sprite.thumbNormal
            (states ++ [Scrollbar.TransformOp.object s.position s.scale] ++ s.drawThumbOps)
          ∈ s.draw objectPhaseHover states ∧
        Scrollbar.transformPoint s.drawThumbOps ⟨0, 0⟩ = some p ∧
        s.alongBar p
          = s.layoutArrowLength + (s.m_Value : ℚ) * (s.specTrackLength / (s.m_Maximum : ℚ)) ∧
        s.alongBar p = s.thumbStart := by
  have htw := Scrollbar.twiceArrow_eq s harrow
  have hone : s.scaleAlongBar = 1 := by
    unfold Scrollbar.scaleAlongBar
    rw [hunit]
    split_ifs <;> rfl
  have hstart : s.thumbStart = s.layoutArrowLength
      + (s.m_Value : ℚ) / ((s.m_Maximum - s.m_LowValue : Nat) : ℚ)
        * (s.specTrackLength - (s.m_LowValue : ℚ) / (s.m_Maximum : ℚ) * s.specTrackLength) := by
    rw [(Scrollbar.thumbRegion_full s hmax harrow hlow hfull).2, hone, mul_one]
    rfl
  have hreal : s.realTrack = s.specTrackLength := by
    unfold Scrollbar.realTrack Scrollbar.specTrackLength Scrollbar.layoutArrowLength
      Scrollbar.drawScaling
    rw [htw]
    ring
  have harrowLen : s.layoutArrowLength = (s.arrowTextureSize.y : ℚ) * s.drawScaling := rfl
  have hmaxq : (s.m_Maximum : ℚ) ≠ 0 := by
    have : 0 < s.m_Maximum := by omega
    exact_mod_cast this.ne'
  have hdq : ((s.m_Maximum - s.m_LowValue : Nat) : ℚ) ≠ 0 := by
    have : 0 < s.m_Maximum - s.m_LowValue := by omega
    exact_mod_cast this.ne'
  have hcast : ((s.m_Maximum - s.m_LowValue : Nat) : ℚ)
      = (s.m_Maximum : ℚ) - (s.m_LowValue : ℚ) := by
    rw [Nat.cast_sub (le_of_lt hlow)]
  obtain ⟨p, hp, hpalong⟩ := Scrollbar.transformPoint_drawThumbOps s
  have hdraw : s.alongBar p
      = s.layoutArrowLength + (s.m_Value : ℚ) * (s.specTrackLength / (s.m_Maximum : ℚ)) := by
    rw [hpalong, harrowLen, hreal]
    unfold Scrollbar.drawThumbTranslation
    field_simp
    ring
  refine ⟨hstart, p, Scrollbar.draw_thumb_call s objectPhaseHover states hloaded hlow hfull, hp,
    hdraw, ?_⟩
  rw [hdraw, hstart]
  rw [hcast] at hdq ⊢
  field_simp
  ring

theorem Scrollbar.hit_test_and_draw_place_thumb_alike_witness :
    pressedScrollbar.drawnFullSize ∧ pressedScrollbar.drawScaling ≠ 0 ∧
      pressedScrollbar.thumbStart = pressedScrollbar.layoutArrowLength
        + (pressedScrollbar.m_Value : ℚ)
          / ((pressedScrollbar.m_Maximum - pressedScrollbar.m_LowValue : Nat) : ℚ)
          * (pressedScrollbar.specTrackLength
            - (pressedScrollbar.m_LowValue : ℚ) / (pressedScrollbar.m_Maximum : ℚ)
              * pressedScrollbar.specTrackLength) ∧
      ∃ p, Scrollbar.DrawCall.mk Scrollbar.Sprite.thumbNormal
            ([] ++ [Scrollbar.TransformOp.object pressedScrollbar.position
              pressedScrollbar.scale] ++ pressedScrollbar.drawThumbOps)
          ∈ pressedScrollbar.draw 2 [] ∧
        Scrollbar.transformPoint pressedScrollbar.drawThumbOps ⟨0, 0⟩ = some p ∧
        pressedScrollbar.alongBar p
          = pressedScrollbar.layoutArrowLength
            + (pressedScrollbar.m_Value : ℚ)
              * (pressedScrollbar.specTrackLength / (pressedScrollbar.m_Maximum : ℚ)) ∧
        pressedScrollbar.alongBar p = pressedScrollbar.thumbStart :=
  have hfull : pressedScrollbar.drawnFullSize := by
    norm_num [Scrollbar.drawnFullSize, pressedScrollbar, shrunkScrollbar, tallScrollbar,
      Scrollbar.twiceArrow, Scrollbar.scalingX, uintSize]
  have hscaling : pressedScrollbar.drawScaling ≠ 0 := by
    norm_num [Scrollbar.drawScaling, pressedScrollbar, shrunkScrollbar, tallScrollbar,
      Scrollbar.scalingX]
  ⟨hfull, hscaling,
    Scrollbar.hit_test_and_draw_place_thumb_alike pressedScrollbar 2 [] rfl (by decide)
      (by decide) (by decide) hfull rfl hscaling⟩

/-- The thumb of `wideScrollbar` (horizontal, drawn from a vertical image, value 3, maximum 10,
low value 2, arrows 20 long, track 10 long): `mouseOnObject` starts the thumb at 23, and the
factors of `draw` map the origin of the thumb sprite to (23, 10). -/
theorem Scrollbar.wideScrollbar_thumb :
    wideScrollbar.thumbStart = 23 ∧
      Scrollbar.transformPoint wideScrollbar.drawThumbOps ⟨0, 0⟩ = some ⟨23, 10⟩ := by
  constructor
  · norm_num [Scrollbar.thumbStart, Scrollbar.thumbRegion, wideScrollbar, pressedScrollbar,
      shrunkScrollbar, tallScrollbar, Scrollbar.twiceArrow, Scrollbar.scalingY, uintSize, usub]
  · norm_num [Scrollbar.transformPoint, Scrollbar.TransformOp.apply, Scrollbar.drawThumbOps,
      Scrollbar.drawThumbTranslation, Scrollbar.realTrack, Scrollbar.drawScaling,
      wideScrollbar, pressedScrollbar, shrunkScrollbar, tallScrollbar, Scrollbar.twiceArrow,
      Scrollbar.scalingY, uintSize]

/-! ## Theorems: the form, termination of `onDrag` and the title -/

/-- The result of `onDrag` for a selected widget: it exists for every sufficient fuel, keeps
filename, selection and container, and either keeps title and dirty flag or sets the flag and
the title `*` + filename. -/
theorem Form.onDrag_meta (s : FormState) (w : WidgetPtr) (mousePos : Vector2i)
    (hsel : s.m_selectedWidget = some w) :
    ∃ s', (∃ N, ∀ fuel, N ≤ fuel → Form.onDrag fuel s mousePos = .ok s') ∧
      s'.m_filename = s.m_filename ∧ s'.m_selectedWidget = s.m_selectedWidget ∧
      s'.container = s.container ∧
      ((s'.title = s.title ∧ s'.m_changed = s.m_changed) ∨
        (s'.m_changed = true ∧ s'.title = "*" ++ s.m_filename)) := by
  obtain ⟨P, S, A, u, ⟨N, hN⟩, -⟩ :=
    Form.onDragLoops_spec s w (Form.dragPointer s mousePos) hsel
  cases u with
  | false =>
    refine ⟨(Form.moved w P S A false ⟨s, false⟩).form, ⟨N, fun fuel hfuel => ?_⟩, rfl, rfl, rfl,
      Or.inl ⟨rfl, rfl⟩⟩
    unfold Form.onDrag
    rw [hN fuel hfuel]
    simp only [Except.bind]
    exact Form.afterDrag_idle _ rfl
  | true =>
    have hselF : (Form.moved w P S A true ⟨s, false⟩).form.m_selectedWidget = some w := hsel
    refine ⟨{ Form.placeSelectionSquares
          (Form.setChanged (Form.moved w P S A true ⟨s, false⟩).form true) w with
        reloadPropertiesCalls := s.reloadPropertiesCalls + 1 },
      ⟨N, fun fuel hfuel => ?_⟩, rfl, rfl, rfl, Or.inr ⟨rfl, rfl⟩⟩
    unfold Form.onDrag
    rw [hN fuel hfuel]
    simp only [Except.bind]
    exact Form.afterDrag_updated _ w hselF rfl

/-- C26: with a widget of non-zero width selected, for every pointer position, drag anchor and
grabbed handle all loops of `onDrag` end: there is a number of iterations that is enough for
every loop, and with that much fuel or more `onDrag` returns a form. Every iteration advances
the drag anchor by the step of its loop, which is 10 on both axes of the move and edge loops and
has a component equal to 10 in the corner loops (exact arithmetic). -/
theorem Form.onDrag_terminates (s : FormState) (w : WidgetPtr) (mousePos : Vector2i)
    (hsel : s.m_selectedWidget = some w) (_hwidth : (s.heap w).size.x ≠ 0) :
    (∃ N f, ∀ fuel, N ≤ fuel →
        Form.onDragLoops fuel (Form.dragPointer s mousePos) s = .ok f) ∧
      (∃ N s', ∀ fuel, N ≤ fuel → Form.onDrag fuel s mousePos = .ok s') ∧
      Form.step = 10 ∧
      ((Form.cornerChange (s.heap w).size).x = 10 ∨
        (Form.cornerChange (s.heap w).size).y = 10) ∧
      0 < (Form.cornerChange (s.heap w).size).x ∧
      ∀ (dp ds da : Vector2f) (f : Form.DragFrame), f.form.m_selectedWidget = some w →
        ∃ f', Form.dragStep dp ds da f = .ok f' ∧
          f'.form.m_draggingPos
            = ⟨f.form.m_draggingPos.x + da.x, f.form.m_draggingPos.y + da.y⟩ := by
  obtain ⟨P, S, A, u, ⟨N, hN⟩, -⟩ :=
    Form.onDragLoops_spec s w (Form.dragPointer s mousePos) hsel
  obtain ⟨s', ⟨M, hM⟩, -⟩ := Form.onDrag_meta s w mousePos hsel
  refine ⟨⟨N, _, hN⟩, ⟨M, s', hM⟩, rfl, Form.cornerChange_has_step _,
    Form.cornerChange_x_pos _, ?_⟩
  intro dp ds da f hf
  refine ⟨Form.movedBy w dp ds da 1 f, Form.dragStep_eq w dp ds da f hf, ?_⟩
  simp [Form.movedBy, Form.moved, Form.scaled]

theorem Form.onDrag_terminates_witness :
    movingForm.m_selectedWidget = some 1 ∧ (movingForm.heap 1).size.x ≠ 0 ∧
      (∃ N s', ∀ fuel, N ≤ fuel → Form.onDrag fuel movingForm ⟨47, -25⟩ = .ok s') :=
  ⟨rfl, by norm_num [movingForm, twoWidgetForm],
    (Form.onDrag_terminates movingForm 1 ⟨47, -25⟩ rfl
      (by norm_num [movingForm, twoWidgetForm])).2.1⟩

/-- The titles of `twoWidgetForm` (file `form.txt`, not changed) after the operations:
`setChanged(true)` and `removeWidget` give `*form.txt`, `save` gives `form.txt`, and
`setFilename("other.txt")` gives `other.txt`. -/
theorem Form.twoWidgetForm_titles :
    (Form.setChanged twoWidgetForm true).title = "*form.txt" ∧
      (Form.removeWidget twoWidgetForm "2").title = "*form.txt" ∧
      (Form.save (Form.setChanged twoWidgetForm true)).title = "form.txt" ∧
      (Form.setFilename twoWidgetForm "other.txt").title = "other.txt" ∧
      (Form.setFilename (Form.setChanged twoWidgetForm true) "other.txt").title
        = "*other.txt" := by
  decide

/-- C28 (the code at the failing input): in `twoWidgetForm` widget 1 is selected, is a child of
the container and is registered under the id `1`; after `removeWidget("1")` the widget is no
longer in the container, yet `getSelectedWidget()` still returns it and the selection squares
are still shown. -/
theorem Form.removeWidget_keeps_selection :
    Form.getSelectedWidget twoWidgetForm = some 1 ∧
      1 ∈ twoWidgetForm.container.getWidgets ∧
      Form.widgetAt twoWidgetForm.m_widgets "1" = some 1 ∧
      Form.getSelectedWidget (Form.removeWidget twoWidgetForm "1") = some 1 ∧
      1 ∉ (Form.removeWidget twoWidgetForm "1").container.getWidgets ∧
      (Form.removeWidget twoWidgetForm "1").container.getWidgets = [2] ∧
      ∀ i, ((Form.removeWidget twoWidgetForm "1").m_selectionSquares i).visible = true := by
  refine ⟨rfl, by decide, by decide, by decide, by decide, by decide, fun i => rfl⟩

/-! ## Theorems: the form, selection squares and default names -/

theorem Form.selectWidget_handles (s : FormState) (widget : Option WidgetPtr)
    (h : Form.HandlesMatchSelection s) :
    Form.HandlesMatchSelection (Form.selectWidget s widget) := by
  unfold Form.selectWidget
  by_cases hne : s.m_selectedWidget ≠ widget
  · simp only [if_pos hne]
    cases widget with
    | none => exact ⟨fun hsel => absurd rfl hsel, fun _ _ => rfl⟩
    | some w => exact ⟨fun _ _ => rfl, fun hsel => Option.noConfusion hsel⟩
  · simp only [if_neg hne]
    exact h

/-- Selecting the selected widget again changes neither the selection nor the squares. -/
theorem Form.selectWidget_again (s : FormState) :
    (Form.selectWidget s s.m_selectedWidget).m_selectedWidget = s.m_selectedWidget ∧
      (Form.selectWidget s s.m_selectedWidget).m_selectionSquares = s.m_selectionSquares := by
  unfold Form.selectWidget
  rw [if_neg (fun h => h rfl)]
  exact ⟨rfl, rfl⟩

theorem Form.SelectOp.apply_handles (env : Form.FormEnv) (s : FormState) (op : Form.SelectOp)
    (h : Form.HandlesMatchSelection s) :
    Form.HandlesMatchSelection (Form.SelectOp.apply env s op) := by
  cases op with
  | selectWidget widget => exact Form.selectWidget_handles s widget h
  | selectWidgetById id =>
    exact Form.selectWidget_handles { s with m_widgets := Form.indexWidgets s.m_widgets id }
      (Form.widgetAt s.m_widgets id) h
  | onFormMousePress pos =>
    show Form.HandlesMatchSelection (Form.onFormMousePress s pos)
    unfold Form.onFormMousePress
    cases s.container.getWidgets.reverse.find?
        (fun w => (Form.widgetRect (s.heap w)).contains pos) with
    | none => exact Form.selectWidget_handles s none h
    | some w => exact Form.selectWidget_handles s (some w) h
  | addWidget widget =>
    show Form.HandlesMatchSelection (Form.addWidget env s widget).1
    unfold Form.addWidget
    simp only []
    have hsel := Form.selectWidget_handles
      { s with
        m_widgets := Form.assignWidget s.m_widgets (env.ptrToString widget) (some widget)
        m_idCounter := uadd s.m_idCounter 1
        container := s.container.add widget ("Widget" ++ toString (uadd s.m_idCounter 1)) }
      (some widget) h
    exact hsel

/-- C30: starting from a constructed form with no selection (the constructor hides all eight
selection squares), after every sequence of `selectWidget`, `selectWidgetById`,
`onFormMousePress` and `addWidget` calls all eight squares are shown if a widget is selected and
all eight are hidden if none is; `selectWidget` with the widget that is selected already changes
neither the selection nor the squares. -/
theorem Form.handles_match_selection (env : Form.FormEnv) (initial : FormState)
    (filename : String) (squareSize : Vector2f) (hnone : initial.m_selectedWidget = none)
    (ops : List Form.SelectOp) :
    Form.HandlesMatchSelection
        (ops.foldl (Form.SelectOp.apply env) (Form.create initial filename squareSize)) ∧
      ∀ s : FormState,
        (Form.selectWidget s s.m_selectedWidget).m_selectedWidget = s.m_selectedWidget ∧
        (Form.selectWidget s s.m_selectedWidget).m_selectionSquares = s.m_selectionSquares := by
  refine ⟨?_, Form.selectWidget_again⟩
  have hstart : Form.HandlesMatchSelection (Form.create initial filename squareSize) :=
    ⟨fun hsel => absurd hnone hsel, fun _ _ => rfl⟩
  generalize Form.create initial filename squareSize = s at hstart
  induction ops generalizing s with
  | nil => exact hstart
  | cons op rest ih =>
    rw [List.foldl_cons]
    exact ih _ (Form.SelectOp.apply_handles env s op hstart)

theorem Form.handles_match_selection_witness :
    Form.HandlesMatchSelection
      ([Form.SelectOp.addWidget 1, Form.SelectOp.onFormMousePress ⟨500, 500⟩,
          Form.SelectOp.selectWidgetById "1"].foldl
        (Form.SelectOp.apply testFormEnv)
        (Form.create { twoWidgetForm with m_selectedWidget := none } "form.txt" ⟨6, 6⟩)) :=
  (Form.handles_match_selection testFormEnv { twoWidgetForm with m_selectedWidget := none }
    "form.txt" ⟨6, 6⟩ rfl _).1

/-- On `blankForm`: `addWidget` of widget 1 selects it and shows the squares; a press on the
form away from every widget clears the selection and hides them; `selectWidgetById("1")`
selects widget 1 again and shows them. -/
theorem Form.blankForm_handles :
    blankForm.m_selectedWidget = none ∧ (∀ i, (blankForm.m_selectionSquares i).visible = false) ∧
      (Form.addWidget testFormEnv blankForm 1).1.m_selectedWidget = some 1 ∧
      (∀ i, ((Form.addWidget testFormEnv blankForm 1).1.m_selectionSquares i).visible = true) ∧
      (Form.selectWidgetById (Form.addWidget testFormEnv blankForm 1).1 "form").m_selectedWidget
        = none ∧
      (∀ i, ((Form.selectWidgetById (Form.addWidget testFormEnv blankForm 1).1
        "form").m_selectionSquares i).visible = false) ∧
      (Form.selectWidgetById (Form.selectWidgetById (Form.addWidget testFormEnv blankForm 1).1
        "form") "1").m_selectedWidget = some 1 := by
  refine ⟨rfl, fun i => rfl, by decide, fun i => rfl, by decide, fun i => rfl, by decide⟩

theorem Form.intToUnsigned_lt (z : Int) : Form.intToUnsigned z < uintSize := by
  unfold Form.intToUnsigned
  have hpos : (0 : Int) < (uintSize : Int) := by
    unfold uintSize
    norm_num
  have h1 := Int.emod_nonneg z hpos.ne'
  have h2 := Int.emod_lt_of_pos z hpos
  omega

/-- One pass of the loop of `load`: the counter does not fall, it is at least the number read
from a default name, it stays an `unsigned int`, and the container is not touched. -/
theorem Form.loadStep_counter (env : Form.FormEnv) (s : FormState) (entry : WidgetPtr × String) :
    s.m_idCounter ≤ (Form.loadStep env s entry).m_idCounter ∧
      (Form.isDefaultName entry.2 = true →
        Form.intToUnsigned (env.stoi (entry.2.drop 6))
          ≤ (Form.loadStep env s entry).m_idCounter) ∧
      (s.m_idCounter < uintSize → (Form.loadStep env s entry).m_idCounter < uintSize) ∧
      (Form.loadStep env s entry).container = s.container := by
  have hlt := Form.intToUnsigned_lt (env.stoi (entry.2.drop 6))
  unfold Form.loadStep Form.isDefaultName
  simp only []
  by_cases h1 : entry.2.length ≥ 7 ∧ entry.2.take 6 = "Widget"
  · rw [if_pos h1]
    by_cases h2 : (entry.2.drop 6).toList.all Char.isDigit = true
    · rw [if_pos h2]
      refine ⟨Nat.le_max_left _ _, fun _ => Nat.le_max_right _ _, fun hs => ?_, rfl⟩
      exact max_lt hs hlt
    · rw [if_neg h2]
      refine ⟨le_refl _, fun hd => ?_, fun hs => hs, rfl⟩
      simp only [Bool.and_eq_true] at hd
      exact absurd hd.2 h2
  · rw [if_neg h1]
    refine ⟨le_refl _, fun hd => ?_, fun hs => hs, rfl⟩
    simp only [Bool.and_eq_true, decide_eq_true_eq] at hd
    exact absurd ⟨hd.1.1, hd.1.2⟩ h1

theorem Form.foldl_loadStep_counter (env : Form.FormEnv) (entries : List (WidgetPtr × String))
    (s : FormState) :
    s.m_idCounter ≤ (entries.foldl (Form.loadStep env) s).m_idCounter ∧
      (∀ entry ∈ entries, Form.isDefaultName entry.2 = true →
        Form.intToUnsigned (env.stoi (entry.2.drop 6))
          ≤ (entries.foldl (Form.loadStep env) s).m_idCounter) ∧
      (s.m_idCounter < uintSize →
        (entries.foldl (Form.loadStep env) s).m_idCounter < uintSize) ∧
      (entries.foldl (Form.loadStep env) s).container = s.container := by
  induction entries generalizing s with
  | nil => exact ⟨le_refl _, fun _ h => absurd h (List.not_mem_nil _), fun hs => hs, rfl⟩
  | cons entry rest ih =>
    obtain ⟨h1, h2, h3, h4⟩ := Form.loadStep_counter env s entry
    obtain ⟨r1, r2, r3, r4⟩ := ih (Form.loadStep env s entry)
    rw [List.foldl_cons]
    refine ⟨le_trans h1 r1, ?_, fun hs => r3 (h3 hs), r4.trans h4⟩
    intro e he hd
    rcases List.mem_cons.mp he with heq | hmem
    · rw [heq] at hd ⊢
      exact le_trans (h2 hd) r1
    · exact r2 e hmem hd

/-- The counter and the name after `addWidget`. -/
theorem Form.addWidget_counter (env : Form.FormEnv) (s : FormState) (widget : WidgetPtr) :
    (Form.addWidget env s widget).1.m_idCounter = uadd s.m_idCounter 1 ∧
      (Form.addWidget env s widget).2 = "Widget" ++ toString (uadd s.m_idCounter 1) := by
  have hselect : ∀ (t : FormState) (w : Option WidgetPtr),
      (Form.selectWidget t w).m_idCounter = t.m_idCounter := by
    intro t w
    unfold Form.selectWidget
    by_cases hne : t.m_selectedWidget ≠ w
    · simp only [if_pos hne]
      cases w <;> rfl
    · simp only [if_neg hne]
  have hchanged : ∀ t : FormState, (Form.setChanged t true).m_idCounter = t.m_idCounter :=
    fun _ => rfl
  refine ⟨?_, rfl⟩
  show (Form.setChanged (Form.selectWidget _ (some widget)) true).m_idCounter = _
  rw [hchanged, hselect]

/-- Successive `addWidget` calls below the limit of the counter return the names with the
numbers that follow the counter. -/
theorem Form.addWidgets_names (env : Form.FormEnv) (widgets : List WidgetPtr) (s : FormState)
    (hroom : s.m_idCounter + widgets.length < uintSize) :
    (Form.addWidgets env s widgets).2
        = (List.range widgets.length).map
            (fun i => "Widget" ++ toString (s.m_idCounter + 1 + i)) ∧
      (Form.addWidgets env s widgets).1.m_idCounter = s.m_idCounter + widgets.length := by
  induction widgets generalizing s with
  | nil => exact ⟨rfl, rfl⟩
  | cons widget rest ih =>
    obtain ⟨hc, hn⟩ := Form.addWidget_counter env s widget
    have hlen : (widget :: rest).length = rest.length + 1 := rfl
    rw [hlen] at hroom ⊢
    have hadd : uadd s.m_idCounter 1 = s.m_idCounter + 1 := uadd_one (by omega)
    rw [hadd] at hc hn
    obtain ⟨ih1, ih2⟩ := ih (Form.addWidget env s widget).1 (by rw [hc]; omega)
    unfold Form.addWidgets
    constructor
    · show (Form.addWidget env s widget).2 :: (Form.addWidgets env _ rest).2 = _
      rw [ih1, hn, hc, List.range_succ_eq_map, List.map_cons, List.map_map]
      congr 1
      apply List.map_congr_left
      intro i _
      show "Widget" ++ toString (s.m_idCounter + 1 + 1 + i)
        = "Widget" ++ toString (s.m_idCounter + 1 + (i + 1))
      rw [show s.m_idCounter + 1 + 1 + i = s.m_idCounter + 1 + (i + 1) by omega]
    · show (Form.addWidgets env _ rest).1.m_idCounter = _
      rw [ih2, hc]
      omega

/-- C29 (the claim fails): `Widget4294967295` is a default name whose digits denote a number
that fits an `unsigned int`; whatever `tgui::stoi` returns for it, after `load` of a file that
holds a widget with this name it is not the case that the id counter is at least 4294967295 and
that the next `addWidget` returns a name with a larger number: the counter is an
`unsigned int`, and the number after 4294967295 is 0. -/
theorem Form.default_name_at_counter_limit :
    Form.isDefaultName "Widget4294967295" = true ∧
      ¬ ∃ stoi : String → Int,
        4294967295 ≤ (Form.load (limitFormEnv stoi) blankForm).m_idCounter ∧
        4294967295 < (Form.addWidget (limitFormEnv stoi)
          (Form.load (limitFormEnv stoi) blankForm) 2).1.m_idCounter := by
  refine ⟨by decide, ?_⟩
  rintro ⟨stoi, h1, h2⟩
  have hlt : (Form.load (limitFormEnv stoi) blankForm).m_idCounter < uintSize := by
    unfold Form.load
    exact (Form.foldl_loadStep_counter _ _ _).2.2.1 (show (0 : Nat) < uintSize by decide)
  rw [(Form.addWidget_counter _ _ _).1] at h2
  unfold uadd at h2
  unfold uintSize at hlt h2
  omega

/-- C29 (amended): after `load`, for every loaded widget with a default name (`Widget` and one
or more digits) the id counter is at least the number that `tgui::stoi` returns for the digits,
converted to `unsigned int`, and it is not below its value from before; `addWidget` returns the
name `Widget<n>` with `n` the counter plus 1 modulo 2^32; so successive `addWidget` calls that
stay below the limit 2^32 of the counter return names with the numbers counter + 1,
counter + 2, ..., which increase strictly and are above the number of every loaded default
name. -/
theorem Form.load_keeps_default_names_apart (env : Form.FormEnv) (s : FormState) :
    (∀ entry ∈ (Form.load env s).container.entries, Form.isDefaultName entry.2 = true →
        Form.intToUnsigned (env.stoi (entry.2.drop 6)) ≤ (Form.load env s).m_idCounter) ∧
      s.m_idCounter ≤ (Form.load env s).m_idCounter ∧
      (∀ (t : FormState) (widget : WidgetPtr),
        (Form.addWidget env t widget).2 = "Widget" ++ toString (uadd t.m_idCounter 1) ∧
        (Form.addWidget env t widget).1.m_idCounter = uadd t.m_idCounter 1) ∧
      (∀ widgets : List WidgetPtr,
        (Form.load env s).m_idCounter + widgets.length < uintSize →
        (Form.addWidgets env (Form.load env s) widgets).2
          = (List.range widgets.length).map
              (fun i => "Widget" ++ toString ((Form.load env s).m_idCounter + 1 + i))) := by
  have hfold := Form.foldl_loadStep_counter env
    (env.loadWidgetsFromFile (Form.getFilename s) s.container).entries
    { s with container := env.loadWidgetsFromFile (Form.getFilename s) s.container }
  have hload : Form.load env s
      = (env.loadWidgetsFromFile (Form.getFilename s) s.container).entries.foldl
          (Form.loadStep env)
          { s with container := env.loadWidgetsFromFile (Form.getFilename s) s.container } :=
    rfl
  refine ⟨?_, ?_, ?_, ?_⟩
  · intro entry hentry hd
    rw [hload] at hentry ⊢
    rw [hfold.2.2.2] at hentry
    exact hfold.2.1 entry hentry hd
  · rw [hload]
    exact hfold.1
  · intro t widget
    exact ⟨(Form.addWidget_counter env t widget).2, (Form.addWidget_counter env t widget).1⟩
  · intro widgets hroom
    exact (Form.addWidgets_names env widgets _ hroom).1

theorem Form.load_keeps_default_names_apart_witness :
    ((1, "Widget12") ∈ (Form.load testFormEnv blankForm).container.entries) ∧
      Form.isDefaultName "Widget12" = true ∧
      Form.intToUnsigned (testFormEnv.stoi ("Widget12".drop 6))
        ≤ (Form.load testFormEnv blankForm).m_idCounter ∧
      (Form.addWidgets testFormEnv (Form.load testFormEnv blankForm) [3, 4]).2
        = (List.range [3, 4].length).map
            (fun i => "Widget"
              ++ toString ((Form.load testFormEnv blankForm).m_idCounter + 1 + i)) :=
  ⟨by decide, by decide,
    (Form.load_keeps_default_names_apart testFormEnv blankForm).1 (1, "Widget12") (by decide)
      (by decide),
    (Form.load_keeps_default_names_apart testFormEnv blankForm).2.2.2 [3, 4] (by decide)⟩

/-- The form `blankForm` after `load` of a file with the widgets `Widget12` and `Button`: the
counter is 12, and two `addWidget` calls return `Widget13` and `Widget14`. -/
theorem Form.blankForm_load :
    (Form.load testFormEnv blankForm).m_idCounter = 12 ∧
      (Form.load testFormEnv blankForm).container.getWidgetNames = ["Widget12", "Button"] ∧
      (Form.addWidgets testFormEnv (Form.load testFormEnv blankForm) [3, 4]).2
        = ["Widget13", "Widget14"] := by
  decide

/-! ## Theorems: float arithmetic with rounding -/

/-- Samples of the rounding to single precision: 10 and 1/2 are floats, `0.1f` is
13421773 / 2 ^ 27, and the odd integers next to `2 ^ 24` round to even ones. -/
theorem Binary32.round_samples :
    Binary32.round 10 = 10 ∧ Binary32.round (1 / 2) = 1 / 2 ∧
      Binary32.round (1 / 10) = 13421773 / 134217728 ∧
      Binary32.round 16777217 = 16777216 ∧ Binary32.round 16777219 = 16777220 ∧
      Binary32.round (-2 / 3) = -11184811 / 16777216 ∧ Binary32.round tenth = tenth := by
  decide!

/-- With `exactFloats` the `onDrag` of this section is the `onDrag` of exact arithmetic. -/
theorem Form.Rounded.onDrag_exact (fuel : Nat) (s : FormState) (mousePos : Vector2i) :
    Form.Rounded.onDrag exactFloats fuel s mousePos = Form.onDrag fuel s mousePos :=
  rfl

/-- With `exactFloats` the `leftMouseReleased` of this section is that of exact arithmetic. -/
theorem Scrollbar.Rounded.leftMouseReleased_exact (s : Scrollbar) (x y : ℚ) :
    Scrollbar.Rounded.leftMouseReleased exactFloats s x y = s.leftMouseReleased x y :=
  rfl

/-- With `exactFloats` the thumb geometry of this section is that of exact arithmetic. -/
theorem Scrollbar.Rounded.thumbRegion_exact (s : Scrollbar) :
    Scrollbar.Rounded.thumbRegion exactFloats s = s.thumbRegion :=
  rfl

/-- With `exactFloats` the `mouseOnObject` of this section is that of exact arithmetic. -/
theorem Scrollbar.Rounded.mouseOnObject_exact (s : Scrollbar) (x y : ℚ) :
    Scrollbar.Rounded.mouseOnObject exactFloats s x y = s.mouseOnObject x y :=
  rfl

theorem FloatModel.toUnsigned_of_some (m : FloatModel) (f : ℚ) (n : Nat)
    (h : floatToUnsigned f = some n) : m.toUnsigned f = n := by
  unfold FloatModel.toUnsigned
  rw [h]

theorem widgetAfter_ok (r : Except DragError FormState) (w : WidgetPtr)
    (d : Vector2f × Vector2f) (h : widgetAfter r w = some d) :
    ∃ s', r = .ok s' ∧ (s'.heap w).position = d.1 ∧ (s'.heap w).size = d.2 := by
  cases r with
  | error e => cases h
  | ok s' =>
    refine ⟨s', rfl, ?_, ?_⟩
    · exact congrArg Prod.fst (Option.some.inj h)
    · exact congrArg Prod.snd (Option.some.inj h)

theorem Scrollbar.Rounded.trackClick_staysInRange (m : FloatModel) (s : Scrollbar) (c : ℚ)
    (hmax : s.m_Maximum < uintSize) (hle : s.m_LowValue ≤ s.m_Maximum) :
    Scrollbar.KeepsRange s (Scrollbar.Rounded.trackClick m s c) := by
  unfold Scrollbar.Rounded.trackClick
  simp only []
  split_ifs <;> exact Scrollbar.setValue_keepsRange s _ hmax hle

theorem Scrollbar.Rounded.thumbDrag_staysInRange (m : FloatModel) (s : Scrollbar)
    (offset trackLength : ℚ) (hmax : s.m_Maximum < uintSize)
    (hle : s.m_LowValue ≤ s.m_Maximum) :
    Scrollbar.KeepsRange s (Scrollbar.Rounded.thumbDrag m s offset trackLength) := by
  unfold Scrollbar.Rounded.thumbDrag
  simp only []
  split_ifs <;> exact Scrollbar.setValue_keepsRange s _ hmax hle

/-- The state after `mouseMoved`, whatever the float arithmetic, has a value in range. -/
theorem Scrollbar.Rounded.mouseMoved_staysInRange (m : FloatModel) (s : Scrollbar) (x y : ℚ)
    (hmax : s.m_Maximum < uintSize) (hle : s.m_LowValue ≤ s.m_Maximum) (hrange : s.InRange) :
    Scrollbar.KeepsRange s (Scrollbar.Rounded.mouseMoved m s x y) := by
  have hs : Scrollbar.KeepsRange s s := ⟨hrange, rfl, rfl⟩
  have hhover : Scrollbar.KeepsRange s { s with m_MouseHover := true } := ⟨hrange, rfl, rfl⟩
  have htrack : ∀ c : ℚ, Scrollbar.KeepsRange s
      (Scrollbar.Rounded.trackClick m { s with m_MouseHover := true } c) := fun c =>
    Scrollbar.Rounded.trackClick_staysInRange m { s with m_MouseHover := true } c hmax hle
  have hdrag : ∀ a b : ℚ, Scrollbar.KeepsRange s
      (Scrollbar.Rounded.thumbDrag m { s with m_MouseHover := true } a b) := fun a b =>
    Scrollbar.Rounded.thumbDrag_staysInRange m { s with m_MouseHover := true } a b hmax hle
  unfold Scrollbar.Rounded.mouseMoved
  by_cases hl : s.m_Loaded = false
  · rw [if_pos hl]
    exact hs
  · rw [if_neg hl]
    simp only []
    by_cases hd : s.m_MouseDown = true ∧ s.m_MouseDownOnArrow = false
    · rw [if_pos hd]
      by_cases he : s.m_Maximum ≤ s.m_LowValue ∧ s.autoHide = false
      · rw [if_pos he]
        exact hhover
      · rw [if_neg he]
        apply Scrollbar.addValueCallback_keepsRange
        split_ifs
        all_goals first
          | exact hhover
          | exact htrack _
          | exact hdrag _ _
    · rw [if_neg hd]
      exact hhover

theorem Scrollbar.Rounded.pressArrowTest_keepsFields (m : FloatModel) (s : Scrollbar) (x y : ℚ) :
    (Scrollbar.Rounded.pressArrowTest m s x y).m_Value = s.m_Value ∧
      (Scrollbar.Rounded.pressArrowTest m s x y).m_Maximum = s.m_Maximum ∧
      (Scrollbar.Rounded.pressArrowTest m s x y).m_LowValue = s.m_LowValue := by
  unfold Scrollbar.Rounded.pressArrowTest
  simp only []
  split_ifs <;> exact ⟨rfl, rfl, rfl⟩

/-- The state after `leftMousePressed`, whatever the float arithmetic, has a value in range. -/
theorem Scrollbar.Rounded.leftMousePressed_staysInRange (m : FloatModel) (s : Scrollbar)
    (x y : ℚ) (hmax : s.m_Maximum < uintSize) (hle : s.m_LowValue ≤ s.m_Maximum)
    (hrange : s.InRange) :
    Scrollbar.KeepsRange s (Scrollbar.Rounded.leftMousePressed m s x y) := by
  unfold Scrollbar.Rounded.leftMousePressed
  simp only []
  obtain ⟨hv, hm, hl⟩ := Scrollbar.Rounded.pressArrowTest_keepsFields m
    { s with m_MouseDown := true, m_MouseDownOnArrow := false } x y
  have hv' : (Scrollbar.Rounded.pressArrowTest m
      { s with m_MouseDown := true, m_MouseDownOnArrow := false } x y).m_Value = s.m_Value := hv
  have hm' : (Scrollbar.Rounded.pressArrowTest m
      { s with m_MouseDown := true, m_MouseDownOnArrow := false } x y).m_Maximum
      = s.m_Maximum := hm
  have hl' : (Scrollbar.Rounded.pressArrowTest m
      { s with m_MouseDown := true, m_MouseDownOnArrow := false } x y).m_LowValue
      = s.m_LowValue := hl
  split_ifs
  · have hk := Scrollbar.Rounded.mouseMoved_staysInRange m
      (Scrollbar.Rounded.pressArrowTest m
        { s with m_MouseDown := true, m_MouseDownOnArrow := false } x y) x y
      (by rw [hm']; exact hmax) (by rw [hm', hl']; exact hle)
      (by unfold Scrollbar.InRange; rw [hv', hm', hl']; exact hrange)
    unfold Scrollbar.KeepsRange at hk ⊢
    rw [hm', hl'] at hk
    exact hk
  · unfold Scrollbar.KeepsRange
    rw [hv', hm', hl']
    exact ⟨hrange, rfl, rfl⟩

/-- The state after `leftMouseReleased`, whatever the float arithmetic, has a value in
range. -/
theorem Scrollbar.Rounded.leftMouseReleased_staysInRange (m : FloatModel) (s : Scrollbar)
    (x y : ℚ) (hmax : s.m_Maximum < uintSize) (hle : s.m_LowValue ≤ s.m_Maximum)
    (hrange : s.InRange) :
    Scrollbar.KeepsRange s (Scrollbar.Rounded.leftMouseReleased m s x y) := by
  have hs : Scrollbar.KeepsRange s s := ⟨hrange, rfl, rfl⟩
  have hdec := Scrollbar.decrementValue_keepsRange s hmax hrange
  have hinc := Scrollbar.incrementValue_keepsRange s hmax hle hrange
  have hfinal : ∀ t, Scrollbar.KeepsRange s t →
      Scrollbar.KeepsRange s { t with m_MouseDown := false } := fun t ht => ht
  unfold Scrollbar.Rounded.leftMouseReleased
  simp only []
  apply hfinal
  split_ifs
  all_goals first
    | exact hs
    | exact Scrollbar.addValueCallback_keepsRange s _ _ hdec
    | exact Scrollbar.addValueCallback_keepsRange s _ _ hinc
    | exact Scrollbar.addValueCallback_keepsRange s _ _ hs

theorem Scrollbar.Rounded.trackClick_exact (s t : Scrollbar) (c : ℚ)
    (h : s.trackClick c = some t) : Scrollbar.Rounded.trackClick exactFloats s c = t := by
  have hcast : ∀ (f : ℚ) (u : Scrollbar), (floatToUnsigned f).map s.setValue = some u →
      s.setValue (exactFloats.toUnsigned f) = u := by
    intro f u hu
    cases hf : floatToUnsigned f with
    | none => rw [hf] at hu; cases hu
    | some n =>
      rw [hf] at hu
      rw [FloatModel.toUnsigned_of_some exactFloats f n hf]
      exact Option.some.inj hu
  unfold Scrollbar.trackClick at h
  simp only [] at h
  by_cases h1 : c ≤ (s.m_Value : ℚ)
  · rw [if_pos h1] at h
    by_cases h2 : c ≥ (s.m_LowValue : ℚ) / 3
    · rw [if_pos h2] at h
      exact Eq.trans (if_pos h1) (Eq.trans (if_pos h2) (hcast _ t h))
    · rw [if_neg h2] at h
      exact Eq.trans (if_pos h1) (Eq.trans (if_neg h2) (Option.some.inj h))
  · rw [if_neg h1] at h
    by_cases h2 : c ≤ ((usub s.m_Maximum s.m_LowValue : Nat) : ℚ) + (s.m_LowValue : ℚ) * 2 / 3
    · rw [if_pos h2] at h
      exact Eq.trans (if_neg h1) (Eq.trans (if_pos h2) (hcast _ t h))
    · rw [if_neg h2] at h
      exact Eq.trans (if_neg h1) (Eq.trans (if_neg h2) (Option.some.inj h))

theorem Scrollbar.Rounded.thumbDrag_exact (s t : Scrollbar) (offset trackLength : ℚ)
    (h : s.thumbDrag offset trackLength = some t) :
    Scrollbar.Rounded.thumbDrag exactFloats s offset trackLength = t := by
  unfold Scrollbar.thumbDrag at h
  by_cases h1 : offset > 0
  · rw [if_pos h1] at h
    refine Eq.trans (if_pos h1) ?_
    cases hf : floatToUnsigned (offset / trackLength * (s.m_Maximum : ℚ) + 1 / 2) with
    | none => rw [hf] at h; cases h
    | some n =>
      rw [hf] at h
      have hn : exactFloats.toUnsigned (offset / trackLength * (s.m_Maximum : ℚ) + 1 / 2) = n :=
        FloatModel.toUnsigned_of_some exactFloats _ n hf
      show (fun value => if value ≤ usub s.m_Maximum s.m_LowValue then s.setValue value
          else s.setValue (usub s.m_Maximum s.m_LowValue))
        (exactFloats.toUnsigned (offset / trackLength * (s.m_Maximum : ℚ) + 1 / 2)) = t
      rw [hn]
      exact Option.some.inj h
  · rw [if_neg h1] at h
    exact Eq.trans (if_neg h1) (Option.some.inj h)

/-- Where the `mouseMoved` of exact arithmetic has a result, the `mouseMoved` of this section
with `exactFloats` gives the same state. -/
theorem Scrollbar.Rounded.mouseMoved_exact (s t : Scrollbar) (x y : ℚ)
    (h : s.mouseMoved x y = some t) : Scrollbar.Rounded.mouseMoved exactFloats s x y = t := by
  unfold Scrollbar.mouseMoved at h
  by_cases hl : s.m_Loaded = false
  · rw [if_pos hl] at h
    exact Eq.trans (if_pos hl) (Option.some.inj h)
  · rw [if_neg hl] at h
    refine Eq.trans (if_neg hl) ?_
    simp only [] at h
    by_cases hd : s.m_MouseDown = true ∧ s.m_MouseDownOnArrow = false
    · rw [if_pos hd] at h
      refine Eq.trans (if_pos hd) ?_
      by_cases he : s.m_Maximum ≤ s.m_LowValue ∧ s.autoHide = false
      · rw [if_pos he] at h
        exact Eq.trans (if_pos he) (Option.some.inj h)
      · rw [if_neg he] at h
        refine Eq.trans (if_neg he) ?_
        rw [Option.map_eq_some'] at h
        obtain ⟨moved, hm, hmt⟩ := h
        rw [← hmt]
        refine congrArg (Scrollbar.addValueCallback s.m_Value) ?_
        by_cases hv : s.m_VerticalScroll = true
        · rw [if_pos hv] at hm
          refine Eq.trans (if_pos hv) ?_
          by_cases ht : s.m_MouseDownOnThumb = true
          · rw [if_pos ht] at hm
            exact Eq.trans (if_pos ht) (Scrollbar.Rounded.thumbDrag_exact _ moved _ _ hm)
          · rw [if_neg ht] at hm
            refine Eq.trans (if_neg ht) ?_
            split_ifs at hm with h1 h2
            · exact Eq.trans (if_pos h1) (Eq.trans (if_pos h2)
                (Scrollbar.Rounded.trackClick_exact _ moved _ hm))
            · exact Eq.trans (if_pos h1) (Eq.trans (if_neg h2) (Option.some.inj hm))
            · exact Eq.trans (if_neg h1) (Option.some.inj hm)
        · rw [if_neg hv] at hm
          refine Eq.trans (if_neg hv) ?_
          by_cases ht : s.m_MouseDownOnThumb = true
          · rw [if_pos ht] at hm
            exact Eq.trans (if_pos ht) (Scrollbar.Rounded.thumbDrag_exact _ moved _ _ hm)
          · rw [if_neg ht] at hm
            refine Eq.trans (if_neg ht) ?_
            split_ifs at hm with h1 h2
            · exact Eq.trans (if_pos h1) (Eq.trans (if_pos h2)
                (Scrollbar.Rounded.trackClick_exact _ moved _ hm))
            · exact Eq.trans (if_pos h1) (Eq.trans (if_neg h2) (Option.some.inj hm))
            · exact Eq.trans (if_neg h1) (Option.some.inj hm)
    · rw [if_neg hd] at h
      exact Eq.trans (if_neg hd) (Option.some.inj h)

/-- Where the `leftMousePressed` of exact arithmetic has a result, the `leftMousePressed` of
this section with `exactFloats` gives the same state. -/
theorem Scrollbar.Rounded.leftMousePressed_exact (s t : Scrollbar) (x y : ℚ)
    (h : s.leftMousePressed x y = some t) :
    Scrollbar.Rounded.leftMousePressed exactFloats s x y = t := by
  have hpress : ∀ u : Scrollbar,
      Scrollbar.Rounded.pressArrowTest exactFloats u x y = u.pressArrowTest x y := fun _ => rfl
  unfold Scrollbar.leftMousePressed at h
  unfold Scrollbar.Rounded.leftMousePressed
  simp only [] at h ⊢
  rw [hpress]
  split_ifs at h ⊢ with h1
  · exact Scrollbar.Rounded.mouseMoved_exact _ t x y h
  · exact Option.some.inj h

/-- C23: for every loaded scrollbar state with `maximum ≥ lowValue` and
`value ≤ maximum - lowValue` and every point, the state after `leftMousePressed`, after
`mouseMoved` and after `leftMouseReleased` has the same maximum and low value and a value with
`0 ≤ value ≤ maximum - lowValue` (a value is an unsigned number). The handlers are those of the
section on float arithmetic, which return a state for every input, and the statement holds for
every float arithmetic `m`: whatever the rounding of the float operations is, and whatever
value the conversion of an out-of-range float to `unsigned int` yields. -/
theorem Scrollbar.mouse_handlers_keep_value_in_range (m : FloatModel) (s : Scrollbar) (x y : ℚ)
    (_hloaded : s.m_Loaded = true) (hmax : s.m_Maximum < uintSize)
    (hle : s.m_LowValue ≤ s.m_Maximum) (hrange : s.InRange) :
    Scrollbar.KeepsRange s (Scrollbar.Rounded.leftMousePressed m s x y) ∧
      Scrollbar.KeepsRange s (Scrollbar.Rounded.mouseMoved m s x y) ∧
      Scrollbar.KeepsRange s (Scrollbar.Rounded.leftMouseReleased m s x y) :=
  ⟨Scrollbar.Rounded.leftMousePressed_staysInRange m s x y hmax hle hrange,
    Scrollbar.Rounded.mouseMoved_staysInRange m s x y hmax hle hrange,
    Scrollbar.Rounded.leftMouseReleased_staysInRange m s x y hmax hle hrange⟩

theorem Scrollbar.mouse_handlers_keep_value_in_range_witness :
    tightScrollbar.m_Loaded = true ∧ tightScrollbar.m_Maximum < uintSize ∧
      tightScrollbar.m_LowValue ≤ tightScrollbar.m_Maximum ∧ tightScrollbar.InRange ∧
      Scrollbar.KeepsRange tightScrollbar
        (Scrollbar.Rounded.leftMousePressed binary32 tightScrollbar 0 21) ∧
      Scrollbar.KeepsRange tightScrollbar
        (Scrollbar.Rounded.mouseMoved binary32 tightScrollbar 0 21) ∧
      Scrollbar.KeepsRange tightScrollbar
        (Scrollbar.Rounded.leftMouseReleased binary32 tightScrollbar 0 21) :=
  ⟨rfl, by decide, by decide, by unfold Scrollbar.InRange; decide,
    Scrollbar.mouse_handlers_keep_value_in_range binary32 tightScrollbar 0 21 rfl (by decide)
      (by decide) (by unfold Scrollbar.InRange; decide)⟩

/-- The scrollbar `tightScrollbar` (maximum 10, low value 9, value 0, the button down on the
track from 20 to 30) and the point (0, 21): the content coordinate is 1, the click lies after
the value, and the float to convert is `1 - 6 + 0.5 = -4.5`, outside the range of
`unsigned int`. The `mouseMoved` of exact arithmetic, which gives no meaning to this conversion,
has no result; with single precision and the conversion of x86-64 the converted value is
4294967292 and `setValue` stores `maximum - lowValue = 1`. -/
theorem Scrollbar.out_of_range_conversion_is_clamped :
    tightScrollbar.trackCoordinate 0 21 = 1 ∧
      tightScrollbar.mouseMoved 0 21 = none ∧
      binary32.toUnsigned (-9 / 2) = 4294967292 ∧
      (Scrollbar.Rounded.mouseMoved binary32 tightScrollbar 0 21).m_Value = 1 ∧
      (Scrollbar.Rounded.leftMousePressed binary32 { tightScrollbar with m_MouseDown := false }
        0 21).m_Value = 1 := by
  refine ⟨?_, ?_, ?_, ?_, ?_⟩
  · unfold Scrollbar.trackCoordinate
    decide!
  · have h : (tightScrollbar.mouseMoved 0 21).isNone = true := by decide!
    exact Option.isNone_iff_eq_none.mp h
  · decide!
  · decide!
  · decide!

/-- A loop that ended within `n` iterations ends with the same frame for every larger fuel. -/
theorem Form.whileLoop_more_fuel (cond : Form.DragFrame → Bool)
    (body : Form.DragFrame → Except DragError Form.DragFrame) :
    ∀ (n k : Nat) (f g : Form.DragFrame),
      Form.whileLoop cond body n f = .ok g → Form.whileLoop cond body (n + k) f = .ok g := by
  intro n
  induction n with
  | zero =>
    intro k f g h
    by_cases hc : cond f = true
    · simp [Form.whileLoop, hc] at h
    · have hc' : cond f = false := by simpa using hc
      rw [Form.whileLoop_done cond body 0 f hc'] at h
      rw [Form.whileLoop_done cond body (0 + k) f hc']
      exact h
  | succ n ih =>
    intro k f g h
    by_cases hc : cond f = true
    · have hstep : ∀ fuel, Form.whileLoop cond body (fuel + 1) f
          = (body f).bind (Form.whileLoop cond body fuel) := by
        intro fuel
        simp [Form.whileLoop, hc]
      rw [hstep] at h
      rw [show n + 1 + k = (n + k) + 1 by omega, hstep]
      cases hb : body f with
      | error e => rw [hb] at h; cases h
      | ok f' =>
        rw [hb] at h
        exact ih k f' g h
    · have hc' : cond f = false := by simpa using hc
      rw [Form.whileLoop_done cond body (n + 1) f hc'] at h
      rw [Form.whileLoop_done cond body (n + 1 + k) f hc']
      exact h

/-- Two statements in sequence that keep their result with more fuel keep it together. -/
theorem Form.andThen_more_fuel (a b : Nat → Form.DragFrame → Except DragError Form.DragFrame)
    (ha : ∀ (n k : Nat) (f g : Form.DragFrame), a n f = .ok g → a (n + k) f = .ok g)
    (hb : ∀ (n k : Nat) (f g : Form.DragFrame), b n f = .ok g → b (n + k) f = .ok g) :
    ∀ (n k : Nat) (f g : Form.DragFrame),
      Form.andThen (a n) (b n) f = .ok g → Form.andThen (a (n + k)) (b (n + k)) f = .ok g := by
  intro n k f g h
  unfold Form.andThen at h ⊢
  cases hf : a n f with
  | error e => rw [hf] at h; cases h
  | ok f' =>
    rw [hf] at h
    rw [ha n k f f' hf]
    exact hb n k f' g h

/-- A pair of loops of `onDrag` keeps its result with more fuel. -/
theorem Form.loopPair_more_fuel (c1 c2 : Form.DragFrame → Bool)
    (b1 b2 : Form.DragFrame → Except DragError Form.DragFrame) :
    ∀ (n k : Nat) (f g : Form.DragFrame),
      Form.andThen (Form.whileLoop c1 b1 n) (Form.whileLoop c2 b2 n) f = .ok g →
      Form.andThen (Form.whileLoop c1 b1 (n + k)) (Form.whileLoop c2 b2 (n + k)) f = .ok g :=
  Form.andThen_more_fuel (fun n => Form.whileLoop c1 b1 n) (fun n => Form.whileLoop c2 b2 n)
    (Form.whileLoop_more_fuel c1 b1) (Form.whileLoop_more_fuel c2 b2)

/-- The loops of `onDrag`, whatever the float arithmetic, keep their result with more fuel. -/
theorem Form.Rounded.onDragLoops_more_fuel (m : FloatModel) (pos : Vector2f) (s : FormState) :
    ∀ (n k : Nat) (g : Form.DragFrame),
      Form.Rounded.onDragLoops m n pos s = .ok g →
      Form.Rounded.onDragLoops m (n + k) pos s = .ok g := by
  have hmove : ∀ (n k : Nat) (f g : Form.DragFrame),
      (if f.form.m_draggingWidget = true then Form.Rounded.moveLoops m n pos f else .ok f)
        = .ok g →
      (if f.form.m_draggingWidget = true then Form.Rounded.moveLoops m (n + k) pos f
        else .ok f) = .ok g := by
    intro n k f g h
    split_ifs at h ⊢
    · exact Form.andThen_more_fuel _ _ (Form.loopPair_more_fuel _ _ _ _)
        (Form.loopPair_more_fuel _ _ _ _) n k f g h
    · exact h
  have hcorner : ∀ (change : Vector2f) (square : Fin 8) (n k : Nat) (f g : Form.DragFrame),
      Form.Rounded.cornerDispatch m n pos change square f = .ok g →
      Form.Rounded.cornerDispatch m (n + k) pos change square f = .ok g := by
    intro change square n k f g h
    unfold Form.Rounded.cornerDispatch at h ⊢
    split_ifs at h ⊢
    · exact Form.loopPair_more_fuel _ _ _ _ n k f g h
    · exact Form.loopPair_more_fuel _ _ _ _ n k f g h
    · exact Form.loopPair_more_fuel _ _ _ _ n k f g h
    · exact Form.loopPair_more_fuel _ _ _ _ n k f g h
    · exact h
  have hsquare : ∀ (n k : Nat) (f g : Form.DragFrame),
      Form.Rounded.squareLoops m n pos f = .ok g →
      Form.Rounded.squareLoops m (n + k) pos f = .ok g := by
    intro n k f g h
    unfold Form.Rounded.squareLoops at h ⊢
    cases hsq : f.form.m_draggingSelectionSquare with
    | none =>
      rw [hsq] at h
      exact h
    | some square =>
      rw [hsq] at h
      simp only [] at h ⊢
      split_ifs at h ⊢
      · exact Form.loopPair_more_fuel _ _ _ _ n k f g h
      · exact Form.loopPair_more_fuel _ _ _ _ n k f g h
      · exact Form.loopPair_more_fuel _ _ _ _ n k f g h
      · exact Form.loopPair_more_fuel _ _ _ _ n k f g h
      · unfold Form.Rounded.cornerLoops at h ⊢
        cases hw : f.form.m_selectedWidget with
        | none => rw [hw] at h; cases h
        | some w =>
          rw [hw] at h
          exact hcorner _ square n k f g h
  intro n k g h
  exact Form.andThen_more_fuel
    (fun n f => if f.form.m_draggingWidget = true then Form.Rounded.moveLoops m n pos f
      else .ok f)
    (fun n => Form.Rounded.squareLoops m n pos) hmove hsquare n k ⟨s, false⟩ g h

/-- Method `onDrag`, whatever the float arithmetic, keeps its result with more fuel: a form
returned with fuel `n` is the form returned with every fuel from `n` on. -/
theorem Form.Rounded.onDrag_more_fuel (m : FloatModel) (s s' : FormState)
    (mousePos : Vector2i) (n : Nat) (h : Form.Rounded.onDrag m n s mousePos = .ok s') :
    ∀ fuel, n ≤ fuel → Form.Rounded.onDrag m fuel s mousePos = .ok s' := by
  intro fuel hfuel
  obtain ⟨k, rfl⟩ : ∃ k, fuel = n + k := ⟨fuel - n, by omega⟩
  unfold Form.Rounded.onDrag at h ⊢
  cases hl : Form.Rounded.onDragLoops m n (Form.Rounded.dragPointer m s mousePos) s with
  | error e => rw [hl] at h; cases h
  | ok g =>
    rw [hl] at h
    rw [Form.Rounded.onDragLoops_more_fuel m _ s n k g hl]
    exact h

/-! ## Theorems: where single precision departs from exact arithmetic -/

/-- C3 (the claim fails in single precision): in `driftingForm` widget 1 is selected and a
move-drag is in progress, the form window and the widget are at x = `0.1f` and the drag anchor at
x = `2.9f`. For the mouse at (13, 0) the pointer minus the anchor is below 10 on both axes
(about 9.9999999 on x), so the quotient by the step is 0 and `onDrag` of exact arithmetic
leaves the widget where it is. In single precision the pointer is 12.8999996 and the
difference to the anchor rounds to 10: the loop of Form.cpp 312 runs once, and `onDrag` moves
the widget to 10.1000004, a change that is not 10 times an integer. -/
theorem Form.onDrag_move_leaves_grid_in_binary32 :
    driftingForm.m_selectedWidget = some 1 ∧ driftingForm.m_draggingWidget = true ∧
      driftingForm.m_draggingSelectionSquare = none ∧
      (driftingForm.heap 1).position = ⟨13421773 / 134217728, 0⟩ ∧
      |(Form.dragPointer driftingForm ⟨13, 0⟩).x - driftingForm.m_draggingPos.x| < 10 ∧
      |(Form.dragPointer driftingForm ⟨13, 0⟩).y - driftingForm.m_draggingPos.y| < 10 ∧
      (∃ s', (∀ fuel, 8 ≤ fuel → Form.onDrag fuel driftingForm ⟨13, 0⟩ = .ok s') ∧
        (s'.heap 1).position = (driftingForm.heap 1).position) ∧
      binary32.sub (Form.Rounded.dragPointer binary32 driftingForm ⟨13, 0⟩).x
        driftingForm.m_draggingPos.x = 10 ∧
      ∃ s', (∀ fuel, 8 ≤ fuel →
          Form.Rounded.onDrag binary32 fuel driftingForm ⟨13, 0⟩ = .ok s') ∧
        (s'.heap 1).position = ⟨5295309 / 524288, 0⟩ ∧
        (s'.heap 1).position ≠ (driftingForm.heap 1).position ∧
        ¬ ∃ k : ℤ, (s'.heap 1).position.x = (driftingForm.heap 1).position.x + 10 * k := by
  have hold : (driftingForm.heap 1).position = ⟨13421773 / 134217728, 0⟩ := by decide!
  have hexact : widgetAfter (Form.onDrag 8 driftingForm ⟨13, 0⟩) 1
      = some (⟨13421773 / 134217728, 0⟩, ⟨100, 50⟩) := by decide!
  have hsingle : widgetAfter (Form.Rounded.onDrag binary32 8 driftingForm ⟨13, 0⟩) 1
      = some (⟨5295309 / 524288, 0⟩, ⟨100, 50⟩) := by decide!
  obtain ⟨e, he, hepos, -⟩ := widgetAfter_ok _ 1 _ hexact
  obtain ⟨s', hs', hpos, -⟩ := widgetAfter_ok _ 1 _ hsingle
  refine ⟨rfl, rfl, rfl, hold, by decide!, by decide!,
    ⟨e, Form.Rounded.onDrag_more_fuel exactFloats _ e _ 8 he, ?_⟩, by decide!,
    s', Form.Rounded.onDrag_more_fuel binary32 _ s' _ 8 hs', hpos, ?_, ?_⟩
  · rw [hepos, hold]
  · rw [hpos, hold]
    decide!
  · rintro ⟨k, hk⟩
    rw [hpos, hold] at hk
    have hq : (5295309 / 524288 : ℚ) = 13421773 / 134217728 + 10 * (k : ℚ) := hk
    have hz : (1342177331 : ℚ) = 1342177280 * (k : ℚ) := by linarith
    have hi : (1342177331 : ℤ) = 1342177280 * k := by exact_mod_cast hz
    omega

/-- C4 (the claim fails in single precision): in `slimForm` widget 1 of size 30 x 10 is selected
and its bottom right handle (square 4) is grabbed at (0, 0). For the mouse at (30, 10) `onDrag`
of exact arithmetic runs the loop of Form.cpp 472 three times and leaves 60 x 20, the ratio
1/3. In single precision `ratio` is 0.33333334 and `change.y` is 3.3333335; after two passes
the anchor is at y = 6.666667, the rest 3.333333 is below `change.y`, the loop stops and
`onDrag` leaves 50 x 16.666668: height / width is not 1/3, and the ratio that the next call
computes, 0.33333337, is not the ratio of this call. -/
theorem Form.onDrag_corner_loses_ratio_in_binary32 :
    slimForm.m_selectedWidget = some 1 ∧ slimForm.m_draggingSelectionSquare = some 4 ∧
      (slimForm.heap 1).size = ⟨30, 10⟩ ∧
      (∃ s', (∀ fuel, 8 ≤ fuel → Form.onDrag fuel slimForm ⟨30, 10⟩ = .ok s') ∧
        (s'.heap 1).size = ⟨60, 20⟩) ∧
      Form.Rounded.cornerChange binary32 (slimForm.heap 1).size = ⟨10, 6990507 / 2097152⟩ ∧
      ∃ s', (∀ fuel, 8 ≤ fuel →
          Form.Rounded.onDrag binary32 fuel slimForm ⟨30, 10⟩ = .ok s') ∧
        (s'.heap 1).size = ⟨50, 4369067 / 262144⟩ ∧ (s'.heap 1).size.x ≠ 0 ∧
        (s'.heap 1).size.y / (s'.heap 1).size.x
          ≠ (slimForm.heap 1).size.y / (slimForm.heap 1).size.x ∧
        binary32.div (s'.heap 1).size.y (s'.heap 1).size.x
          ≠ binary32.div (slimForm.heap 1).size.y (slimForm.heap 1).size.x := by
  have hold : (slimForm.heap 1).size = ⟨30, 10⟩ := by decide!
  have hexact : widgetAfter (Form.onDrag 8 slimForm ⟨30, 10⟩) 1
      = some (⟨0, 0⟩, ⟨60, 20⟩) := by decide!
  have hsingle : widgetAfter (Form.Rounded.onDrag binary32 8 slimForm ⟨30, 10⟩) 1
      = some (⟨0, 0⟩, ⟨50, 4369067 / 262144⟩) := by decide!
  obtain ⟨e, he, -, hesize⟩ := widgetAfter_ok _ 1 _ hexact
  obtain ⟨s', hs', -, hsize⟩ := widgetAfter_ok _ 1 _ hsingle
  refine ⟨rfl, rfl, hold, ⟨e, Form.Rounded.onDrag_more_fuel exactFloats _ e _ 8 he, hesize⟩,
    by decide!, s', Form.Rounded.onDrag_more_fuel binary32 _ s' _ 8 hs', hsize, ?_, ?_, ?_⟩
  · rw [hsize]
    decide!
  · rw [hsize, hold]
    decide!
  · rw [hsize, hold]
    decide!

/-- C11 (the claim fails in single precision): `shortScrollbar` (maximum 2, low value 1,
value 0, track from 5 to 17) has the button down on the track; the point (5, 12) lies on the
track at content coordinate `c = (7 / 12) * 2 = 7/6`, after the thumb, with
`c ≤ maximum - lowValue + 2 * lowValue / 3`. The rule gives
`floor(7/6 - 2/3 + 1/2) = floor(1) = 1`, and `mouseMoved` of exact arithmetic stores 1. In
single precision `c` is 1.1666666, `subtractValue` is 0.6666667, the float that is converted
is 0.99999994, and `mouseMoved` stores 0. -/
theorem Scrollbar.track_click_rounds_below_rule_in_binary32 :
    shortScrollbar.m_Loaded = true ∧ shortScrollbar.m_MouseDown = true ∧
      shortScrollbar.m_MouseDownOnArrow = false ∧ shortScrollbar.m_MouseDownOnThumb = false ∧
      shortScrollbar.onTrack 5 12 ∧ shortScrollbar.trackCoordinate 5 12 = 7 / 6 ∧
      (shortScrollbar.m_Value : ℚ) + (shortScrollbar.m_LowValue : ℚ)
        ≤ shortScrollbar.trackCoordinate 5 12 ∧
      min (shortScrollbar.gentleTarget (shortScrollbar.trackCoordinate 5 12))
        (shortScrollbar.m_Maximum - shortScrollbar.m_LowValue) = 1 ∧
      (∃ t, shortScrollbar.mouseMoved 5 12 = some t ∧ t.m_Value = 1) ∧
      binary32.add (binary32.sub (9786709 / 8388608) (11184811 / 16777216)) (1 / 2)
        = 16777215 / 16777216 ∧
      (Scrollbar.Rounded.mouseMoved binary32 shortScrollbar 5 12).m_Value = 0 := by
  have hexact : (shortScrollbar.mouseMoved 5 12).map (fun t => t.m_Value) = some 1 := by
    decide!
  refine ⟨rfl, rfl, rfl, rfl, ?_, ?_, ?_, ?_, ?_, by decide!, by decide!⟩
  · unfold Scrollbar.onTrack
    decide!
  · unfold Scrollbar.trackCoordinate
    decide!
  · unfold Scrollbar.trackCoordinate
    decide!
  · unfold Scrollbar.gentleTarget Scrollbar.trackCoordinate
    decide!
  · cases hm : shortScrollbar.mouseMoved 5 12 with
    | none => rw [hm] at hexact; cases hexact
    | some t =>
      rw [hm] at hexact
      exact ⟨t, rfl, Option.some.inj hexact⟩

/-- C12 (the claim fails in single precision): `thinTrackScrollbar` (bar 11, arrows 5, so
`T = 1`; maximum 11, low value 3, value 8) is in the full-size layout. The claimed thumb has the
length `(3 / 11) * 1 = 3/11` and starts `(8 / 8) * (1 - 3/11) = 8/11` after the first arrow, so
it covers the pixels from 5 + 8/11 up to 6, the point (5, 6) excluded, as in `mouseOnObject` of
exact arithmetic. In single precision the thumb length is 0.27272728 and the thumb top
5.727273, the tested rectangle ends at 6.0000005, and `mouseOnObject` at (5, 6) sets
`m_MouseDownOnThumb`. -/
theorem Scrollbar.thumb_hit_test_leaves_region_in_binary32 :
    thinTrackScrollbar.m_Loaded = true ∧ thinTrackScrollbar.m_Maximum < uintSize ∧
      2 * thinTrackScrollbar.arrowTextureSize.y < uintSize ∧
      thinTrackScrollbar.m_LowValue < thinTrackScrollbar.m_Maximum ∧
      thinTrackScrollbar.drawnFullSize ∧ thinTrackScrollbar.specTrackLength = 1 ∧
      thinTrackScrollbar.specThumbLength = 3 / 11 ∧
      thinTrackScrollbar.layoutArrowLength + thinTrackScrollbar.specThumbOffset = 5 + 8 / 11 ∧
      thinTrackScrollbar.specThumbRect.contains ⟨5, 6⟩ = false ∧
      (thinTrackScrollbar.mouseOnObject 5 6).1.m_MouseDownOnThumb = false ∧
      (Scrollbar.Rounded.thumbRegion binary32 thinTrackScrollbar).thumbHeight
        = 9151209 / 33554432 ∧
      (Scrollbar.Rounded.thumbRegion binary32 thinTrackScrollbar).thumbHeight
        ≠ thinTrackScrollbar.specThumbLength ∧
      (Scrollbar.Rounded.thumbRegion binary32 thinTrackScrollbar).thumbTop
        = 6005481 / 1048576 ∧
      (Scrollbar.Rounded.mouseOnObject binary32 thinTrackScrollbar 5 6).2 = true ∧
      (Scrollbar.Rounded.mouseOnObject binary32 thinTrackScrollbar 5 6).1.m_MouseDownOnThumb
        = true := by
  refine ⟨rfl, by decide, by decide, by decide, ?_, ?_, ?_, ?_, by decide!, by decide!,
    by decide!, ?_, by decide!, by decide!, by decide!⟩
  · unfold Scrollbar.drawnFullSize
    decide!
  · unfold Scrollbar.specTrackLength
    decide!
  · unfold Scrollbar.specThumbLength
    decide!
  · unfold Scrollbar.specThumbOffset
    decide!
  · unfold Scrollbar.specThumbLength
    decide!

/-- C25 (the claim fails in single precision): `fiveStepScrollbar` (bar 21, arrows 5, so
`T = 11`; maximum 5, low value 1, value 4) is in the full-size layout with its value in range.
In single precision `mouseOnObject` computes the thumb length 2.2000000 (above 11/5) and the
thumb top 13.8000002, so the thumb offset 8.8000002 after the first arrow plus the thumb
length is 11.0000002, above `T`. On `thinTrackScrollbar` (`T = 1`, arrows 5, value 8 in range)
the rectangle of the thumb test ends at 6.0000005, after the start 6 of the second arrow. -/
theorem Scrollbar.thumb_passes_second_arrow_in_binary32 :
    fiveStepScrollbar.m_LowValue < fiveStepScrollbar.m_Maximum ∧ fiveStepScrollbar.InRange ∧
      fiveStepScrollbar.drawnFullSize ∧ fiveStepScrollbar.specTrackLength = 11 ∧
      Scrollbar.Rounded.twiceArrow binary32 fiveStepScrollbar
        * Scrollbar.Rounded.scalingX binary32 fiveStepScrollbar = 10 ∧
      (Scrollbar.Rounded.thumbRegion binary32 fiveStepScrollbar).thumbHeight
        = 9227469 / 4194304 ∧
      (Scrollbar.Rounded.thumbRegion binary32 fiveStepScrollbar).thumbTop
        = 14470349 / 1048576 ∧
      ((Scrollbar.Rounded.thumbRegion binary32 fiveStepScrollbar).thumbTop - 5)
          + (Scrollbar.Rounded.thumbRegion binary32 fiveStepScrollbar).thumbHeight
        > fiveStepScrollbar.specTrackLength ∧
      thinTrackScrollbar.m_LowValue < thinTrackScrollbar.m_Maximum ∧
      thinTrackScrollbar.InRange ∧ thinTrackScrollbar.drawnFullSize ∧
      thinTrackScrollbar.layoutArrowLength + thinTrackScrollbar.specTrackLength = 6 ∧
      binary32.add (Scrollbar.Rounded.thumbRect binary32 thinTrackScrollbar).top
          (Scrollbar.Rounded.thumbRect binary32 thinTrackScrollbar).height
        = 12582913 / 2097152 ∧
      binary32.add (Scrollbar.Rounded.thumbRect binary32 thinTrackScrollbar).top
          (Scrollbar.Rounded.thumbRect binary32 thinTrackScrollbar).height
        > thinTrackScrollbar.layoutArrowLength + thinTrackScrollbar.specTrackLength := by
  have hT : fiveStepScrollbar.specTrackLength = 11 := by
    unfold Scrollbar.specTrackLength
    decide!
  have hend : thinTrackScrollbar.layoutArrowLength + thinTrackScrollbar.specTrackLength
      = 6 := by
    unfold Scrollbar.specTrackLength
    decide!
  refine ⟨by decide, ?_, ?_, hT, by decide!, by decide!, by decide!, ?_, by decide, ?_, ?_,
    hend, by decide!, ?_⟩
  · unfold Scrollbar.InRange
    decide
  · unfold Scrollbar.drawnFullSize
    decide!
  · rw [hT]
    decide!
  · unfold Scrollbar.InRange
    decide
  · unfold Scrollbar.drawnFullSize
    decide!
  · rw [hend]
    decide!

/-- C20 (the code at the failing input): for `topScrollbar` (bar 30 and arrows 20 at scale
(1, 2), value 0, maximum 10, low value 2) the scaled bar length 60 is not greater than twice the
scaled arrow length, 80, and the point (0, 35) does not lie in the first half of the bar. The
handlers compare 60 with twice the unscaled arrow length, 40, and take the full-size branch: the
press at (0, 35) counts as an arrow press, and the release there finds y = 35 below the first
arrow bound 40 and decrements, so the value stays 0 instead of rising to 1. Single precision
gives the same result (all numbers are small integers). -/
theorem Scrollbar.reduced_layout_release_takes_full_size_branch :
    topScrollbar.barLength ≤ 2 * topScrollbar.arrowLength ∧
      topScrollbar.fullSizeLayout ∧
      topScrollbar.m_LowValue < topScrollbar.m_Maximum ∧
      topScrollbar.m_Value < topScrollbar.m_Maximum - topScrollbar.m_LowValue ∧
      ¬ topScrollbar.inFirstHalf 0 35 ∧
      (∃ pressed, topScrollbar.leftMousePressed 0 35 = some pressed ∧
        pressed.m_MouseDownOnArrow = true ∧ pressed.m_Value = 0 ∧
        (pressed.leftMouseReleased 0 35).m_Value = 0) ∧
      (Scrollbar.Rounded.leftMousePressed binary32 topScrollbar 0 35).m_MouseDownOnArrow
        = true ∧
      (Scrollbar.Rounded.leftMouseReleased binary32
        (Scrollbar.Rounded.leftMousePressed binary32 topScrollbar 0 35) 0 35).m_Value = 0 := by
  have hexact : (topScrollbar.leftMousePressed 0 35).map
      (fun t => (t.m_MouseDownOnArrow, t.m_Value, (t.leftMouseReleased 0 35).m_Value))
      = some (true, 0, 0) := by decide!
  refine ⟨?_, by decide!, by decide, by decide, by decide!, ?_, by decide!, by decide!⟩
  · unfold Scrollbar.barLength Scrollbar.arrowLength
    decide!
  · cases hp : topScrollbar.leftMousePressed 0 35 with
    | none => rw [hp] at hexact; cases hexact
    | some t =>
      rw [hp] at hexact
      have h := Option.some.inj hexact
      exact ⟨t, rfl, congrArg Prod.fst h, congrArg (fun p => p.2.1) h,
        congrArg (fun p => p.2.2) h⟩

/-- The reduced layout at unit scale: `stubScrollbar` (bar 14, arrows 13, value 3, an arrow
press recorded) fails the layout test of the handlers, and the point (0, 7) is the middle of
the bar, not in its first half. `leftMouseReleased` of exact arithmetic compares 7 with the
bound `13 * 1 * ((14 * 0.5) / 13) = 7` and increments to 4; in single precision `7 / 13` is
0.53846157 and the bound is 7.0000005, so the release at (0, 7) decrements to 2. -/
theorem Scrollbar.reduced_layout_midpoint_rounds_up_in_binary32 :
    ¬ stubScrollbar.fullSizeLayout ∧ ¬ stubScrollbar.inFirstHalf 0 7 ∧
      stubScrollbar.m_Value = 3 ∧
      (stubScrollbar.leftMouseReleased 0 7).m_Value = 4 ∧
      binary32.mul (binary32.mul (binary32.ofNat 13) 1)
        (binary32.div (binary32.mul 14 (1 / 2)) (binary32.ofNat 13)) = 14680065 / 2097152 ∧
      (Scrollbar.Rounded.leftMouseReleased binary32 stubScrollbar 0 7).m_Value = 2 := by
  refine ⟨by decide!, by decide!, rfl, by decide!, by decide!, by decide!⟩

end TGUI
